import Mathlib

/-!
# Wiz compiler core: a shallow embedding of `src/wiz/compiler/compiler.cpp`

The definitions below transcribe the functions of `Compiler` that the
verified properties talk about.  Conventions of the embedding:

* `std::size_t` is a natural number reduced modulo `2 ^ 64` after every
  arithmetic operation that can leave the range (`SIZE_MAX = 2 ^ 64 - 1`).
* `std::vector<std::uint8_t>& result` is threaded through as a `List Nat`;
  `push_back` appends at the end.
* A function that returns `bool` and writes through a reference returns a
  pair `(ok, buffer)`.
* The error sink (`report->error`) is not part of the state of the serializer,
  layout and branch functions: only the returned value and the written data
  are modelled there.  The cases of `reduceExpression` return a `Reduced`: the
  returned expression together with the messages reported, in order (message
  texts are shortened to their fixed part).
* The reducer cases are embedded on the already reduced operands; functions
  of the compiler that are not embedded (the operations of `Int128` on
  literal values, the member scope of a struct, the recursive call of the
  reducer) are fields of `LiteralOperations` and `ReducerCollaborators`.
* Pointers to pool-owned definitions are compared by address in the source;
  here every definition carries a handle `id` and `Definition.ptrEq` compares
  the variant tag and the handle.
* The attribute functions and the passes that call them thread an
  `AttributeState` (`modeFlags` is a 32-bit word); the table of mode
  attributes of the platform is a `ModeAttributeTable`.
* `generateCode` threads a `GenerateState`: the registered banks (a bank
  pointer is an index), the current bank, the bank stack, the `address`
  fields that the first pass assigns to labels and variables (by handle), the
  local set `irNodeIndexesToRemove` (an increasing list) and the messages
  reported.  A bank is its cursor (`origin`, `capacity`, `position`); the
  signature and the encoding of an instruction are fields of
  `GenerateCollaborators`.  A pass is `none` where the source would read
  through a null pointer or a wrong variant.  The calls of `enterScope` and
  `exitScope` of a round are embedded on their own, on a `ScopeState`.
* A loop that the source does not bound (the cast-stripping loops of
  `getTestAndBranch`) takes a fuel argument and gives `none` when it has not
  ended within the fuel.
-/

namespace Wiz

/-! ## Machine integers -/

/-- Largest value of `std::size_t` (64-bit host). -/
def SIZE_MAX : Nat := 2 ^ 64 - 1

/-- Reduction of a natural number into the range of `std::size_t`. -/
def wrapSize (n : Nat) : Nat := n % (SIZE_MAX + 1)

/-- Modelled from the spec: the class `Int128` (header `wiz/utility/int128.h`) is
not among the sources. The spec calls the compile-time integer carrier
arbitrary-precision, so its values are the mathematical integers here and
`+`, `-`, `*`, comparison are the exact operations. -/
abbrev Int128 := Int

/-- Modelled from the spec: `static_cast` of an `Int128` to an unsigned integer
of `w` bits keeps the low `w` bits (the conversion operators of `Int128` are
not among the sources). -/
def Int128.toUnsigned (w : Nat) (v : Int128) : Nat := (v % (2 : Int) ^ w).toNat

/-! ## Data model -/

inductive StructKind
  | Struct
  | Union
  deriving DecidableEq, Repr

inductive EvaluationContext
  | CompileTime
  | LinkTime
  | RunTime
  deriving DecidableEq, Repr

/-- The qualifier bit set of the AST (`const`, `writeonly`, `extern`, `far`, l-value). -/
structure Qualifiers where
  isConst : Bool := false
  writeOnly : Bool := false
  isExtern : Bool := false
  far : Bool := false
  lvalue : Bool := false
  deriving DecidableEq, Repr

/-- Address of a function or variable (`Address` of the definition header). -/
structure Address where
  relativePosition : Option Nat := none
  absolutePosition : Option Nat := none
  deriving DecidableEq, Repr

mutual
/-- Reduced type expressions. The length of an array type is an integer
literal expression or absent; only its value is kept. The holder of a
designated storage is not read by the functions embedded here. -/
inductive TypeExpression : Type
  | Array (elementType : TypeExpression) (size : Option Int128)
  | DesignatedStorage (elementType : TypeExpression)
  | Function (far : Bool) (parameterTypes : List TypeExpression) (returnType : TypeExpression)
  | Identifier (pieces : List String)
  | Pointer (elementType : TypeExpression) (qualifiers : Qualifiers)
  | ResolvedIdentifier (definition : Definition)
  | Tuple (elementTypes : List TypeExpression)
  | TypeOf
/-- Definitions, with the fields that the embedded functions read. `id` is the
handle of the definition in the pool. `members` of a struct are the member
names in declaration order. -/
inductive Definition : Type
  | BuiltinBankType (id : Nat)
  | BuiltinBoolType (id : Nat)
  | BuiltinIntegerType (id : Nat) (size : Nat) (min max : Int128)
  | BuiltinIntegerExpressionType (id : Nat)
  | BuiltinRangeType (id : Nat)
  | BuiltinRegister (id : Nat) (type : Definition)
  | Enum (id : Nat) (resolvedUnderlyingType : Option TypeExpression)
  | Struct (id : Nat) (kind : StructKind) (size : Nat) (members : List String)
  | Func (id : Nat) (name : String) (inlined : Bool) (address : Option Address)
  | Var (id : Nat) (address : Option Address)
  | Other (id : Nat)
end

/-- Handle of a definition. -/
def Definition.id : Definition → Nat
  | .BuiltinBankType i => i
  | .BuiltinBoolType i => i
  | .BuiltinIntegerType i _ _ _ => i
  | .BuiltinIntegerExpressionType i => i
  | .BuiltinRangeType i => i
  | .BuiltinRegister i _ => i
  | .Enum i _ => i
  | .Struct i _ _ _ => i
  | .Func i _ _ _ => i
  | .Var i _ => i
  | .Other i => i

/-- Index of the variant of a definition. -/
def Definition.tag : Definition → Nat
  | .BuiltinBankType _ => 0
  | .BuiltinBoolType _ => 1
  | .BuiltinIntegerType _ _ _ _ => 2
  | .BuiltinIntegerExpressionType _ => 3
  | .BuiltinRangeType _ => 4
  | .BuiltinRegister _ _ => 5
  | .Enum _ _ => 6
  | .Struct _ _ _ _ => 7
  | .Func _ _ _ _ => 8
  | .Other _ => 9
  | .Var _ _ => 10

/-- Comparison of two `Definition*` by address. -/
def Definition.ptrEq (a b : Definition) : Bool :=
  a.tag == b.tag && a.id == b.id

inductive UnaryOperatorKind
  | None
  | AddressOf
  | FarAddressOf
  | AddressReserve
  | BitwiseNegation
  | Grouping
  | HighByte
  | BankByte
  | Indirection
  | LogicalNegation
  | LowByte
  | PostDecrement
  | PostIncrement
  | PreDecrement
  | PreIncrement
  | SignedNegation
  deriving DecidableEq, Repr

inductive BinaryOperatorKind
  | None
  | Addition
  | AdditionWithCarry
  | Assignment
  | BitIndexing
  | BitwiseAnd
  | BitwiseOr
  | BitwiseXor
  | Concatenation
  | Division
  | Equal
  | GreaterThan
  | GreaterThanOrEqual
  | Indexing
  | LeftRotate
  | LeftRotateWithCarry
  | LeftShift
  | LessThan
  | LessThanOrEqual
  | LogicalAnd
  | LogicalLeftShift
  | LogicalOr
  | LogicalRightShift
  | Modulo
  | Multiplication
  | NotEqual
  | RightRotate
  | RightRotateWithCarry
  | RightShift
  | Subtraction
  | SubtractionWithCarry
  deriving DecidableEq, Repr

/-- The `ExpressionInfo` that every reduced expression node carries. -/
structure ExpressionInfo where
  context : EvaluationContext
  type : TypeExpression
  qualifiers : Qualifiers

mutual
/-- A reduced expression node: its variant and its info. -/
inductive Expression : Type
  | mk (variant : ExpressionVariant) (info : ExpressionInfo)
/-- The variants of `Expression`. The items of a struct literal are the
entries of its name-to-item map. A side-effect statement is kept as a handle. -/
inductive ExpressionVariant : Type
  | ArrayComprehension (name : String) (sequence : Expression) (expression : Expression)
  | ArrayPadLiteral (valueExpression : Expression) (sizeExpression : Expression)
  | ArrayLiteral (items : List Expression)
  | BinaryOperator (op : BinaryOperatorKind) (left : Expression) (right : Expression)
  | BooleanLiteral (value : Bool)
  | Call (inlined : Bool) (function : Expression) (arguments : List Expression)
  | Cast (operand : Expression) (type : TypeExpression)
  | Embed (originalPath : String)
  | FieldAccess (operand : Expression) (field : String)
  | Identifier (pieces : List String)
  | IntegerLiteral (value : Int128)
  | OffsetOf (type : TypeExpression) (field : String)
  | RangeLiteral (start : Expression) (finish : Expression) (step : Expression)
  | ResolvedIdentifier (definition : Definition) (pieces : List String)
  | SideEffect (statement : Nat) (result : Expression)
  | StringLiteral (value : List Nat)
  | StructLiteral (type : TypeExpression) (items : List (String × Expression))
  | TupleLiteral (items : List Expression)
  | TypeOf (expression : Expression)
  | TypeQuery (type : TypeExpression)
  | UnaryOperator (op : UnaryOperatorKind) (operand : Expression)
end

def Expression.variant : Expression → ExpressionVariant
  | .mk v _ => v

def Expression.info : Expression → ExpressionInfo
  | .mk _ i => i

/-- The part of the platform interface that the embedded functions consult:
the `size` of the builtin integer types returned by `getPointerSizedType()` and
`getFarPointerSizedType()`. -/
structure Platform where
  pointerSize : Nat
  farPointerSize : Nat

/-! ## Storage size -/

mutual
/-- Embedding of `Compiler::calculateStorageSize` (a null type expression is the
caller's `none`; the `Identifier` case aborts in the source and yields no
size here). -/
def calculateStorageSize (platform : Platform) : TypeExpression → Option Nat
  | .Array elementType (some arraySize) =>
    match calculateStorageSize platform elementType with
    | some elementSize =>
      if 0 ≤ arraySize ∧ arraySize ≤ (SIZE_MAX : Int) then
        let checkedArraySize := Int128.toUnsigned 64 arraySize
        if checkedArraySize = 0 ∨ wrapSize (elementSize * SIZE_MAX) / checkedArraySize ≠ 0 then
          some (wrapSize (elementSize * checkedArraySize))
        else
          none
      else
        none
    | none => none
  | .Array _ none => none
  | .DesignatedStorage _ => none
  | .Function far _ _ => some (if far then platform.farPointerSize else platform.pointerSize)
  | .Identifier _ => none
  | .Pointer _ qualifiers =>
    some (if qualifiers.far then platform.farPointerSize else platform.pointerSize)
  | .ResolvedIdentifier definition => calculateDefinitionStorageSize platform definition
  | .Tuple elementTypes => calculateTupleStorageSize platform elementTypes 0
  | .TypeOf => none
/-- The `ResolvedIdentifier` case of `calculateStorageSize`. -/
def calculateDefinitionStorageSize (platform : Platform) : Definition → Option Nat
  | .BuiltinBoolType _ => some 1
  | .BuiltinIntegerType _ size _ _ => some size
  | .Enum _ (some resolvedUnderlyingType) => calculateStorageSize platform resolvedUnderlyingType
  | .Enum _ none => none
  | .Struct _ _ size _ => if size ≠ 0 then some size else none
  | _ => none
/-- The loop of the `Tuple` case of `calculateStorageSize`; `result` is the
running sum. -/
def calculateTupleStorageSize (platform : Platform) : List TypeExpression → Nat → Option Nat
  | [], result => some result
  | elementType :: rest, result =>
    match calculateStorageSize platform elementType with
    | some elementSize =>
      if SIZE_MAX - result < elementSize then
        none
      else
        calculateTupleStorageSize platform rest (result + elementSize)
    | none => none
end

/-! ## Constant serializer -/

/-- Embedding of `Compiler::serializeInteger`. -/
def serializeInteger (value : Int128) (size : Nat) (result : List Nat) : Bool × List Nat :=
  match size with
  | 1 => (true, result ++ [Int128.toUnsigned 8 value])
  | 2 =>
    let x0 := Int128.toUnsigned 16 value
    let x1 := x0 >>> 8
    (true, result ++ [x0 &&& 0xFF, x1 &&& 0xFF])
  | 4 =>
    let x0 := Int128.toUnsigned 32 value
    let x1 := x0 >>> 8
    let x2 := x1 >>> 8
    let x3 := x2 >>> 8
    (true, result ++ [x0 &&& 0xFF, x1 &&& 0xFF, x2 &&& 0xFF, x3 &&& 0xFF])
  | 8 =>
    let x0 := Int128.toUnsigned 64 value
    let x1 := x0 >>> 8
    let x2 := x1 >>> 8
    let x3 := x2 >>> 8
    let x4 := x3 >>> 8
    let x5 := x4 >>> 8
    let x6 := x5 >>> 8
    let x7 := x6 >>> 8
    (true, result ++ [x0 &&& 0xFF, x1 &&& 0xFF, x2 &&& 0xFF, x3 &&& 0xFF,
      x4 &&& 0xFF, x5 &&& 0xFF, x6 &&& 0xFF, x7 &&& 0xFF])
  | _ => (false, result)

/-- Lookup in the item map of a struct literal (`items.find(name)`). -/
def findItem {α : Type} (name : String) : List (String × α) → Option α
  | [] => none
  | (key, value) :: rest => if key = name then some value else findItem name rest

/-- The loop over `structDefinition.members` in the struct case of
`serializeConstantInitializer`; `items` maps a name to the serializer of the
item value. A member without an item dereferences `items.end()` in the source;
it is a failure here. -/
def serializeStructMembers (items : List (String × (List Nat → Bool × List Nat))) :
    List String → List Nat → Bool × List Nat
  | [], result => (true, result)
  | member :: rest, result =>
    match findItem member items with
    | some serializeValue =>
      match serializeValue result with
      | (true, result1) => serializeStructMembers items rest result1
      | (false, result1) => (false, result1)
    | none => (false, result)

/-- The union case of `serializeConstantInitializer` after the item value has
been chosen: serialize it, then pad. `itemCount` is `structLiteral.items.size()`. -/
def serializeUnionItem (serializeValue : List Nat → Bool × List Nat) (itemCount : Nat)
    (result : List Nat) : Bool × List Nat :=
  let sizeBefore := result.length
  match serializeValue result with
  | (false, result1) => (false, result1)
  | (true, result1) =>
    let sizeAfter := result1.length
    if itemCount > sizeAfter - sizeBefore then
      let trailingPadding := itemCount - (sizeAfter - sizeBefore)
      (true, result1 ++ List.replicate trailingPadding 0)
    else
      (true, result1)

mutual
/-- Embedding of `Compiler::serializeConstantInitializer`. The cases that
abort in the source (`Identifier`, `OffsetOf`, `TypeQuery`) are failures here. -/
def serializeConstantInitializer (platform : Platform) : Expression → List Nat → Bool × List Nat
  | .mk (.ArrayLiteral items) _, result => serializeItems platform items result
  | .mk (.BooleanLiteral value) _, result => serializeInteger (if value then 1 else 0) 1 result
  | .mk (.IntegerLiteral value) info, result =>
    match calculateStorageSize platform info.type with
    | some storageSize => serializeInteger value storageSize result
    | none => (false, result)
  | .mk (.ResolvedIdentifier definition _) _, result =>
    let absolutePosition : Option Nat :=
      match definition with
      | .Func _ _ inlined address =>
        if inlined then none
        else
          match address with
          | some a => a.absolutePosition
          | none => none
      | _ => none
    match absolutePosition with
    | some position => serializeInteger (position : Int) platform.pointerSize result
    | none => (false, result)
  | .mk (.StringLiteral value) _, result => (true, result ++ value)
  | .mk (.StructLiteral type items) _, result =>
    match type with
    | .ResolvedIdentifier (.Struct _ kind _ members) =>
      match kind with
      | .Union =>
        match (itemSerializers platform items).head? with
        | some (_, serializeValue) => serializeUnionItem serializeValue items.length result
        | none => (false, result)
      | .Struct => serializeStructMembers (itemSerializers platform items) members result
    | _ => (false, result)
  | .mk (.TupleLiteral items) _, result => serializeItems platform items result
  | .mk _ _, result => (false, result)
/-- The loops over the items of an array or tuple literal. -/
def serializeItems (platform : Platform) : List Expression → List Nat → Bool × List Nat
  | [], result => (true, result)
  | item :: rest, result =>
    match serializeConstantInitializer platform item result with
    | (true, result1) => serializeItems platform rest result1
    | (false, result1) => (false, result1)
/-- The serializer of each item value of a struct literal, under its name. -/
def itemSerializers (platform : Platform) :
    List (String × Expression) → List (String × (List Nat → Bool × List Nat))
  | [] => []
  | (name, value) :: rest =>
    (name, serializeConstantInitializer platform value) :: itemSerializers platform rest
end

/-- Little-endian value of a byte sequence: the sum of the `b_i * 256 ^ i`. -/
def littleEndianValue : List Nat → Nat
  | [] => 0
  | b :: rest => b + 256 * littleEndianValue rest

/-! ## Struct and union layout (`resolveDefinitionTypes`) -/

/-- A `Definition::StructMember` together with its name. -/
structure StructMember where
  name : String
  typeExpression : TypeExpression
  resolvedType : Option TypeExpression := none
  offset : Option Nat := none

/-- The loop over `structDefinition->members` in the struct branch of
`Compiler::resolveDefinitionTypes`; `offset` and `totalSize` are the two local
counters, the result is the updated member list and the final `totalSize`
(stored in `structDefinition->size`). `reduceTypeExpression` is the type
reducer of the compiler, applied to the declared member type. -/
def resolveStructMembers (reduceTypeExpression : TypeExpression → Option TypeExpression)
    (platform : Platform) (kind : StructKind) :
    List StructMember → Nat → Nat → List StructMember × Nat
  | [], _, totalSize => ([], totalSize)
  | member :: rest, offset, totalSize =>
    match reduceTypeExpression member.typeExpression with
    | some resolvedType =>
      let counters : Nat × Nat :=
        match calculateStorageSize platform resolvedType with
        | some resolvedSize =>
          if kind = StructKind.Struct then
            (wrapSize (offset + resolvedSize), wrapSize (totalSize + resolvedSize))
          else
            (offset, max totalSize resolvedSize)
        | none => (offset, totalSize)
      let tail := resolveStructMembers reduceTypeExpression platform kind rest counters.1 counters.2
      ({ member with offset := some offset, resolvedType := some resolvedType } :: tail.1, tail.2)
    | none =>
      let tail := resolveStructMembers reduceTypeExpression platform kind rest offset totalSize
      ({ member with offset := some offset } :: tail.1, tail.2)

/-- The struct branch of `resolveDefinitionTypes` for one definition: both
counters start at zero. -/
def resolveStructDefinition (reduceTypeExpression : TypeExpression → Option TypeExpression)
    (platform : Platform) (kind : StructKind) (members : List StructMember) :
    List StructMember × Nat :=
  resolveStructMembers reduceTypeExpression platform kind members 0 0

/-- Storage size of a member after resolution, when it is known. -/
def StructMember.storageSize (platform : Platform) (member : StructMember) : Option Nat :=
  match member.resolvedType with
  | some resolvedType => calculateStorageSize platform resolvedType
  | none => none

/-! ## Enum member values (`reserveDefinitions`, `resolveDefinitionTypes`) -/

/-- A `const Expression*` into the declaration: the address (the position of
the enum item that owns the expression) and the expression pointed to. Two
pointers are equal when their addresses are. -/
abbrev ExpressionPointer := Option (Nat × Expression)

def ExpressionPointer.address (p : ExpressionPointer) : Option Nat := p.map Prod.fst

/-- A `Definition::EnumMember` together with its name. -/
structure EnumMember where
  name : String
  expression : ExpressionPointer
  offset : Nat
  reducedExpression : Option Expression := none

/-- The loop over `enumDeclaration.items` in `Compiler::reserveDefinitions`.
`index` is the position of the current item, `previousExpression` and `offset`
are the two locals of the source. The counter `offset` is a `std::size_t`; it
is below the number of items, so it cannot wrap. `createDefinition` fails on a
member name that the enum scope already holds: the phase then ends with an
error and the definitions are not resolved, so the embedding describes
declarations whose member names are pairwise distinct. -/
def reserveEnumMembers :
    List (String × Option Expression) → Nat → ExpressionPointer → Nat → List EnumMember
  | [], _, _, _ => []
  | (name, some enumExpression) :: rest, index, _, _ =>
    { name := name, expression := some (index, enumExpression), offset := 0 } ::
      reserveEnumMembers rest (index + 1) (some (index, enumExpression)) (0 + 1)
  | (name, none) :: rest, index, previousExpression, offset =>
    { name := name, expression := previousExpression, offset := offset } ::
      reserveEnumMembers rest (index + 1) previousExpression (offset + 1)

/-- The integer literal that `resolveDefinitionTypes` stores in an enum member. -/
def enumLiteral (enumTypeExpression : TypeExpression) (value : Int128) : Expression :=
  .mk (.IntegerLiteral value) ⟨.CompileTime, enumTypeExpression, {}⟩

/-- The loop over `enumDefinition->members` in the enum branch of
`Compiler::resolveDefinitionTypes`. `previousValue` and `previousExpression`
are the two locals of the source. A member whose expression is null while
`previousExpression` is not would be passed to `reduceExpression` as a null
pointer in the source; it is left without a value here. -/
def resolveEnumMembers (reduceExpression : Expression → Option Expression)
    (enumTypeExpression : TypeExpression) :
    List EnumMember → Int128 → ExpressionPointer → List EnumMember
  | [], _, _ => []
  | member :: rest, previousValue, previousExpression =>
    if member.expression.address = previousExpression.address then
      { member with
        reducedExpression := some (enumLiteral enumTypeExpression (previousValue + (member.offset : Int))) } ::
        resolveEnumMembers reduceExpression enumTypeExpression rest previousValue previousExpression
    else
      match member.expression with
      | some (_, expression) =>
        match reduceExpression expression with
        | some (.mk (.IntegerLiteral value) _) =>
          { member with
            reducedExpression := some (enumLiteral enumTypeExpression (value + (member.offset : Int))) } ::
            resolveEnumMembers reduceExpression enumTypeExpression rest value member.expression
        | some _ =>
          member :: resolveEnumMembers reduceExpression enumTypeExpression rest previousValue member.expression
        | none =>
          member :: resolveEnumMembers reduceExpression enumTypeExpression rest previousValue previousExpression
      | none =>
        member :: resolveEnumMembers reduceExpression enumTypeExpression rest previousValue previousExpression

/-- The value of an enum member: the integer literal of its reduced expression. -/
def EnumMember.value (member : EnumMember) : Option Int128 :=
  match member.reducedExpression with
  | some (.mk (.IntegerLiteral value) _) => some value
  | _ => none

/-- Modelled from the spec: a default-constructed `Int128` (the local
`Int128 previousValue;`) is zero; the class is not among the sources. -/
def Int128.default : Int128 := 0

/-- The members of an enum declaration after `reserveDefinitions` and
`resolveDefinitionTypes`. -/
def resolveEnumDeclaration (reduceExpression : Expression → Option Expression)
    (enumTypeExpression : TypeExpression) (items : List (String × Option Expression)) :
    List EnumMember :=
  resolveEnumMembers reduceExpression enumTypeExpression
    (reserveEnumMembers items 0 none 0) Int128.default none

/-! ## Sequence literals -/

/-- The builtin definitions that the embedded functions fetch with
`builtins.getDefinition`. -/
structure Builtins where
  iexpr : Definition

/-- Embedding of `Compiler::tryGetSequenceLiteralLength`. The quotient is an
`Int128`; it is converted to the `std::size_t` of the result. -/
def tryGetSequenceLiteralLength : Expression → Option Nat
  | .mk (.ArrayLiteral items) _ => some items.length
  | .mk (.StringLiteral value) _ => some value.length
  | .mk (.RangeLiteral (.mk (.IntegerLiteral start) _) (.mk (.IntegerLiteral finish) _)
      (.mk (.IntegerLiteral step) _)) _ =>
    if step = 0 then
      none
    else
      let low := if step < 0 then finish else start
      let high := if step < 0 then start else finish
      if low > high then
        some 0
      else
        some (Int128.toUnsigned 64 (Int.tdiv (high - low) (if step < 0 then -step else step) + 1))
  | _ => none

/-- Embedding of `Compiler::getSequenceLiteralItem`. The paths that abort or
index out of bounds in the source give `none`. -/
def getSequenceLiteralItem (builtins : Builtins) : Expression → Nat → Option Expression
  | .mk (.ArrayLiteral items) _, index => items[index]?
  | .mk (.StringLiteral value) _, index =>
    match value[index]? with
    | some c =>
      some (.mk (.IntegerLiteral (Int128.toUnsigned 8 (c : Int) : Int))
        ⟨.CompileTime, .ResolvedIdentifier builtins.iexpr, {}⟩)
    | none => none
  | .mk (.RangeLiteral (.mk (.IntegerLiteral start) _) (.mk (.IntegerLiteral _) _)
      (.mk (.IntegerLiteral step) _)) _, index =>
    if step = 0 then
      none
    else
      some (.mk (.IntegerLiteral (start + step * (index : Int)))
        ⟨.CompileTime, .ResolvedIdentifier builtins.iexpr, {}⟩)
  | _, _ => none

/-! ## Type equivalence and narrowing -/

/-- Embedding of `Compiler::isTypeDefinition`. -/
def isTypeDefinition : Definition → Bool
  | .BuiltinBankType _ => true
  | .BuiltinBoolType _ => true
  | .BuiltinIntegerType _ _ _ _ => true
  | .BuiltinIntegerExpressionType _ => true
  | .BuiltinRangeType _ => true
  | .Enum _ _ => true
  | .Struct _ _ _ _ => true
  | _ => false

/-- Embedding of `Compiler::tryGetResolvedIdentifierTypeDefinition`. -/
def tryGetResolvedIdentifierTypeDefinition : TypeExpression → Option Definition
  | .ResolvedIdentifier definition => if isTypeDefinition definition then some definition else none
  | _ => none

/-- Embedding of `Compiler::isIntegerType`. -/
def isIntegerType (typeExpression : TypeExpression) : Bool :=
  match tryGetResolvedIdentifierTypeDefinition typeExpression with
  | some (.BuiltinIntegerExpressionType _) => true
  | some (.BuiltinIntegerType _ _ _ _) => true
  | _ => false

/-- The test `leftSize.hasValue() && rightSize.hasValue() && *leftSize == *rightSize`. -/
def sameKnownSize (leftSize rightSize : Option Nat) : Bool :=
  match leftSize, rightSize with
  | some l, some r => l == r
  | _, _ => false

/-- The test on the lengths of two array types: it fails only when both
lengths are present and differ. -/
def arraySizesDiffer (leftSize rightSize : Option Int128) : Bool :=
  match leftSize, rightSize with
  | some l, some r => l != r
  | _, _ => false

mutual
/-- Embedding of `Compiler::isTypeEquivalent` (null arguments are excluded by
the types; the `Identifier` case aborts in the source and is `false` here). -/
def isTypeEquivalent (platform : Platform) : TypeExpression → TypeExpression → Bool
  | left, .DesignatedStorage rightElementType =>
    sameKnownSize (calculateStorageSize platform left) (calculateStorageSize platform rightElementType)
  | .Array leftElementType leftSize, .Array rightElementType rightSize =>
    if arraySizesDiffer leftSize rightSize then false
    else isTypeEquivalent platform leftElementType rightElementType
  | .Array _ _, _ => false
  | .DesignatedStorage leftElementType, right =>
    sameKnownSize (calculateStorageSize platform leftElementType) (calculateStorageSize platform right)
  | .Function _ leftParameterTypes leftReturnType, .Function _ rightParameterTypes rightReturnType =>
    if !isTypeEquivalent platform leftReturnType rightReturnType then false
    else if leftParameterTypes.length != rightParameterTypes.length then false
    else isTypeEquivalentList platform leftParameterTypes rightParameterTypes
  | .Function _ _ _, _ => false
  | .Identifier _, _ => false
  | .Pointer leftElementType leftQualifiers, .Pointer rightElementType rightQualifiers =>
    isTypeEquivalent platform leftElementType rightElementType && leftQualifiers == rightQualifiers
  | .Pointer _ _, _ => false
  | .ResolvedIdentifier leftDefinition, .ResolvedIdentifier rightDefinition =>
    leftDefinition.ptrEq rightDefinition
  | .ResolvedIdentifier _, _ => false
  | .Tuple leftElementTypes, .Tuple rightElementTypes =>
    if leftElementTypes.length != rightElementTypes.length then false
    else isTypeEquivalentList platform leftElementTypes rightElementTypes
  | .Tuple _, _ => false
  | .TypeOf, _ => false
/-- The index loops of `isTypeEquivalent` over two type lists of equal length. -/
def isTypeEquivalentList (platform : Platform) : List TypeExpression → List TypeExpression → Bool
  | left :: leftRest, right :: rightRest =>
    if !isTypeEquivalent platform left right then false
    else isTypeEquivalentList platform leftRest rightRest
  | _, _ => true
end

/-- Embedding of `Compiler::canNarrowIntegerExpression`. -/
def canNarrowIntegerExpression (expression : Expression) (integerTypeDefinition : Definition) : Bool :=
  match expression.variant, integerTypeDefinition with
  | .IntegerLiteral value, .BuiltinIntegerType _ _ min max => decide (value ≥ min) && decide (value ≤ max)
  | _, _ => false

/-- The qualifier test shared by `canNarrowExpression` and
`createConvertedExpression` for a pointer source and a pointer destination. -/
def pointerQualifiersNarrow (source destination : Qualifiers) : Bool :=
  ((!source.writeOnly && destination.isConst) || (!source.isConst && destination.writeOnly))
    && (source.far == destination.far || !destination.far)

/-- Lines 2871-2902 of `Compiler::canNarrowExpression`: the pointer block, the
resolved-identifier block and the final equivalence test. -/
def canNarrowExpressionTail (platform : Platform) (sourceExpression : Expression)
    (destinationType : TypeExpression) : Bool :=
  let sourceExpressionType := sourceExpression.info.type
  let pointerBlock : Bool :=
    match destinationType, sourceExpressionType with
    | .Pointer destinationElementType destinationQualifiers, .Pointer sourceElementType sourceQualifiers =>
      isTypeEquivalent platform destinationElementType sourceElementType
        && pointerQualifiersNarrow sourceQualifiers destinationQualifiers
    | _, _ => false
  if pointerBlock then true
  else
    let resolvedBlock : Option Bool :=
      match tryGetResolvedIdentifierTypeDefinition destinationType,
          tryGetResolvedIdentifierTypeDefinition sourceExpressionType with
      | some destinationTypeDefinition, some sourceExpressionTypeDefinition =>
        if sourceExpressionTypeDefinition.ptrEq destinationTypeDefinition then some true
        else if isIntegerType sourceExpressionType && isIntegerType destinationType then
          match sourceExpressionTypeDefinition with
          | .BuiltinIntegerExpressionType _ =>
            some (canNarrowIntegerExpression sourceExpression destinationTypeDefinition)
          | _ => none
        else none
      | _, _ => none
    match resolvedBlock with
    | some r => r
    | none => isTypeEquivalent platform sourceExpressionType destinationType

/-- Embedding of `Compiler::canNarrowExpression` (null arguments are excluded
by the types). A destination array with a length and a source array type
without one dereference a null length in the source; the lengths then count
as equal here. -/
def canNarrowExpression (platform : Platform) : Expression → TypeExpression → Bool
  | sourceExpression, .Array destinationElementType destinationSize =>
    match sourceExpression.info.type with
    | .Array sourceElementType sourceSize =>
      if arraySizesDiffer sourceSize destinationSize then false
      else if isTypeEquivalent platform destinationElementType sourceElementType then true
      else
        match sourceExpression.variant with
        | .ArrayLiteral items =>
          items.all (fun item => canNarrowExpression platform item destinationElementType)
        | _ =>
          canNarrowExpressionTail platform sourceExpression (.Array destinationElementType destinationSize)
    | _ => canNarrowExpressionTail platform sourceExpression (.Array destinationElementType destinationSize)
  | sourceExpression, .DesignatedStorage destinationElementType =>
    canNarrowExpression platform sourceExpression destinationElementType
  | sourceExpression, destinationType =>
    canNarrowExpressionTail platform sourceExpression destinationType

/-- Embedding of `Compiler::createArrayLiteralExpression`. -/
def createArrayLiteralExpression (items : List Expression) (elementType : TypeExpression) : Expression :=
  let context :=
    items.foldl
      (fun context item => if item.info.context = EvaluationContext.LinkTime then item.info.context else context)
      EvaluationContext.CompileTime
  .mk (.ArrayLiteral items) ⟨context, .Array elementType (some (items.length : Int)), {}⟩

/-- All the values of a list of optional values, or `none` if one is missing. -/
def allSome {α : Type} : List (Option α) → Option (List α)
  | [] => some []
  | some a :: rest =>
    match allSome rest with
    | some as => some (a :: as)
    | none => none
  | none :: _ => none

/-- Lines 2954-2999 of `Compiler::createConvertedExpression`: the pointer
block, the resolved-identifier block and the final null result. -/
def createConvertedExpressionTail (platform : Platform) (sourceExpression : Expression)
    (destinationType : TypeExpression) : Option Expression :=
  let sourceExpressionType := sourceExpression.info.type
  let pointerBlock : Bool :=
    match destinationType, sourceExpressionType with
    | .Pointer destinationElementType destinationQualifiers, .Pointer sourceElementType sourceQualifiers =>
      isTypeEquivalent platform destinationElementType sourceElementType
        && pointerQualifiersNarrow sourceQualifiers destinationQualifiers
    | _, _ => false
  if pointerBlock then
    some (.mk sourceExpression.variant
      ⟨sourceExpression.info.context, destinationType, sourceExpression.info.qualifiers⟩)
  else
    match tryGetResolvedIdentifierTypeDefinition destinationType,
        tryGetResolvedIdentifierTypeDefinition sourceExpressionType with
    | some destinationTypeDefinition, some sourceExpressionTypeDefinition =>
      if sourceExpressionTypeDefinition.ptrEq destinationTypeDefinition then some sourceExpression
      else if isIntegerType sourceExpressionType && isIntegerType destinationType then
        match sourceExpressionTypeDefinition, sourceExpression.variant, destinationTypeDefinition with
        | .BuiltinIntegerExpressionType _, .IntegerLiteral value, .BuiltinIntegerType _ _ min max =>
          if value ≥ min ∧ value ≤ max then
            some (.mk (.IntegerLiteral value) ⟨.CompileTime, destinationType, {}⟩)
          else none
        | _, _, _ => none
      else none
    | _, _ => none

/-- Embedding of `Compiler::createConvertedExpression` (null arguments are
excluded by the types). A converted array item that is null is dereferenced
by `createArrayLiteralExpression` in the source; the result is `none` here. -/
def createConvertedExpression (platform : Platform) : Expression → TypeExpression → Option Expression
  | sourceExpression, .Array destinationElementType destinationSize =>
    let rest : Option Expression :=
      if isTypeEquivalent platform sourceExpression.info.type (.Array destinationElementType destinationSize) then
        some sourceExpression
      else
        createConvertedExpressionTail platform sourceExpression (.Array destinationElementType destinationSize)
    match sourceExpression.info.type with
    | .Array sourceElementType _ =>
      if isTypeEquivalent platform destinationElementType sourceElementType then some sourceExpression
      else
        match sourceExpression.variant with
        | .ArrayLiteral items =>
          match allSome (items.map (fun item => createConvertedExpression platform item destinationElementType)) with
          | some convertedItems => some (createArrayLiteralExpression convertedItems destinationElementType)
          | none => none
        | _ => rest
    | _ => rest
  | sourceExpression, .DesignatedStorage destinationElementType =>
    if isTypeEquivalent platform sourceExpression.info.type (.DesignatedStorage destinationElementType) then
      some sourceExpression
    else
      createConvertedExpression platform sourceExpression destinationElementType
  | sourceExpression, destinationType =>
    if isTypeEquivalent platform sourceExpression.info.type destinationType then some sourceExpression
    else createConvertedExpressionTail platform sourceExpression destinationType

/-! ## Branch lowering (`emitBranchIr`) -/

inductive BranchKind
  | None
  | Break
  | Call
  | Continue
  | FarCall
  | FarGoto
  | FarReturn
  | Goto
  | IrqReturn
  | NmiReturn
  | Return
  deriving DecidableEq, Repr

/-- The tag that selects an instruction in the platform table. -/
inductive InstructionType
  | Branch (kind : BranchKind)
  | Unary (op : UnaryOperatorKind)
  | Binary (op : BinaryOperatorKind)
  | VoidIntrinsic (definition : Nat)
  | LoadIntrinsic (definition : Nat)
  deriving DecidableEq, Repr

/-- Instruction operands. -/
inductive InstructionOperand : Type
  | Binary (kind : BinaryOperatorKind) (left : InstructionOperand) (right : InstructionOperand)
  | BitIndex (operand : InstructionOperand) (subscript : InstructionOperand)
  | Boolean (value : Bool)
  | Dereference (far : Bool) (operand : InstructionOperand) (size : Nat)
  | Index (far : Bool) (operand : InstructionOperand) (subscript : InstructionOperand)
      (subscriptScale : Nat) (size : Nat)
  | Integer (value : Int128)
  | Register (definition : Definition)
  | Unary (kind : UnaryOperatorKind) (operand : InstructionOperand)

/-- An `InstructionOperandRoot`: the source expression (may be null) and the
operand (null when `createOperandFromExpression` failed and was not checked). -/
structure InstructionOperandRoot where
  expression : Option Expression
  operand : Option InstructionOperand

/-- An entry of the platform instruction table: the type of its signature and
its handle in the table. -/
structure Instruction where
  type : InstructionType
  handle : Nat

inductive IrNode : Type
  | PushRelocation (bank : Nat) (address : Option Nat)
  | PopRelocation
  | Label (definition : Definition)
  | Code (instruction : Instruction) (operandRoots : List InstructionOperandRoot)
  | Var (definition : Definition)

/-- One conditional branch of a platform test-and-branch record. -/
structure PlatformBranch where
  flag : Definition
  value : Bool
  success : Bool

structure PlatformTestAndBranch where
  testInstructionType : InstructionType
  testOperands : List Expression
  branches : List PlatformBranch

/-- The collaborators of `emitBranchIr` that are not part of the branch
lowering itself: the operator negation table of the AST, the comparison
lowering (`Compiler::getTestAndBranch`, which asks the platform), operand
creation, instruction selection under the current mode flags, and the
statement emitter used for side-effect conditions. -/
structure BranchEnvironment (σ : Type) where
  getBinaryOperatorLogicalNegation : BinaryOperatorKind → BinaryOperatorKind
  getTestAndBranch : BinaryOperatorKind → Expression → Expression → Nat → Option PlatformTestAndBranch
  createOperandFromExpression : Expression → Option InstructionOperand
  selectInstruction : InstructionType → List InstructionOperandRoot → Option Instruction
  emitStatementIr : Nat → σ → Bool × σ

/-- The part of the compiler state that `emitBranchIr` reads and writes. -/
structure EmitState where
  labelSuffixes : String → Nat
  definitionPool : Nat
  irNodes : List IrNode
  breakLabel : Option Definition
  continueLabel : Option Definition

def EmitState.addNode (st : EmitState) (node : IrNode) : EmitState :=
  { st with irNodes := st.irNodes ++ [node] }

/-- Embedding of `Compiler::createAnonymousLabelDefinition`: the new definition
gets the next handle of the definition pool. -/
def createAnonymousLabelDefinition (labelPrefix : String) (st : EmitState) : Definition × EmitState :=
  let suffix := st.labelSuffixes labelPrefix + 1
  let labelId := labelPrefix ++ toString suffix
  (.Func st.definitionPool labelId false none,
    { st with
      labelSuffixes := fun p => if p = labelPrefix then suffix else st.labelSuffixes p
      definitionPool := st.definitionPool + 1 })

/-- The expression that `resolveDefinitionExpression` returns for a label: a
`func` definition without address has link-time context and its signature
type; labels created by `createAnonymousLabelDefinition` have the signature
`func () : ()` and are not `far`. -/
def labelReferenceExpression (definition : Definition) : Expression :=
  .mk (.ResolvedIdentifier definition []) ⟨.LinkTime, .Function false [] (.Tuple []), {}⟩

/-- The expression that `resolveDefinitionExpression` returns for a register. -/
def registerReferenceExpression (definition : Definition) : Expression :=
  match definition with
  | .BuiltinRegister _ type =>
    .mk (.ResolvedIdentifier definition []) ⟨.RunTime, .ResolvedIdentifier type, { lvalue := true }⟩
  | _ => .mk (.ResolvedIdentifier definition []) ⟨.RunTime, .TypeOf, { lvalue := true }⟩

/-- Embedding of `Compiler::isBooleanType`. -/
def isBooleanType (typeExpression : TypeExpression) : Bool :=
  match tryGetResolvedIdentifierTypeDefinition typeExpression with
  | some (.BuiltinBoolType _) => true
  | _ => false

/-- The check of lines 5519-5524: a destination must have a function type. -/
def destinationIsValid (destination : Option Expression) : Bool :=
  match destination with
  | some (.mk _ ⟨_, .Function _ _ _, _⟩) => true
  | some _ => false
  | none => true

/-- Lines 5705-5734 of `emitBranchIr`: the branch without condition. -/
def emitUnconditionalBranchIr {σ : Type} (env : BranchEnvironment σ) (distanceHint : Nat)
    (kind : BranchKind) (destination : Option Expression) (st : EmitState) : Bool × EmitState :=
  if !destinationIsValid destination then (false, st)
  else
    let hint : InstructionOperandRoot := ⟨none, some (.Integer (distanceHint : Int))⟩
    match destination with
    | some dest =>
      match env.createOperandFromExpression dest with
      | none => (false, st)
      | some operand =>
        let kind1 :=
          if dest.info.qualifiers.far then
            (if kind = .Goto then BranchKind.FarGoto else if kind = .Call then BranchKind.FarCall else kind)
          else kind
        let operandRoots := [hint, ⟨some dest, some operand⟩]
        match env.selectInstruction (.Branch kind1) operandRoots with
        | some instruction => (true, st.addNode (.Code instruction operandRoots))
        | none => (false, st)
    | none =>
      match env.selectInstruction (.Branch kind) [hint] with
      | some instruction => (true, st.addNode (.Code instruction [hint]))
      | none => (false, st)

/-- Lines 5670-5700 of `emitBranchIr`: the condition is a resolved identifier. -/
def emitRegisterBranchIr {σ : Type} (env : BranchEnvironment σ) (distanceHint : Nat)
    (kind : BranchKind) (destination : Option Expression) (negated : Bool)
    (definition : Definition) (st : EmitState) : Bool × EmitState :=
  match definition with
  | .BuiltinRegister _ _ =>
    let hint : InstructionOperandRoot := ⟨none, some (.Integer (distanceHint : Int))⟩
    let tail : List InstructionOperandRoot :=
      [⟨none, some (.Register definition)⟩, ⟨none, some (.Boolean (!negated))⟩]
    match destination with
    | some dest =>
      match env.createOperandFromExpression dest with
      | none => (false, st)
      | some operand =>
        let operandRoots := [hint, ⟨some dest, some operand⟩] ++ tail
        match env.selectInstruction (.Branch kind) operandRoots with
        | some instruction => (true, st.addNode (.Code instruction operandRoots))
        | none => (false, st)
    | none =>
      match env.selectInstruction (.Branch kind) (hint :: tail) with
      | some instruction => (true, st.addNode (.Code instruction (hint :: tail)))
      | none => (false, st)
  | _ => (false, st)

/-- The loop of lines 5610-5616 over the branches of a test-and-branch record.
Each iteration calls `emitBranchIr` with a reference to the flag register as
condition, which passes the two checks at the head of the function and
reaches the register case. -/
def emitTestBranches {σ : Type} (env : BranchEnvironment σ) (distanceHint : Nat) (kind : BranchKind)
    (destination : Option Expression) (failureReferenceExpression : Expression)
    (negated preNegated : Bool) : List PlatformBranch → EmitState → Bool × EmitState
  | [], st => (true, st)
  | branch :: rest, st =>
    let dest := if branch.success then destination else some failureReferenceExpression
    let branchNegated := if (if preNegated then !negated else negated) then branch.value else !branch.value
    let flagReferenceExpression := registerReferenceExpression branch.flag
    if !destinationIsValid dest then (false, st)
    else if !isBooleanType flagReferenceExpression.info.type then (false, st)
    else
      match emitRegisterBranchIr env distanceHint kind dest branchNegated branch.flag st with
      | (true, st1) =>
        emitTestBranches env distanceHint kind destination failureReferenceExpression negated preNegated rest st1
      | (false, st1) => (false, st1)

/-- The flipped comparison tried when the platform has no test-and-branch for
the comparison as written (lines 5549-5571). -/
def flippedTestAndBranch {σ : Type} (env : BranchEnvironment σ) (op : BinaryOperatorKind)
    (left right : Expression) (distanceHint : Nat) : Option PlatformTestAndBranch :=
  match op with
  | .Equal => env.getTestAndBranch op right left distanceHint
  | .NotEqual => env.getTestAndBranch op right left distanceHint
  | .LessThan => env.getTestAndBranch .GreaterThan right left distanceHint
  | .GreaterThan => env.getTestAndBranch .LessThan right left distanceHint
  | .LessThanOrEqual => env.getTestAndBranch .GreaterThanOrEqual right left distanceHint
  | .GreaterThanOrEqual => env.getTestAndBranch .LessThanOrEqual right left distanceHint
  | _ => none

/-- Lines 5573-5621 of `emitBranchIr`: a test-and-branch record was found. -/
def emitTestAndBranchIr {σ : Type} (env : BranchEnvironment σ) (distanceHint : Nat) (kind : BranchKind)
    (destination : Option Expression) (negated preNegated : Bool)
    (testAndBranch : PlatformTestAndBranch) (st : EmitState) : Bool × EmitState :=
  let operandRoots : List InstructionOperandRoot :=
    testAndBranch.testOperands.map (fun testOperand =>
      ⟨some testOperand, env.createOperandFromExpression testOperand⟩)
  if testAndBranch.branches.length = 0 then
    if kind = .Goto ∨ kind = .FarGoto then
      let withDestination : Option (List InstructionOperandRoot) :=
        match destination with
        | some dest =>
          match env.createOperandFromExpression dest with
          | some operand => some (operandRoots ++ [⟨some dest, some operand⟩])
          | none => none
        | none => some operandRoots
      match withDestination with
      | none => (false, st)
      | some roots =>
        match env.selectInstruction testAndBranch.testInstructionType roots with
        | some instruction => (true, st.addNode (.Code instruction roots))
        | none => (false, st)
    else (false, st)
  else
    match env.selectInstruction testAndBranch.testInstructionType operandRoots with
    | none => (false, st)
    | some testInstruction =>
      let st1 := st.addNode (.Code testInstruction operandRoots)
      let label := createAnonymousLabelDefinition "$skip" st1
      match emitTestBranches env distanceHint kind destination (labelReferenceExpression label.1)
          negated preNegated testAndBranch.branches label.2 with
      | (true, st2) => (true, st2.addNode (.Label label.1))
      | (false, st2) => (false, st2)

/-- Lines 5519-5704 of `Compiler::emitBranchIr` for a request that has a
condition and whose kind takes the default case of the leading switch (every
recursive call of the source passes the same kind). -/
def emitConditionalBranchIr (env : BranchEnvironment EmitState) (distanceHint : Nat) (kind : BranchKind)
    (destination : Option Expression) : Bool → Expression → EmitState → Bool × EmitState
  | negated, .mk variant info, st =>
    if !destinationIsValid destination then (false, st)
    else if !isBooleanType info.type then (false, st)
    else
      match variant with
      | .UnaryOperator op operand =>
        if op = .LogicalNegation then
          emitConditionalBranchIr env distanceHint kind destination (!negated) operand st
        else (false, st)
      | .BinaryOperator binaryOp left right =>
        let preNegated := negated && env.getBinaryOperatorLogicalNegation binaryOp != BinaryOperatorKind.None
        let op := if preNegated then env.getBinaryOperatorLogicalNegation binaryOp else binaryOp
        let testAndBranch :=
          match env.getTestAndBranch op left right distanceHint with
          | some t => some t
          | none => flippedTestAndBranch env op left right distanceHint
        match testAndBranch with
        | some t => emitTestAndBranchIr env distanceHint kind destination negated preNegated t st
        | none =>
          match op with
          | .LogicalAnd =>
            if !negated then
              let label := createAnonymousLabelDefinition "$skip" st
              match emitConditionalBranchIr env distanceHint kind
                  (some (labelReferenceExpression label.1)) (!negated) left label.2 with
              | (false, st1) => (false, st1)
              | (true, st1) =>
                match emitConditionalBranchIr env distanceHint kind destination negated right st1 with
                | (false, st2) => (false, st2)
                | (true, st2) => (true, st2.addNode (.Label label.1))
            else
              match emitConditionalBranchIr env distanceHint kind destination (!negated) left st with
              | (false, st1) => (false, st1)
              | (true, st1) => emitConditionalBranchIr env distanceHint kind destination (!negated) right st1
          | .LogicalOr =>
            if !negated then
              match emitConditionalBranchIr env distanceHint kind destination negated left st with
              | (false, st1) => (false, st1)
              | (true, st1) => emitConditionalBranchIr env distanceHint kind destination negated right st1
            else
              let label := createAnonymousLabelDefinition "$skip" st
              match emitConditionalBranchIr env distanceHint kind
                  (some (labelReferenceExpression label.1)) (!negated) left label.2 with
              | (false, st1) => (false, st1)
              | (true, st1) =>
                match emitConditionalBranchIr env distanceHint kind destination negated right st1 with
                | (false, st2) => (false, st2)
                | (true, st2) => (true, st2.addNode (.Label label.1))
          | _ => (false, st)
      | .BooleanLiteral value =>
        if value != negated then emitUnconditionalBranchIr env distanceHint kind destination st
        else (true, st)
      | .ResolvedIdentifier definition _ =>
        emitRegisterBranchIr env distanceHint kind destination negated definition st
      | .SideEffect statement result =>
        match env.emitStatementIr statement st with
        | (false, st1) => (false, st1)
        | (true, st1) => emitConditionalBranchIr env distanceHint kind destination negated result st1
      | _ => (false, st)

/-- Embedding of `Compiler::emitBranchIr`. `Break` and `Continue` are rewritten
to a `Goto` of the loop label as in the source. The `Return` case of the
leading switch (return-value assignment and return conventions of the
enclosing function, lines 5440-5512) is outside this embedding and is a
failure here. -/
def emitBranchIr (env : BranchEnvironment EmitState) (distanceHint : Nat) (kind : BranchKind)
    (destination : Option Expression) (negated : Bool) (condition : Option Expression)
    (st : EmitState) : Bool × EmitState :=
  let lower (kind : BranchKind) (destination : Option Expression) : Bool × EmitState :=
    match condition with
    | some c => emitConditionalBranchIr env distanceHint kind destination negated c st
    | none => emitUnconditionalBranchIr env distanceHint kind destination st
  match kind with
  | .Continue =>
    match st.breakLabel, st.continueLabel with
    | some _, some label => lower .Goto (some (labelReferenceExpression label))
    | _, _ => (false, st)
  | .Break =>
    match st.breakLabel with
    | some label => lower .Goto (some (labelReferenceExpression label))
    | none => (false, st)
  | .Return => (false, st)
  | .None => (true, st)
  | _ => lower kind destination

/-- Result of running a lowered branch sequence. -/
inductive BranchOutcome
  | FallThrough
  | Transfer (destination : Definition)
  | Stuck

/-- Position of the `Label` node of a definition in an IR sequence. -/
def findLabel (definition : Definition) : List IrNode → Nat → Option Nat
  | [], _ => none
  | .Label d :: rest, index =>
    if d.ptrEq definition then some index else findLabel definition rest (index + 1)
  | _ :: rest, index => findLabel definition rest (index + 1)

/-- Modelled from the spec: the meaning of the IR that the branch lowering
emits (the instructions themselves belong to the platform and are not among
the sources). A `Label` node is passed through. A `goto` code node with the
operands `(hint, destination)` transfers control to the destination; with the
operands `(hint, destination, register, value)` it is the register-test
branch: it transfers control when the register holds `value` and falls to the
next node otherwise. A destination whose label is in the sequence continues
after that label; any other destination leaves the sequence. Running off the
end of the sequence is the fall-through. -/
def executeIr (registers : Nat → Bool) (nodes : List IrNode) : Nat → Nat → BranchOutcome
  | 0, _ => .Stuck
  | fuel + 1, pc =>
    let jump (destination : Definition) : BranchOutcome :=
      match findLabel destination nodes 0 with
      | some index => executeIr registers nodes fuel (index + 1)
      | none => .Transfer destination
    match nodes[pc]? with
    | none => .FallThrough
    | some (.Label _) => executeIr registers nodes fuel (pc + 1)
    | some (.Code ⟨.Branch .Goto, _⟩ [⟨_, some (.Integer _)⟩,
        ⟨some (.mk (.ResolvedIdentifier destination _) _), _⟩]) => jump destination
    | some (.Code ⟨.Branch .Goto, _⟩ [⟨_, some (.Integer _)⟩,
        ⟨some (.mk (.ResolvedIdentifier destination _) _), _⟩,
        ⟨_, some (.Register register)⟩, ⟨_, some (.Boolean value)⟩]) =>
      if registers register.id = value then jump destination
      else executeIr registers nodes fuel (pc + 1)
    | some _ => .Stuck

/-- Truth value of a condition built from flag registers with `!`, `&&` and
`||` under an assignment of values to the registers. -/
def evalCondition (registers : Nat → Bool) : Expression → Option Bool
  | .mk (.ResolvedIdentifier (.BuiltinRegister id _) _) _ => some (registers id)
  | .mk (.UnaryOperator .LogicalNegation operand) _ =>
    (evalCondition registers operand).map (fun b => !b)
  | .mk (.BinaryOperator .LogicalAnd left right) _ =>
    match evalCondition registers left, evalCondition registers right with
    | some l, some r => some (l && r)
    | _, _ => none
  | .mk (.BinaryOperator .LogicalOr left right) _ =>
    match evalCondition registers left, evalCondition registers right with
    | some l, some r => some (l || r)
    | _, _ => none
  | _ => none

/-- Modelled from the spec: the operator negation table of the AST
(`getBinaryOperatorLogicalNegation`, not among the sources): a comparison is
negated to the opposite comparison and every other operator has no negation. -/
def getBinaryOperatorLogicalNegation : BinaryOperatorKind → BinaryOperatorKind
  | .Equal => .NotEqual
  | .NotEqual => .Equal
  | .LessThan => .GreaterThanOrEqual
  | .GreaterThanOrEqual => .LessThan
  | .GreaterThan => .LessThanOrEqual
  | .LessThanOrEqual => .GreaterThan
  | _ => .None

/-- A branch environment in which the lowering of `&&`, `||` and `!` is the only
one exercised: no operator has a platform test-and-branch, every operand
can be created and every requested instruction exists in the table. -/
def plainBranchEnvironment : BranchEnvironment EmitState where
  getBinaryOperatorLogicalNegation := getBinaryOperatorLogicalNegation
  getTestAndBranch := fun _ _ _ _ => none
  createOperandFromExpression := fun _ => some (.Integer 0)
  selectInstruction := fun type _ => some ⟨type, 0⟩
  emitStatementIr := fun _ st => (false, st)

/-! ## Expression reducer: collaborators -/

/-- Modelled from the spec: the signed value of the low 128 bits of a natural
number (two's complement), for the results of the bit operations of `Int128`. -/
def Int128.ofUnsigned (n : Nat) : Int128 :=
  if n % 2 ^ 128 < 2 ^ 127 then ((n % 2 ^ 128 : Nat) : Int) else ((n % 2 ^ 128 : Nat) : Int) - 2 ^ 128

/-- Modelled from the spec: `Int128::operator&` (not among the sources) is the
bitwise and of the 128-bit two's complement representations. -/
def Int128.land (a b : Int128) : Int128 :=
  Int128.ofUnsigned (Int128.toUnsigned 128 a &&& Int128.toUnsigned 128 b)

/-- The mask `Int128((1U << (8U * size)) - 1)` of the reducer. The shift is done
on `unsigned int` (32 bits): for `size` of 4 or more the source shifts by the
width of the type or more, which the language leaves undefined; the value
here is then the 32-bit truncation of the mathematical result. -/
def mask (size : Nat) : Int128 :=
  (((2 ^ (8 * size) % 2 ^ 32 + 2 ^ 32 - 1) % 2 ^ 32 : Nat) : Int)

/-- Outcome tag of the checked operations (`Int128::CheckedArithmeticResult`). -/
inductive CheckedArithmeticResult
  | Success
  | OverflowError
  | DivideByZeroError
  deriving DecidableEq, Repr

/-- The operations on literal values that the reducer calls and that are not
among the sources; the embedded functions take them as given. -/
structure LiteralOperations where
  applyIntegerArithmeticOp : BinaryOperatorKind → Int128 → Int128 → CheckedArithmeticResult × Int128
  applyIntegerComparisonOp : BinaryOperatorKind → Int128 → Int128 → Bool
  applyBooleanComparisonOp : BinaryOperatorKind → Bool → Bool → Bool
  logicalLeftShift : Int128 → Nat → Int128
  logicalRightShift : Int128 → Nat → Int128
  lor : Int128 → Int128 → Int128
  getBit : Int128 → Nat → Bool

/-- The builtin definitions fetched by the reducer: `iexpr` (inherited), `bool`,
`u8` and `range`. -/
structure ReducerBuiltins extends Builtins where
  bool : Definition
  u8 : Definition
  range : Definition

/-- What a reducer function hands back: the returned expression (`none` for a
null pointer) and the messages passed to `report->error`, in order. -/
abbrev Reduced := Option Expression × List String

/-- A returned expression, no message. -/
def Reduced.ok (expression : Expression) : Reduced := (some expression, [])

/-- One call of `report->error` followed by `return nullptr`. -/
def Reduced.error (message : String) : Reduced := (none, [message])

/-- A path on which the source calls `std::abort` or reads through a wrong
variant: nothing is returned and nothing is reported. -/
def Reduced.aborted : Reduced := (none, [])

/-- Position of a context in the order CompileTime < LinkTime < RunTime. -/
def EvaluationContext.rank : EvaluationContext → Nat
  | .CompileTime => 0
  | .LinkTime => 1
  | .RunTime => 2

/-- The larger of two contexts in the order CompileTime < LinkTime < RunTime. -/
def EvaluationContext.max (a b : EvaluationContext) : EvaluationContext :=
  if a.rank < b.rank then b else a

/-- `Qualifiers::intersect<LValue, Const, WriteOnly, Far>`. -/
def Qualifiers.intersectValue (q : Qualifiers) : Qualifiers :=
  { isConst := q.isConst, writeOnly := q.writeOnly, far := q.far, lvalue := q.lvalue }

/-- `Qualifiers::intersect<Const, WriteOnly, Far>`. -/
def Qualifiers.intersectPointer (q : Qualifiers) : Qualifiers :=
  { isConst := q.isConst, writeOnly := q.writeOnly, far := q.far }

/-- `Qualifiers::intersect<Const, WriteOnly>`. -/
def Qualifiers.intersectAccess (q : Qualifiers) : Qualifiers :=
  { isConst := q.isConst, writeOnly := q.writeOnly }

/-- `Qualifiers::include`: the union of two qualifier sets. -/
def Qualifiers.include (q r : Qualifiers) : Qualifiers :=
  { isConst := q.isConst || r.isConst, writeOnly := q.writeOnly || r.writeOnly,
    isExtern := q.isExtern || r.isExtern, far := q.far || r.far, lvalue := q.lvalue || r.lvalue }

/-- The message "<operator> is not defined between provided operand types". -/
def notDefinedMessage : String := "operator is not defined between provided operand types"

/-! ## Expression reducer: binary operators -/

/-- Embedding of `Compiler::findCompatibleBinaryArithmeticExpressionType`. -/
def findCompatibleBinaryArithmeticExpressionType (left right : Expression) : Option TypeExpression :=
  match tryGetResolvedIdentifierTypeDefinition left.info.type,
      tryGetResolvedIdentifierTypeDefinition right.info.type with
  | some leftDefinition, some rightDefinition =>
    if isIntegerType left.info.type && isIntegerType right.info.type then
      if leftDefinition.ptrEq rightDefinition then some left.info.type
      else
        let leftNarrows : Bool :=
          match leftDefinition, rightDefinition with
          | .BuiltinIntegerExpressionType _, .BuiltinIntegerType _ _ _ _ =>
            canNarrowIntegerExpression left rightDefinition
          | _, _ => false
        if leftNarrows then some right.info.type
        else
          let rightNarrows : Bool :=
            match rightDefinition, leftDefinition with
            | .BuiltinIntegerExpressionType _, .BuiltinIntegerType _ _ _ _ =>
              canNarrowIntegerExpression right leftDefinition
            | _, _ => false
          if rightNarrows then some left.info.type else none
    else none
  | _, _ => none

/-- The range test of the `Success` case of `simplifyBinaryArithmeticExpression`:
the value lies outside a sized builtin result type. -/
def outsideResultType (resultType : TypeExpression) (value : Int128) : Bool :=
  match tryGetResolvedIdentifierTypeDefinition resultType with
  | some (.BuiltinIntegerType _ _ min max) => decide (value < min) || decide (value > max)
  | _ => false

/-- Embedding of `Compiler::simplifyBinaryArithmeticExpression`. -/
def simplifyBinaryArithmeticExpression (operations : LiteralOperations) (op : BinaryOperatorKind)
    (left right : Expression) : Reduced :=
  match findCompatibleBinaryArithmeticExpressionType left right with
  | some resultType =>
    let leftContext := left.info.context
    let rightContext := right.info.context
    if leftContext = .RunTime ∨ rightContext = .RunTime then
      Reduced.ok (.mk (.BinaryOperator op left right) ⟨.RunTime, resultType, {}⟩)
    else if leftContext = .LinkTime ∨ rightContext = .LinkTime then
      Reduced.ok (.mk (.BinaryOperator op left right) ⟨.LinkTime, resultType, {}⟩)
    else
      match left.variant, right.variant with
      | .IntegerLiteral leftValue, .IntegerLiteral rightValue =>
        let result := operations.applyIntegerArithmeticOp op leftValue rightValue
        match result.1 with
        | .Success =>
          if outsideResultType resultType result.2 then
            Reduced.error "operator resulted in value outside valid range"
          else
            Reduced.ok (.mk (.IntegerLiteral result.2) ⟨.CompileTime, resultType, {}⟩)
        | .OverflowError => Reduced.error "operator resulted in overflow"
        | .DivideByZeroError => Reduced.error "operator by zero"
      | _, _ => Reduced.aborted
  | none => Reduced.error notDefinedMessage

/-- The boolean literal node built by the logical and comparison simplifiers. -/
def booleanLiteralExpression (builtins : ReducerBuiltins) (value : Bool) : Expression :=
  .mk (.BooleanLiteral value) ⟨.CompileTime, .ResolvedIdentifier builtins.bool, {}⟩

/-- The variant test `tryGet<Expression::BooleanLiteral>`. -/
def tryGetBooleanLiteral (expression : Expression) : Option Bool :=
  match expression.variant with
  | .BooleanLiteral value => some value
  | _ => none

/-- The operators accepted by `simplifyBinaryLogicalExpression`. -/
def isValidLogicalOperator : BinaryOperatorKind → Bool
  | .LogicalAnd => true
  | .LogicalOr => true
  | .BitwiseAnd => true
  | .BitwiseOr => true
  | .BitwiseXor => true
  | _ => false

/-- Embedding of `Compiler::simplifyBinaryLogicalExpression`. -/
def simplifyBinaryLogicalExpression (builtins : ReducerBuiltins) (op : BinaryOperatorKind)
    (left right : Expression) : Reduced :=
  if isBooleanType left.info.type && isBooleanType right.info.type && isValidLogicalOperator op then
    let leftLiteral := tryGetBooleanLiteral left
    let rightLiteral := tryGetBooleanLiteral right
    let isRuntime : Bool := decide (left.info.context = .RunTime) || decide (right.info.context = .RunTime)
    let node : Reduced :=
      Reduced.ok (.mk (.BinaryOperator op left right)
        ⟨if isRuntime then .RunTime else .LinkTime, .ResolvedIdentifier builtins.bool, {}⟩)
    match leftLiteral, rightLiteral with
    | some leftValue, some rightValue =>
      match op with
      | .LogicalAnd => Reduced.ok (booleanLiteralExpression builtins (leftValue && rightValue))
      | .LogicalOr => Reduced.ok (booleanLiteralExpression builtins (leftValue || rightValue))
      | .BitwiseAnd => Reduced.ok (booleanLiteralExpression builtins (leftValue && rightValue))
      | .BitwiseOr => Reduced.ok (booleanLiteralExpression builtins (leftValue || rightValue))
      | .BitwiseXor => Reduced.ok (booleanLiteralExpression builtins (leftValue != rightValue))
      | _ => Reduced.aborted
    | _, _ =>
      if op = .LogicalAnd then
        if leftLiteral = some false ∨ rightLiteral = some false then
          Reduced.ok (booleanLiteralExpression builtins false)
        else if leftLiteral = some true then (some right, [])
        else if rightLiteral = some true then (some left, [])
        else node
      else if op = .LogicalOr then
        if leftLiteral = some true ∨ rightLiteral = some true then
          Reduced.ok (booleanLiteralExpression builtins true)
        else if leftLiteral = some false then (some right, [])
        else if rightLiteral = some false then (some left, [])
        else node
      else node
  else Reduced.error notDefinedMessage

/-- Embedding of `Compiler::simplifyBinaryRotateExpression`. A result type of
size 0 makes the source take a remainder by zero; the bit count is left
unchanged here. -/
def simplifyBinaryRotateExpression (operations : LiteralOperations) (op : BinaryOperatorKind)
    (left right : Expression) : Reduced :=
  match findCompatibleBinaryArithmeticExpressionType left right with
  | some resultType =>
    match tryGetResolvedIdentifierTypeDefinition resultType with
    | some (.BuiltinIntegerType _ size _ _) =>
      let leftContext := left.info.context
      let rightContext := right.info.context
      if leftContext = .RunTime ∨ rightContext = .RunTime then
        Reduced.ok (.mk (.BinaryOperator op left right) ⟨.RunTime, resultType, {}⟩)
      else if leftContext = .LinkTime ∨ rightContext = .LinkTime then
        Reduced.ok (.mk (.BinaryOperator op left right) ⟨.LinkTime, resultType, {}⟩)
      else
        match left.variant, right.variant with
        | .IntegerLiteral value, .IntegerLiteral rightValue =>
          let bits : Nat :=
            (if rightValue ≥ (SIZE_MAX : Int) then SIZE_MAX else Int128.toUnsigned 64 rightValue)
              % wrapSize (8 * size)
          let remaining : Nat := wrapSize (8 * size) - bits
          match op with
          | .LeftRotate =>
            Reduced.ok (.mk
              (.IntegerLiteral (operations.lor (operations.logicalLeftShift value bits)
                (operations.logicalRightShift value remaining)))
              ⟨.CompileTime, resultType, {}⟩)
          | .RightRotate =>
            Reduced.ok (.mk
              (.IntegerLiteral (operations.lor (operations.logicalRightShift value bits)
                (operations.logicalLeftShift value remaining)))
              ⟨.CompileTime, resultType, {}⟩)
          | _ => Reduced.aborted
        | _, _ => Reduced.aborted
    | _ => Reduced.error notDefinedMessage
  | none => Reduced.error notDefinedMessage

/-- The three-way split on the operand contexts shared by the two halves of
`simplifyBinaryComparisonExpression`; `folded` is the compile-time result. -/
def comparisonResult (builtins : ReducerBuiltins) (op : BinaryOperatorKind) (left right : Expression)
    (folded : Option Bool) : Reduced :=
  let leftContext := left.info.context
  let rightContext := right.info.context
  if leftContext = .RunTime ∨ rightContext = .RunTime then
    Reduced.ok (.mk (.BinaryOperator op left right) ⟨.RunTime, .ResolvedIdentifier builtins.bool, {}⟩)
  else if leftContext = .LinkTime ∨ rightContext = .LinkTime then
    Reduced.ok (.mk (.BinaryOperator op left right) ⟨.LinkTime, .ResolvedIdentifier builtins.bool, {}⟩)
  else
    match folded with
    | some result => Reduced.ok (booleanLiteralExpression builtins result)
    | none => Reduced.aborted

/-- Embedding of `Compiler::simplifyBinaryComparisonExpression`. -/
def simplifyBinaryComparisonExpression (operations : LiteralOperations) (builtins : ReducerBuiltins)
    (op : BinaryOperatorKind) (left right : Expression) : Reduced :=
  match findCompatibleBinaryArithmeticExpressionType left right with
  | some _ =>
    comparisonResult builtins op left right
      (match left.variant, right.variant with
       | .IntegerLiteral leftValue, .IntegerLiteral rightValue =>
         some (operations.applyIntegerComparisonOp op leftValue rightValue)
       | _, _ => none)
  | none =>
    if isBooleanType left.info.type && isBooleanType right.info.type then
      comparisonResult builtins op left right
        (match left.variant, right.variant with
         | .BooleanLiteral leftValue, .BooleanLiteral rightValue =>
           some (operations.applyBooleanComparisonOp op leftValue rightValue)
         | _, _ => none)
    else Reduced.error notDefinedMessage


/-- Embedding of `Compiler::findCompatibleAssignmentType` (null arguments are
excluded by the types). -/
def findCompatibleAssignmentType (platform : Platform) (initializer : Expression)
    (declarationType : TypeExpression) : Option TypeExpression :=
  if canNarrowExpression platform initializer declarationType then
    match initializer.info.type, declarationType with
    | .Array _ sourceSize, .Array _ destinationSize =>
      if arraySizesDiffer sourceSize destinationSize then none else some declarationType
    | _, _ => some declarationType
  else none

/-- Embedding of `Compiler::findCompatibleConcatenationExpressionType`. The
third test reads the left operand again, as the source does. -/
def findCompatibleConcatenationExpressionType (platform : Platform) (left right : Expression) :
    Option TypeExpression :=
  match left.info.type, right.info.type with
  | .Array leftElementType _, .Array rightElementType _ =>
    if isTypeEquivalent platform leftElementType rightElementType then some left.info.type
    else
      match left.variant with
      | .ArrayLiteral items =>
        if items.all (fun item => canNarrowExpression platform item rightElementType) then
          some right.info.type
        else if items.all (fun item => canNarrowExpression platform item leftElementType) then
          some left.info.type
        else none
      | _ => none
  | _, _ => none

/-- Embedding of `Compiler::createStringLiteralExpression`. -/
def createStringLiteralExpression (builtins : ReducerBuiltins) (data : List Nat) : Expression :=
  .mk (.StringLiteral data)
    ⟨.CompileTime, .Array (.ResolvedIdentifier builtins.u8) (some (data.length : Int)), {}⟩

/-- The conversion `static_cast<std::uint8_t>(item->variant.get<IntegerLiteral>().value)`
of the concatenation loops; an item that is not an integer literal has no byte. -/
def integerLiteralByte (item : Expression) : Option Nat :=
  match item.variant with
  | .IntegerLiteral value => some (Int128.toUnsigned 8 value)
  | _ => none

/-- The `Concatenation` case of the binary operator switch. A string joined
with an array item that is not an integer literal, or an item without a
converted form, is read through a wrong variant or a null pointer in the
source. -/
def reduceConcatenation (platform : Platform) (builtins : ReducerBuiltins) (left right : Expression) :
    Reduced :=
  match findCompatibleConcatenationExpressionType platform left right with
  | some resultType =>
    match left.variant, right.variant with
    | .StringLiteral leftValue, .ArrayLiteral rightItems =>
      match allSome (rightItems.map integerLiteralByte) with
      | some rightBytes => Reduced.ok (createStringLiteralExpression builtins (leftValue ++ rightBytes))
      | none => Reduced.aborted
    | .ArrayLiteral leftItems, .StringLiteral rightValue =>
      match allSome (leftItems.map integerLiteralByte) with
      | some leftBytes => Reduced.ok (createStringLiteralExpression builtins (leftBytes ++ rightValue))
      | none => Reduced.aborted
    | .StringLiteral leftValue, .StringLiteral rightValue =>
      Reduced.ok (createStringLiteralExpression builtins (leftValue ++ rightValue))
    | .ArrayLiteral leftItems, .ArrayLiteral rightItems =>
      match resultType with
      | .Array elementType _ =>
        match allSome ((leftItems ++ rightItems).map
            (fun item => createConvertedExpression platform item elementType)) with
        | some reducedItems => Reduced.ok (createArrayLiteralExpression reducedItems elementType)
        | none => Reduced.aborted
      | _ => Reduced.aborted
    | _, _ => Reduced.error "operator is only defined between compile-time array literals"
  | none => Reduced.error notDefinedMessage

/-- The `Assignment` case of the binary operator switch. A right-hand side
without a converted form would be stored as a null operand; nothing is
returned here then. -/
def reduceAssignment (platform : Platform) (op : BinaryOperatorKind) (left right : Expression) :
    Reduced :=
  if !left.info.qualifiers.lvalue then
    Reduced.error "left-hand side of assignment `=` must be valid L-value"
  else if left.info.qualifiers.isConst then
    Reduced.error "left-hand side of assignment `=` cannot be `const`"
  else
    match findCompatibleAssignmentType platform right left.info.type with
    | some resultType =>
      match createConvertedExpression platform right resultType with
      | some converted =>
        Reduced.ok (.mk (.BinaryOperator op left converted) ⟨.RunTime, resultType, left.info.qualifiers⟩)
      | none => Reduced.aborted
    | none => Reduced.error "left-hand side cannot be assigned expression"

/-- The with-carry case of the binary operator switch ("Run-time arithmetic"). -/
def reduceRunTimeArithmetic (op : BinaryOperatorKind) (left right : Expression) : Reduced :=
  match findCompatibleBinaryArithmeticExpressionType left right with
  | some resultType => Reduced.ok (.mk (.BinaryOperator op left right) ⟨.RunTime, resultType, {}⟩)
  | none => Reduced.error notDefinedMessage

/-- The bounds checks and the item fetch shared by the array literal and tuple
literal branches of the `Indexing` case. -/
def indexLiteralItems (items : List Expression) (indexValue : Int128) (lengthMessage : String) : Reduced :=
  if indexValue < 0 then Reduced.error "indexing by negative integer"
  else if indexValue ≥ (items.length : Int) then Reduced.error lengthMessage
  else
    match items[Int128.toUnsigned 64 indexValue]? with
    | some item => Reduced.ok item
    | none => Reduced.aborted

/-- The indirection of a masked address literal built by the `Indexing` case for
an array at a known address. -/
def indexedAddressExpression (platform : Platform) (left : Expression) (elementType : TypeExpression)
    (address indexValue : Int128) (elementSize : Nat) : Expression :=
  let qualifiers := left.info.qualifiers.intersectValue
  let addressType := TypeExpression.Pointer elementType left.info.qualifiers.intersectPointer
  let pointerSize := if left.info.qualifiers.far then platform.farPointerSize else platform.pointerSize
  .mk (.UnaryOperator .Indirection
      (.mk (.IntegerLiteral (Int128.land (address + indexValue * (elementSize : Int)) (mask pointerSize)))
        ⟨.CompileTime, addressType, {}⟩))
    ⟨.RunTime, elementType, qualifiers⟩

/-- The compile-time branches of the `Indexing` case for a left operand of array
type and an integer literal index; `none` when control falls through to the
run-time node. The messages of `calculateStorageSize` are not recorded. -/
def reduceArrayIndexing (platform : Platform) (builtins : ReducerBuiltins) (left : Expression)
    (elementType : TypeExpression) (indexValue : Int128) : Option Reduced :=
  match left.variant with
  | .ArrayLiteral items =>
    some (indexLiteralItems items indexValue "indexing exceeds array length")
  | .StringLiteral stringLiteral =>
    some (
      if indexValue < 0 then Reduced.error "indexing by negative integer"
      else if indexValue ≥ (stringLiteral.length : Int) then Reduced.error "indexing exceeds array length"
      else
        match stringLiteral[Int128.toUnsigned 64 indexValue]? with
        | some c =>
          Reduced.ok (.mk (.IntegerLiteral (Int128.toUnsigned 8 (c : Int) : Int))
            ⟨.CompileTime, .ResolvedIdentifier builtins.iexpr, {}⟩)
        | none => Reduced.aborted)
  | .ResolvedIdentifier (.Var _ (some ⟨_, some absolutePosition⟩)) _ =>
    match calculateStorageSize platform elementType with
    | some elementSize =>
      some (Reduced.ok
        (indexedAddressExpression platform left elementType (absolutePosition : Int) indexValue elementSize))
    | none => none
  | .IntegerLiteral addressValue =>
    match calculateStorageSize platform elementType with
    | some elementSize =>
      some (Reduced.ok (indexedAddressExpression platform left elementType addressValue indexValue elementSize))
    | none => none
  | _ => none

/-- The `Indexing` case of the binary operator switch. -/
def reduceIndexing (platform : Platform) (builtins : ReducerBuiltins) (op : BinaryOperatorKind)
    (left right : Expression) : Reduced :=
  if isIntegerType right.info.type then
    let qualifiers := left.info.qualifiers.intersectValue
    match left.info.type with
    | .Array elementType _ =>
      let folded : Option Reduced :=
        match right.variant with
        | .IntegerLiteral indexValue => reduceArrayIndexing platform builtins left elementType indexValue
        | _ => none
      match folded with
      | some result => result
      | none => Reduced.ok (.mk (.BinaryOperator op left right) ⟨.RunTime, elementType, qualifiers⟩)
    | .Tuple _ =>
      match left.variant, right.variant with
      | .TupleLiteral items, .IntegerLiteral indexValue =>
        indexLiteralItems items indexValue "indexing exceeds tuple length"
      | _, _ => Reduced.error "tuple index must be a compile-time integer literal"
    | .Pointer elementType pointerQualifiers =>
      Reduced.ok (.mk (.BinaryOperator op left right)
        ⟨.RunTime, elementType,
          Qualifiers.include { lvalue := true } pointerQualifiers.intersectPointer⟩)
    | leftType =>
      match tryGetResolvedIdentifierTypeDefinition leftType with
      | some (.BuiltinRangeType _) =>
        match tryGetSequenceLiteralLength left with
        | some length =>
          match right.variant with
          | .IntegerLiteral indexValue =>
            if indexValue < 0 then Reduced.error "indexing by negative integer"
            else if indexValue ≥ (length : Int) then Reduced.error "indexing exceeds range length"
            else (getSequenceLiteralItem builtins.toBuiltins left (Int128.toUnsigned 64 indexValue), [])
          | _ => Reduced.error "range index must be a compile-time integer literal"
        | none => Reduced.error "range must known at compile-time"
      | _ => Reduced.error notDefinedMessage
  else Reduced.error notDefinedMessage

/-- The `BitIndexing` case of the binary operator switch. -/
def reduceBitIndexing (operations : LiteralOperations) (builtins : ReducerBuiltins)
    (op : BinaryOperatorKind) (left right : Expression) : Reduced :=
  match findCompatibleBinaryArithmeticExpressionType left right with
  | some _ =>
    let leftContext := left.info.context
    let rightContext := right.info.context
    let resultType := TypeExpression.ResolvedIdentifier builtins.bool
    if leftContext = .RunTime ∨ rightContext = .RunTime then
      Reduced.ok (.mk (.BinaryOperator op left right) ⟨.RunTime, resultType, left.info.qualifiers⟩)
    else if leftContext = .LinkTime ∨ rightContext = .LinkTime then
      Reduced.ok (.mk (.BinaryOperator op left right) ⟨.LinkTime, resultType, left.info.qualifiers⟩)
    else
      match left.variant, right.variant with
      | .IntegerLiteral leftValue, .IntegerLiteral rightValue =>
        let bits : Nat :=
          if rightValue > (SIZE_MAX : Int) then SIZE_MAX else Int128.toUnsigned 64 rightValue
        Reduced.ok (.mk (.BooleanLiteral (operations.getBit leftValue bits)) ⟨.CompileTime, resultType, {}⟩)
      | _, _ => Reduced.aborted
  | none => Reduced.error notDefinedMessage

/-- The `writeonly` checks made on the reduced operands before the switch;
the message reported, if any. -/
def writeOnlyOperandError (op : BinaryOperatorKind) (left right : Expression) : Option String :=
  if op = .Indexing ∨ op = .BitIndexing then
    if right.info.qualifiers.writeOnly then some "subscript cannot be `writeonly`" else none
  else if op = .Assignment then
    if right.info.qualifiers.writeOnly then some "right-hand side of assignment `=` cannot be `writeonly`"
    else none
  else if left.info.qualifiers.writeOnly || right.info.qualifiers.writeOnly then
    some "operand cannot be `writeonly`"
  else none

/-- The switch over the operator in the `BinaryOperator` case of
`Compiler::reduceExpression`, on the reduced operands. -/
def reduceBinaryOperatorSwitch (platform : Platform) (operations : LiteralOperations)
    (builtins : ReducerBuiltins) (op : BinaryOperatorKind) (left right : Expression) : Reduced :=
  match op with
  | .None => Reduced.aborted
  | .Assignment => reduceAssignment platform op left right
  | .AdditionWithCarry | .SubtractionWithCarry | .LeftRotateWithCarry | .RightRotateWithCarry =>
    reduceRunTimeArithmetic op left right
  | .Addition | .BitwiseAnd | .BitwiseOr | .BitwiseXor | .Division | .Modulo | .Multiplication
  | .LeftShift | .RightShift | .Subtraction | .LogicalLeftShift | .LogicalRightShift =>
    if isBooleanType left.info.type && isBooleanType right.info.type then
      simplifyBinaryLogicalExpression builtins op left right
    else
      simplifyBinaryArithmeticExpression operations op left right
  | .Concatenation => reduceConcatenation platform builtins left right
  | .LeftRotate | .RightRotate => simplifyBinaryRotateExpression operations op left right
  | .Indexing => reduceIndexing platform builtins op left right
  | .BitIndexing => reduceBitIndexing operations builtins op left right
  | .Equal | .GreaterThan | .GreaterThanOrEqual | .NotEqual | .LessThan | .LessThanOrEqual =>
    simplifyBinaryComparisonExpression operations builtins op left right
  | .LogicalAnd | .LogicalOr => simplifyBinaryLogicalExpression builtins op left right

/-- The `BinaryOperator` case of `Compiler::reduceExpression`, given the results
of reducing the two operands. -/
def reduceBinaryOperator (platform : Platform) (operations : LiteralOperations)
    (builtins : ReducerBuiltins) (op : BinaryOperatorKind) (reducedLeft reducedRight : Reduced) :
    Reduced :=
  match reducedLeft.1, reducedRight.1 with
  | some left, some right =>
    match writeOnlyOperandError op left right with
    | some message => (none, reducedLeft.2 ++ reducedRight.2 ++ [message])
    | none =>
      let result := reduceBinaryOperatorSwitch platform operations builtins op left right
      (result.1, reducedLeft.2 ++ reducedRight.2 ++ result.2)
  | _, _ => (none, reducedLeft.2 ++ reducedRight.2)


/-! ## Expression reducer: addresses, members and byte access -/

/-- The properties looked up by `builtins.findPropertyByName`. -/
inductive Property
  | None
  | Len
  | MinValue
  | MaxValue
  deriving DecidableEq, Repr

/-- The parts of the compiler state that the address and member reducers
consult and that are not embedded: the reducer itself (called again on an
operand), the member scope of a struct, the property table, and the builtin
integer types returned by `getPointerSizedType()` and
`getFarPointerSizedType()`. -/
structure ReducerCollaborators where
  reduceExpression : Expression → Reduced
  findLocalMemberDefinition : Definition → String → Option StructMember
  findPropertyByName : String → Property
  pointerSizedType : Definition
  farPointerSizedType : Definition

/-- The absolute position of an address, when the address and the position
are both present. -/
def knownAbsolutePosition (address : Option Address) : Option Nat :=
  match address with
  | some ⟨_, some absolutePosition⟩ => some absolutePosition
  | _ => none

/-- The `AddressOf` / `FarAddressOf` case of the unary operator switch of
`Compiler::reduceExpression`, on the reduced operand. -/
def reduceAddressOf (platform : Platform) (op : UnaryOperatorKind) (operand : Expression) : Reduced :=
  let isFar : Bool := decide (op = .FarAddressOf)
  let cannotBeUsed : Reduced := Reduced.error "operator cannot be used on provided expression"
  match operand.variant with
  | .UnaryOperator nestedOp nestedOperand =>
    if nestedOp = .Indirection then
      match nestedOperand.info.type with
      | .Pointer _ pointerQualifiers =>
        (some nestedOperand,
          if pointerQualifiers.far != isFar then ["operator is not defined for provided operand type"]
          else [])
      | _ => cannotBeUsed
    else cannotBeUsed
  | .BinaryOperator binaryOp left right =>
    if binaryOp = .Indexing then
      let context := if right.info.context = .RunTime then right.info.context else left.info.context
      let messages : List String :=
        match left.info.type with
        | .Pointer _ pointerQualifiers =>
          if pointerQualifiers.far != isFar then ["operator is not defined for provided operand type"]
          else []
        | _ => []
      (some (.mk (.UnaryOperator op operand) ⟨context, .Pointer operand.info.type {}, {}⟩), messages)
    else cannotBeUsed
  | .ResolvedIdentifier definition _ =>
    let pointerSize := if isFar then platform.farPointerSize else platform.pointerSize
    let farQualifier : Qualifiers := if isFar then { far := true } else {}
    match definition with
    | .Var _ address =>
      let resultType :=
        TypeExpression.Pointer operand.info.type
          (Qualifiers.include operand.info.qualifiers.intersectAccess farQualifier)
      match knownAbsolutePosition address with
      | some absolutePosition =>
        Reduced.ok (.mk (.IntegerLiteral (Int128.land (absolutePosition : Int) (mask pointerSize)))
          ⟨.CompileTime, resultType, farQualifier⟩)
      | none => Reduced.ok (.mk (.UnaryOperator op operand) ⟨.LinkTime, resultType, farQualifier⟩)
    | .Func _ _ inlined address =>
      if inlined then Reduced.error "an `inline func` has no address that can be taken"
      else
        let resultType :=
          TypeExpression.Pointer operand.info.type (Qualifiers.include { isConst := true } farQualifier)
        match knownAbsolutePosition address with
        | some absolutePosition =>
          Reduced.ok (.mk (.IntegerLiteral (Int128.land (absolutePosition : Int) (mask pointerSize)))
            ⟨.CompileTime, resultType, farQualifier⟩)
        | none => Reduced.ok (.mk (.UnaryOperator op operand) ⟨.LinkTime, resultType, farQualifier⟩)
    | _ => cannotBeUsed
  | _ => cannotBeUsed

/-- The variant test `resultType->variant.is<TypeExpression::Array>()`. -/
def isArrayType : TypeExpression → Bool
  | .Array _ _ => true
  | _ => false

/-- Embedding of `Compiler::simplifyIndirectionOffsetExpression`. The address-of
node of the last branch is reduced by the reducer: its operand is reduced
again and handed to the address-of case. -/
def simplifyIndirectionOffsetExpression (platform : Platform) (builtins : ReducerBuiltins)
    (collaborators : ReducerCollaborators) (resultType : TypeExpression) (expression : Expression)
    (context : EvaluationContext) (absolutePosition : Option Int128) (offset : Int128) : Reduced :=
  let qualifiers := expression.info.qualifiers.intersectValue
  let addressType := TypeExpression.Pointer resultType qualifiers.intersectPointer
  let iexpr := TypeExpression.ResolvedIdentifier builtins.iexpr
  match absolutePosition with
  | some position =>
    if isArrayType resultType then
      Reduced.ok (.mk (.IntegerLiteral (position + offset)) ⟨.CompileTime, resultType, qualifiers⟩)
    else
      Reduced.ok (.mk
        (.UnaryOperator .Indirection
          (.mk (.IntegerLiteral (position + offset)) ⟨.CompileTime, addressType, {}⟩))
        ⟨.RunTime, resultType, qualifiers⟩)
  | none =>
    if isArrayType resultType then
      Reduced.ok (.mk
        (.BinaryOperator .Addition expression (.mk (.IntegerLiteral offset) ⟨.CompileTime, iexpr, {}⟩))
        ⟨context, resultType, qualifiers⟩)
    else
      let pointerSizedType :=
        TypeExpression.ResolvedIdentifier
          (if qualifiers.far then collaborators.farPointerSizedType else collaborators.pointerSizedType)
      let addressOfOp := if qualifiers.far then UnaryOperatorKind.FarAddressOf else UnaryOperatorKind.AddressOf
      let reducedOperand := collaborators.reduceExpression expression
      match reducedOperand.1 with
      | none => (none, reducedOperand.2)
      | some operand =>
        let reducedAddressOf := reduceAddressOf platform addressOfOp operand
        match reducedAddressOf.1 with
        | none => (none, reducedOperand.2 ++ reducedAddressOf.2)
        | some address =>
          (some (.mk
            (.UnaryOperator .Indirection
              (.mk
                (.Cast
                  (.mk
                    (.BinaryOperator .Addition
                      (.mk (.Cast address pointerSizedType) ⟨context, pointerSizedType, {}⟩)
                      (.mk (.IntegerLiteral offset) ⟨.CompileTime, iexpr, {}⟩))
                    ⟨context, pointerSizedType, {}⟩)
                  addressType)
                ⟨context, addressType, {}⟩))
            ⟨.RunTime, resultType, qualifiers⟩), reducedOperand.2 ++ reducedAddressOf.2)

/-- The analysis shared by `resolveValueMemberExpression` and the byte access
operators: whether the access is lowered to an indirection, in which context,
and at which known position. -/
def indirectionTarget (expression : Expression) : Option (EvaluationContext × Option Int128) :=
  match expression.variant with
  | .ResolvedIdentifier (.Var _ address) _ =>
    some (expression.info.context,
      match knownAbsolutePosition address with
      | some absolutePosition => some (absolutePosition : Int)
      | none => none)
  | .UnaryOperator .Indirection operand =>
    some (operand.info.context,
      match operand.variant with
      | .IntegerLiteral value => some value
      | _ => none)
  | .BinaryOperator .Indexing _ _ => some (expression.info.context, none)
  | _ => none

/-- The value of the item named `name` in the item map of a struct literal. -/
def findStructLiteralItem (items : List (String × Expression)) (name : String) : Option Expression :=
  match items.find? (fun item => item.1 == name) with
  | some item => some item.2
  | none => none

/-- The body of `Compiler::resolveValueMemberExpression`; `typeExpression` is
`expression->info->type`, on which the pointer branch recurses. A member
without resolved type or offset, a struct literal without the item, and an
array type without length are read through null or empty values in the
source. -/
def resolveValueMemberExpressionOf (platform : Platform) (builtins : ReducerBuiltins)
    (collaborators : ReducerCollaborators) :
    TypeExpression → Expression → String → Reduced
  | .Pointer elementType pointerQualifiers, expression, name =>
    let qualifiers := Qualifiers.include { lvalue := true } pointerQualifiers.intersectPointer
    let indirection : Expression :=
      .mk (.UnaryOperator .Indirection expression) ⟨.RunTime, elementType, qualifiers⟩
    resolveValueMemberExpressionOf platform builtins collaborators elementType indirection name
  | typeExpression, expression, name =>
    let noField : Reduced := Reduced.error "type has no field named"
    match tryGetResolvedIdentifierTypeDefinition typeExpression with
    | some resolvedTypeIdentifier =>
      match resolvedTypeIdentifier with
      | .Struct _ _ _ _ =>
        match collaborators.findLocalMemberDefinition resolvedTypeIdentifier name with
        | some structMemberDefinition =>
          match structMemberDefinition.resolvedType, structMemberDefinition.offset with
          | some resultType, some memberOffset =>
            match expression.variant with
            | .StructLiteral _ items =>
              match findStructLiteralItem items name with
              | some value => Reduced.ok value
              | none => Reduced.aborted
            | _ =>
              match indirectionTarget expression with
              | some (context, absolutePosition) =>
                simplifyIndirectionOffsetExpression platform builtins collaborators resultType expression
                  context absolutePosition (memberOffset : Int)
              | none =>
                Reduced.ok (.mk (.FieldAccess expression structMemberDefinition.name)
                  ⟨.RunTime, resultType, expression.info.qualifiers.intersectValue⟩)
          | _, _ => Reduced.aborted
        | none => noField
      | _ => noField
    | none =>
      match collaborators.findPropertyByName name with
      | .Len =>
        match typeExpression with
        | .Array _ (some sizeValue) =>
          Reduced.ok (.mk (.IntegerLiteral sizeValue)
            ⟨.CompileTime, .ResolvedIdentifier builtins.iexpr, {}⟩)
        | .Array _ none => Reduced.aborted
        | _ =>
          match tryGetSequenceLiteralLength expression with
          | some len =>
            Reduced.ok (.mk (.IntegerLiteral (len : Int))
              ⟨.CompileTime, .ResolvedIdentifier builtins.iexpr, {}⟩)
          | none => (none, ["expression has unknown length", "type has no field named"])
      | _ => noField

/-- Embedding of `Compiler::resolveValueMemberExpression`. -/
def resolveValueMemberExpression (platform : Platform) (builtins : ReducerBuiltins)
    (collaborators : ReducerCollaborators) (expression : Expression) (name : String) : Reduced :=
  resolveValueMemberExpressionOf platform builtins collaborators expression.info.type expression name

/-- Embedding of `Compiler::isEnumType`. -/
def isEnumType (typeExpression : TypeExpression) : Bool :=
  match tryGetResolvedIdentifierTypeDefinition typeExpression with
  | some (.Enum _ _) => true
  | _ => false

/-- Embedding of `Compiler::isPointerLikeType`. -/
def isPointerLikeType : TypeExpression → Bool
  | .Pointer _ _ => true
  | .Function _ _ _ => true
  | _ => false

/-- The byte offset selected by a byte access operator. -/
def byteAccessOffset : UnaryOperatorKind → Option Nat
  | .LowByte => some 0
  | .HighByte => some 1
  | .BankByte => some 2
  | _ => none

/-- The `writeonly` check made on the reduced operand of a unary operator
before the switch over the operator (compiler.cpp 1599-1613); the message
reported, if any. `Indirection`, `Grouping`, `AddressOf`, `FarAddressOf`,
`LowByte` and `HighByte` are exempt; every other operator, `BankByte`
included, rejects a `writeonly` operand. -/
def unaryWriteOnlyOperandError (op : UnaryOperatorKind) (operand : Expression) : Option String :=
  match op with
  | .Indirection | .Grouping | .AddressOf | .FarAddressOf | .LowByte | .HighByte => none
  | _ => if operand.info.qualifiers.writeOnly then some "operand to operator cannot be `writeonly`" else none

/-- The `UnaryOperator` case of `Compiler::reduceExpression` for the operators
`LowByte` / `HighByte` / `BankByte`, on the reduced operand: the `writeonly`
check before the switch, which reports and returns null, then the case of
the switch. The messages of `calculateStorageSize` are not recorded. -/
def reduceByteAccess (platform : Platform) (operations : LiteralOperations) (builtins : ReducerBuiltins)
    (collaborators : ReducerCollaborators) (op : UnaryOperatorKind) (operand : Expression) : Reduced :=
  match unaryWriteOnlyOperandError op operand, byteAccessOffset op with
  | some message, _ => Reduced.error message
  | none, none => Reduced.aborted
  | none, some offset =>
    let sourceType := operand.info.type
    let needsStorageSizeCheck : Bool :=
      match tryGetResolvedIdentifierTypeDefinition sourceType with
      | some typeDefinition => !typeDefinition.ptrEq builtins.iexpr
      | none => true
    let storageSize : Option Nat :=
      if needsStorageSizeCheck then calculateStorageSize platform sourceType else none
    if needsStorageSizeCheck && storageSize.isNone then (none, [])
    else if (!isIntegerType sourceType && !isEnumType sourceType && !isPointerLikeType sourceType)
        || (match storageSize with
            | some size => decide (offset ≥ size)
            | none => false) then
      Reduced.error "operator is not defined for provided operand type"
    else
      let resultType := TypeExpression.ResolvedIdentifier builtins.u8
      let byteOf (value : Int128) : Expression :=
        .mk (.IntegerLiteral (Int128.land (operations.logicalRightShift value (8 * offset)) 0xFF))
          ⟨.CompileTime, resultType, {}⟩
      let node : Reduced :=
        Reduced.ok (.mk (.UnaryOperator op operand) ⟨operand.info.context, resultType, {}⟩)
      match operand.variant with
      | .IntegerLiteral value => Reduced.ok (byteOf value)
      | .ResolvedIdentifier (.Func _ _ inlined address) _ =>
        if inlined then Reduced.error "an `inline func` cannot be used with the operator"
        else
          match knownAbsolutePosition address with
          | some absolutePosition => Reduced.ok (byteOf (absolutePosition : Int))
          | none => node
      | _ =>
        match indirectionTarget operand with
        | some (context, absolutePosition) =>
          simplifyIndirectionOffsetExpression platform builtins collaborators resultType operand
            context absolutePosition (offset : Int)
        | none => node


/-! ## Expression reducer: struct literals -/

/-- The locals of the item loop of the `StructLiteral` case: the map
`reducedItems`, the flag `invalidLiteral`, the running `context`, and the
messages reported so far. -/
structure StructLiteralState where
  reducedItems : List (String × Expression) := []
  invalidLiteral : Bool := false
  context : EvaluationContext := .CompileTime
  messages : List String := []

/-- The assignment `reducedItems[name] = item` on the name-to-item map. -/
def assignItem (items : List (String × Expression)) (name : String) (value : Expression) :
    List (String × Expression) :=
  if items.any (fun item => item.1 == name) then
    items.map (fun item => if item.1 == name then (name, value) else item)
  else items ++ [(name, value)]

/-- The switch on the context of a reduced item value that updates the
context of the literal. -/
def mergeItemContext (context valueContext : EvaluationContext) : EvaluationContext :=
  match valueContext with
  | .CompileTime => context
  | .LinkTime => if context = .CompileTime then valueContext else context
  | .RunTime => if context = .CompileTime ∨ context = .LinkTime then valueContext else context

/-- The loop over the items of the literal in the `StructLiteral` case of
`Compiler::reduceExpression`. The item values are unreduced expressions and
are handed to the reducer. The result is `none` where the source reads the
info of a null converted value. -/
def reduceStructLiteralItems (platform : Platform) (collaborators : ReducerCollaborators)
    (definition : Definition) : List (String × Expression) → StructLiteralState → Option StructLiteralState
  | [], state => some state
  | (name, value) :: rest, state =>
    match collaborators.findLocalMemberDefinition definition name with
    | some structMemberDefinition =>
      let reduced := collaborators.reduceExpression value
      let messages := state.messages ++ reduced.2
      match reduced.1 with
      | some reducedValue =>
        let compatibleInitializerType : Option TypeExpression :=
          match structMemberDefinition.resolvedType with
          | some resolvedType => findCompatibleAssignmentType platform reducedValue resolvedType
          | none => none
        match compatibleInitializerType with
        | some initializerType =>
          match createConvertedExpression platform reducedValue initializerType with
          | some converted =>
            reduceStructLiteralItems platform collaborators definition rest
              { reducedItems := assignItem state.reducedItems name converted
                invalidLiteral := state.invalidLiteral
                context := mergeItemContext state.context converted.info.context
                messages := messages }
          | none => none
        | none =>
          reduceStructLiteralItems platform collaborators definition rest
            { state with messages := messages ++ ["field cannot be initialized with expression"],
                         invalidLiteral := true }
      | none =>
        reduceStructLiteralItems platform collaborators definition rest
          { state with messages := messages, invalidLiteral := true }
    | none =>
      reduceStructLiteralItems platform collaborators definition rest
        { state with messages := state.messages ++ ["type has no field named"], invalidLiteral := true }

/-- The checks made after the item loop: a message for each struct member
without a reduced item, or the message of the union test. -/
def structLiteralCompletenessMessages (kind : StructKind) (members : List String)
    (reducedItems : List (String × Expression)) : List String :=
  match kind with
  | .Struct =>
    members.filterMap (fun member =>
      if reducedItems.any (fun item => item.1 == member) then none
      else some ("missing value for " ++ member))
  | .Union =>
    if members.length ≠ 1 then
      ["literal must use exactly one field because it is a `union`, but fields were given"]
    else []

/-- The `StructLiteral` case of `Compiler::reduceExpression`: `type` and `items`
are the fields of the literal, `reduceTypeExpression` is the type reducer (its
messages are not recorded). -/
def reduceStructLiteral (platform : Platform) (collaborators : ReducerCollaborators)
    (reduceTypeExpression : TypeExpression → Option TypeExpression) (type : TypeExpression)
    (items : List (String × Expression)) : Reduced :=
  match reduceTypeExpression type with
  | none => (none, [])
  | some reducedTypeExpression =>
    match reducedTypeExpression with
    | .ResolvedIdentifier (.Struct id kind size members) =>
      match reduceStructLiteralItems platform collaborators (.Struct id kind size members) items {} with
      | none => Reduced.aborted
      | some state =>
        if state.invalidLiteral then (none, state.messages)
        else
          (some (.mk (.StructLiteral reducedTypeExpression state.reducedItems)
              ⟨state.context, reducedTypeExpression, {}⟩),
            state.messages ++ structLiteralCompletenessMessages kind members state.reducedItems)
    | _ => Reduced.error "struct literal is invalid for non-struct type"


/-! ## Truth values of boolean expressions -/

/-- Truth value of a reduced boolean expression under an assignment of truth
values to the expressions that are neither literals nor `&&` / `||` nodes:
the semantics against which the logical simplifier is checked. -/
def truthValue (assignment : Expression → Bool) : Expression → Bool
  | .mk (.BooleanLiteral value) _ => value
  | .mk (.BinaryOperator .LogicalAnd left right) _ =>
    truthValue assignment left && truthValue assignment right
  | .mk (.BinaryOperator .LogicalOr left right) _ =>
    truthValue assignment left || truthValue assignment right
  | expression => assignment expression

/-! ## Sample collaborators for concrete evaluation -/

/-- A sample of the operations on literal values (exact addition, checked
truncating division, order comparisons), used to evaluate the reducer on
concrete inputs. -/
def sampleOperations : LiteralOperations where
  applyIntegerArithmeticOp := fun op a b =>
    match op with
    | .Addition => (.Success, a + b)
    | .Division => if b = 0 then (.DivideByZeroError, 0) else (.Success, Int.tdiv a b)
    | _ => (.OverflowError, 0)
  applyIntegerComparisonOp := fun op a b =>
    match op with
    | .LessThan => decide (a < b)
    | _ => decide (a = b)
  applyBooleanComparisonOp := fun _ a b => a == b
  logicalLeftShift := fun a n => a * 2 ^ n
  logicalRightShift := fun a n => a / 2 ^ n
  lor := fun a b => Int128.ofUnsigned (Int128.toUnsigned 128 a ||| Int128.toUnsigned 128 b)
  getBit := fun a n => Int128.toUnsigned 128 a / 2 ^ n % 2 == 1

/-- Sample builtin definitions: `iexpr`, `bool`, `u8` and `range`. -/
def sampleBuiltins : ReducerBuiltins where
  iexpr := .BuiltinIntegerExpressionType 0
  bool := .BuiltinBoolType 1
  u8 := .BuiltinIntegerType 2 1 0 255
  range := .BuiltinRangeType 5


/-- A sample program state: the struct `Point` with the members `x` and `y` of
type `u16` at offsets 0 and 2, the union `Value` with the members `low` of
type `u8` and `wide` of type `u16`, pointer-sized types `u16` and `u24`, and
a reducer that returns reduced expressions unchanged. -/
def sampleCollaborators : ReducerCollaborators where
  reduceExpression := fun expression => (some expression, [])
  findLocalMemberDefinition := fun definition name =>
    match definition with
    | .Struct 20 _ _ _ =>
      if name == "x" then
        some { name := "x", typeExpression := .ResolvedIdentifier (.BuiltinIntegerType 3 2 0 65535),
               resolvedType := some (.ResolvedIdentifier (.BuiltinIntegerType 3 2 0 65535)),
               offset := some 0 }
      else if name == "y" then
        some { name := "y", typeExpression := .ResolvedIdentifier (.BuiltinIntegerType 3 2 0 65535),
               resolvedType := some (.ResolvedIdentifier (.BuiltinIntegerType 3 2 0 65535)),
               offset := some 2 }
      else none
    | .Struct 21 _ _ _ =>
      if name == "low" then
        some { name := "low", typeExpression := .ResolvedIdentifier (.BuiltinIntegerType 2 1 0 255),
               resolvedType := some (.ResolvedIdentifier (.BuiltinIntegerType 2 1 0 255)),
               offset := some 0 }
      else if name == "wide" then
        some { name := "wide", typeExpression := .ResolvedIdentifier (.BuiltinIntegerType 3 2 0 65535),
               resolvedType := some (.ResolvedIdentifier (.BuiltinIntegerType 3 2 0 65535)),
               offset := some 0 }
      else none
    | _ => none
  findPropertyByName := fun name => if name == "len" then .Len else .None
  pointerSizedType := .BuiltinIntegerType 3 2 0 65535
  farPointerSizedType := .BuiltinIntegerType 4 3 0 16777215


/-- The sample program state with the union `union Handler { f : far func }`
(handle 23), whose one member has the type of a far function without
parameters. -/
def sampleHandlerCollaborators : ReducerCollaborators :=
  { sampleCollaborators with
    findLocalMemberDefinition := fun definition name =>
      match definition with
      | .Struct 23 _ _ _ =>
        if name == "f" then
          some { name := "f", typeExpression := .Function true [] (.Tuple []),
                 resolvedType := some (.Function true [] (.Tuple [])),
                 offset := some 0 }
        else none
      | _ => none }

/-- The reference to the function `handler` (handle 7, without parameters),
as `resolveDefinitionExpression` returns it while the function has no address
(lines 2149-2165): link-time, with the signature of the function as its type.
`address` is the address of the definition referred to, which the first pass
of `generateCode` sets. -/
def sampleHandlerReference (address : Option Address) : Expression :=
  .mk (.ResolvedIdentifier (.Func 7 "handler" false address) [])
    ⟨.LinkTime, .Function false [] (.Tuple []), {}⟩


/-! ## Context of binary operator nodes -/

/-- The operators whose case in the binary operator switch always builds a
RunTime node: assignment and the with-carry operators. -/
def isRunTimeOperator : BinaryOperatorKind → Bool
  | .Assignment => true
  | .AdditionWithCarry => true
  | .SubtractionWithCarry => true
  | .LeftRotateWithCarry => true
  | .RightRotateWithCarry => true
  | _ => false

/-- Whether the binary operator switch hands the operands to
`simplifyBinaryLogicalExpression`: always for `&&` and `||`, and for the
operators of the arithmetic case when both operands have the boolean type. -/
def usesLogicalSimplifier (op : BinaryOperatorKind) (left right : Expression) : Bool :=
  match op with
  | .LogicalAnd | .LogicalOr => true
  | .Addition | .BitwiseAnd | .BitwiseOr | .BitwiseXor | .Division | .Modulo | .Multiplication
  | .LeftShift | .RightShift | .Subtraction | .LogicalLeftShift | .LogicalRightShift =>
    isBooleanType left.info.type && isBooleanType right.info.type
  | _ => false


/-! ## Expression reducer: range literals, explicit addresses, `let` recursion -/

/-- The variant test `variant.is<Expression::IntegerLiteral>()`. -/
def isIntegerLiteral (expression : Expression) : Bool :=
  match expression.variant with
  | .IntegerLiteral _ => true
  | _ => false

/-- The `RangeLiteral` case of `Compiler::reduceExpression`, given the results
of reducing the start, the end and (when the literal has one) the step. -/
def reduceRangeLiteral (builtins : ReducerBuiltins) (reducedStart reducedEnd : Reduced)
    (reducedStep : Option Reduced) : Reduced :=
  let step : Reduced :=
    match reducedStep with
    | some result => result
    | none =>
      (some (.mk (.IntegerLiteral 1) ⟨.CompileTime, .ResolvedIdentifier builtins.iexpr, {}⟩), [])
  let messages := reducedStart.2 ++ reducedEnd.2 ++ step.2
  match reducedStart.1, reducedEnd.1, step.1 with
  | some startExpression, some endExpression, some stepExpression =>
    if !isIntegerLiteral startExpression then
      (none, messages ++ ["range start must be a compile-time integer literal"])
    else if !isIntegerLiteral endExpression then
      (none, messages ++ ["range end must be a compile-time integer literal"])
    else if !isIntegerLiteral stepExpression then
      (none, messages ++ ["range step must be a compile-time integer literal"])
    else
      (some (.mk (.RangeLiteral startExpression endExpression stepExpression)
        ⟨.CompileTime, .ResolvedIdentifier builtins.range, {}⟩), messages)
  | _, _, _ => (none, messages)

/-- Embedding of `Compiler::resolveExplicitAddressExpression`; `reduceExpression`
is the reducer. The result is the returned `Optional<std::size_t>` and the
messages reported. -/
def resolveExplicitAddressExpression (platform : Platform) (reduceExpression : Expression → Reduced)
    (expression : Option Expression) : Option Nat × List String :=
  match expression with
  | none => (none, [])
  | some addressExpression =>
    let reduced := reduceExpression addressExpression
    match reduced.1 with
    | none => (none, reduced.2)
    | some reducedAddressExpression =>
      match reducedAddressExpression.variant with
      | .IntegerLiteral value =>
        if value < 0 then
          (none, reduced.2 ++ ["address must be a non-negative integer"])
        else
          let addressMax := mask platform.farPointerSize
          if value > addressMax then
            (none, reduced.2 ++ ["address is outside the valid address range supported by this platform"])
          else
            (some (Int128.toUnsigned 64 value), reduced.2)
      | _ => (none, reduced.2 ++ ["address must be a compile-time integer literal"])

/-- The constant `MaxLetRecursionDepth` of the compiler header, which is not
among the sources; the value is the recursion limit that the spec gives. -/
def MaxLetRecursionDepth : Nat := 1024

/-- An entry of `letExpressionStack`: the name of the `let` and the location of
the call (a handle). -/
structure LetExpressionStackItem where
  name : String
  location : Nat
  deriving DecidableEq, Repr

/-- What `enterLetExpression` leaves behind: the returned flag, the stack, the
error messages reported, and whether one of them had the `Fatal` flag. -/
structure LetExpressionEntry where
  entered : Bool
  letExpressionStack : List LetExpressionStackItem
  messages : List String
  fatal : Bool

/-- Embedding of `Compiler::enterLetExpression` (the lines of the stack trace go
to `report->log` and are not recorded). -/
def enterLetExpression (name : String) (location : Nat)
    (letExpressionStack : List LetExpressionStackItem) : LetExpressionEntry :=
  if letExpressionStack.length ≥ MaxLetRecursionDepth then
    { entered := false
      letExpressionStack := letExpressionStack
      messages :=
        ["stack overflow encountered during `let` expression evaluation",
          "internal recursion limit is 1024",
          "stack trace:",
          "stopping compilation due to previous error"]
      fatal := true }
  else
    { entered := true
      letExpressionStack := letExpressionStack ++ [⟨name, location⟩]
      messages := []
      fatal := false }

/-- A chain of nested `let` evaluations: the call of lines 1022-1026 enters the
`let`, and the reduction of its body calls the next `let` of the chain before
the first one is left. `calls` are the names and locations of the calls from
the outermost inwards; the result tells whether every call was entered, and
the stack at the innermost point reached. -/
def enterLetChain : List LetExpressionStackItem → List LetExpressionStackItem →
    Bool × List LetExpressionStackItem
  | [], letExpressionStack => (true, letExpressionStack)
  | call :: rest, letExpressionStack =>
    let entry := enterLetExpression call.name call.location letExpressionStack
    if entry.entered then enterLetChain rest entry.letExpressionStack
    else (false, entry.letExpressionStack)

/-- Modelled from the spec: `Int128::logicalRightShift` (not among the sources)
shifts the 128-bit two's complement representation to the right and fills
with zero bits. -/
def Int128.logicalRightShift (value : Int128) (bits : Nat) : Int128 :=
  Int128.ofUnsigned (Int128.toUnsigned 128 value >>> bits)


/-! ## Attributes and mode flags -/

/-- A compiled attribute: its name and its reduced arguments. -/
structure Attribute where
  name : String
  arguments : List Expression

/-- An entry of the mode attribute table of the builtins: the index of its
mode group. -/
structure ModeAttribute where
  groupIndex : Nat

/-- The mode attribute table of `Builtins`, which is not among the sources:
`findModeAttributeByName` gives the index of a mode attribute or `SIZE_MAX`. -/
structure ModeAttributeTable where
  findModeAttributeByName : String → Nat
  getModeAttribute : Nat → ModeAttribute
  getModeAttributeCount : Nat

/-- The attribute state of the compiler: `modeFlags` (a `std::uint32_t`),
`modeFlagsStack`, `attributeListStack` and `attributeStack`. -/
structure AttributeState where
  modeFlags : Nat
  modeFlagsStack : List Nat
  attributeListStack : List (List Attribute)
  attributeStack : List Attribute

/-- The value `1U << index` of an `unsigned int` (32 bits). -/
def modeBit (index : Nat) : Nat := 2 ^ index % 2 ^ 32

/-- The value `~(1U << index)` of an `unsigned int` (32 bits). -/
def modeBitComplement (index : Nat) : Nat := 0xFFFFFFFF ^^^ modeBit index

/-- One round of the inner loop of `pushAttributeList`: the flag of
`otherModeIndex` is cleared when it is set and belongs to the group of the
mode attribute being pushed. -/
def clearModeFlag (table : ModeAttributeTable) (modeAttribute : ModeAttribute) (modeFlags : Nat)
    (otherModeIndex : Nat) : Nat :=
  if modeFlags &&& modeBit otherModeIndex ≠ 0 then
    if (table.getModeAttribute otherModeIndex).groupIndex = modeAttribute.groupIndex then
      modeFlags &&& modeBitComplement otherModeIndex
    else modeFlags
  else modeFlags

/-- The body of the outer loop of `pushAttributeList` for one attribute: the
update of `modeFlags`. -/
def applyModeAttribute (table : ModeAttributeTable) (modeFlags : Nat) (attr : Attribute) : Nat :=
  let modeIndex := table.findModeAttributeByName attr.name
  if modeIndex ≠ SIZE_MAX then
    let modeAttribute := table.getModeAttribute modeIndex
    let cleared :=
      (List.range table.getModeAttributeCount).foldl (clearModeFlag table modeAttribute) modeFlags
    cleared ||| modeBit modeIndex
  else modeFlags

/-- Embedding of `Compiler::pushAttributeList`. -/
def pushAttributeList (table : ModeAttributeTable) (attributeList : List Attribute)
    (state : AttributeState) : AttributeState :=
  { modeFlags := attributeList.foldl (applyModeAttribute table) state.modeFlags
    modeFlagsStack := state.modeFlagsStack ++ [state.modeFlags]
    attributeListStack := state.attributeListStack ++ [attributeList]
    attributeStack := state.attributeStack ++ attributeList }

/-- Embedding of `Compiler::popAttributeList`. Popping an empty stack is
undefined in the source; the state is left as it is here. -/
def popAttributeList (state : AttributeState) : AttributeState :=
  match state.modeFlagsStack.getLast?, state.attributeListStack.getLast? with
  | some modeFlags, some attributeList =>
    { modeFlags := modeFlags
      modeFlagsStack := state.modeFlagsStack.dropLast
      attributeListStack := state.attributeListStack.dropLast
      attributeStack := state.attributeStack.take (state.attributeStack.length - attributeList.length) }
  | _, _ => state

/-- The test of one attribute in `checkConditionalCompilationAttributes`: it is
named `compile_if`, has one argument, and the argument is the boolean literal
false. -/
def isFalseCompileIf (attr : Attribute) : Bool :=
  if attr.name = "compile_if" then
    match attr.arguments with
    | [argument] =>
      match argument.variant with
      | .BooleanLiteral value => value == false
      | _ => false
    | _ => false
  else false

/-- Embedding of `Compiler::checkConditionalCompilationAttributes`. -/
def checkConditionalCompilationAttributes : List Attribute → Bool
  | [] => true
  | attr :: rest =>
    if isFalseCompileIf attr then false else checkConditionalCompilationAttributes rest

/-- The compiler state seen by the `Attribution` case of a pass: the attribute
state and the rest of the state, on which the pass works. -/
structure PassState (σ : Type) where
  attributes : AttributeState
  rest : σ

/-- The `Attribution` case shared by the passes (lines 3641-3645, 4097-4101 and
5820-5824): push the attribute list of the statement, visit the body when the
conditional compilation check holds, pop the attribute list. `visitBody` is
the recursive call of the pass on the body of the statement. -/
def visitAttribution {σ : Type} (table : ModeAttributeTable) (visitBody : PassState σ → PassState σ)
    (attributeList : List Attribute) (state : PassState σ) : PassState σ :=
  let pushed : PassState σ := { state with attributes := pushAttributeList table attributeList state.attributes }
  let visited :=
    if checkConditionalCompilationAttributes pushed.attributes.attributeStack then visitBody pushed
    else pushed
  { visited with attributes := popAttributeList visited.attributes }

/-- The `Attribution` case of `Compiler::reserveDefinitions`, for the attribute
list compiled from the attributes of the statement. -/
def reserveDefinitionsAttribution {σ : Type} (table : ModeAttributeTable)
    (reserveDefinitions : PassState σ → PassState σ) (attributeList : List Attribute)
    (state : PassState σ) : PassState σ :=
  visitAttribution table reserveDefinitions attributeList state

/-- The `Attribution` case of `Compiler::reserveStorage`. -/
def reserveStorageAttribution {σ : Type} (table : ModeAttributeTable)
    (reserveStorage : PassState σ → PassState σ) (attributeList : List Attribute)
    (state : PassState σ) : PassState σ :=
  visitAttribution table reserveStorage attributeList state

/-- The `Attribution` case of `Compiler::emitStatementIr`. -/
def emitStatementIrAttribution {σ : Type} (table : ModeAttributeTable)
    (emitStatementIr : PassState σ → PassState σ) (attributeList : List Attribute)
    (state : PassState σ) : PassState σ :=
  visitAttribution table emitStatementIr attributeList state


/-- At most one mode flag is set in each mode group: two set flags of mode
attributes of the same group are the same flag. -/
def ModeFlagsExclusive (table : ModeAttributeTable) (modeFlags : Nat) : Prop :=
  ∀ i j, i < table.getModeAttributeCount → j < table.getModeAttributeCount →
    modeFlags.testBit i = true → modeFlags.testBit j = true →
    (table.getModeAttribute i).groupIndex = (table.getModeAttribute j).groupIndex → i = j

/-- The mode index of the last attribute of the list that is a mode attribute
of the group `groupIndex`, if there is one. -/
def lastModeOfGroup (table : ModeAttributeTable) (groupIndex : Nat) : List Attribute → Option Nat
  | [] => none
  | attr :: rest =>
    match lastModeOfGroup table groupIndex rest with
    | some modeIndex => some modeIndex
    | none =>
      let modeIndex := table.findModeAttributeByName attr.name
      if modeIndex ≠ SIZE_MAX ∧ (table.getModeAttribute modeIndex).groupIndex = groupIndex then
        some modeIndex
      else none

/-- A sample mode attribute table: the group 0 with `mem8` (index 0) and `mem16`
(index 1), the group 1 with `idx8` (index 2) and `idx16` (index 3). -/
def sampleModeAttributeTable : ModeAttributeTable where
  findModeAttributeByName := fun name =>
    if name = "mem8" then 0 else if name = "mem16" then 1
    else if name = "idx8" then 2 else if name = "idx16" then 3 else SIZE_MAX
  getModeAttribute := fun index => ⟨index / 2⟩
  getModeAttributeCount := 4


/-! ## Statement lowering: the `if` statement -/

/-- The fields of `Statement::If`: the condition, the handles of the body and
of the alternative (absent when there is no `else`), and the distance hint. -/
structure IfStatement where
  condition : Expression
  body : Nat
  alternative : Option Nat
  distanceHint : Nat

/-- The `If` case of `Compiler::emitStatementIr`. The bodies are emitted by the
recursive call `env.emitStatementIr`, the condition is reduced by
`reduceExpression`; the result is the state and the messages reported by the
case itself and by the reduction of the condition. -/
def emitIfStatementIr (env : BranchEnvironment EmitState) (reduceExpression : Expression → Reduced)
    (currentBank : Option Nat) (ifStatement : IfStatement) (st : EmitState) : EmitState × List String :=
  match currentBank with
  | none => (st, ["`if` statement must be inside an `in` statement"])
  | some _ =>
    let reduced := reduceExpression ifStatement.condition
    match reduced.1 with
    | none => (st, reduced.2)
    | some reducedCondition =>
      match reducedCondition.variant with
      | .BooleanLiteral value =>
        if value then ((env.emitStatementIr ifStatement.body st).2, reduced.2)
        else
          match ifStatement.alternative with
          | some alternative => ((env.emitStatementIr alternative st).2, reduced.2)
          | none => (st, reduced.2)
      | _ =>
        let (endLabelDefinition, st1) := createAnonymousLabelDefinition "$endif" st
        let endLabelReferenceExpression := labelReferenceExpression endLabelDefinition
        let (elseLabelDefinition, st2) := createAnonymousLabelDefinition "$else" st1
        let elseLabelReferenceExpression := labelReferenceExpression elseLabelDefinition
        let branch :=
          emitBranchIr env ifStatement.distanceHint .Goto (some elseLabelReferenceExpression) true
            (some reducedCondition) st2
        if !branch.1 then
          (branch.2, reduced.2 ++ ["could not generate branch instruction for `if` statement"])
        else
          let st3 := (env.emitStatementIr ifStatement.body branch.2).2
          match ifStatement.alternative with
          | some alternative =>
            let skip :=
              emitBranchIr env ifStatement.distanceHint .Goto (some endLabelReferenceExpression) false
                none st3
            if !skip.1 then
              (skip.2, reduced.2 ++ ["could not generate branch instruction for `if` statement"])
            else
              let st4 := skip.2.addNode (.Label elseLabelDefinition)
              let st5 := (env.emitStatementIr alternative st4).2
              (st5.addNode (.Label endLabelDefinition), reduced.2)
          | none =>
            ((st3.addNode (.Label elseLabelDefinition)).addNode (.Label endLabelDefinition), reduced.2)

/-- A sample environment of the statement lowering in which the statement with
handle `n` emits the single label node of the definition `n`. -/
def labelEmittingEnvironment : BranchEnvironment EmitState :=
  { plainBranchEnvironment with
    emitStatementIr := fun handle st => (true, st.addNode (.Label (.Func handle "body" false none))) }

/-- An empty emitter state. -/
def emptyEmitState : EmitState where
  labelSuffixes := fun _ => 0
  definitionPool := 100
  irNodes := []
  breakLabel := none
  continueLabel := none


/-! ## Code generation (`generateCode`) -/

/-- Modelled from the spec: the class `Bank` is not among the sources. A bank
is a cursor over a region of `capacity` bytes that may have an origin; only
the cursor is kept here (the buffer and the reservation map are not). -/
structure Bank where
  origin : Option Nat
  capacity : Nat
  position : Nat
  deriving DecidableEq, Repr

/-- Modelled from the spec: `rewind` resets the cursor to the beginning. -/
def Bank.rewind (bank : Bank) : Bank := { bank with position := 0 }

/-- Modelled from the spec: the current address of a bank, the relative
position and, when the bank has an origin, the absolute position. -/
def Bank.getAddress (bank : Bank) : Address :=
  ⟨some bank.position,
    match bank.origin with
    | some origin => some (origin + bank.position)
    | none => none⟩

/-- Modelled from the spec: `absoluteSeek` requires the address to lie in
`[origin, origin + capacity)` when the origin is set, and records a
relative-only cursor otherwise. The flag is false when an error is reported. -/
def Bank.absoluteSeek (bank : Bank) (address : Nat) : Bool × Bank :=
  match bank.origin with
  | some origin =>
    if origin ≤ address ∧ address < origin + bank.capacity then
      (true, { bank with position := address - origin })
    else (false, bank)
  | none => (true, { bank with position := address })

/-- Modelled from the spec: `reserveRom` advances the cursor by `size` bytes and
fails when the capacity would be exceeded. -/
def Bank.reserveRom (bank : Bank) (size : Nat) : Bool × Bank :=
  if bank.position + size ≤ bank.capacity then (true, { bank with position := bank.position + size })
  else (false, bank)

/-- Modelled from the spec: `write` writes the bytes at the cursor, advances by
their number, and fails on overflow. -/
def Bank.write (bank : Bank) (bytes : List Nat) : Bool × Bank :=
  if bank.position + bytes.length ≤ bank.capacity then
    (true, { bank with position := bank.position + bytes.length })
  else (false, bank)

/-- The fields of `Definition::Var` that `generateCode` reads. -/
structure VarRecord where
  addressExpression : Option Expression
  storageSize : Nat
  initializerExpression : Option Expression
  resolvedType : TypeExpression

/-- The parts of the platform and of the compiler that `generateCode` calls and
that are not embedded: the signature and the encoding of an instruction (the
capture lists that `extract` fills are passed on implicitly, so `calculateSize`
and `write` are functions of the operand roots), the operand patterns of the
signature, the reducer, operand creation, and the variable definitions. -/
structure GenerateCollaborators where
  extract : Instruction → List InstructionOperandRoot → Bool
  calculateSize : Instruction → List InstructionOperandRoot → Nat
  write : Instruction → List InstructionOperandRoot → List Nat
  operandPatternCount : Instruction → Nat
  operandPatternIsIntegerRange : Instruction → Nat → Bool
  reduceExpression : Expression → Reduced
  createOperandFromExpression : Expression → Option InstructionOperand
  varDefinition : Definition → Option VarRecord

/-- The state of `generateCode`: the registered banks (a bank pointer is an
index into them), `currentBank`, `bankStack`, the `address` fields of the label
and variable definitions (by handle; an address is kept with its bank),
`irNodeIndexesToRemove` in increasing order, and the messages reported. -/
structure GenerateState where
  banks : List Bank
  currentBank : Option Nat
  bankStack : List (Option Nat)
  labelAddresses : Nat → Option (Nat × Address)
  varAddresses : Nat → Option (Nat × Address)
  irNodeIndexesToRemove : List Nat
  messages : List String

/-- The bank that `currentBank` points to, with its index. -/
def GenerateState.bank (state : GenerateState) : Option (Nat × Bank) :=
  match state.currentBank with
  | some index =>
    match state.banks[index]? with
    | some bank => some (index, bank)
    | none => none
  | none => none

/-- Replaces the bank with the given index. -/
def GenerateState.setBank (state : GenerateState) (index : Nat) (bank : Bank) : GenerateState :=
  { state with banks := state.banks.set index bank }

/-- Adds a reported message. -/
def GenerateState.report (state : GenerateState) (message : String) : GenerateState :=
  { state with messages := state.messages ++ [message] }

/-- The address of the current bank together with the index of the bank. -/
def GenerateState.currentAddress (state : GenerateState) : Option (Nat × Address) :=
  match state.bank with
  | some (index, bank) => some (index, bank.getAddress)
  | none => none

/-- The `PushRelocation` case of both passes of `generateCode`; `none` where the
source reads through an invalid bank pointer. -/
def generatePushRelocation (bankIndex : Nat) (address : Option Nat) (state : GenerateState) :
    Option GenerateState :=
  match state.banks[bankIndex]? with
  | none => none
  | some bank =>
    let pushed : GenerateState :=
      { state with bankStack := state.bankStack ++ [state.currentBank], currentBank := some bankIndex }
    match address with
    | some position =>
      let sought := bank.absoluteSeek position
      let moved := pushed.setBank bankIndex sought.2
      some (if sought.1 then moved else moved.report "bank: address is outside of the bank")
    | none => some pushed

/-- The `PopRelocation` case of both passes of `generateCode`; `none` where the
bank stack is empty. -/
def generatePopRelocation (state : GenerateState) : Option GenerateState :=
  match state.bankStack.getLast? with
  | some bank => some { state with currentBank := bank, bankStack := state.bankStack.dropLast }
  | none => none

/-- The loop of lines 6372-6385: the nodes after the `goto` are labels up to
and including a label of the destination definition. -/
def followedByLabel (definition : Definition) : List IrNode → Bool
  | .Label nextDefinition :: rest =>
    if definition.ptrEq nextDefinition then true else followedByLabel definition rest
  | _ => false

/-- Lines 6363-6389 of the first pass: whether the code node is a redundant
jump, given the nodes that follow it; `none` where the source reads operand
root 1 through a missing element or a null expression pointer. -/
def isRedundantJump (collaborators : GenerateCollaborators) (instruction : Instruction)
    (operandRoots : List InstructionOperandRoot) (following : List IrNode) : Option Bool :=
  match instruction.type with
  | .Branch .Goto =>
    if collaborators.operandPatternCount instruction ≥ 2
        ∧ collaborators.operandPatternIsIntegerRange instruction 1 = true then
      match operandRoots[1]? with
      | some (InstructionOperandRoot.mk (some (.mk (.ResolvedIdentifier definition _) _)) _) =>
        some (followedByLabel definition following)
      | some (InstructionOperandRoot.mk (some _) _) => some false
      | _ => none
    else some false
  | _ => some false

/-- The end of the `Var` case of the first pass: the address of the variable is
the current address, its storage is reserved, and the cursor goes back to
`oldPosition` when the variable has an explicit address. -/
def reserveVarStorage (id : Nat) (storageSize : Nat) (oldPosition : Option Nat)
    (state : GenerateState) : Option GenerateState :=
  match state.bank with
  | some (bankIndex, bank) =>
    let assigned : GenerateState :=
      { state with
        varAddresses := fun other =>
          if other = id then some (bankIndex, bank.getAddress) else state.varAddresses other }
    let reserved := bank.reserveRom storageSize
    if !reserved.1 then
      some ((assigned.setBank bankIndex reserved.2).report "bank: could not reserve constant data")
    else
      match oldPosition with
      | some position => some (assigned.setBank bankIndex { reserved.2 with position := position })
      | none => some (assigned.setBank bankIndex reserved.2)
  | none => none

/-- One round of the first loop of `generateCode` ("First pass: calculate
data/instruction sizes, assign labels"): `index` is the loop counter and
`following` are the nodes after the current one. `none` where the source
reads through a null bank pointer or a wrong variant. -/
def generateFirstPassNode (platform : Platform) (collaborators : GenerateCollaborators) (index : Nat)
    (node : IrNode) (following : List IrNode) (state : GenerateState) : Option GenerateState :=
  match node with
  | .PushRelocation bankIndex address => generatePushRelocation bankIndex address state
  | .PopRelocation => generatePopRelocation state
  | .Label definition =>
    match definition, state.currentAddress with
    | .Func id _ _ _, some address =>
      some { state with
        labelAddresses := fun other => if other = id then some address else state.labelAddresses other }
    | _, _ => none
  | .Code instruction operandRoots =>
    if collaborators.extract instruction operandRoots then
      match isRedundantJump collaborators instruction operandRoots following with
      | none => none
      | some true =>
        some { state with irNodeIndexesToRemove := state.irNodeIndexesToRemove ++ [index] }
      | some false =>
        match state.bank with
        | some (bankIndex, bank) =>
          let reserved := bank.reserveRom (collaborators.calculateSize instruction operandRoots)
          let moved := state.setBank bankIndex reserved.2
          some (if reserved.1 then moved else moved.report "bank: could not reserve code")
        | none => none
    else
      some (state.report "failed to extract instruction capture list during instruction selection pass")
  | .Var definition =>
    match definition, collaborators.varDefinition definition with
    | .Var id _, some varDefinition =>
      match varDefinition.addressExpression with
      | some addressExpression =>
        let address :=
          resolveExplicitAddressExpression platform collaborators.reduceExpression (some addressExpression)
        let reported : GenerateState := { state with messages := state.messages ++ address.2 }
        match address.1 with
        | some position =>
          match reported.bank with
          | some (bankIndex, bank) =>
            let sought := bank.absoluteSeek position
            let moved := reported.setBank bankIndex sought.2
            reserveVarStorage id varDefinition.storageSize (some bank.position)
              (if sought.1 then moved else moved.report "bank: address is outside of the bank")
          | none => none
        | none => some reported
      | none => reserveVarStorage id varDefinition.storageSize none state
    | _, _ => none

/-- The first loop of `generateCode` over the nodes from `index` on. -/
def generateFirstPass (platform : Platform) (collaborators : GenerateCollaborators) :
    List IrNode → Nat → GenerateState → Option GenerateState
  | [], _, state => some state
  | node :: following, index, state =>
    match generateFirstPassNode platform collaborators index node following state with
    | some next => generateFirstPass platform collaborators following (index + 1) next
    | none => none

/-- The loop of lines 6507-6528 of the second pass: every operand root with an
expression is reduced again and its operand is created anew. The result is
`none` when the loop sets `failed`. -/
def resolveOperandRoots (collaborators : GenerateCollaborators) :
    List InstructionOperandRoot → Option (List InstructionOperandRoot) × List String
  | [] => (some [], [])
  | operandRoot :: rest =>
    match operandRoot.expression with
    | some expression =>
      let reduced := collaborators.reduceExpression expression
      match reduced.1 with
      | some reducedExpression =>
        match collaborators.createOperandFromExpression reducedExpression with
        | some operand =>
          let others := resolveOperandRoots collaborators rest
          (match others.1 with
            | some roots => some (⟨some reducedExpression, some operand⟩ :: roots)
            | none => none,
            reduced.2 ++ others.2)
        | none => (none, reduced.2 ++ ["failed to create operand for reduced expresion"])
      | none => (none, reduced.2)
    | none =>
      let others := resolveOperandRoots collaborators rest
      (match others.1 with
        | some roots => some (⟨none, operandRoot.operand⟩ :: roots)
        | none => none,
        others.2)

/-- The bytes that the `Var` case of the second pass hands to the bank: the
serialized initializer (converted again when it is link-time), or
`storageSize` zero bytes when there is no initializer; `some none` when the
serializer fails, and `none` where a link-time initializer has no converted
form and the source reads through the null pointer. -/
def varInitializerBytes (platform : Platform) (collaborators : GenerateCollaborators)
    (varDefinition : VarRecord) : Option (Option (List Nat)) :=
  match varDefinition.initializerExpression with
  | some initializerExpression =>
    let finalInitializerExpression : Option Expression :=
      if initializerExpression.info.context = .LinkTime then
        match (collaborators.reduceExpression initializerExpression).1 with
        | some reducedExpression =>
          createConvertedExpression platform reducedExpression varDefinition.resolvedType
        | none => some initializerExpression
      else some initializerExpression
    match finalInitializerExpression with
    | some expression =>
      match serializeConstantInitializer platform expression [] with
      | (true, tempBuffer) => some (some tempBuffer)
      | (false, _) => some none
    | none => none
  | none => some (some (List.replicate varDefinition.storageSize 0))

/-- The message of the label check of the second pass. -/
def labelMismatchMessage : String := "label was supposed to be at another address than the bank is at"

/-- One round of the second loop of `generateCode` ("Second pass: resolve all
link-time expressions, write the instructions into the correct banks").
`none` where the source reads through a null pointer or a wrong variant. -/
def generateSecondPassNode (platform : Platform) (collaborators : GenerateCollaborators)
    (node : IrNode) (state : GenerateState) : Option GenerateState :=
  match node with
  | .PushRelocation bankIndex address => generatePushRelocation bankIndex address state
  | .PopRelocation => generatePopRelocation state
  | .Label definition =>
    match definition with
    | .Func id _ _ _ =>
      match state.labelAddresses id, state.currentAddress with
      | some labelAddress, some currentBankAddress =>
        if labelAddress ≠ currentBankAddress then some (state.report labelMismatchMessage)
        else some state
      | _, _ => none
    | _ => none
  | .Code instruction operandRoots =>
    let resolved := resolveOperandRoots collaborators operandRoots
    let reported : GenerateState := { state with messages := state.messages ++ resolved.2 }
    match resolved.1 with
    | none => some reported
    | some tempOperandRoots =>
      if collaborators.extract instruction tempOperandRoots then
        match reported.bank with
        | some (bankIndex, bank) =>
          let written := bank.write (collaborators.write instruction tempOperandRoots)
          let moved := reported.setBank bankIndex written.2
          some (if written.1 then moved else moved.report "bank: could not write code")
        | none => none
      else
        some (reported.report "failed to extract instruction capture list during generation pass")
  | .Var definition =>
    match definition, collaborators.varDefinition definition with
    | .Var id _, some varDefinition =>
      match state.bank with
      | some (bankIndex, bank) =>
        let positioned : Option (Bank × Option Nat) :=
          match varDefinition.addressExpression with
          | some _ =>
            match state.varAddresses id with
            | some (_, ⟨some relativePosition, _⟩) =>
              some ({ bank with position := relativePosition }, some bank.position)
            | _ => none
          | none => some (bank, none)
        match positioned with
        | none => none
        | some (bank1, oldPosition) =>
          match varInitializerBytes platform collaborators varDefinition with
          | none => none
          | some none =>
            some ((state.setBank bankIndex bank1).report
              "constant initializer could not be resolved at compile-time")
          | some (some tempBuffer) =>
            let written := bank1.write tempBuffer
            if !written.1 then
              some ((state.setBank bankIndex written.2).report "bank: could not write constant data")
            else
              match oldPosition with
              | some position => some (state.setBank bankIndex { written.2 with position := position })
              | none => some (state.setBank bankIndex written.2)
      | none => none
    | _, _ => none

/-- The second loop of `generateCode`. -/
def generateSecondPass (platform : Platform) (collaborators : GenerateCollaborators) :
    List IrNode → GenerateState → Option GenerateState
  | [], state => some state
  | node :: following, state =>
    match generateSecondPassNode platform collaborators node state with
    | some next => generateSecondPass platform collaborators following next
    | none => none

/-- The loop `for (auto& bank : registeredBanks) bank->rewind()`. -/
def rewindBanks (state : GenerateState) : GenerateState :=
  { state with banks := state.banks.map Bank.rewind }

/-- The loop of lines 6437-6439: the recorded indexes are removed from the node
list from the largest to the smallest (`irNodes.remove` erases the node at
an index). -/
def removeIrNodes (irNodeIndexesToRemove : List Nat) (irNodes : List IrNode) : List IrNode :=
  irNodeIndexesToRemove.reverse.foldl (fun nodes index => nodes.eraseIdx index) irNodes

/-- Embedding of `Compiler::generateCode`: the returned flag, the final state
and the node list after the removals. The set `irNodeIndexesToRemove` is a
local of the function and starts empty. `report->validate()` holds when no
message has been reported. `none` where a pass reads through a null pointer. -/
def generateCode (platform : Platform) (collaborators : GenerateCollaborators)
    (irNodes : List IrNode) (state : GenerateState) : Option (Bool × GenerateState × List IrNode) :=
  match generateFirstPass platform collaborators irNodes 0
      { rewindBanks state with irNodeIndexesToRemove := [] } with
  | none => none
  | some sized =>
    let remaining := removeIrNodes sized.irNodeIndexesToRemove irNodes
    let cleared : GenerateState := { sized with irNodeIndexesToRemove := [] }
    if cleared.messages ≠ [] then some (false, cleared, remaining)
    else
      match generateSecondPass platform collaborators remaining (rewindBanks cleared) with
      | none => none
      | some written => some (decide (written.messages = []), written, remaining)


/-- Whether the first pass records the node for removal, given the nodes that
follow it: a code node whose capture list is extracted and that is a
redundant jump (lines 6359-6393). -/
def isNodeRemoved (collaborators : GenerateCollaborators) (node : IrNode) (following : List IrNode) :
    Bool :=
  match node with
  | .Code instruction operandRoots =>
    collaborators.extract instruction operandRoots
      && (isRedundantJump collaborators instruction operandRoots following == some true)
  | _ => false

/-- The indexes that the first pass records over the nodes from `index` on. -/
def removedIndexes (collaborators : GenerateCollaborators) : List IrNode → Nat → List Nat
  | [], _ => []
  | node :: following, index =>
    (if isNodeRemoved collaborators node following then [index] else [])
      ++ removedIndexes collaborators following (index + 1)

/-- The nodes that the first pass does not record for removal, in their
original order. -/
def keptIrNodes (collaborators : GenerateCollaborators) : List IrNode → List IrNode
  | [] => []
  | node :: following =>
    if isNodeRemoved collaborators node following then keptIrNodes collaborators following
    else node :: keptIrNodes collaborators following

/-- Collaborators of a small platform: every signature extracts, an
instruction takes one byte and one more per operand root, every signature has
two operand patterns of which the second is an integer range, the reducer
returns its argument, and the variables are those given. -/
def sampleGenerateCollaborators (varDefinition : Definition → Option VarRecord) :
    GenerateCollaborators where
  extract := fun _ _ => true
  calculateSize := fun _ operandRoots => 1 + operandRoots.length
  write := fun _ operandRoots => List.replicate (1 + operandRoots.length) 0
  operandPatternCount := fun _ => 2
  operandPatternIsIntegerRange := fun _ index => index == 1
  reduceExpression := fun expression => (some expression, [])
  createOperandFromExpression := fun _ => some (.Integer 0)
  varDefinition := varDefinition

/-- A state with one bank of 16 bytes at origin `0x8000` and no current bank. -/
def sampleGenerateState : GenerateState where
  banks := [⟨some 0x8000, 16, 0⟩]
  currentBank := none
  bankStack := []
  labelAddresses := fun _ => none
  varAddresses := fun _ => none
  irNodeIndexesToRemove := []
  messages := []

/-- An operand root that refers to a definition directly. -/
def sampleReferenceRoot (definition : Definition) : InstructionOperandRoot :=
  ⟨some (.mk (.ResolvedIdentifier definition []) ⟨.LinkTime, .TypeOf, {}⟩), some (.Integer 0)⟩

/-- The instruction `goto` of the small platform. -/
def sampleGoto : Instruction := ⟨.Branch .Goto, 0⟩

/-- The nodes `in bank { goto b; a: b: goto a; }` of two labels `a` (handle 1)
and `b` (handle 2). -/
def sampleJumpNodes : List IrNode :=
  [.PushRelocation 0 none,
   .Code sampleGoto [⟨none, some (.Integer 0)⟩, sampleReferenceRoot (.Func 2 "b" false none)],
   .Label (.Func 1 "a" false none),
   .Label (.Func 2 "b" false none),
   .Code sampleGoto [⟨none, some (.Integer 0)⟩, sampleReferenceRoot (.Func 1 "a" false none)],
   .PopRelocation]

/-- The members `scopeStack` and `currentScope` of the compiler; a scope is a
handle and `none` is the null pointer. -/
structure ScopeState where
  scopeStack : List (Option Nat)
  currentScope : Option Nat
  deriving DecidableEq, Repr

/-- Embedding of `Compiler::enterScope`. -/
def enterScope (nextScope : Option Nat) (scopes : ScopeState) : ScopeState :=
  { scopeStack := scopes.scopeStack ++ [scopes.currentScope], currentScope := nextScope }

/-- Embedding of `Compiler::exitScope`. -/
def exitScope (scopes : ScopeState) : ScopeState :=
  match scopes.scopeStack.getLast? with
  | some scope => { scopeStack := scopes.scopeStack.dropLast, currentScope := scope }
  | none => { scopes with currentScope := none }

/-- The calls of `enterScope` and `exitScope` in one round of the first loop of
`generateCode` (lines 6403-6432; the rest of the round is
`generateFirstPassNode`): only the `Var` case with an explicit address makes
any, `enterScope(var.definition->parentScope)` before the address is resolved
and `exitScope()` after it, which the `break` of the failed resolution
skips. `parentScope` gives the parent scope of a definition. The reducer is
taken to leave the scopes as it found them. -/
def generateFirstPassNodeScopes (platform : Platform) (collaborators : GenerateCollaborators)
    (parentScope : Definition → Option Nat) (node : IrNode) (scopes : ScopeState) : ScopeState :=
  match node with
  | .Var definition =>
    match collaborators.varDefinition definition with
    | some varDefinition =>
      match varDefinition.addressExpression with
      | some addressExpression =>
        let entered := enterScope (parentScope definition) scopes
        let address :=
          resolveExplicitAddressExpression platform collaborators.reduceExpression (some addressExpression)
        match address.1 with
        | some _ => exitScope entered
        | none => entered
      | none => scopes
    | none => scopes
  | _ => scopes

/-- The scopes with which `generateCode` returns: the rounds of the first loop
in order; the removal of nodes and the second loop make no call of
`enterScope` or `exitScope`. -/
def generateCodeScopes (platform : Platform) (collaborators : GenerateCollaborators)
    (parentScope : Definition → Option Nat) (irNodes : List IrNode) (scopes : ScopeState) : ScopeState :=
  irNodes.foldl
    (fun current node => generateFirstPassNodeScopes platform collaborators parentScope node current)
    scopes

/-- The variable of the sample program with a failing address: variable 6 is
one byte at the explicit address `-1`. -/
def sampleFailingVarDefinition : Definition → Option VarRecord
  | .Var 6 _ =>
    some ⟨some (.mk (.IntegerLiteral (-1))
        ⟨.CompileTime, .ResolvedIdentifier (.BuiltinIntegerExpressionType 0), {}⟩), 1, none,
      .ResolvedIdentifier (.BuiltinIntegerType 2 1 0 255)⟩
  | _ => none

/-! ## Sized integer literals made by the reducer -/

/-- Modelled from the spec: `Int128::operator~` (not among the sources) is the
complement of the two's complement representation, `-v - 1`. -/
def Int128.lnot (value : Int128) : Int128 := -value - 1

/-- Lines 1168-1181 of the `Cast` case of `Compiler::reduceExpression`: the
source type is an integer, enum or pointer-like type, the destination type is
a sized builtin integer type and the operand has a known integer value;
`none` stands for the other branches of the case. -/
def castIntegerLiteral (sourceType destType : TypeExpression) (integerValue : Int128) :
    Option Expression :=
  if isIntegerType sourceType || isEnumType sourceType || isPointerLikeType sourceType then
    match tryGetResolvedIdentifierTypeDefinition destType with
    | some (.BuiltinIntegerType _ size _ _) =>
      some (.mk (.IntegerLiteral (Int128.land integerValue (mask size))) ⟨.CompileTime, destType, {}⟩)
    | _ => none
  else none

/-- Lines 1755-1772 of the `BitwiseNegation` case of
`Compiler::reduceExpression`: the operand is a compile-time integer literal of
integer type `resultType`; `none` stands for the error at the end of the
case. -/
def bitwiseNegationLiteral (resultType : TypeExpression) (value : Int128) : Option Expression :=
  match tryGetResolvedIdentifierTypeDefinition resultType with
  | some (.BuiltinIntegerType _ size _ _) =>
    some (.mk (.IntegerLiteral (Int128.land (Int128.lnot value) (mask size)))
      ⟨.CompileTime, resultType, {}⟩)
  | some (.BuiltinIntegerExpressionType _) =>
    some (.mk (.IntegerLiteral (Int128.lnot value)) ⟨.CompileTime, resultType, {}⟩)
  | _ => none

/-- Whether an expression is an integer literal of a sized builtin integer type
with a value outside the range from `min` to `max` of the type. -/
def outsideOwnType (expression : Expression) : Bool :=
  match expression.variant with
  | .IntegerLiteral value => outsideResultType expression.info.type value
  | _ => false

/-! ## Simple casts in `getTestAndBranch` -/

/-- Embedding of `Compiler::isSimpleCast`. -/
def isSimpleCast (platform : Platform) (expression : Expression) : Bool :=
  match expression.variant with
  | .Cast operand _ =>
    sameKnownSize (calculateStorageSize platform operand.info.type)
      (calculateStorageSize platform expression.info.type)
  | _ => false

/-- One of the two `while` loops at the head of `Compiler::getTestAndBranch`
(lines 5402-5407): `inner` is `innerLeft` (`innerRight`) and `outer` is `left`
(`right`), whose cast operand the body assigns on every round. `fuel` bounds
the number of tests of the loop condition: the result is `none` when the
loop has not ended after `fuel` tests (and where the body would read `outer`
as a cast though it is none). -/
def stripSimpleCasts (platform : Platform) (outer : Expression) : Nat → Expression → Option Expression
  | 0, _ => none
  | fuel + 1, inner =>
    if isSimpleCast platform inner then
      match outer.variant with
      | .Cast operand _ => stripSimpleCasts platform outer fuel operand
      | _ => none
    else some inner

/-- The two loops at the head of `Compiler::getTestAndBranch`, each with the
given fuel: the operands `innerLeft` and `innerRight` that the function hands
to the platform. -/
def getTestAndBranchOperands (platform : Platform) (fuel : Nat) (left right : Expression) :
    Option (Expression × Expression) :=
  match stripSimpleCasts platform left fuel left with
  | some innerLeft =>
    match stripSimpleCasts platform right fuel right with
    | some innerRight => some (innerLeft, innerRight)
    | none => none
  | none => none

/-! ## Expression reducer: calls of functions and tuple literals -/

/-- The loop over the reduced arguments in the two `func` branches of the
`Call` case of `Compiler::reduceExpression` (lines 1047-1057 and 1112-1122),
from index `index` on: the argument is tested against `parameterTypes[index]`
and converted. The outer `none` stands for a read of `parameterTypes` at an
index that it does not have; the inner `none` is the returned null pointer.
A converted argument is never null after `findCompatibleAssignmentType`
succeeded; the loop has no test for it and the case is `none` here. -/
def convertCallArguments (platform : Platform) (parameterTypes : List TypeExpression) :
    List Expression → Nat → Option (Option (List Expression) × List String)
  | [], _ => some (some [], [])
  | reducedArgument :: rest, index =>
    match parameterTypes[index]? with
    | none => none
    | some parameterType =>
      match findCompatibleAssignmentType platform reducedArgument parameterType with
      | some resultType =>
        match createConvertedExpression platform reducedArgument resultType with
        | some converted =>
          match convertCallArguments platform parameterTypes rest (index + 1) with
          | some (some others, messages) => some (some (converted :: others), messages)
          | some (none, messages) => some (none, messages)
          | none => none
        | none => none
      | none => some (none, ["argument of type cannot be assigned expression"])

/-- The message of the arity test of the `func` branches. -/
def arityMessage : String := "`func` expects exactly N arguments, but got M arguments instead"

/-- The branch of the `Call` case for a resolved `func` definition (lines
1031-1062): `parameterTypes` and `returnType` are those of the resolved
signature type of the definition, `function` and `reducedArguments` are
reduced. `none` where `parameterTypes` is read past its end. -/
def reduceFuncCall (platform : Platform) (inlined : Bool) (function : Expression)
    (parameterTypes : List TypeExpression) (returnType : TypeExpression)
    (reducedArguments : List Expression) : Option Reduced :=
  let arity : List String :=
    if parameterTypes.length ≠ reducedArguments.length then [arityMessage] else []
  match convertCallArguments platform parameterTypes reducedArguments 0 with
  | none => none
  | some (some converted, messages) =>
    some (some (.mk (.Call inlined function converted) ⟨.RunTime, returnType, {}⟩), arity ++ messages)
  | some (none, messages) => some (none, arity ++ messages)

/-- The branch of the `Call` case for a function that is not a resolved
identifier (lines 1092-1128): the type of `function` is a function type, else
the expression is not callable. -/
def reduceFunctionExpressionCall (platform : Platform) (inlined : Bool) (function : Expression)
    (reducedArguments : List Expression) : Option Reduced :=
  match function.info.type with
  | .Function _ parameterTypes returnType =>
    if inlined then
      some (Reduced.error "`inline` keyword cannot be used on function expressions")
    else reduceFuncCall platform inlined function parameterTypes returnType reducedArguments
  | _ => some (Reduced.error "expression is not callable")

/-- The loop of the `TupleLiteral` case of `Compiler::reduceExpression` (lines
1536-1545): every item is handed to the reducer, and the type of the result
is read (line 1538) before the result is tested for null (line 1540). `none`
stands for that read through a null pointer. -/
def reduceTupleLiteralItems (reduceExpression : Expression → Reduced) :
    List Expression → Option (List Expression × List String)
  | [] => some ([], [])
  | item :: rest =>
    let reduced := reduceExpression item
    match reduced.1 with
    | none => none
    | some reducedItem =>
      match reduceTupleLiteralItems reduceExpression rest with
      | some (reducedItems, messages) => some (reducedItem :: reducedItems, reduced.2 ++ messages)
      | none => none

/-- The `TupleLiteral` case of `Compiler::reduceExpression` (lines 1528-1553);
`none` where the loop reads through a null pointer. -/
def reduceTupleLiteral (reduceExpression : Expression → Reduced) (items : List Expression) :
    Option Reduced :=
  match reduceTupleLiteralItems reduceExpression items with
  | some (reducedItems, messages) =>
    some (some (.mk (.TupleLiteral reducedItems)
      ⟨.CompileTime, .Tuple (reducedItems.map (fun item => item.info.type)), {}⟩), messages)
  | none => none

/-- A register `x` of type `i8`. -/
def sampleSignedRegister : Expression :=
  .mk (.ResolvedIdentifier (.BuiltinRegister 7 (.BuiltinIntegerType 6 1 (-128) 127)) [])
    ⟨.RunTime, .ResolvedIdentifier (.BuiltinIntegerType 6 1 (-128) 127), {}⟩

/-- The run-time cast node `operand as type`. -/
def sampleCast (operand : Expression) (type : TypeExpression) : Expression :=
  .mk (.Cast operand type) ⟨.RunTime, type, {}⟩

/-! ## Theorems -/

theorem and_0xFF (x : Nat) : x &&& 0xFF = x % 256 :=
  Nat.and_pow_two_sub_one_eq_mod x 8

theorem shiftRight_8 (x : Nat) : x >>> 8 = x / 256 := by
  rw [Nat.shiftRight_eq_div_pow]

theorem toUnsigned_cast (w : Nat) (v : Int128) :
    ((Int128.toUnsigned w v : Nat) : Int) = v % (2 : Int) ^ w := by
  unfold Int128.toUnsigned
  exact Int.toNat_of_nonneg (Int.emod_nonneg _ (by positivity))

theorem toUnsigned_lt (w : Nat) (v : Int128) : Int128.toUnsigned w v < 2 ^ w := by
  have h1 := toUnsigned_cast w v
  have h2 : v % (2 : Int) ^ w < (2 : Int) ^ w := Int.emod_lt_of_pos _ (by positivity)
  have h3 : ((Int128.toUnsigned w v : Nat) : Int) < ((2 ^ w : Nat) : Int) := by
    rw [h1]; push_cast; exact h2
  exact_mod_cast h3

/-- What `serializeInteger` does for the four sizes it supports. -/
theorem serializeInteger_appends (value : Int128) (size : Nat) (result : List Nat)
    (hsize : size = 1 ∨ size = 2 ∨ size = 4 ∨ size = 8) :
    ∃ bytes : List Nat,
      serializeInteger value size result = (true, result ++ bytes) ∧
      bytes.length = size ∧
      (∀ b ∈ bytes, b < 256) ∧
      (littleEndianValue bytes : Int) = value % (2 : Int) ^ (8 * size) ∧
      (0 ≤ value → value < (2 : Int) ^ (8 * size) → (littleEndianValue bytes : Int) = value) := by
  have key : ∀ bytes : List Nat,
      (littleEndianValue bytes : Int) = value % (2 : Int) ^ (8 * size) →
      (0 ≤ value → value < (2 : Int) ^ (8 * size) → (littleEndianValue bytes : Int) = value) := by
    intro bytes h h0 h1
    rw [h, Int.emod_eq_of_lt h0 h1]
  rcases hsize with h | h | h | h <;> subst h
  · have hc := toUnsigned_cast 8 value
    have hl := toUnsigned_lt 8 value
    refine ⟨[Int128.toUnsigned 8 value], rfl, rfl, ?_, ?_, key _ ?_⟩
    · intro b hb
      simp only [List.mem_singleton] at hb
      omega
    all_goals
      simp only [littleEndianValue]
      omega
  · have hc := toUnsigned_cast 16 value
    have hl := toUnsigned_lt 16 value
    have hs : serializeInteger value 2 result = (true, result ++
        [Int128.toUnsigned 16 value % 256, Int128.toUnsigned 16 value / 256 % 256]) := by
      simp only [serializeInteger, and_0xFF, shiftRight_8]
    refine ⟨_, hs, rfl, ?_, ?_, key _ ?_⟩
    · intro b hb
      simp only [List.mem_cons, List.mem_singleton, List.not_mem_nil, or_false] at hb
      omega
    all_goals
      simp only [littleEndianValue]
      omega
  · have hc := toUnsigned_cast 32 value
    have hl := toUnsigned_lt 32 value
    have hs : serializeInteger value 4 result = (true, result ++
        [Int128.toUnsigned 32 value % 256, Int128.toUnsigned 32 value / 256 % 256,
         Int128.toUnsigned 32 value / 256 / 256 % 256,
         Int128.toUnsigned 32 value / 256 / 256 / 256 % 256]) := by
      simp only [serializeInteger, and_0xFF, shiftRight_8]
    refine ⟨_, hs, rfl, ?_, ?_, key _ ?_⟩
    · intro b hb
      simp only [List.mem_cons, List.mem_singleton, List.not_mem_nil, or_false] at hb
      omega
    all_goals
      simp only [littleEndianValue]
      omega
  · have hc := toUnsigned_cast 64 value
    have hl := toUnsigned_lt 64 value
    have hs : serializeInteger value 8 result = (true, result ++
        [Int128.toUnsigned 64 value % 256, Int128.toUnsigned 64 value / 256 % 256,
         Int128.toUnsigned 64 value / 256 / 256 % 256,
         Int128.toUnsigned 64 value / 256 / 256 / 256 % 256,
         Int128.toUnsigned 64 value / 256 / 256 / 256 / 256 % 256,
         Int128.toUnsigned 64 value / 256 / 256 / 256 / 256 / 256 % 256,
         Int128.toUnsigned 64 value / 256 / 256 / 256 / 256 / 256 / 256 % 256,
         Int128.toUnsigned 64 value / 256 / 256 / 256 / 256 / 256 / 256 / 256 % 256]) := by
      simp only [serializeInteger, and_0xFF, shiftRight_8]
    refine ⟨_, hs, rfl, ?_, ?_, key _ ?_⟩
    · intro b hb
      simp only [List.mem_cons, List.mem_singleton, List.not_mem_nil, or_false] at hb
      omega
    all_goals
      simp only [littleEndianValue]
      omega

/-- For any other size `serializeInteger` fails and leaves the buffer as it was. -/
theorem serializeInteger_other_size (value : Int128) (size : Nat) (result : List Nat)
    (hsize : ¬ (size = 1 ∨ size = 2 ∨ size = 4 ∨ size = 8)) :
    serializeInteger value size result = (false, result) := by
  unfold serializeInteger
  split
  · exact absurd (Or.inl rfl) hsize
  · exact absurd (Or.inr (Or.inl rfl)) hsize
  · exact absurd (Or.inr (Or.inr (Or.inl rfl))) hsize
  · exact absurd (Or.inr (Or.inr (Or.inr rfl))) hsize
  · rfl

/-! ### C3: `serializeInteger` is little-endian -/

/-- C3: for a size of 1, 2, 4 or 8 bytes `serializeInteger` succeeds and appends
exactly `size` bytes, each below 256, whose little-endian value (the sum of
`b_i * 256 ^ i`) is `value mod 2 ^ (8 * size)`; hence a value in
`[0, 2 ^ (8 * size))` is recovered by decoding the appended bytes. -/
theorem serializeInteger_little_endian (value : Int128) (size : Nat) (result : List Nat)
    (hsize : size = 1 ∨ size = 2 ∨ size = 4 ∨ size = 8) :
    ∃ bytes : List Nat,
      serializeInteger value size result = (true, result ++ bytes) ∧
      bytes.length = size ∧
      (∀ b ∈ bytes, b < 256) ∧
      (littleEndianValue bytes : Int) = value % (2 : Int) ^ (8 * size) ∧
      (0 ≤ value → value < (2 : Int) ^ (8 * size) → (littleEndianValue bytes : Int) = value) :=
  serializeInteger_appends value size result hsize

/-- Witness for C3: the 16-bit value `0x1234` written after the byte 7. -/
theorem serializeInteger_little_endian_witness :
    (2 = 1 ∨ 2 = 2 ∨ 2 = 4 ∨ 2 = 8) ∧
    ∃ bytes : List Nat,
      serializeInteger 4660 2 [7] = (true, [7] ++ bytes) ∧
      bytes.length = 2 ∧
      (∀ b ∈ bytes, b < 256) ∧
      (littleEndianValue bytes : Int) = 4660 % (2 : Int) ^ (8 * 2) ∧
      (0 ≤ (4660 : Int) → (4660 : Int) < (2 : Int) ^ (8 * 2) → (littleEndianValue bytes : Int) = 4660) :=
  ⟨by decide, serializeInteger_little_endian 4660 2 [7] (by decide)⟩

/-! ### C2: integer literals of a builtin integer type -/

/-- C2 (counterexample): an integer literal of a builtin integer type of
declared size 3 (within 1..8) is not serialized: the call returns false and
appends nothing. -/
theorem serializeConstantInitializer_integer_size_three_fails :
    (1 ≤ 3 ∧ 3 ≤ 8) ∧
    serializeConstantInitializer ⟨2, 3⟩
      (.mk (.IntegerLiteral 5)
        ⟨.CompileTime, .ResolvedIdentifier (.BuiltinIntegerType 0 3 0 16777215), {}⟩) []
      = (false, []) := by
  decide

/-- C2 (amended): for an integer literal whose type is a builtin integer type
of declared size 1, 2, 4 or 8, `serializeConstantInitializer` returns true and
appends exactly that many bytes; for every other declared size it returns
false and appends nothing. -/
theorem serializeConstantInitializer_integer_literal (platform : Platform) (id size : Nat)
    (min max value : Int128) (context : EvaluationContext) (qualifiers : Qualifiers)
    (result : List Nat) :
    ((size = 1 ∨ size = 2 ∨ size = 4 ∨ size = 8) →
      ∃ bytes : List Nat,
        serializeConstantInitializer platform
          (.mk (.IntegerLiteral value)
            ⟨context, .ResolvedIdentifier (.BuiltinIntegerType id size min max), qualifiers⟩) result
          = (true, result ++ bytes) ∧ bytes.length = size) ∧
    (¬ (size = 1 ∨ size = 2 ∨ size = 4 ∨ size = 8) →
      serializeConstantInitializer platform
        (.mk (.IntegerLiteral value)
          ⟨context, .ResolvedIdentifier (.BuiltinIntegerType id size min max), qualifiers⟩) result
        = (false, result)) := by
  have h : serializeConstantInitializer platform
      (.mk (.IntegerLiteral value)
        ⟨context, .ResolvedIdentifier (.BuiltinIntegerType id size min max), qualifiers⟩) result
      = serializeInteger value size result := by
    simp [serializeConstantInitializer, calculateStorageSize, calculateDefinitionStorageSize]
  constructor
  · intro hsize
    obtain ⟨bytes, h1, h2, _⟩ := serializeInteger_appends value size result hsize
    exact ⟨bytes, by rw [h, h1], h2⟩
  · intro hsize
    rw [h, serializeInteger_other_size value size result hsize]

/-- Witness for C2 (amended): a `u16` literal and a literal of a 3-byte type. -/
theorem serializeConstantInitializer_integer_literal_witness :
    (∃ bytes : List Nat,
      serializeConstantInitializer ⟨2, 3⟩
        (.mk (.IntegerLiteral 4660)
          ⟨.CompileTime, .ResolvedIdentifier (.BuiltinIntegerType 0 2 0 65535), {}⟩) []
        = (true, [] ++ bytes) ∧ bytes.length = 2) ∧
    serializeConstantInitializer ⟨2, 3⟩
      (.mk (.IntegerLiteral 4660)
        ⟨.CompileTime, .ResolvedIdentifier (.BuiltinIntegerType 1 3 0 16777215), {}⟩) []
      = (false, []) :=
  ⟨(serializeConstantInitializer_integer_literal ⟨2, 3⟩ 0 2 0 65535 4660 .CompileTime {} []).1
      (by decide),
    (serializeConstantInitializer_integer_literal ⟨2, 3⟩ 1 3 0 16777215 4660 .CompileTime {} []).2
      (by decide)⟩

/-! ### Helper lemmas on the item map and the item loops -/

theorem findItem_itemSerializers (platform : Platform) (name : String)
    (items : List (String × Expression)) :
    findItem name (itemSerializers platform items)
      = (findItem name items).map (serializeConstantInitializer platform) := by
  induction items with
  | nil => simp [itemSerializers, findItem]
  | cons item rest ih =>
    obtain ⟨key, value⟩ := item
    simp only [itemSerializers, findItem]
    split
    · rfl
    · exact ih

theorem mem_of_findItem {α : Type} (name : String) (value : α) :
    ∀ items : List (String × α), findItem name items = some value → (name, value) ∈ items
  | [], h => by simp [findItem] at h
  | (key, v) :: rest, h => by
    simp only [findItem] at h
    split at h
    · rename_i hk
      simp only [Option.some.injEq] at h
      subst hk; subst h
      exact List.mem_cons_self _ _
    · exact List.mem_cons_of_mem _ (mem_of_findItem name value rest h)

theorem findItem_eq_none {α : Type} (name : String) :
    ∀ items : List (String × α), name ∉ items.map Prod.fst → findItem name items = none
  | [], _ => rfl
  | (key, v) :: rest, h => by
    simp only [List.map_cons, List.mem_cons, not_or] at h
    simp only [findItem]
    rw [if_neg (fun hk => h.1 hk.symm)]
    exact findItem_eq_none name rest h.2

theorem findItem_of_mem {α : Type} (name : String) (value : α) :
    ∀ items : List (String × α), (items.map Prod.fst).Nodup → (name, value) ∈ items →
      findItem name items = some value
  | [], _, h => by simp at h
  | (key, v) :: rest, hn, h => by
    simp only [List.map_cons, List.nodup_cons] at hn
    simp only [findItem]
    rcases List.mem_cons.mp h with h | h
    · simp only [Prod.mk.injEq] at h
      rw [if_pos h.1.symm, h.2]
    · have hne : key ≠ name := by
        intro hk
        apply hn.1
        rw [hk]
        exact List.mem_map_of_mem Prod.fst h
      rw [if_neg hne]
      exact findItem_of_mem name value rest hn.2 h

theorem findItem_perm {α : Type} (name : String) (items items' : List (String × α))
    (hkeys : (items.map Prod.fst).Nodup) (hperm : items'.Perm items) :
    findItem name items' = findItem name items := by
  have hkeys' : (items'.map Prod.fst).Nodup := (hperm.map Prod.fst).nodup_iff.mpr hkeys
  cases h : findItem name items with
  | none =>
    apply findItem_eq_none
    intro hmem
    have hmem2 : name ∈ items.map Prod.fst := (hperm.map Prod.fst).mem_iff.mp hmem
    obtain ⟨⟨k, v⟩, hkv, hk⟩ := List.mem_map.mp hmem2
    simp only at hk
    subst hk
    rw [findItem_of_mem _ v items hkeys hkv] at h
    exact Option.noConfusion h
  | some value =>
    exact findItem_of_mem name value items' hkeys' (hperm.mem_iff.mpr (mem_of_findItem name value items h))

theorem serializeStructMembers_eq_serializeItems (platform : Platform)
    (items : List (String × Expression)) :
    ∀ (members : List String) (values : List Expression) (result : List Nat),
      List.Forall₂ (fun member value => findItem member items = some value) members values →
      serializeStructMembers (itemSerializers platform items) members result
        = serializeItems platform values result := by
  intro members values result h
  induction h generalizing result with
  | nil => simp [serializeStructMembers, serializeItems]
  | @cons member value members values hhead _ ih =>
    simp only [serializeStructMembers, serializeItems, findItem_itemSerializers, hhead, Option.map_some']
    rcases serializeConstantInitializer platform value result with ⟨ok, result1⟩
    cases ok
    · rfl
    · exact ih result1

theorem serializeItems_success (platform : Platform) :
    ∀ (values : List Expression) (bytes : List (List Nat)) (result : List Nat),
      List.Forall₂ (fun value b => ∀ buffer : List Nat,
        serializeConstantInitializer platform value buffer = (true, buffer ++ b)) values bytes →
      serializeItems platform values result = (true, result ++ bytes.flatten) := by
  intro values bytes result h
  induction h generalizing result with
  | nil => simp [serializeItems]
  | cons hhead _ ih =>
    simp only [serializeItems, hhead, List.flatten_cons]
    rw [ih]
    simp

theorem serializeItems_failure (platform : Platform) :
    ∀ (values : List Expression) (result : List Nat),
      (∃ value ∈ values, ∀ buffer : List Nat,
        (serializeConstantInitializer platform value buffer).1 = false) →
      (serializeItems platform values result).1 = false
  | [], _, h => by simp at h
  | value :: rest, result, h => by
    simp only [serializeItems]
    rcases hs : serializeConstantInitializer platform value result with ⟨ok, result1⟩
    cases ok
    · rfl
    · obtain ⟨v, hv, hfail⟩ := h
      rcases List.mem_cons.mp hv with hv | hv
      · subst hv
        have := hfail result
        rw [hs] at this
        exact absurd this (by simp)
      · exact serializeItems_failure platform rest result1 ⟨v, hv, hfail⟩

/-! ### C5: struct literals are serialized in declaration order -/

/-- C5: for a struct (non-union) literal in which every member of the struct
definition has a value (`values` lists them in declaration order),
`serializeConstantInitializer` behaves as the item loop over `values`: when
every value serializes it appends exactly the concatenation of their
serializations in declaration order, with nothing between or after them, and
it fails when a member value fails to serialize. The result does not depend on
the order of the items of the literal (`items'` is any reordering of the
name-to-item map `items`). -/
theorem serializeConstantInitializer_struct_declaration_order (platform : Platform)
    (id size : Nat) (members : List String) (items items' : List (String × Expression))
    (info : ExpressionInfo) (values : List Expression) (result : List Nat)
    (hkeys : (items.map Prod.fst).Nodup) (hperm : items'.Perm items)
    (hvalues : List.Forall₂ (fun member value => findItem member items = some value) members values) :
    serializeConstantInitializer platform
        (.mk (.StructLiteral (.ResolvedIdentifier (.Struct id .Struct size members)) items') info) result
      = serializeItems platform values result ∧
    (∀ bytes : List (List Nat),
      List.Forall₂ (fun value b => ∀ buffer : List Nat,
        serializeConstantInitializer platform value buffer = (true, buffer ++ b)) values bytes →
      serializeConstantInitializer platform
          (.mk (.StructLiteral (.ResolvedIdentifier (.Struct id .Struct size members)) items') info) result
        = (true, result ++ bytes.flatten)) ∧
    ((∃ value ∈ values, ∀ buffer : List Nat,
        (serializeConstantInitializer platform value buffer).1 = false) →
      (serializeConstantInitializer platform
          (.mk (.StructLiteral (.ResolvedIdentifier (.Struct id .Struct size members)) items') info)
          result).1 = false) := by
  have hvalues' : List.Forall₂ (fun member value => findItem member items' = some value)
      members values := by
    refine List.Forall₂.imp ?_ hvalues
    intro member value h
    rw [findItem_perm member items items' hkeys hperm, h]
  have h : serializeConstantInitializer platform
        (.mk (.StructLiteral (.ResolvedIdentifier (.Struct id .Struct size members)) items') info) result
      = serializeItems platform values result := by
    simp only [serializeConstantInitializer]
    exact serializeStructMembers_eq_serializeItems platform items' members values result hvalues'
  refine ⟨h, ?_, ?_⟩
  · intro bytes hbytes
    rw [h, serializeItems_success platform values bytes result hbytes]
  · intro hfail
    rw [h]
    exact serializeItems_failure platform values result hfail

/-- Witness for C5: `struct { a : u16, b : u8 }` with the literal items given
as `b`, then `a`; the bytes of `a` come first. -/
theorem serializeConstantInitializer_struct_declaration_order_witness :
    serializeConstantInitializer ⟨2, 3⟩
        (.mk (.StructLiteral (.ResolvedIdentifier (.Struct 0 .Struct 3 ["a", "b"]))
          [("b", .mk (.IntegerLiteral 1)
              ⟨.CompileTime, .ResolvedIdentifier (.BuiltinIntegerType 1 1 0 255), {}⟩),
           ("a", .mk (.IntegerLiteral 515)
              ⟨.CompileTime, .ResolvedIdentifier (.BuiltinIntegerType 2 2 0 65535), {}⟩)])
          ⟨.CompileTime, .ResolvedIdentifier (.Struct 0 .Struct 3 ["a", "b"]), {}⟩) [9]
      = (true, [9] ++ [[3, 2], [1]].flatten) :=
  (serializeConstantInitializer_struct_declaration_order ⟨2, 3⟩ 0 3 ["a", "b"]
    [("a", .mk (.IntegerLiteral 515)
        ⟨.CompileTime, .ResolvedIdentifier (.BuiltinIntegerType 2 2 0 65535), {}⟩),
     ("b", .mk (.IntegerLiteral 1)
        ⟨.CompileTime, .ResolvedIdentifier (.BuiltinIntegerType 1 1 0 255), {}⟩)]
    [("b", .mk (.IntegerLiteral 1)
        ⟨.CompileTime, .ResolvedIdentifier (.BuiltinIntegerType 1 1 0 255), {}⟩),
     ("a", .mk (.IntegerLiteral 515)
        ⟨.CompileTime, .ResolvedIdentifier (.BuiltinIntegerType 2 2 0 65535), {}⟩)]
    ⟨.CompileTime, .ResolvedIdentifier (.Struct 0 .Struct 3 ["a", "b"]), {}⟩
    [.mk (.IntegerLiteral 515)
        ⟨.CompileTime, .ResolvedIdentifier (.BuiltinIntegerType 2 2 0 65535), {}⟩,
     .mk (.IntegerLiteral 1)
        ⟨.CompileTime, .ResolvedIdentifier (.BuiltinIntegerType 1 1 0 255), {}⟩]
    [9] (by decide) (List.Perm.swap _ _ _)
    (List.Forall₂.cons rfl (List.Forall₂.cons rfl List.Forall₂.nil))).2.1
    [[3, 2], [1]]
    (List.Forall₂.cons (fun _ => rfl) (List.Forall₂.cons (fun _ => rfl) List.Forall₂.nil))

/-! ### C4: union literals -/

/-- The bytes that the serializer appends for a literal with one item of a
union: the bytes of the value of the item, followed by a zero byte when the
value has no bytes. The padding test compares the number of items of the
literal, not the size of the union, with the number of bytes of the value. -/
theorem serializeConstantInitializer_union_item (platform : Platform) (id size : Nat)
    (members : List String) (name : String) (value : Expression) (info : ExpressionInfo)
    (result bytes : List Nat)
    (hvalue : serializeConstantInitializer platform value result = (true, result ++ bytes)) :
    serializeConstantInitializer platform
        (.mk (.StructLiteral (.ResolvedIdentifier (.Struct id .Union size members))
          [(name, value)]) info) result
      = (true, result ++ bytes ++ List.replicate (1 - bytes.length) 0) := by
  simp only [serializeConstantInitializer, itemSerializers, List.head?, serializeUnionItem, hvalue,
    List.length_append, List.length_singleton, List.length_cons, List.length_nil]
  by_cases hlen : 1 > result.length + bytes.length - result.length
  · rw [if_pos hlen]
    have : 1 - (result.length + bytes.length - result.length) = 1 - bytes.length := by omega
    simp [this]
  · rw [if_neg hlen]
    have : 1 - bytes.length = 0 := by omega
    simp [this]

/-- C4 (failing input): on a platform with pointers of two bytes and far
pointers of three, `union Handler { f : far func }` has the storage size 3.
The literal `Handler { f = handler }` of a function `handler` is reduced
without a message, before `handler` has an address and again in the second
pass of `generateCode`, when it has one: the union has one member, and a
function is accepted for a member of function type whether it is far or not.
With `handler` at `0x8010`, serializing the reduced literal appends the two
bytes `0x10 0x80` of the address, as wide as a pointer, and no zero byte: the
padding test compares the number of items of the literal (one) with the
number of bytes written, not the size of the union. Two bytes are appended
where the union occupies three. -/
theorem serializeConstantInitializer_union_not_padded :
    (resolveStructDefinition some ⟨2, 3⟩ .Union
        [{ name := "f", typeExpression := .Function true [] (.Tuple []) }]).2 = 3 ∧
    calculateStorageSize ⟨2, 3⟩ (.ResolvedIdentifier (.Struct 23 .Union 3 ["f"])) = some 3 ∧
    reduceStructLiteral ⟨2, 3⟩ sampleHandlerCollaborators (fun type => some type)
        (.ResolvedIdentifier (.Struct 23 .Union 3 ["f"])) [("f", sampleHandlerReference none)]
      = (some (.mk (.StructLiteral (.ResolvedIdentifier (.Struct 23 .Union 3 ["f"]))
            [("f", sampleHandlerReference none)])
          ⟨.LinkTime, .ResolvedIdentifier (.Struct 23 .Union 3 ["f"]), {}⟩), []) ∧
    reduceStructLiteral ⟨2, 3⟩ sampleHandlerCollaborators (fun type => some type)
        (.ResolvedIdentifier (.Struct 23 .Union 3 ["f"]))
        [("f", sampleHandlerReference (some ⟨some 0x10, some 0x8010⟩))]
      = (some (.mk (.StructLiteral (.ResolvedIdentifier (.Struct 23 .Union 3 ["f"]))
            [("f", sampleHandlerReference (some ⟨some 0x10, some 0x8010⟩))])
          ⟨.LinkTime, .ResolvedIdentifier (.Struct 23 .Union 3 ["f"]), {}⟩), []) ∧
    serializeConstantInitializer ⟨2, 3⟩
        (.mk (.StructLiteral (.ResolvedIdentifier (.Struct 23 .Union 3 ["f"]))
          [("f", sampleHandlerReference (some ⟨some 0x10, some 0x8010⟩))])
          ⟨.LinkTime, .ResolvedIdentifier (.Struct 23 .Union 3 ["f"]), {}⟩) []
      = (true, [0x10, 0x80]) :=
  ⟨by decide, by decide, rfl, rfl, by decide⟩

/-! ### C6: struct and union layout -/

theorem wrapSize_of_le (n : Nat) (h : n ≤ SIZE_MAX) : wrapSize n = n := by
  unfold wrapSize
  exact Nat.mod_eq_of_lt (Nat.lt_succ_of_le h)

theorem resolveStructMembers_struct (reduceTypeExpression : TypeExpression → Option TypeExpression)
    (platform : Platform) (members : List StructMember) (sizes : List Nat)
    (hsizes : List.Forall₂ (fun (member : StructMember) size => ∃ resolvedType,
      reduceTypeExpression member.typeExpression = some resolvedType ∧
      calculateStorageSize platform resolvedType = some size) members sizes) :
    ∀ offset totalSize : Nat, offset + sizes.sum ≤ SIZE_MAX → totalSize + sizes.sum ≤ SIZE_MAX →
      (resolveStructMembers reduceTypeExpression platform .Struct members offset totalSize).2
        = totalSize + sizes.sum ∧
      ∀ i : Nat, i < members.length →
        ((resolveStructMembers reduceTypeExpression platform .Struct members offset totalSize).1[i]?).bind
          (fun member => member.offset) = some (offset + (sizes.take i).sum) := by
  induction hsizes with
  | nil =>
    intro offset totalSize _ _
    exact ⟨by simp [resolveStructMembers], fun i hi => absurd hi (by simp)⟩
  | @cons member size members sizes hhead _ ih =>
    intro offset totalSize hoff htot
    obtain ⟨resolvedType, hreduce, hsize⟩ := hhead
    simp only [List.sum_cons] at hoff htot
    have h1 : wrapSize (offset + size) = offset + size := wrapSize_of_le _ (by omega)
    have h2 : wrapSize (totalSize + size) = totalSize + size := wrapSize_of_le _ (by omega)
    obtain ⟨ihsize, ihoff⟩ := ih (offset + size) (totalSize + size) (by omega) (by omega)
    simp only [resolveStructMembers, hreduce, hsize, if_true, h1, h2]
    refine ⟨by rw [ihsize, List.sum_cons]; omega, ?_⟩
    intro i hi
    cases i with
    | zero => simp
    | succ j =>
      simp only [List.length_cons, Nat.add_lt_add_iff_right] at hi
      simp only [List.getElem?_cons_succ, List.take_succ_cons, List.sum_cons]
      rw [ihoff j hi]
      congr 1
      omega

theorem resolveStructMembers_union (reduceTypeExpression : TypeExpression → Option TypeExpression)
    (platform : Platform) (members : List StructMember) (sizes : List Nat)
    (hsizes : List.Forall₂ (fun (member : StructMember) size => ∃ resolvedType,
      reduceTypeExpression member.typeExpression = some resolvedType ∧
      calculateStorageSize platform resolvedType = some size) members sizes) :
    ∀ offset totalSize : Nat,
      (resolveStructMembers reduceTypeExpression platform .Union members offset totalSize).2
        = max totalSize (sizes.foldr max 0) ∧
      ∀ i : Nat, i < members.length →
        ((resolveStructMembers reduceTypeExpression platform .Union members offset totalSize).1[i]?).bind
          (fun member => member.offset) = some offset := by
  induction hsizes with
  | nil =>
    intro offset totalSize
    exact ⟨by simp [resolveStructMembers], fun i hi => absurd hi (by simp)⟩
  | @cons member size members sizes hhead _ ih =>
    intro offset totalSize
    obtain ⟨resolvedType, hreduce, hsize⟩ := hhead
    obtain ⟨ihsize, ihoff⟩ := ih offset (max totalSize size)
    simp only [resolveStructMembers, hreduce, hsize]
    refine ⟨by simp only [reduceCtorEq, if_false]; rw [ihsize, List.foldr_cons, max_assoc], ?_⟩
    intro i hi
    cases i with
    | zero => simp
    | succ j =>
      simp only [List.length_cons, Nat.add_lt_add_iff_right] at hi
      simp only [List.getElem?_cons_succ, reduceCtorEq, if_false]
      exact ihoff j hi

/-- C6 (counterexample): a struct with two members of type
`[u8; 0x8000000000000000]`, each of known storage size `2 ^ 63`: the size
stored for the struct is 0, not the sum `2 ^ 64` of the member sizes. -/
theorem resolveStructDefinition_size_wraps :
    calculateStorageSize ⟨2, 3⟩
        (.Array (.ResolvedIdentifier (.BuiltinIntegerType 1 1 0 255)) (some 9223372036854775808))
      = some 9223372036854775808 ∧
    (resolveStructDefinition some ⟨2, 3⟩ .Struct
        [{ name := "a",
           typeExpression :=
             .Array (.ResolvedIdentifier (.BuiltinIntegerType 1 1 0 255)) (some 9223372036854775808) },
         { name := "b",
           typeExpression :=
             .Array (.ResolvedIdentifier (.BuiltinIntegerType 1 1 0 255)) (some 9223372036854775808) }]).2
      = 0 ∧
    9223372036854775808 + 9223372036854775808 ≠ 0 := by
  decide

/-- C6 (amended): let every member of a struct or union have a known storage
size (`sizes` lists them in declaration order). For a struct whose member
sizes sum to at most `SIZE_MAX`, each member's offset is the sum of the sizes of
the members declared before it and the struct's size is the sum of all member
sizes. For a union every member's offset is 0 and the size is the maximum
member size. -/
theorem resolveStructDefinition_layout (reduceTypeExpression : TypeExpression → Option TypeExpression)
    (platform : Platform) (members : List StructMember) (sizes : List Nat)
    (hsizes : List.Forall₂ (fun (member : StructMember) size => ∃ resolvedType,
      reduceTypeExpression member.typeExpression = some resolvedType ∧
      calculateStorageSize platform resolvedType = some size) members sizes) :
    (sizes.sum ≤ SIZE_MAX →
      (resolveStructDefinition reduceTypeExpression platform .Struct members).2 = sizes.sum ∧
      ∀ i : Nat, i < members.length →
        ((resolveStructDefinition reduceTypeExpression platform .Struct members).1[i]?).bind
          (fun member => member.offset) = some ((sizes.take i).sum)) ∧
    ((resolveStructDefinition reduceTypeExpression platform .Union members).2 = sizes.foldr max 0 ∧
      ∀ i : Nat, i < members.length →
        ((resolveStructDefinition reduceTypeExpression platform .Union members).1[i]?).bind
          (fun member => member.offset) = some 0) := by
  constructor
  · intro hsum
    have h := resolveStructMembers_struct reduceTypeExpression platform members sizes hsizes 0 0
      (by omega) (by omega)
    simpa [resolveStructDefinition] using h
  · have h := resolveStructMembers_union reduceTypeExpression platform members sizes hsizes 0 0
    simpa [resolveStructDefinition] using h

/-- Witness for C6 (amended): members of type `u8` and `u16`. -/
theorem resolveStructDefinition_layout_witness :
    ((resolveStructDefinition some ⟨2, 3⟩ .Struct
        [{ name := "a", typeExpression := .ResolvedIdentifier (.BuiltinIntegerType 1 1 0 255) },
         { name := "b", typeExpression := .ResolvedIdentifier (.BuiltinIntegerType 2 2 0 65535) }]).2
        = [1, 2].sum ∧
      ∀ i : Nat, i < 2 →
        ((resolveStructDefinition some ⟨2, 3⟩ .Struct
          [{ name := "a", typeExpression := .ResolvedIdentifier (.BuiltinIntegerType 1 1 0 255) },
           { name := "b", typeExpression := .ResolvedIdentifier (.BuiltinIntegerType 2 2 0 65535) }]).1[i]?).bind
          (fun member => member.offset) = some (([1, 2].take i).sum)) :=
  (resolveStructDefinition_layout some ⟨2, 3⟩
    [{ name := "a", typeExpression := .ResolvedIdentifier (.BuiltinIntegerType 1 1 0 255) },
     { name := "b", typeExpression := .ResolvedIdentifier (.BuiltinIntegerType 2 2 0 65535) }]
    [1, 2]
    (List.Forall₂.cons ⟨_, rfl, rfl⟩ (List.Forall₂.cons ⟨_, rfl, rfl⟩ List.Forall₂.nil))).1
    (by decide)

/-! ### C7: storage size of array types -/

/-- C7 (failing input): on a 64-bit host the array type
`[u16; 0x8000000000000000]` has element size 2 and length `2 ^ 63`, so the
product `2 ^ 64` exceeds `SIZE_MAX`, yet `calculateStorageSize` returns the size
0 (the wrapped product) instead of no size. The overflow test computes
`elementSize * SIZE_MAX / length`, which is non-zero here. The same test
rejects the array type `[(); 1]` of element size 0, whose product 0 fits. -/
theorem calculateStorageSize_array_overflow_accepted :
    calculateStorageSize ⟨2, 3⟩ (.ResolvedIdentifier (.BuiltinIntegerType 2 2 0 65535)) = some 2 ∧
    2 * 9223372036854775808 > SIZE_MAX ∧
    calculateStorageSize ⟨2, 3⟩
        (.Array (.ResolvedIdentifier (.BuiltinIntegerType 2 2 0 65535)) (some 9223372036854775808))
      = some 0 ∧
    calculateStorageSize ⟨2, 3⟩ (.Tuple []) = some 0 ∧
    calculateStorageSize ⟨2, 3⟩ (.Array (.Tuple []) (some 1)) = none := by
  decide

/-! ### C8: enum member values -/

theorem enumMember_step (reduceExpression : Expression → Option Expression)
    (enumTypeExpression : TypeExpression) (name : String) (value : Option Expression)
    (rest : List (String × Option Expression)) (index : Nat)
    (previousR : ExpressionPointer) (offset : Nat) (previousValue : Int128)
    (previousS : ExpressionPointer)
    (hR : ∀ a, previousR.address = some a → a < index)
    (hS : ∀ a, previousS.address = some a → a < index) :
    ∃ (vx : Option Int128) (previousR' : ExpressionPointer) (offset' : Nat)
      (previousValue' : Int128) (previousS' : ExpressionPointer),
      (resolveEnumMembers reduceExpression enumTypeExpression
          (reserveEnumMembers ((name, value) :: rest) index previousR offset)
          previousValue previousS).map EnumMember.value
        = vx :: (resolveEnumMembers reduceExpression enumTypeExpression
            (reserveEnumMembers rest (index + 1) previousR' offset')
            previousValue' previousS').map EnumMember.value ∧
      (∀ a, previousR'.address = some a → a < index + 1) ∧
      (∀ a, previousS'.address = some a → a < index + 1) ∧
      (∀ p, vx = some p → previousR'.address = previousS'.address ∧
        previousValue' + (offset' : Int) = p + 1) ∧
      (∀ e v info, value = some e →
        reduceExpression e = some (.mk (.IntegerLiteral v) info) → vx = some v) ∧
      (value = none → previousR.address = previousS.address →
        vx = some (previousValue + (offset : Int))) := by
  have hR' : ∀ a, previousR.address = some a → a < index + 1 := fun a h => Nat.lt_succ_of_lt (hR a h)
  have hS' : ∀ a, previousS.address = some a → a < index + 1 := fun a h => Nat.lt_succ_of_lt (hS a h)
  cases value with
  | some e =>
    have hne : ¬ (ExpressionPointer.address (some (index, e)) = previousS.address) := by
      intro h
      have := hS index h.symm
      omega
    have hnew : ∀ a, ExpressionPointer.address (some (index, e)) = some a → a < index + 1 := by
      intro a h
      simp [ExpressionPointer.address] at h
      omega
    rcases hred : reduceExpression e with _ | ⟨variant, info⟩
    · refine ⟨none, some (index, e), 1, previousValue, previousS, ?_, hnew, hS', ?_, ?_, ?_⟩
      · simp [reserveEnumMembers, resolveEnumMembers, hne, hred, EnumMember.value]
      · intro p hp; exact absurd hp (by simp)
      · intro e' v info' he hr
        simp only [Option.some.injEq] at he
        subst he
        rw [hred] at hr
        exact absurd hr (by simp)
      · intro h; exact absurd h (by simp)
    · by_cases hlit : ∃ v, variant = .IntegerLiteral v
      · obtain ⟨v, hv⟩ := hlit
        subst hv
        refine ⟨some v, some (index, e), 1, v, some (index, e), ?_, hnew, hnew, ?_, ?_, ?_⟩
        · simp [reserveEnumMembers, resolveEnumMembers, hne, hred, EnumMember.value, enumLiteral]
        · intro p hp
          simp only [Option.some.injEq] at hp
          subst hp
          exact ⟨rfl, by push_cast; ring⟩
        · intro e' v' info' he hr
          simp only [Option.some.injEq] at he
          subst he
          rw [hred] at hr
          simp only [Option.some.injEq, Expression.mk.injEq, ExpressionVariant.IntegerLiteral.injEq] at hr
          rw [hr.1]
        · intro h; exact absurd h (by simp)
      · refine ⟨none, some (index, e), 1, previousValue, some (index, e), ?_, hnew, hnew, ?_, ?_, ?_⟩
        · cases variant with
          | IntegerLiteral v => exact absurd ⟨v, rfl⟩ hlit
          | _ => simp [reserveEnumMembers, resolveEnumMembers, hne, hred, EnumMember.value]
        · intro p hp; exact absurd hp (by simp)
        · intro e' v' info' he hr
          simp only [Option.some.injEq] at he
          subst he
          rw [hred] at hr
          simp only [Option.some.injEq, Expression.mk.injEq] at hr
          exact absurd ⟨v', hr.1⟩ hlit
        · intro h; exact absurd h (by simp)
  | none =>
    by_cases heq : previousR.address = previousS.address
    · refine ⟨some (previousValue + (offset : Int)), previousR, offset + 1, previousValue, previousS,
        ?_, hR', hS', ?_, ?_, ?_⟩
      · simp [reserveEnumMembers, resolveEnumMembers, heq, EnumMember.value, enumLiteral]
      · intro p hp
        simp only [Option.some.injEq] at hp
        subst hp
        exact ⟨heq, by push_cast; ring⟩
      · intro e v info he; exact absurd he (by simp)
      · intro _ _; rfl
    · rcases hprev : previousR with _ | ⟨a, e⟩
      · subst hprev
        refine ⟨none, none, offset + 1, previousValue, previousS, ?_, hR', hS', ?_, ?_, ?_⟩
        · simp [reserveEnumMembers, resolveEnumMembers, heq, EnumMember.value]
        · intro p hp; exact absurd hp (by simp)
        · intro e v info he; exact absurd he (by simp)
        · intro _ h; exact absurd h heq
      · subst hprev
        rcases hred : reduceExpression e with _ | ⟨variant, info⟩
        · refine ⟨none, some (a, e), offset + 1, previousValue, previousS, ?_, hR', hS', ?_, ?_, ?_⟩
          · simp [reserveEnumMembers, resolveEnumMembers, heq, hred, EnumMember.value]
          · intro p hp; exact absurd hp (by simp)
          · intro e' v info' he; exact absurd he (by simp)
          · intro _ h; exact absurd h heq
        · by_cases hlit : ∃ v, variant = .IntegerLiteral v
          · obtain ⟨v, hv⟩ := hlit
            subst hv
            refine ⟨some (v + (offset : Int)), some (a, e), offset + 1, v, some (a, e),
              ?_, hR', hR', ?_, ?_, ?_⟩
            · simp [reserveEnumMembers, resolveEnumMembers, heq, hred, EnumMember.value, enumLiteral]
            · intro p hp
              simp only [Option.some.injEq] at hp
              subst hp
              exact ⟨rfl, by push_cast; ring⟩
            · intro e' v' info' he; exact absurd he (by simp)
            · intro _ h; exact absurd h heq
          · refine ⟨none, some (a, e), offset + 1, previousValue, some (a, e),
              ?_, hR', hR', ?_, ?_, ?_⟩
            · cases variant with
              | IntegerLiteral v => exact absurd ⟨v, rfl⟩ hlit
              | _ => simp [reserveEnumMembers, resolveEnumMembers, heq, hred, EnumMember.value]
            · intro p hp; exact absurd hp (by simp)
            · intro e' v' info' he; exact absurd he (by simp)
            · intro _ h; exact absurd h heq

theorem enumMember_values (reduceExpression : Expression → Option Expression)
    (enumTypeExpression : TypeExpression) :
    ∀ (items : List (String × Option Expression)) (index : Nat)
      (previousR : ExpressionPointer) (offset : Nat) (previousValue : Int128)
      (previousS : ExpressionPointer),
      (∀ a, previousR.address = some a → a < index) →
      (∀ a, previousS.address = some a → a < index) →
      ∀ i : Nat, i < items.length →
        (∀ name e v info, items[i]? = some (name, some e) →
          reduceExpression e = some (.mk (.IntegerLiteral v) info) →
          ((resolveEnumMembers reduceExpression enumTypeExpression
            (reserveEnumMembers items index previousR offset)
            previousValue previousS).map EnumMember.value)[i]? = some (some v)) ∧
        (∀ name, i = 0 → items[i]? = some (name, none) →
          previousR.address = previousS.address →
          ((resolveEnumMembers reduceExpression enumTypeExpression
            (reserveEnumMembers items index previousR offset)
            previousValue previousS).map EnumMember.value)[i]?
            = some (some (previousValue + (offset : Int)))) ∧
        (∀ name p, 0 < i → items[i]? = some (name, none) →
          ((resolveEnumMembers reduceExpression enumTypeExpression
            (reserveEnumMembers items index previousR offset)
            previousValue previousS).map EnumMember.value)[i - 1]? = some (some p) →
          ((resolveEnumMembers reduceExpression enumTypeExpression
            (reserveEnumMembers items index previousR offset)
            previousValue previousS).map EnumMember.value)[i]? = some (some (p + 1))) := by
  intro items
  induction items with
  | nil => intro _ _ _ _ _ _ _ i hi; exact absurd hi (by simp)
  | cons item rest ih =>
    obtain ⟨name0, value0⟩ := item
    intro index previousR offset previousValue previousS hR hS i hi
    obtain ⟨vx, previousR', offset', previousValue', previousS', hstep, hR', hS', hQ, hA, hB⟩ :=
      enumMember_step reduceExpression enumTypeExpression name0 value0 rest index previousR offset
        previousValue previousS hR hS
    rw [hstep]
    cases i with
    | zero =>
      refine ⟨?_, ?_, ?_⟩
      · intro name e v info hitem hred
        simp only [List.getElem?_cons_zero, Option.some.injEq, Prod.mk.injEq] at hitem
        simp only [List.getElem?_cons_zero]
        rw [hA e v info hitem.2 hred]
      · intro name _ hitem heq
        simp only [List.getElem?_cons_zero, Option.some.injEq, Prod.mk.injEq] at hitem
        simp only [List.getElem?_cons_zero]
        rw [hB hitem.2 heq]
      · intro name p hpos; exact absurd hpos (by simp)
    | succ j =>
      simp only [List.length_cons, Nat.add_lt_add_iff_right] at hi
      obtain ⟨ihA, ihB, ihC⟩ := ih (index + 1) previousR' offset' previousValue' previousS' hR' hS' j hi
      refine ⟨?_, ?_, ?_⟩
      · intro name e v info hitem hred
        simp only [List.getElem?_cons_succ] at hitem ⊢
        exact ihA name e v info hitem hred
      · intro name h0; exact absurd h0 (by simp)
      · intro name p _ hitem hprev
        simp only [List.getElem?_cons_succ] at hitem ⊢
        simp only [Nat.add_sub_cancel] at hprev
        cases j with
        | zero =>
          simp only [List.getElem?_cons_zero, Option.some.injEq] at hprev
          obtain ⟨hq1, hq2⟩ := hQ p hprev
          rw [ihB name rfl hitem hq1, hq2]
        | succ j' =>
          simp only [List.getElem?_cons_succ] at hprev
          exact ihC name p (Nat.succ_pos _) hitem hprev

/-- C8: after `reserveDefinitions` and `resolveDefinitionTypes`, a member of an
enum declaration (with pairwise distinct member names, as `reserveDefinitions`
requires) with an explicit value that reduces to the integer literal `v` has
the value `v`; a member without an explicit value has the value 0 if it is the
first member and otherwise the value of the preceding member plus 1. -/
theorem resolveEnumDeclaration_values (reduceExpression : Expression → Option Expression)
    (enumTypeExpression : TypeExpression) (items : List (String × Option Expression))
    (_hnames : (items.map Prod.fst).Nodup) (i : Nat) (hi : i < items.length) :
    (∀ name e v info, items[i]? = some (name, some e) →
      reduceExpression e = some (.mk (.IntegerLiteral v) info) →
      ((resolveEnumDeclaration reduceExpression enumTypeExpression items).map EnumMember.value)[i]?
        = some (some v)) ∧
    (∀ name, items[i]? = some (name, none) →
      (i = 0 →
        ((resolveEnumDeclaration reduceExpression enumTypeExpression items).map EnumMember.value)[i]?
          = some (some 0)) ∧
      (∀ p, 0 < i →
        ((resolveEnumDeclaration reduceExpression enumTypeExpression items).map EnumMember.value)[i - 1]?
          = some (some p) →
        ((resolveEnumDeclaration reduceExpression enumTypeExpression items).map EnumMember.value)[i]?
          = some (some (p + 1)))) := by
  obtain ⟨hA, hB, hC⟩ := enumMember_values reduceExpression enumTypeExpression items 0 none 0
    Int128.default none (by intro a h; simp [ExpressionPointer.address] at h)
    (by intro a h; simp [ExpressionPointer.address] at h) i hi
  refine ⟨hA, ?_⟩
  intro name hitem
  refine ⟨?_, ?_⟩
  · intro h0
    have := hB name h0 hitem rfl
    simpa [resolveEnumDeclaration, Int128.default] using this
  · intro p hpos hprev
    exact hC name p hpos hitem hprev

/-- Witness for C8: `enum E : u8 { A, B = 10, C }` gives `A = 0`, `B = 10`,
`C = 11` (the value of `C` is obtained from the theorem at index 2). -/
theorem resolveEnumDeclaration_values_witness :
    ((resolveEnumDeclaration (fun e => some e) (.ResolvedIdentifier (.Enum 0 none))
        [("A", none),
         ("B", some (.mk (.IntegerLiteral 10) ⟨.CompileTime, .ResolvedIdentifier (.BuiltinIntegerExpressionType 1), {}⟩)),
         ("C", none)]).map EnumMember.value)[2]? = some (some (10 + 1)) :=
  ((resolveEnumDeclaration_values (fun e => some e) (.ResolvedIdentifier (.Enum 0 none))
      [("A", none),
       ("B", some (.mk (.IntegerLiteral 10) ⟨.CompileTime, .ResolvedIdentifier (.BuiltinIntegerExpressionType 1), {}⟩)),
       ("C", none)] (by decide) 2 (by decide)).2 "C" rfl).2 10 (by decide) (by decide)

/-- The example of the specification: `enum E : u8 { A, B = 10, C }` gives
`A = 0`, `B = 10`, `C = 11`. -/
theorem resolveEnumDeclaration_example :
    (resolveEnumDeclaration (fun e => some e) (.ResolvedIdentifier (.Enum 0 none))
        [("A", none),
         ("B", some (.mk (.IntegerLiteral 10) ⟨.CompileTime, .ResolvedIdentifier (.BuiltinIntegerExpressionType 1), {}⟩)),
         ("C", none)]).map EnumMember.value = [some 0, some 10, some 11] := by
  decide

/-! ### C9: range literals as sequences -/

theorem toUnsigned_of_lt (w : Nat) (v : Int) (h0 : 0 ≤ v) (h1 : v < (2 : Int) ^ w) :
    Int128.toUnsigned w v = v.toNat := by
  unfold Int128.toUnsigned
  rw [Int.emod_eq_of_lt h0 h1]

theorem toUnsigned_le (w : Nat) (v : Int) (h0 : 0 ≤ v) :
    (Int128.toUnsigned w v : Int) ≤ v := by
  rw [toUnsigned_cast]
  have hm : (0 : Int) < (2 : Int) ^ w := by positivity
  have h1 := Int.emod_add_ediv v ((2 : Int) ^ w)
  have h2 := Int.ediv_nonneg h0 (le_of_lt hm)
  nlinarith [mul_nonneg (le_of_lt hm) h2]

theorem rangeLength_eq (start finish step : Int) (infoA infoB infoS info : ExpressionInfo)
    (hs : step ≠ 0) :
    tryGetSequenceLiteralLength
        (.mk (.RangeLiteral (.mk (.IntegerLiteral start) infoA) (.mk (.IntegerLiteral finish) infoB)
          (.mk (.IntegerLiteral step) infoS)) info)
      = if (if step < 0 then finish else start) > (if step < 0 then start else finish) then some 0
        else some (Int128.toUnsigned 64
          (Int.tdiv ((if step < 0 then start else finish) - (if step < 0 then finish else start))
            (if step < 0 then -step else step) + 1)) := by
  simp [tryGetSequenceLiteralLength, hs]

theorem rangeItem_eq (builtins : Builtins) (start finish step : Int)
    (infoA infoB infoS info : ExpressionInfo) (hs : step ≠ 0) (index : Nat) :
    getSequenceLiteralItem builtins
        (.mk (.RangeLiteral (.mk (.IntegerLiteral start) infoA) (.mk (.IntegerLiteral finish) infoB)
          (.mk (.IntegerLiteral step) infoS)) info) index
      = some (.mk (.IntegerLiteral (start + step * (index : Int)))
          ⟨.CompileTime, .ResolvedIdentifier builtins.iexpr, {}⟩) := by
  simp [getSequenceLiteralItem, hs]

/-- The quotient computed for a range that does not point away from its end. -/
theorem rangeQuotient (high low step : Int) (hle : low ≤ high) (hs : 0 < step) :
    0 ≤ Int.tdiv (high - low) step ∧
    Int.tdiv (high - low) step = (((high - low).natAbs / step.natAbs : Nat) : Int) ∧
    Int.tdiv (high - low) step * step ≤ high - low := by
  have h1 : 0 ≤ high - low := by omega
  have h2 : Int.tdiv (high - low) step = (high - low) / step :=
    Int.tdiv_eq_ediv h1 (le_of_lt hs)
  rw [h2]
  refine ⟨Int.ediv_nonneg h1 (le_of_lt hs), ?_, Int.ediv_mul_le _ (ne_of_gt hs)⟩
  rw [Int.ofNat_ediv, Int.natAbs_of_nonneg h1, Int.natAbs_of_nonneg (le_of_lt hs)]

/-- C9 (counterexample): the range `0 .. 18446744073709551615` with step 1 does
not point away from its end and has `2 ^ 64` items, but the length returned
(a `std::size_t`) is 0. -/
theorem tryGetSequenceLiteralLength_truncates :
    ¬ ((0 < (1 : Int) ∧ (18446744073709551615 : Int) < 0) ∨ ((1 : Int) < 0 ∧ (0 : Int) < 18446744073709551615)) ∧
    tryGetSequenceLiteralLength
        (.mk (.RangeLiteral
          (.mk (.IntegerLiteral 0) ⟨.CompileTime, .ResolvedIdentifier (.BuiltinIntegerExpressionType 0), {}⟩)
          (.mk (.IntegerLiteral 18446744073709551615)
            ⟨.CompileTime, .ResolvedIdentifier (.BuiltinIntegerExpressionType 0), {}⟩)
          (.mk (.IntegerLiteral 1) ⟨.CompileTime, .ResolvedIdentifier (.BuiltinIntegerExpressionType 0), {}⟩))
          ⟨.CompileTime, .ResolvedIdentifier (.BuiltinRangeType 1), {}⟩)
      = some 0 ∧
    ((18446744073709551615 : Int) - 0).natAbs / (1 : Int).natAbs + 1 ≠ 0 := by
  decide

/-- C9 (amended): for a range literal with integer start `a`, end `b` and
non-zero step `s`, `tryGetSequenceLiteralLength` returns 0 when `s` points away
from `b`; otherwise it returns `floor(|b - a| / |s|) + 1` provided that number
is at most `SIZE_MAX`; and for every index `i` below the returned length
`getSequenceLiteralItem` returns the integer literal `a + i * s`, which lies
between `a` and `b` inclusive. -/
theorem rangeLiteral_length_and_items (builtins : Builtins) (a b s : Int)
    (infoA infoB infoS info : ExpressionInfo) (hs : s ≠ 0) :
    (((0 < s ∧ b < a) ∨ (s < 0 ∧ a < b)) →
      tryGetSequenceLiteralLength
          (.mk (.RangeLiteral (.mk (.IntegerLiteral a) infoA) (.mk (.IntegerLiteral b) infoB)
            (.mk (.IntegerLiteral s) infoS)) info) = some 0) ∧
    (¬ ((0 < s ∧ b < a) ∨ (s < 0 ∧ a < b)) →
      (b - a).natAbs / s.natAbs + 1 ≤ SIZE_MAX →
      tryGetSequenceLiteralLength
          (.mk (.RangeLiteral (.mk (.IntegerLiteral a) infoA) (.mk (.IntegerLiteral b) infoB)
            (.mk (.IntegerLiteral s) infoS)) info) = some ((b - a).natAbs / s.natAbs + 1)) ∧
    (∀ n i : Nat,
      tryGetSequenceLiteralLength
          (.mk (.RangeLiteral (.mk (.IntegerLiteral a) infoA) (.mk (.IntegerLiteral b) infoB)
            (.mk (.IntegerLiteral s) infoS)) info) = some n →
      i < n →
      getSequenceLiteralItem builtins
          (.mk (.RangeLiteral (.mk (.IntegerLiteral a) infoA) (.mk (.IntegerLiteral b) infoB)
            (.mk (.IntegerLiteral s) infoS)) info) i
        = some (.mk (.IntegerLiteral (a + (i : Int) * s))
            ⟨.CompileTime, .ResolvedIdentifier builtins.iexpr, {}⟩) ∧
      min a b ≤ a + (i : Int) * s ∧ a + (i : Int) * s ≤ max a b) := by
  rcases lt_or_gt_of_ne hs with hneg | hpos
  · -- negative step: low = b, high = a
    have hlen : tryGetSequenceLiteralLength
          (.mk (.RangeLiteral (.mk (.IntegerLiteral a) infoA) (.mk (.IntegerLiteral b) infoB)
            (.mk (.IntegerLiteral s) infoS)) info)
        = if b > a then some 0
          else some (Int128.toUnsigned 64 (Int.tdiv (a - b) (-s) + 1)) := by
      rw [rangeLength_eq a b s infoA infoB infoS info hs]
      simp only [hneg, if_true]
    rw [hlen]
    refine ⟨?_, ?_, ?_⟩
    · intro h
      have hab : a < b := by omega
      rw [if_pos hab]
    · intro h hfit
      have hba : b ≤ a := by
        by_contra hc
        exact h (Or.inr ⟨hneg, by omega⟩)
      rw [if_neg (by omega)]
      obtain ⟨hq0, hq, _⟩ := rangeQuotient a b (-s) hba (by omega)
      have habs : (b - a).natAbs / s.natAbs = (a - b).natAbs / (-s).natAbs := by
        rw [Int.natAbs_neg, ← Int.natAbs_neg (b - a), neg_sub]
      rw [habs] at hfit ⊢
      have hlt : Int.tdiv (a - b) (-s) + 1 < (2 : Int) ^ 64 := by
        rw [hq]
        have : (((a - b).natAbs / (-s).natAbs + 1 : Nat) : Int) < (2 : Int) ^ 64 := by
          have h64 : ((a - b).natAbs / (-s).natAbs + 1 : Nat) < 2 ^ 64 := by
            unfold SIZE_MAX at hfit
            omega
          exact_mod_cast h64
        simpa using this
      rw [toUnsigned_of_lt 64 _ (by omega) hlt, hq]
      congr 1
    · intro n i hn hi
      rw [rangeItem_eq builtins a b s infoA infoB infoS info hs i]
      refine ⟨by rw [mul_comm], ?_⟩
      by_cases hab : b > a
      · rw [if_pos hab] at hn
        simp only [Option.some.injEq] at hn
        omega
      · rw [if_neg hab] at hn
        simp only [Option.some.injEq] at hn
        have hba : b ≤ a := by omega
        obtain ⟨hq0, _, hmul⟩ := rangeQuotient a b (-s) hba (by omega)
        have hle := toUnsigned_le 64 (Int.tdiv (a - b) (-s) + 1) (by omega)
        rw [hn] at hle
        have hi' : (i : Int) ≤ Int.tdiv (a - b) (-s) := by omega
        have h1 : (i : Int) * (-s) ≤ Int.tdiv (a - b) (-s) * (-s) :=
          mul_le_mul_of_nonneg_right hi' (by omega)
        have h2 : 0 ≤ (i : Int) * (-s) := mul_nonneg (by omega) (by omega)
        rw [min_eq_right hba, max_eq_left hba]
        constructor <;> nlinarith
  · -- positive step: low = a, high = b
    have hnn : ¬ s < 0 := by omega
    have hlen : tryGetSequenceLiteralLength
          (.mk (.RangeLiteral (.mk (.IntegerLiteral a) infoA) (.mk (.IntegerLiteral b) infoB)
            (.mk (.IntegerLiteral s) infoS)) info)
        = if a > b then some 0
          else some (Int128.toUnsigned 64 (Int.tdiv (b - a) s + 1)) := by
      rw [rangeLength_eq a b s infoA infoB infoS info hs]
      simp only [hnn, if_false]
    rw [hlen]
    refine ⟨?_, ?_, ?_⟩
    · intro h
      have hab : a > b := by omega
      rw [if_pos hab]
    · intro h hfit
      have hab : a ≤ b := by
        by_contra hc
        exact h (Or.inl ⟨hpos, by omega⟩)
      rw [if_neg (by omega)]
      obtain ⟨hq0, hq, _⟩ := rangeQuotient b a s hab hpos
      have hlt : Int.tdiv (b - a) s + 1 < (2 : Int) ^ 64 := by
        rw [hq]
        have : (((b - a).natAbs / s.natAbs + 1 : Nat) : Int) < (2 : Int) ^ 64 := by
          have h64 : ((b - a).natAbs / s.natAbs + 1 : Nat) < 2 ^ 64 := by
            unfold SIZE_MAX at hfit
            omega
          exact_mod_cast h64
        simpa using this
      rw [toUnsigned_of_lt 64 _ (by omega) hlt, hq]
      congr 1
    · intro n i hn hi
      rw [rangeItem_eq builtins a b s infoA infoB infoS info hs i]
      refine ⟨by rw [mul_comm], ?_⟩
      by_cases hab : a > b
      · rw [if_pos hab] at hn
        simp only [Option.some.injEq] at hn
        omega
      · rw [if_neg hab] at hn
        simp only [Option.some.injEq] at hn
        have hab' : a ≤ b := by omega
        obtain ⟨hq0, _, hmul⟩ := rangeQuotient b a s hab' hpos
        have hle := toUnsigned_le 64 (Int.tdiv (b - a) s + 1) (by omega)
        rw [hn] at hle
        have hi' : (i : Int) ≤ Int.tdiv (b - a) s := by omega
        have h1 : (i : Int) * s ≤ Int.tdiv (b - a) s * s :=
          mul_le_mul_of_nonneg_right hi' (by omega)
        have h2 : 0 ≤ (i : Int) * s := mul_nonneg (by omega) (by omega)
        rw [min_eq_left hab', max_eq_right hab']
        constructor <;> nlinarith

/-- Witness for C9 (amended): the range `1 .. 3` has length 3 and its item at
index 2 is 3. -/
theorem rangeLiteral_length_and_items_witness :
    tryGetSequenceLiteralLength
        (.mk (.RangeLiteral
          (.mk (.IntegerLiteral 1) ⟨.CompileTime, .ResolvedIdentifier (.BuiltinIntegerExpressionType 0), {}⟩)
          (.mk (.IntegerLiteral 3) ⟨.CompileTime, .ResolvedIdentifier (.BuiltinIntegerExpressionType 0), {}⟩)
          (.mk (.IntegerLiteral 1) ⟨.CompileTime, .ResolvedIdentifier (.BuiltinIntegerExpressionType 0), {}⟩))
          ⟨.CompileTime, .ResolvedIdentifier (.BuiltinRangeType 1), {}⟩)
      = some (((3 : Int) - 1).natAbs / (1 : Int).natAbs + 1) ∧
    (getSequenceLiteralItem ⟨.BuiltinIntegerExpressionType 0⟩
        (.mk (.RangeLiteral
          (.mk (.IntegerLiteral 1) ⟨.CompileTime, .ResolvedIdentifier (.BuiltinIntegerExpressionType 0), {}⟩)
          (.mk (.IntegerLiteral 3) ⟨.CompileTime, .ResolvedIdentifier (.BuiltinIntegerExpressionType 0), {}⟩)
          (.mk (.IntegerLiteral 1) ⟨.CompileTime, .ResolvedIdentifier (.BuiltinIntegerExpressionType 0), {}⟩))
          ⟨.CompileTime, .ResolvedIdentifier (.BuiltinRangeType 1), {}⟩) 2
      = some (.mk (.IntegerLiteral (1 + ((2 : Nat) : Int) * 1))
          ⟨.CompileTime, .ResolvedIdentifier (.BuiltinIntegerExpressionType 0), {}⟩) ∧
      min (1 : Int) 3 ≤ 1 + ((2 : Nat) : Int) * 1 ∧ 1 + ((2 : Nat) : Int) * 1 ≤ max (1 : Int) 3) :=
  ⟨(rangeLiteral_length_and_items ⟨.BuiltinIntegerExpressionType 0⟩ 1 3 1
      ⟨.CompileTime, .ResolvedIdentifier (.BuiltinIntegerExpressionType 0), {}⟩
      ⟨.CompileTime, .ResolvedIdentifier (.BuiltinIntegerExpressionType 0), {}⟩
      ⟨.CompileTime, .ResolvedIdentifier (.BuiltinIntegerExpressionType 0), {}⟩
      ⟨.CompileTime, .ResolvedIdentifier (.BuiltinRangeType 1), {}⟩ (by decide)).2.1
      (by decide) (by decide),
    (rangeLiteral_length_and_items ⟨.BuiltinIntegerExpressionType 0⟩ 1 3 1
      ⟨.CompileTime, .ResolvedIdentifier (.BuiltinIntegerExpressionType 0), {}⟩
      ⟨.CompileTime, .ResolvedIdentifier (.BuiltinIntegerExpressionType 0), {}⟩
      ⟨.CompileTime, .ResolvedIdentifier (.BuiltinIntegerExpressionType 0), {}⟩
      ⟨.CompileTime, .ResolvedIdentifier (.BuiltinRangeType 1), {}⟩ (by decide)).2.2 3 2
      (by decide) (by decide)⟩

/-! ### C10: narrowing an `iexpr` literal to a sized integer type -/

/-- C10: for an integer literal `v` of type `iexpr` and a sized builtin integer
destination type `T`, `canNarrowExpression` accepts exactly when
`T.min <= v <= T.max`, and in that case `createConvertedExpression` returns the
compile-time integer literal `v` of type `T`. -/
theorem canNarrowExpression_iexpr_literal (platform : Platform) (iexprId typeId size : Nat)
    (min max v : Int) (context : EvaluationContext) (qualifiers : Qualifiers) :
    (canNarrowExpression platform
        (.mk (.IntegerLiteral v)
          ⟨context, .ResolvedIdentifier (.BuiltinIntegerExpressionType iexprId), qualifiers⟩)
        (.ResolvedIdentifier (.BuiltinIntegerType typeId size min max)) = true
      ↔ min ≤ v ∧ v ≤ max) ∧
    (min ≤ v ∧ v ≤ max →
      createConvertedExpression platform
          (.mk (.IntegerLiteral v)
            ⟨context, .ResolvedIdentifier (.BuiltinIntegerExpressionType iexprId), qualifiers⟩)
          (.ResolvedIdentifier (.BuiltinIntegerType typeId size min max))
        = some (.mk (.IntegerLiteral v)
            ⟨.CompileTime, .ResolvedIdentifier (.BuiltinIntegerType typeId size min max), {}⟩)) := by
  constructor
  · simp [canNarrowExpression, canNarrowExpressionTail, tryGetResolvedIdentifierTypeDefinition,
      isTypeDefinition, Definition.ptrEq, Definition.tag, isIntegerType,
      canNarrowIntegerExpression, Expression.info, Expression.variant]
  · intro h
    simp [createConvertedExpression, createConvertedExpressionTail, isTypeEquivalent,
      tryGetResolvedIdentifierTypeDefinition, isTypeDefinition, Definition.ptrEq, Definition.tag,
      isIntegerType, Expression.info, Expression.variant, h]

/-- Witness for C10: the literal 255 narrows to `u8`. -/
theorem canNarrowExpression_iexpr_literal_witness :
    ((0 : Int) ≤ 255 ∧ (255 : Int) ≤ 255) ∧
    createConvertedExpression ⟨2, 3⟩
        (.mk (.IntegerLiteral 255)
          ⟨.CompileTime, .ResolvedIdentifier (.BuiltinIntegerExpressionType 0), {}⟩)
        (.ResolvedIdentifier (.BuiltinIntegerType 1 1 0 255))
      = some (.mk (.IntegerLiteral 255)
          ⟨.CompileTime, .ResolvedIdentifier (.BuiltinIntegerType 1 1 0 255), {}⟩) :=
  ⟨by decide,
    (canNarrowExpression_iexpr_literal ⟨2, 3⟩ 0 1 1 0 255 255 .CompileTime {}).2 (by decide)⟩

/-! ### C1: lowering of boolean conditions -/

/-- C1 (failing input): the condition `a && b` over two flag registers,
lowered with `negated = true` towards the label `dest` (this is the request an
`if a && b` statement makes for its else label). With both registers true the
condition is true, so it equals `negated` and control must fall through; the
emitted IR transfers control to `dest`. With both registers false control must
reach `dest`; the emitted IR falls through. The negated `&&` case passes
`!negated` to both operands, which lowers `a || b` instead of `!a || !b`. -/
theorem emitBranchIr_negated_and_diverges :
    (emitBranchIr plainBranchEnvironment 0 .Goto
        (some (labelReferenceExpression (.Func 0 "dest" false none))) true
        (some (.mk (.BinaryOperator .LogicalAnd
          (registerReferenceExpression (.BuiltinRegister 1 (.BuiltinBoolType 9)))
          (registerReferenceExpression (.BuiltinRegister 2 (.BuiltinBoolType 9))))
          ⟨.RunTime, .ResolvedIdentifier (.BuiltinBoolType 9), {}⟩))
        ⟨fun _ => 0, 3, [], none, none⟩).1 = true ∧
    evalCondition (fun _ => true)
        (.mk (.BinaryOperator .LogicalAnd
          (registerReferenceExpression (.BuiltinRegister 1 (.BuiltinBoolType 9)))
          (registerReferenceExpression (.BuiltinRegister 2 (.BuiltinBoolType 9))))
          ⟨.RunTime, .ResolvedIdentifier (.BuiltinBoolType 9), {}⟩) = some true ∧
    executeIr (fun _ => true)
        (emitBranchIr plainBranchEnvironment 0 .Goto
          (some (labelReferenceExpression (.Func 0 "dest" false none))) true
          (some (.mk (.BinaryOperator .LogicalAnd
            (registerReferenceExpression (.BuiltinRegister 1 (.BuiltinBoolType 9)))
            (registerReferenceExpression (.BuiltinRegister 2 (.BuiltinBoolType 9))))
            ⟨.RunTime, .ResolvedIdentifier (.BuiltinBoolType 9), {}⟩))
          ⟨fun _ => 0, 3, [], none, none⟩).2.irNodes 8 0
      = .Transfer (.Func 0 "dest" false none) ∧
    evalCondition (fun _ => false)
        (.mk (.BinaryOperator .LogicalAnd
          (registerReferenceExpression (.BuiltinRegister 1 (.BuiltinBoolType 9)))
          (registerReferenceExpression (.BuiltinRegister 2 (.BuiltinBoolType 9))))
          ⟨.RunTime, .ResolvedIdentifier (.BuiltinBoolType 9), {}⟩) = some false ∧
    executeIr (fun _ => false)
        (emitBranchIr plainBranchEnvironment 0 .Goto
          (some (labelReferenceExpression (.Func 0 "dest" false none))) true
          (some (.mk (.BinaryOperator .LogicalAnd
            (registerReferenceExpression (.BuiltinRegister 1 (.BuiltinBoolType 9)))
            (registerReferenceExpression (.BuiltinRegister 2 (.BuiltinBoolType 9))))
            ⟨.RunTime, .ResolvedIdentifier (.BuiltinBoolType 9), {}⟩))
          ⟨fun _ => 0, 3, [], none, none⟩).2.irNodes 8 0
      = .FallThrough :=
  ⟨rfl, rfl, rfl, rfl, rfl⟩

/-! ## Pointer narrowing and designated storage (C11, C12) -/

theorem sameKnownSize_iff (a b : Option Nat) :
    sameKnownSize a b = true ↔ ∃ s, a = some s ∧ b = some s := by
  cases a with
  | none => simp [sameKnownSize]
  | some l =>
    cases b with
    | none => simp [sameKnownSize]
    | some r =>
      simp only [sameKnownSize, beq_iff_eq]
      constructor
      · rintro rfl; exact ⟨_, rfl, rfl⟩
      · rintro ⟨s, h1, h2⟩; cases h1; cases h2; rfl

/-- C11 (as stated): a source of pointer type `far *u8` is rejected for the
destination type `*u8`, although only `far` is dropped: with no `const` and no
`writeonly` on the destination the qualifier test of the pointer block fails,
and the final equivalence test compares the qualifier sets. -/
theorem canNarrowExpression_far_dropped_unqualified_rejected :
    canNarrowExpression ⟨2, 3⟩
      (.mk (.IntegerLiteral 0)
        ⟨.RunTime, .Pointer (.ResolvedIdentifier (.BuiltinIntegerType 1 1 0 255)) { far := true }, {}⟩)
      (.Pointer (.ResolvedIdentifier (.BuiltinIntegerType 1 1 0 255)) {}) = false := by
  decide

/-- C11 (amended): for an element type `T` that is equivalent to itself and a
set `q` of `const`/`writeonly` qualifiers, `canNarrowExpression` accepts a
source of pointer type `far` + `q` + `T` for the destination pointer type
`q` + `T` exactly when `q` holds exactly one of `const` and `writeonly`. -/
theorem canNarrowExpression_far_dropped (platform : Platform) (variant : ExpressionVariant)
    (context : EvaluationContext) (expressionQualifiers : Qualifiers) (T : TypeExpression)
    (isConst writeOnly : Bool) (hT : isTypeEquivalent platform T T = true) :
    canNarrowExpression platform
      (.mk variant
        ⟨context, .Pointer T { isConst := isConst, writeOnly := writeOnly, far := true }, expressionQualifiers⟩)
      (.Pointer T { isConst := isConst, writeOnly := writeOnly }) = (isConst != writeOnly) := by
  cases isConst <;> cases writeOnly <;>
    simp [canNarrowExpression, canNarrowExpressionTail, pointerQualifiersNarrow, Expression.info,
      tryGetResolvedIdentifierTypeDefinition, isTypeEquivalent, hT]

theorem canNarrowExpression_far_dropped_witness :
    isTypeEquivalent ⟨2, 3⟩ (.ResolvedIdentifier (.BuiltinIntegerType 1 1 0 255))
        (.ResolvedIdentifier (.BuiltinIntegerType 1 1 0 255)) = true ∧
      canNarrowExpression ⟨2, 3⟩
        (.mk (.IntegerLiteral 0)
          ⟨.RunTime, .Pointer (.ResolvedIdentifier (.BuiltinIntegerType 1 1 0 255))
            { isConst := true, writeOnly := false, far := true }, {}⟩)
        (.Pointer (.ResolvedIdentifier (.BuiltinIntegerType 1 1 0 255))
          { isConst := true, writeOnly := false }) = (true != false) :=
  ⟨by decide, canNarrowExpression_far_dropped ⟨2, 3⟩ (.IntegerLiteral 0) .RunTime {} _ true false (by decide)⟩

/-- C12: `isTypeEquivalent` with a `DesignatedStorage` type of element type `E`
as one argument and a type `X` as the other holds exactly when the storage
sizes of `X` and of `E` are both known and equal, in either argument order and
for every variant of `X`. -/
theorem isTypeEquivalent_designatedStorage (platform : Platform) (E X : TypeExpression) :
    (isTypeEquivalent platform (.DesignatedStorage E) X = true ↔
        ∃ s, calculateStorageSize platform X = some s ∧ calculateStorageSize platform E = some s) ∧
      (isTypeEquivalent platform X (.DesignatedStorage E) = true ↔
        ∃ s, calculateStorageSize platform X = some s ∧ calculateStorageSize platform E = some s) := by
  constructor
  · cases X with
    | DesignatedStorage F =>
      simp [isTypeEquivalent, calculateStorageSize, sameKnownSize]
    | _ =>
      simp only [isTypeEquivalent, sameKnownSize_iff]
      constructor
      · rintro ⟨s, h1, h2⟩; exact ⟨s, h2, h1⟩
      · rintro ⟨s, h1, h2⟩; exact ⟨s, h2, h1⟩
  · cases X <;> simp only [isTypeEquivalent, sameKnownSize_iff]

/-! ## Compile-time folding of binary operators (C13, C14) -/

theorem outsideResultType_eq_false (resultType : TypeExpression) (value : Int) :
    outsideResultType resultType value = false ↔
      ∀ id size min max, resultType = .ResolvedIdentifier (.BuiltinIntegerType id size min max) →
        min ≤ value ∧ value ≤ max := by
  cases resultType with
  | ResolvedIdentifier definition =>
    cases definition with
    | BuiltinIntegerType id size min max =>
      simp only [outsideResultType, tryGetResolvedIdentifierTypeDefinition, isTypeDefinition, if_true,
        Bool.or_eq_false_iff, decide_eq_false_iff_not, not_lt, gt_iff_lt]
      constructor
      · intro h id2 size2 min2 max2 heq
        cases heq
        exact h
      · intro h
        exact h id size min max rfl
    | _ => simp [outsideResultType, tryGetResolvedIdentifierTypeDefinition, isTypeDefinition]
  | _ => simp [outsideResultType, tryGetResolvedIdentifierTypeDefinition]

/-- C13: for two compile-time integer literals with a common arithmetic type,
`simplifyBinaryArithmeticExpression` returns the compile-time literal holding
the result of the checked operation when the operation succeeds and the
result lies in the range of a sized builtin result type; it returns null and
reports one error when the result is out of that range, when the operation
overflows, and when it divides by zero. -/
theorem simplifyBinaryArithmeticExpression_literals (operations : LiteralOperations)
    (op : BinaryOperatorKind) (leftValue rightValue : Int) (leftInfo rightInfo : ExpressionInfo)
    (resultType : TypeExpression)
    (hleft : leftInfo.context = .CompileTime) (hright : rightInfo.context = .CompileTime)
    (htype : findCompatibleBinaryArithmeticExpressionType (.mk (.IntegerLiteral leftValue) leftInfo)
      (.mk (.IntegerLiteral rightValue) rightInfo) = some resultType) :
    ((operations.applyIntegerArithmeticOp op leftValue rightValue).1 = .Success →
      (∀ id size min max, resultType = .ResolvedIdentifier (.BuiltinIntegerType id size min max) →
        min ≤ (operations.applyIntegerArithmeticOp op leftValue rightValue).2 ∧
          (operations.applyIntegerArithmeticOp op leftValue rightValue).2 ≤ max) →
      simplifyBinaryArithmeticExpression operations op (.mk (.IntegerLiteral leftValue) leftInfo)
          (.mk (.IntegerLiteral rightValue) rightInfo) =
        (some (.mk (.IntegerLiteral (operations.applyIntegerArithmeticOp op leftValue rightValue).2)
          ⟨.CompileTime, resultType, {}⟩), [])) ∧
    ((operations.applyIntegerArithmeticOp op leftValue rightValue).1 = .Success →
      ¬ (∀ id size min max, resultType = .ResolvedIdentifier (.BuiltinIntegerType id size min max) →
        min ≤ (operations.applyIntegerArithmeticOp op leftValue rightValue).2 ∧
          (operations.applyIntegerArithmeticOp op leftValue rightValue).2 ≤ max) →
      simplifyBinaryArithmeticExpression operations op (.mk (.IntegerLiteral leftValue) leftInfo)
          (.mk (.IntegerLiteral rightValue) rightInfo) =
        (none, ["operator resulted in value outside valid range"])) ∧
    ((operations.applyIntegerArithmeticOp op leftValue rightValue).1 = .OverflowError →
      simplifyBinaryArithmeticExpression operations op (.mk (.IntegerLiteral leftValue) leftInfo)
          (.mk (.IntegerLiteral rightValue) rightInfo) =
        (none, ["operator resulted in overflow"])) ∧
    ((operations.applyIntegerArithmeticOp op leftValue rightValue).1 = .DivideByZeroError →
      simplifyBinaryArithmeticExpression operations op (.mk (.IntegerLiteral leftValue) leftInfo)
          (.mk (.IntegerLiteral rightValue) rightInfo) =
        (none, ["operator by zero"])) := by
  have hctx : ¬ (leftInfo.context = .RunTime ∨ rightInfo.context = .RunTime) := by
    rw [hleft, hright]; decide
  have hctx2 : ¬ (leftInfo.context = .LinkTime ∨ rightInfo.context = .LinkTime) := by
    rw [hleft, hright]; decide
  refine ⟨?_, ?_, ?_, ?_⟩
  · intro hs hrange
    have hout := (outsideResultType_eq_false resultType _).2 hrange
    simp only [simplifyBinaryArithmeticExpression, htype, Expression.info, Expression.variant, hctx,
      hctx2, if_false, hs, hout, Reduced.ok]
    rfl
  · intro hs hrange
    have hout : outsideResultType resultType
        (operations.applyIntegerArithmeticOp op leftValue rightValue).2 = true := by
      cases h : outsideResultType resultType
        (operations.applyIntegerArithmeticOp op leftValue rightValue).2 with
      | true => rfl
      | false => exact absurd ((outsideResultType_eq_false resultType _).1 h) hrange
    simp only [simplifyBinaryArithmeticExpression, htype, Expression.info, Expression.variant, hctx,
      hctx2, if_false, hs, hout, Reduced.error, if_true]
  · intro hs
    simp only [simplifyBinaryArithmeticExpression, htype, Expression.info, Expression.variant, hctx,
      hctx2, if_false, hs, Reduced.error]
  · intro hs
    simp only [simplifyBinaryArithmeticExpression, htype, Expression.info, Expression.variant, hctx,
      hctx2, if_false, hs, Reduced.error]

theorem simplifyBinaryArithmeticExpression_literals_witness :
    (⟨.CompileTime, .ResolvedIdentifier sampleBuiltins.u8, {}⟩ : ExpressionInfo).context = .CompileTime ∧
      findCompatibleBinaryArithmeticExpressionType
          (.mk (.IntegerLiteral 7) ⟨.CompileTime, .ResolvedIdentifier sampleBuiltins.u8, {}⟩)
          (.mk (.IntegerLiteral 0) ⟨.CompileTime, .ResolvedIdentifier sampleBuiltins.u8, {}⟩) =
        some (.ResolvedIdentifier sampleBuiltins.u8) ∧
      simplifyBinaryArithmeticExpression sampleOperations .Division
          (.mk (.IntegerLiteral 7) ⟨.CompileTime, .ResolvedIdentifier sampleBuiltins.u8, {}⟩)
          (.mk (.IntegerLiteral 0) ⟨.CompileTime, .ResolvedIdentifier sampleBuiltins.u8, {}⟩) =
        (none, ["operator by zero"]) :=
  ⟨rfl, rfl,
    (simplifyBinaryArithmeticExpression_literals sampleOperations .Division 7 0
      ⟨.CompileTime, .ResolvedIdentifier sampleBuiltins.u8, {}⟩
      ⟨.CompileTime, .ResolvedIdentifier sampleBuiltins.u8, {}⟩
      (.ResolvedIdentifier sampleBuiltins.u8) rfl rfl rfl).2.2.2 rfl⟩

theorem truthValue_of_literal (assignment : Expression → Bool) (expression : Expression) (value : Bool)
    (h : tryGetBooleanLiteral expression = some value) : truthValue assignment expression = value := by
  cases expression with
  | mk variant info =>
    cases variant <;> simp [tryGetBooleanLiteral, Expression.variant] at h
    subst h
    simp [truthValue]

theorem simplifyBinaryLogicalExpression_and (builtins : ReducerBuiltins) (left right : Expression)
    (hl : isBooleanType left.info.type = true) (hr : isBooleanType right.info.type = true) :
    simplifyBinaryLogicalExpression builtins .LogicalAnd left right =
      match tryGetBooleanLiteral left, tryGetBooleanLiteral right with
      | some leftValue, some rightValue =>
        (some (booleanLiteralExpression builtins (leftValue && rightValue)), [])
      | some leftValue, none =>
        if leftValue then (some right, []) else (some (booleanLiteralExpression builtins false), [])
      | none, some rightValue =>
        if rightValue then (some left, []) else (some (booleanLiteralExpression builtins false), [])
      | none, none =>
        (some (.mk (.BinaryOperator .LogicalAnd left right)
          ⟨if decide (left.info.context = .RunTime) || decide (right.info.context = .RunTime)
            then .RunTime else .LinkTime, .ResolvedIdentifier builtins.bool, {}⟩), []) := by
  rcases hL : tryGetBooleanLiteral left with _ | a <;>
    rcases hR : tryGetBooleanLiteral right with _ | b <;>
    simp [simplifyBinaryLogicalExpression, hl, hr, isValidLogicalOperator, hL, hR, Reduced.ok]
  · cases b <;> simp
  · cases a <;> simp

theorem simplifyBinaryLogicalExpression_or (builtins : ReducerBuiltins) (left right : Expression)
    (hl : isBooleanType left.info.type = true) (hr : isBooleanType right.info.type = true) :
    simplifyBinaryLogicalExpression builtins .LogicalOr left right =
      match tryGetBooleanLiteral left, tryGetBooleanLiteral right with
      | some leftValue, some rightValue =>
        (some (booleanLiteralExpression builtins (leftValue || rightValue)), [])
      | some leftValue, none =>
        if leftValue then (some (booleanLiteralExpression builtins true), []) else (some right, [])
      | none, some rightValue =>
        if rightValue then (some (booleanLiteralExpression builtins true), []) else (some left, [])
      | none, none =>
        (some (.mk (.BinaryOperator .LogicalOr left right)
          ⟨if decide (left.info.context = .RunTime) || decide (right.info.context = .RunTime)
            then .RunTime else .LinkTime, .ResolvedIdentifier builtins.bool, {}⟩), []) := by
  rcases hL : tryGetBooleanLiteral left with _ | a <;>
    rcases hR : tryGetBooleanLiteral right with _ | b <;>
    simp [simplifyBinaryLogicalExpression, hl, hr, isValidLogicalOperator, hL, hR, Reduced.ok]
  · cases b <;> simp
  · cases a <;> simp

/-- C14: for boolean operands and `op` one of `&&`, `||`,
`simplifyBinaryLogicalExpression` returns an expression without reporting an
error, and under every assignment of truth values the returned expression has
the truth value of `left op right`. In particular `false && x` and
`x && false` give the literal false, `true && x` gives `x`, `true || x` gives
the literal true and `false || x` gives `x` (a literal `x` is returned as the
literal of its value). -/
theorem simplifyBinaryLogicalExpression_truthValue (builtins : ReducerBuiltins)
    (left right : Expression) (info : ExpressionInfo)
    (hl : isBooleanType left.info.type = true) (hr : isBooleanType right.info.type = true)
    (hinfo : isBooleanType info.type = true) :
    (∃ result, simplifyBinaryLogicalExpression builtins .LogicalAnd left right = (some result, []) ∧
        ∀ assignment, truthValue assignment result =
          (truthValue assignment left && truthValue assignment right)) ∧
      (∃ result, simplifyBinaryLogicalExpression builtins .LogicalOr left right = (some result, []) ∧
        ∀ assignment, truthValue assignment result =
          (truthValue assignment left || truthValue assignment right)) ∧
      simplifyBinaryLogicalExpression builtins .LogicalAnd (.mk (.BooleanLiteral false) info) right =
        (some (booleanLiteralExpression builtins false), []) ∧
      simplifyBinaryLogicalExpression builtins .LogicalAnd left (.mk (.BooleanLiteral false) info) =
        (some (booleanLiteralExpression builtins false), []) ∧
      simplifyBinaryLogicalExpression builtins .LogicalAnd (.mk (.BooleanLiteral true) info) right =
        (some (match tryGetBooleanLiteral right with
          | some value => booleanLiteralExpression builtins value
          | none => right), []) ∧
      simplifyBinaryLogicalExpression builtins .LogicalOr (.mk (.BooleanLiteral true) info) right =
        (some (booleanLiteralExpression builtins true), []) ∧
      simplifyBinaryLogicalExpression builtins .LogicalOr (.mk (.BooleanLiteral false) info) right =
        (some (match tryGetBooleanLiteral right with
          | some value => booleanLiteralExpression builtins value
          | none => right), []) := by
  have hlit : ∀ value, isBooleanType (Expression.mk (.BooleanLiteral value) info).info.type = true :=
    fun _ => hinfo
  have hget : ∀ value, tryGetBooleanLiteral (Expression.mk (.BooleanLiteral value) info) = some value :=
    fun _ => rfl
  refine ⟨?_, ?_, ?_, ?_, ?_, ?_, ?_⟩
  · rw [simplifyBinaryLogicalExpression_and builtins left right hl hr]
    rcases hL : tryGetBooleanLiteral left with _ | a <;>
      rcases hR : tryGetBooleanLiteral right with _ | b
    · exact ⟨_, rfl, fun assignment => by simp [truthValue]⟩
    · cases b
      · exact ⟨_, rfl, fun assignment => by
          simp [truthValue, booleanLiteralExpression, truthValue_of_literal assignment right false hR]⟩
      · exact ⟨_, rfl, fun assignment => by
          simp [truthValue_of_literal assignment right true hR]⟩
    · cases a
      · exact ⟨_, rfl, fun assignment => by
          simp [truthValue, booleanLiteralExpression, truthValue_of_literal assignment left false hL]⟩
      · exact ⟨_, rfl, fun assignment => by
          simp [truthValue_of_literal assignment left true hL]⟩
    · exact ⟨_, rfl, fun assignment => by
        simp [truthValue, booleanLiteralExpression, truthValue_of_literal assignment left a hL,
          truthValue_of_literal assignment right b hR]⟩
  · rw [simplifyBinaryLogicalExpression_or builtins left right hl hr]
    rcases hL : tryGetBooleanLiteral left with _ | a <;>
      rcases hR : tryGetBooleanLiteral right with _ | b
    · exact ⟨_, rfl, fun assignment => by simp [truthValue]⟩
    · cases b
      · exact ⟨_, rfl, fun assignment => by
          simp [truthValue_of_literal assignment right false hR]⟩
      · exact ⟨_, rfl, fun assignment => by
          simp [truthValue, booleanLiteralExpression, truthValue_of_literal assignment right true hR]⟩
    · cases a
      · exact ⟨_, rfl, fun assignment => by
          simp [truthValue_of_literal assignment left false hL]⟩
      · exact ⟨_, rfl, fun assignment => by
          simp [truthValue, booleanLiteralExpression, truthValue_of_literal assignment left true hL]⟩
    · exact ⟨_, rfl, fun assignment => by
        simp [truthValue, booleanLiteralExpression, truthValue_of_literal assignment left a hL,
          truthValue_of_literal assignment right b hR]⟩
  · rw [simplifyBinaryLogicalExpression_and builtins _ right (hlit false) hr, hget]
    rcases tryGetBooleanLiteral right with _ | b <;> simp
  · rw [simplifyBinaryLogicalExpression_and builtins left _ hl (hlit false), hget]
    rcases tryGetBooleanLiteral left with _ | a <;> simp
  · rw [simplifyBinaryLogicalExpression_and builtins _ right (hlit true) hr, hget]
    rcases tryGetBooleanLiteral right with _ | b <;> simp
  · rw [simplifyBinaryLogicalExpression_or builtins _ right (hlit true) hr, hget]
    rcases tryGetBooleanLiteral right with _ | b <;> simp
  · rw [simplifyBinaryLogicalExpression_or builtins _ right (hlit false) hr, hget]
    rcases tryGetBooleanLiteral right with _ | b <;> simp

theorem simplifyBinaryLogicalExpression_truthValue_witness :
    isBooleanType (Expression.mk (.BooleanLiteral true)
        ⟨.CompileTime, .ResolvedIdentifier sampleBuiltins.bool, {}⟩).info.type = true ∧
      isBooleanType (Expression.mk (.ResolvedIdentifier (.Var 7 none) ["ready"])
        ⟨.RunTime, .ResolvedIdentifier sampleBuiltins.bool, { lvalue := true }⟩).info.type = true ∧
      ∃ result,
        simplifyBinaryLogicalExpression sampleBuiltins .LogicalAnd
            (.mk (.BooleanLiteral true) ⟨.CompileTime, .ResolvedIdentifier sampleBuiltins.bool, {}⟩)
            (.mk (.ResolvedIdentifier (.Var 7 none) ["ready"])
              ⟨.RunTime, .ResolvedIdentifier sampleBuiltins.bool, { lvalue := true }⟩) =
          (some result, []) ∧
        ∀ assignment, truthValue assignment result =
          (truthValue assignment
              (.mk (.BooleanLiteral true) ⟨.CompileTime, .ResolvedIdentifier sampleBuiltins.bool, {}⟩) &&
            truthValue assignment
              (.mk (.ResolvedIdentifier (.Var 7 none) ["ready"])
                ⟨.RunTime, .ResolvedIdentifier sampleBuiltins.bool, { lvalue := true }⟩)) :=
  ⟨rfl, rfl,
    (simplifyBinaryLogicalExpression_truthValue sampleBuiltins
      (.mk (.BooleanLiteral true) ⟨.CompileTime, .ResolvedIdentifier sampleBuiltins.bool, {}⟩)
      (.mk (.ResolvedIdentifier (.Var 7 none) ["ready"])
        ⟨.RunTime, .ResolvedIdentifier sampleBuiltins.bool, { lvalue := true }⟩)
      ⟨.CompileTime, .ResolvedIdentifier sampleBuiltins.bool, {}⟩ rfl rfl rfl).1⟩

/-! ## Indexing of literals (C19) -/

theorem reduceBinaryOperator_indexing (platform : Platform) (operations : LiteralOperations)
    (builtins : ReducerBuiltins) (left right : Expression)
    (hwo : right.info.qualifiers.writeOnly = false) :
    reduceBinaryOperator platform operations builtins .Indexing (some left, []) (some right, []) =
      reduceIndexing platform builtins .Indexing left right := by
  simp [reduceBinaryOperator, writeOnlyOperandError, hwo, reduceBinaryOperatorSwitch]

theorem toUnsigned_index (i : Int) (n : Nat) (h0 : 0 ≤ i) (h1 : i < (n : Int)) (hn : n ≤ SIZE_MAX) :
    Int128.toUnsigned 64 i = i.toNat ∧ i.toNat < n := by
  have h2 : i < (2 : Int) ^ 64 := by
    have : (n : Int) ≤ (SIZE_MAX : Int) := by exact_mod_cast hn
    have h3 : (SIZE_MAX : Int) < (2 : Int) ^ 64 := by decide
    omega
  exact ⟨toUnsigned_of_lt 64 i h0 h2, by omega⟩

theorem indexLiteralItems_inBounds (items : List Expression) (i : Int) (message : String)
    (hlen : items.length ≤ SIZE_MAX) (h0 : 0 ≤ i) (h1 : i < (items.length : Int)) :
    ∃ item, items[i.toNat]? = some item ∧ indexLiteralItems items i message = (some item, []) := by
  obtain ⟨hu, hlt⟩ := toUnsigned_index i items.length h0 h1 hlen
  refine ⟨items[i.toNat], List.getElem?_eq_getElem hlt, ?_⟩
  have hn0 : ¬ i < 0 := by omega
  have hn1 : ¬ i ≥ (items.length : Int) := by omega
  simp only [indexLiteralItems, hn0, hn1, if_false, hu, List.getElem?_eq_getElem hlt, Reduced.ok]

theorem indexLiteralItems_outOfBounds (items : List Expression) (i : Int) (message : String)
    (h : i < 0 ∨ i ≥ (items.length : Int)) :
    ∃ reported, indexLiteralItems items i message = (none, [reported]) := by
  by_cases hneg : i < 0
  · exact ⟨"indexing by negative integer", by simp only [indexLiteralItems, hneg, if_true, Reduced.error]⟩
  · have hge : i ≥ (items.length : Int) := by
      rcases h with h | h
      · exact absurd h hneg
      · exact h
    exact ⟨message, by simp only [indexLiteralItems, hneg, hge, if_true, if_false, Reduced.error]⟩

theorem toUnsigned_natCast (w c : Nat) : Int128.toUnsigned w (c : Int) = c % 2 ^ w := by
  unfold Int128.toUnsigned
  have h : ((c : Int) % (2 : Int) ^ w) = ((c % 2 ^ w : Nat) : Int) := by push_cast; rfl
  rw [h, Int.toNat_ofNat]

/-- The length returned for a range literal with a non-zero step: 0 when the
step points away from the end, and the number of items when that number fits
`std::size_t`. -/
theorem rangeLength_count (a b s : Int) (infoA infoB infoS info : ExpressionInfo) (hs : s ≠ 0) :
    (((0 < s ∧ b < a) ∨ (s < 0 ∧ a < b)) →
      tryGetSequenceLiteralLength
          (.mk (.RangeLiteral (.mk (.IntegerLiteral a) infoA) (.mk (.IntegerLiteral b) infoB)
            (.mk (.IntegerLiteral s) infoS)) info) = some 0) ∧
    (¬ ((0 < s ∧ b < a) ∨ (s < 0 ∧ a < b)) →
      (b - a).natAbs / s.natAbs + 1 ≤ SIZE_MAX →
      tryGetSequenceLiteralLength
          (.mk (.RangeLiteral (.mk (.IntegerLiteral a) infoA) (.mk (.IntegerLiteral b) infoB)
            (.mk (.IntegerLiteral s) infoS)) info) = some ((b - a).natAbs / s.natAbs + 1)) := by
  rcases lt_or_gt_of_ne hs with hneg | hpos
  · have hlen : tryGetSequenceLiteralLength
          (.mk (.RangeLiteral (.mk (.IntegerLiteral a) infoA) (.mk (.IntegerLiteral b) infoB)
            (.mk (.IntegerLiteral s) infoS)) info)
        = if b > a then some 0
          else some (Int128.toUnsigned 64 (Int.tdiv (a - b) (-s) + 1)) := by
      rw [rangeLength_eq a b s infoA infoB infoS info hs]
      simp only [hneg, if_true]
    rw [hlen]
    refine ⟨?_, ?_⟩
    · intro h
      have hab : a < b := by omega
      rw [if_pos hab]
    · intro h hfit
      have hba : b ≤ a := by
        by_contra hc
        exact h (Or.inr ⟨hneg, by omega⟩)
      rw [if_neg (by omega)]
      obtain ⟨hq0, hq, _⟩ := rangeQuotient a b (-s) hba (by omega)
      have habs : (b - a).natAbs / s.natAbs = (a - b).natAbs / (-s).natAbs := by
        rw [Int.natAbs_neg, ← Int.natAbs_neg (b - a), neg_sub]
      rw [habs] at hfit ⊢
      have hlt : Int.tdiv (a - b) (-s) + 1 < (2 : Int) ^ 64 := by
        rw [hq]
        have : (((a - b).natAbs / (-s).natAbs + 1 : Nat) : Int) < (2 : Int) ^ 64 := by
          have h64 : ((a - b).natAbs / (-s).natAbs + 1 : Nat) < 2 ^ 64 := by
            unfold SIZE_MAX at hfit
            omega
          exact_mod_cast h64
        simpa using this
      rw [toUnsigned_of_lt 64 _ (by omega) hlt, hq]
      congr 1
  · have hnn : ¬ s < 0 := by omega
    have hlen : tryGetSequenceLiteralLength
          (.mk (.RangeLiteral (.mk (.IntegerLiteral a) infoA) (.mk (.IntegerLiteral b) infoB)
            (.mk (.IntegerLiteral s) infoS)) info)
        = if a > b then some 0
          else some (Int128.toUnsigned 64 (Int.tdiv (b - a) s + 1)) := by
      rw [rangeLength_eq a b s infoA infoB infoS info hs]
      simp only [hnn, if_false]
    rw [hlen]
    refine ⟨?_, ?_⟩
    · intro h
      have hab : a > b := by omega
      rw [if_pos hab]
    · intro h hfit
      have hab : a ≤ b := by
        by_contra hc
        exact h (Or.inl ⟨hpos, by omega⟩)
      rw [if_neg (by omega)]
      obtain ⟨hq0, hq, _⟩ := rangeQuotient b a s hab hpos
      have hlt : Int.tdiv (b - a) s + 1 < (2 : Int) ^ 64 := by
        rw [hq]
        have : (((b - a).natAbs / s.natAbs + 1 : Nat) : Int) < (2 : Int) ^ 64 := by
          have h64 : ((b - a).natAbs / s.natAbs + 1 : Nat) < 2 ^ 64 := by
            unfold SIZE_MAX at hfit
            omega
          exact_mod_cast h64
        simpa using this
      rw [toUnsigned_of_lt 64 _ (by omega) hlt, hq]
      congr 1

/-- C19 (as stated): the range literal `0 .. 18446744073709551615` with step 1
has `2 ^ 64` items and the index 0 lies within them, but indexing it by the
literal 0 returns null with the error that the index exceeds the length of
the range: the length, a `std::size_t`, is 0. -/
theorem reduceIndexing_range_length_truncated :
    ((0 : Int) ≤ 0 ∧
      (0 : Int) < ((((18446744073709551615 : Int) - 0).natAbs / (1 : Int).natAbs + 1 : Nat) : Int)) ∧
    reduceBinaryOperator ⟨2, 3⟩ sampleOperations sampleBuiltins .Indexing
        (some (.mk (.RangeLiteral
          (.mk (.IntegerLiteral 0) ⟨.CompileTime, .ResolvedIdentifier sampleBuiltins.iexpr, {}⟩)
          (.mk (.IntegerLiteral 18446744073709551615)
            ⟨.CompileTime, .ResolvedIdentifier sampleBuiltins.iexpr, {}⟩)
          (.mk (.IntegerLiteral 1) ⟨.CompileTime, .ResolvedIdentifier sampleBuiltins.iexpr, {}⟩))
          ⟨.CompileTime, .ResolvedIdentifier (.BuiltinRangeType 1), {}⟩), [])
        (some (.mk (.IntegerLiteral 0) ⟨.CompileTime, .ResolvedIdentifier sampleBuiltins.iexpr, {}⟩), [])
      = (none, ["indexing exceeds range length"]) :=
  ⟨by decide, by rfl⟩

/-- C19 (amended): indexing a literal by a compile-time integer literal `i`
(of integer type, not `writeonly`). For an array literal, a string literal
and a tuple literal of length `n`, and for a range literal whose length
returned by `tryGetSequenceLiteralLength` is `n`, the `Indexing` case returns
the `i`-th element without a message when `0 ≤ i < n` (the item of the array
or tuple, the byte of the string as an `iexpr` literal, the value
`start + step * i` of the range), and returns null with one error message
when `i < 0` or `i ≥ n`. The length of a range literal with a non-zero step
is its number of items, 0 when the step points away from the end and
`floor(|finish - start| / |step|) + 1` otherwise, provided that number is at
most `SIZE_MAX`. -/
theorem reduceIndexing_literal_bounds (platform : Platform) (operations : LiteralOperations)
    (builtins : ReducerBuiltins) (i : Int) (rightInfo : ExpressionInfo)
    (hint : isIntegerType rightInfo.type = true) (hwo : rightInfo.qualifiers.writeOnly = false) :
    (∀ (items : List Expression) (elementType : TypeExpression) (size : Option Int128)
        (context : EvaluationContext) (qualifiers : Qualifiers), items.length ≤ SIZE_MAX →
      (0 ≤ i ∧ i < (items.length : Int) → ∃ item, items[i.toNat]? = some item ∧
        reduceBinaryOperator platform operations builtins .Indexing
            (some (.mk (.ArrayLiteral items) ⟨context, .Array elementType size, qualifiers⟩), [])
            (some (.mk (.IntegerLiteral i) rightInfo), []) = (some item, [])) ∧
      (i < 0 ∨ i ≥ (items.length : Int) → ∃ reported,
        reduceBinaryOperator platform operations builtins .Indexing
            (some (.mk (.ArrayLiteral items) ⟨context, .Array elementType size, qualifiers⟩), [])
            (some (.mk (.IntegerLiteral i) rightInfo), []) = (none, [reported]))) ∧
    (∀ (value : List Nat) (elementType : TypeExpression) (size : Option Int128)
        (context : EvaluationContext) (qualifiers : Qualifiers), value.length ≤ SIZE_MAX →
      (0 ≤ i ∧ i < (value.length : Int) → ∃ c, value[i.toNat]? = some c ∧
        reduceBinaryOperator platform operations builtins .Indexing
            (some (.mk (.StringLiteral value) ⟨context, .Array elementType size, qualifiers⟩), [])
            (some (.mk (.IntegerLiteral i) rightInfo), []) =
          (some (.mk (.IntegerLiteral ((c % 256 : Nat) : Int))
            ⟨.CompileTime, .ResolvedIdentifier builtins.iexpr, {}⟩), [])) ∧
      (i < 0 ∨ i ≥ (value.length : Int) → ∃ reported,
        reduceBinaryOperator platform operations builtins .Indexing
            (some (.mk (.StringLiteral value) ⟨context, .Array elementType size, qualifiers⟩), [])
            (some (.mk (.IntegerLiteral i) rightInfo), []) = (none, [reported]))) ∧
    (∀ (items : List Expression) (elementTypes : List TypeExpression)
        (context : EvaluationContext) (qualifiers : Qualifiers), items.length ≤ SIZE_MAX →
      (0 ≤ i ∧ i < (items.length : Int) → ∃ item, items[i.toNat]? = some item ∧
        reduceBinaryOperator platform operations builtins .Indexing
            (some (.mk (.TupleLiteral items) ⟨context, .Tuple elementTypes, qualifiers⟩), [])
            (some (.mk (.IntegerLiteral i) rightInfo), []) = (some item, [])) ∧
      (i < 0 ∨ i ≥ (items.length : Int) → ∃ reported,
        reduceBinaryOperator platform operations builtins .Indexing
            (some (.mk (.TupleLiteral items) ⟨context, .Tuple elementTypes, qualifiers⟩), [])
            (some (.mk (.IntegerLiteral i) rightInfo), []) = (none, [reported]))) ∧
    (∀ (start finish step : Int) (infoA infoB infoS : ExpressionInfo) (id n : Nat)
        (context : EvaluationContext) (qualifiers : Qualifiers),
      tryGetSequenceLiteralLength
          (.mk (.RangeLiteral (.mk (.IntegerLiteral start) infoA) (.mk (.IntegerLiteral finish) infoB)
            (.mk (.IntegerLiteral step) infoS))
            ⟨context, .ResolvedIdentifier (.BuiltinRangeType id), qualifiers⟩) = some n →
      (0 ≤ i ∧ i < (n : Int) →
        reduceBinaryOperator platform operations builtins .Indexing
            (some (.mk (.RangeLiteral (.mk (.IntegerLiteral start) infoA)
              (.mk (.IntegerLiteral finish) infoB) (.mk (.IntegerLiteral step) infoS))
              ⟨context, .ResolvedIdentifier (.BuiltinRangeType id), qualifiers⟩), [])
            (some (.mk (.IntegerLiteral i) rightInfo), []) =
          (some (.mk (.IntegerLiteral (start + step * i))
            ⟨.CompileTime, .ResolvedIdentifier builtins.iexpr, {}⟩), [])) ∧
      (i < 0 ∨ i ≥ (n : Int) → ∃ reported,
        reduceBinaryOperator platform operations builtins .Indexing
            (some (.mk (.RangeLiteral (.mk (.IntegerLiteral start) infoA)
              (.mk (.IntegerLiteral finish) infoB) (.mk (.IntegerLiteral step) infoS))
              ⟨context, .ResolvedIdentifier (.BuiltinRangeType id), qualifiers⟩), [])
            (some (.mk (.IntegerLiteral i) rightInfo), []) = (none, [reported]))) ∧
    (∀ (start finish step : Int) (infoA infoB infoS : ExpressionInfo) (id : Nat)
        (context : EvaluationContext) (qualifiers : Qualifiers), step ≠ 0 →
      (((0 < step ∧ finish < start) ∨ (step < 0 ∧ start < finish)) → ∃ reported,
        reduceBinaryOperator platform operations builtins .Indexing
            (some (.mk (.RangeLiteral (.mk (.IntegerLiteral start) infoA)
              (.mk (.IntegerLiteral finish) infoB) (.mk (.IntegerLiteral step) infoS))
              ⟨context, .ResolvedIdentifier (.BuiltinRangeType id), qualifiers⟩), [])
            (some (.mk (.IntegerLiteral i) rightInfo), []) = (none, [reported])) ∧
      (¬ ((0 < step ∧ finish < start) ∨ (step < 0 ∧ start < finish)) →
        (finish - start).natAbs / step.natAbs + 1 ≤ SIZE_MAX →
        (0 ≤ i ∧ i < (((finish - start).natAbs / step.natAbs + 1 : Nat) : Int) →
          reduceBinaryOperator platform operations builtins .Indexing
              (some (.mk (.RangeLiteral (.mk (.IntegerLiteral start) infoA)
              (.mk (.IntegerLiteral finish) infoB) (.mk (.IntegerLiteral step) infoS))
              ⟨context, .ResolvedIdentifier (.BuiltinRangeType id), qualifiers⟩), [])
            (some (.mk (.IntegerLiteral i) rightInfo), []) =
            (some (.mk (.IntegerLiteral (start + step * i))
              ⟨.CompileTime, .ResolvedIdentifier builtins.iexpr, {}⟩), [])) ∧
        (i < 0 ∨ i ≥ (((finish - start).natAbs / step.natAbs + 1 : Nat) : Int) → ∃ reported,
          reduceBinaryOperator platform operations builtins .Indexing
              (some (.mk (.RangeLiteral (.mk (.IntegerLiteral start) infoA)
              (.mk (.IntegerLiteral finish) infoB) (.mk (.IntegerLiteral step) infoS))
              ⟨context, .ResolvedIdentifier (.BuiltinRangeType id), qualifiers⟩), [])
            (some (.mk (.IntegerLiteral i) rightInfo), []) = (none, [reported])))) := by
  have hwo2 : (Expression.mk (.IntegerLiteral i) rightInfo).info.qualifiers.writeOnly = false := hwo
  have hrange :
      (∀ (start finish step : Int) (infoA infoB infoS : ExpressionInfo) (id n : Nat)
          (context : EvaluationContext) (qualifiers : Qualifiers),
        tryGetSequenceLiteralLength
            (.mk (.RangeLiteral (.mk (.IntegerLiteral start) infoA) (.mk (.IntegerLiteral finish) infoB)
              (.mk (.IntegerLiteral step) infoS))
              ⟨context, .ResolvedIdentifier (.BuiltinRangeType id), qualifiers⟩) = some n →
        (0 ≤ i ∧ i < (n : Int) →
          reduceBinaryOperator platform operations builtins .Indexing
              (some (.mk (.RangeLiteral (.mk (.IntegerLiteral start) infoA)
                (.mk (.IntegerLiteral finish) infoB) (.mk (.IntegerLiteral step) infoS))
                ⟨context, .ResolvedIdentifier (.BuiltinRangeType id), qualifiers⟩), [])
              (some (.mk (.IntegerLiteral i) rightInfo), []) =
            (some (.mk (.IntegerLiteral (start + step * i))
              ⟨.CompileTime, .ResolvedIdentifier builtins.iexpr, {}⟩), [])) ∧
        (i < 0 ∨ i ≥ (n : Int) → ∃ reported,
          reduceBinaryOperator platform operations builtins .Indexing
              (some (.mk (.RangeLiteral (.mk (.IntegerLiteral start) infoA)
                (.mk (.IntegerLiteral finish) infoB) (.mk (.IntegerLiteral step) infoS))
                ⟨context, .ResolvedIdentifier (.BuiltinRangeType id), qualifiers⟩), [])
              (some (.mk (.IntegerLiteral i) rightInfo), []) = (none, [reported]))) := by
    intro start finish step infoA infoB infoS id n context qualifiers hn
    have hs : step ≠ 0 := by
      intro h0
      simp [tryGetSequenceLiteralLength, h0] at hn
    have hnlt : n < 2 ^ 64 := by
      rw [rangeLength_eq start finish step infoA infoB infoS _ hs] at hn
      by_cases hc : (if step < 0 then finish else start) > (if step < 0 then start else finish)
      · rw [if_pos hc] at hn
        cases hn
        decide
      · rw [if_neg hc] at hn
        cases hn
        exact toUnsigned_lt 64 _
    rw [reduceBinaryOperator_indexing _ _ _ _ _ hwo2]
    simp only [reduceIndexing, Expression.info, hint, if_true, Expression.variant,
      tryGetResolvedIdentifierTypeDefinition, isTypeDefinition, hn]
    constructor
    · rintro ⟨h0, h1⟩
      have hn0 : ¬ i < 0 := by omega
      have hn1 : ¬ i ≥ (n : Int) := by omega
      have h2 : i < (2 : Int) ^ 64 := by
        have : (n : Int) < (2 : Int) ^ 64 := by exact_mod_cast hnlt
        omega
      have hu := toUnsigned_of_lt 64 i h0 h2
      simp only [hn0, hn1, if_false, hu]
      rw [rangeItem_eq builtins.toBuiltins start finish step infoA infoB infoS _ hs]
      rw [Int.toNat_of_nonneg h0]
    · intro h
      by_cases hneg : i < 0
      · exact ⟨"indexing by negative integer", by simp only [hneg, if_true, Reduced.error]⟩
      · have hge : i ≥ (n : Int) := by
          rcases h with h | h
          · exact absurd h hneg
          · exact h
        exact ⟨"indexing exceeds range length", by simp only [hneg, hge, if_true, if_false, Reduced.error]⟩
  refine ⟨?_, ?_, ?_, hrange, ?_⟩
  · intro items elementType size context qualifiers hlen
    rw [reduceBinaryOperator_indexing _ _ _ _ _ hwo2]
    simp only [reduceIndexing, Expression.info, hint, if_true, Expression.variant, reduceArrayIndexing]
    exact ⟨fun h => indexLiteralItems_inBounds items i _ hlen h.1 h.2,
      fun h => indexLiteralItems_outOfBounds items i _ h⟩
  · intro value elementType size context qualifiers hlen
    rw [reduceBinaryOperator_indexing _ _ _ _ _ hwo2]
    simp only [reduceIndexing, Expression.info, hint, if_true, Expression.variant, reduceArrayIndexing]
    constructor
    · rintro ⟨h0, h1⟩
      obtain ⟨hu, hlt⟩ := toUnsigned_index i value.length h0 h1 hlen
      refine ⟨value[i.toNat], List.getElem?_eq_getElem hlt, ?_⟩
      have hn0 : ¬ i < 0 := by omega
      have hn1 : ¬ i ≥ (value.length : Int) := by omega
      simp only [hn0, hn1, if_false, hu, List.getElem?_eq_getElem hlt, Reduced.ok, toUnsigned_natCast]
      rfl
    · intro h
      by_cases hneg : i < 0
      · exact ⟨"indexing by negative integer", by simp only [hneg, if_true, Reduced.error]⟩
      · have hge : i ≥ (value.length : Int) := by
          rcases h with h | h
          · exact absurd h hneg
          · exact h
        exact ⟨"indexing exceeds array length", by simp only [hneg, hge, if_true, if_false, Reduced.error]⟩
  · intro items elementTypes context qualifiers hlen
    rw [reduceBinaryOperator_indexing _ _ _ _ _ hwo2]
    simp only [reduceIndexing, Expression.info, hint, if_true, Expression.variant]
    exact ⟨fun h => indexLiteralItems_inBounds items i _ hlen h.1 h.2,
      fun h => indexLiteralItems_outOfBounds items i _ h⟩
  · intro start finish step infoA infoB infoS id context qualifiers hs
    obtain ⟨haway, hfits⟩ := rangeLength_count start finish step infoA infoB infoS
      ⟨context, .ResolvedIdentifier (.BuiltinRangeType id), qualifiers⟩ hs
    constructor
    · intro h
      have hzero := (hrange start finish step infoA infoB infoS id 0 context qualifiers (haway h)).2
      by_cases hneg : i < 0
      · exact hzero (Or.inl hneg)
      · exact hzero (Or.inr (by simpa using hneg))
    · intro h hcount
      exact hrange start finish step infoA infoB infoS id _ context qualifiers (hfits h hcount)

theorem reduceIndexing_literal_bounds_witness :
    isIntegerType (TypeExpression.ResolvedIdentifier sampleBuiltins.iexpr) = true ∧
      (∃ item,
        [Expression.mk (.IntegerLiteral 10) ⟨.CompileTime, .ResolvedIdentifier sampleBuiltins.iexpr, {}⟩,
          Expression.mk (.IntegerLiteral 20) ⟨.CompileTime, .ResolvedIdentifier sampleBuiltins.iexpr, {}⟩,
          Expression.mk (.IntegerLiteral 30) ⟨.CompileTime, .ResolvedIdentifier sampleBuiltins.iexpr, {}⟩][
            (1 : Int).toNat]? = some item ∧
        reduceBinaryOperator ⟨2, 3⟩ sampleOperations sampleBuiltins .Indexing
            (some (.mk (.ArrayLiteral
              [.mk (.IntegerLiteral 10) ⟨.CompileTime, .ResolvedIdentifier sampleBuiltins.iexpr, {}⟩,
                .mk (.IntegerLiteral 20) ⟨.CompileTime, .ResolvedIdentifier sampleBuiltins.iexpr, {}⟩,
                .mk (.IntegerLiteral 30) ⟨.CompileTime, .ResolvedIdentifier sampleBuiltins.iexpr, {}⟩])
              ⟨.CompileTime, .Array (.ResolvedIdentifier sampleBuiltins.iexpr) (some 3), {}⟩), [])
            (some (.mk (.IntegerLiteral 1) ⟨.CompileTime, .ResolvedIdentifier sampleBuiltins.iexpr, {}⟩), []) =
          (some item, [])) ∧
      reduceBinaryOperator ⟨2, 3⟩ sampleOperations sampleBuiltins .Indexing
          (some (.mk (.RangeLiteral
            (.mk (.IntegerLiteral 1) ⟨.CompileTime, .ResolvedIdentifier sampleBuiltins.iexpr, {}⟩)
            (.mk (.IntegerLiteral 3) ⟨.CompileTime, .ResolvedIdentifier sampleBuiltins.iexpr, {}⟩)
            (.mk (.IntegerLiteral 1) ⟨.CompileTime, .ResolvedIdentifier sampleBuiltins.iexpr, {}⟩))
            ⟨.CompileTime, .ResolvedIdentifier (.BuiltinRangeType 1), {}⟩), [])
          (some (.mk (.IntegerLiteral 1) ⟨.CompileTime, .ResolvedIdentifier sampleBuiltins.iexpr, {}⟩), []) =
        (some (.mk (.IntegerLiteral (1 + 1 * 1))
          ⟨.CompileTime, .ResolvedIdentifier sampleBuiltins.iexpr, {}⟩), []) :=
  ⟨rfl,
    ((reduceIndexing_literal_bounds ⟨2, 3⟩ sampleOperations sampleBuiltins 1
      ⟨.CompileTime, .ResolvedIdentifier sampleBuiltins.iexpr, {}⟩ rfl rfl).1
      [.mk (.IntegerLiteral 10) ⟨.CompileTime, .ResolvedIdentifier sampleBuiltins.iexpr, {}⟩,
        .mk (.IntegerLiteral 20) ⟨.CompileTime, .ResolvedIdentifier sampleBuiltins.iexpr, {}⟩,
        .mk (.IntegerLiteral 30) ⟨.CompileTime, .ResolvedIdentifier sampleBuiltins.iexpr, {}⟩]
      (.ResolvedIdentifier sampleBuiltins.iexpr) (some 3) .CompileTime {} (by decide)).1
      ⟨by decide, by decide⟩,
    ((((reduceIndexing_literal_bounds ⟨2, 3⟩ sampleOperations sampleBuiltins 1
      ⟨.CompileTime, .ResolvedIdentifier sampleBuiltins.iexpr, {}⟩ rfl rfl).2.2.2.2
      1 3 1 ⟨.CompileTime, .ResolvedIdentifier sampleBuiltins.iexpr, {}⟩
      ⟨.CompileTime, .ResolvedIdentifier sampleBuiltins.iexpr, {}⟩
      ⟨.CompileTime, .ResolvedIdentifier sampleBuiltins.iexpr, {}⟩ 1 .CompileTime {}
      (by decide)).2 (by decide) (by decide)).1 ⟨by decide, by decide⟩)⟩

/-! ## Address arithmetic (C16, C17, C18) -/

theorem mask_eq (size : Nat) (h : 8 * size < 32) : mask size = (2 : Int) ^ (8 * size) - 1 := by
  have h1 : 2 ^ (8 * size) < 2 ^ 32 := Nat.pow_lt_pow_right (by decide) h
  have h2 : 0 < 2 ^ (8 * size) := by positivity
  unfold mask
  rw [Nat.mod_eq_of_lt h1]
  have h3 : (2 ^ (8 * size) + 2 ^ 32 - 1) % 2 ^ 32 = 2 ^ (8 * size) - 1 := by
    have : 2 ^ (8 * size) + 2 ^ 32 - 1 = (2 ^ (8 * size) - 1) + 2 ^ 32 := by omega
    rw [this, Nat.add_mod_right, Nat.mod_eq_of_lt (by omega)]
  rw [h3]
  have h4 : 1 ≤ 2 ^ (8 * size) := h2
  push_cast [Nat.cast_sub h4]
  rfl

theorem land_mask (a : Int) (size : Nat) (h : 8 * size < 32) :
    Int128.land a (mask size) = a % (2 : Int) ^ (8 * size) := by
  have h1 : 2 ^ (8 * size) < 2 ^ 32 := Nat.pow_lt_pow_right (by decide) h
  have h2 : 0 < 2 ^ (8 * size) := by positivity
  have hm : Int128.toUnsigned 128 (mask size) = 2 ^ (8 * size) - 1 := by
    rw [mask_eq size h]
    have hc : ((2 : Int) ^ (8 * size) - 1) = ((2 ^ (8 * size) - 1 : Nat) : Int) := by
      push_cast [Nat.cast_sub (show 1 ≤ 2 ^ (8 * size) from h2)]
      rfl
    rw [hc, toUnsigned_natCast]
    apply Nat.mod_eq_of_lt
    have : (2 : Nat) ^ 32 < 2 ^ 128 := by decide
    omega
  unfold Int128.land
  rw [hm, Nat.and_pow_two_sub_one_eq_mod]
  have hlt : Int128.toUnsigned 128 a % 2 ^ (8 * size) < 2 ^ (8 * size) := Nat.mod_lt _ h2
  have hsmall : Int128.toUnsigned 128 a % 2 ^ (8 * size) % 2 ^ 128 < 2 ^ 127 := by
    have h32 : (2 : Nat) ^ 32 < 2 ^ 127 := by decide
    have := Nat.mod_le (Int128.toUnsigned 128 a % 2 ^ (8 * size)) (2 ^ 128)
    omega
  unfold Int128.ofUnsigned
  rw [if_pos hsmall]
  have hlt2 : Int128.toUnsigned 128 a % 2 ^ (8 * size) < 2 ^ 128 := by
    have h32 : (2 : Nat) ^ 32 < 2 ^ 128 := by decide
    omega
  rw [Nat.mod_eq_of_lt hlt2]
  push_cast
  rw [toUnsigned_cast]
  have hdvd : ((2 : Int) ^ (8 * size)) ∣ (2 : Int) ^ 128 := pow_dvd_pow 2 (by omega)
  exact Int.emod_emod_of_dvd a hdvd

/-- C16: indexing an array-typed variable with known absolute address `A`, or an
array-typed integer address literal `A`, by a compile-time integer literal
`i` (of integer type, not `writeonly`) reduces to the indirection of the
compile-time integer literal `(A + i * sizeof(element)) mod 2 ^ (8 * p)`,
where `p` is the far pointer size if the operand is far-qualified and the near
pointer size otherwise. The element size is known, and `p` is at most 3 bytes,
the range in which the 32-bit shift of the mask is defined. -/
theorem reduceIndexing_known_address (platform : Platform) (operations : LiteralOperations)
    (builtins : ReducerBuiltins) (i : Int) (rightInfo : ExpressionInfo)
    (elementType : TypeExpression) (size : Option Int128) (context : EvaluationContext)
    (qualifiers : Qualifiers) (elementSize : Nat)
    (hint : isIntegerType rightInfo.type = true) (hwo : rightInfo.qualifiers.writeOnly = false)
    (hsize : calculateStorageSize platform elementType = some elementSize)
    (hp : 8 * (if qualifiers.far then platform.farPointerSize else platform.pointerSize) < 32) :
    (∀ (id : Nat) (relativePosition : Option Nat) (A : Nat) (pieces : List String),
      reduceBinaryOperator platform operations builtins .Indexing
          (some (.mk (.ResolvedIdentifier (.Var id (some ⟨relativePosition, some A⟩)) pieces)
            ⟨context, .Array elementType size, qualifiers⟩), [])
          (some (.mk (.IntegerLiteral i) rightInfo), []) =
        (some (.mk
          (.UnaryOperator .Indirection
            (.mk (.IntegerLiteral (((A : Int) + i * (elementSize : Int)) %
                (2 : Int) ^ (8 * (if qualifiers.far then platform.farPointerSize else platform.pointerSize))))
              ⟨.CompileTime, .Pointer elementType qualifiers.intersectPointer, {}⟩))
          ⟨.RunTime, elementType, qualifiers.intersectValue⟩), [])) ∧
    (∀ (A : Int),
      reduceBinaryOperator platform operations builtins .Indexing
          (some (.mk (.IntegerLiteral A) ⟨context, .Array elementType size, qualifiers⟩), [])
          (some (.mk (.IntegerLiteral i) rightInfo), []) =
        (some (.mk
          (.UnaryOperator .Indirection
            (.mk (.IntegerLiteral ((A + i * (elementSize : Int)) %
                (2 : Int) ^ (8 * (if qualifiers.far then platform.farPointerSize else platform.pointerSize))))
              ⟨.CompileTime, .Pointer elementType qualifiers.intersectPointer, {}⟩))
          ⟨.RunTime, elementType, qualifiers.intersectValue⟩), [])) := by
  have hwo2 : (Expression.mk (.IntegerLiteral i) rightInfo).info.qualifiers.writeOnly = false := hwo
  constructor
  · intro id relativePosition A pieces
    rw [reduceBinaryOperator_indexing _ _ _ _ _ hwo2]
    simp only [reduceIndexing, Expression.info, hint, if_true, Expression.variant, reduceArrayIndexing,
      hsize, indexedAddressExpression, Reduced.ok]
    rw [land_mask _ _ hp]
  · intro A
    rw [reduceBinaryOperator_indexing _ _ _ _ _ hwo2]
    simp only [reduceIndexing, Expression.info, hint, if_true, Expression.variant, reduceArrayIndexing,
      hsize, indexedAddressExpression, Reduced.ok]
    rw [land_mask _ _ hp]

theorem reduceIndexing_known_address_witness :
    isIntegerType (TypeExpression.ResolvedIdentifier sampleBuiltins.iexpr) = true ∧
      calculateStorageSize ⟨2, 3⟩ (.ResolvedIdentifier (.BuiltinIntegerType 3 2 0 65535)) = some 2 ∧
      8 * (if ({ lvalue := true } : Qualifiers).far then (3 : Nat) else 2) < 32 ∧
      reduceBinaryOperator ⟨2, 3⟩ sampleOperations sampleBuiltins .Indexing
          (some (.mk (.ResolvedIdentifier (.Var 9 (some ⟨none, some 0x7E2000⟩)) ["table"])
            ⟨.RunTime, .Array (.ResolvedIdentifier (.BuiltinIntegerType 3 2 0 65535)) (some 16),
              { lvalue := true }⟩), [])
          (some (.mk (.IntegerLiteral 5) ⟨.CompileTime, .ResolvedIdentifier sampleBuiltins.iexpr, {}⟩), []) =
        (some (.mk
          (.UnaryOperator .Indirection
            (.mk (.IntegerLiteral ((((0x7E2000 : Nat) : Int) + 5 * ((2 : Nat) : Int)) %
                (2 : Int) ^ (8 * (if ({ lvalue := true } : Qualifiers).far then (3 : Nat) else 2))))
              ⟨.CompileTime,
                .Pointer (.ResolvedIdentifier (.BuiltinIntegerType 3 2 0 65535))
                  ({ lvalue := true } : Qualifiers).intersectPointer, {}⟩))
          ⟨.RunTime, .ResolvedIdentifier (.BuiltinIntegerType 3 2 0 65535),
            ({ lvalue := true } : Qualifiers).intersectValue⟩), []) :=
  ⟨rfl, rfl, by decide,
    (reduceIndexing_known_address ⟨2, 3⟩ sampleOperations sampleBuiltins 5
      ⟨.CompileTime, .ResolvedIdentifier sampleBuiltins.iexpr, {}⟩
      (.ResolvedIdentifier (.BuiltinIntegerType 3 2 0 65535)) (some 16) .RunTime { lvalue := true } 2
      rfl rfl rfl (by decide)).1 9 none 0x7E2000 ["table"]⟩

/-- C18: reducing `&v` (`op = AddressOf`) or `far &v` (`op = FarAddressOf`) for
a variable `v`. With a known absolute address `A` the result is the
compile-time integer literal `A mod 2 ^ (8 * p)`, `p` being the near
(respectively far) pointer size; otherwise it is a LinkTime unary-operator
node over the operand. In both cases the result type is a pointer to the type
of `v` with the `const` / `writeonly` qualifiers of `v` (and `far` for
`far &`). `p` is at most 3 bytes, the range in which the 32-bit shift of the
mask is defined. -/
theorem reduceAddressOf_variable (platform : Platform) (op : UnaryOperatorKind) (id : Nat)
    (pieces : List String) (info : ExpressionInfo)
    (hop : op = .AddressOf ∨ op = .FarAddressOf)
    (hp : 8 * (if op = .FarAddressOf then platform.farPointerSize else platform.pointerSize) < 32) :
    (∀ (relativePosition : Option Nat) (A : Nat),
      reduceAddressOf platform op
          (.mk (.ResolvedIdentifier (.Var id (some ⟨relativePosition, some A⟩)) pieces) info) =
        (some (.mk
          (.IntegerLiteral ((A : Int) %
            (2 : Int) ^ (8 * (if op = .FarAddressOf then platform.farPointerSize else platform.pointerSize))))
          ⟨.CompileTime,
            .Pointer info.type
              { isConst := info.qualifiers.isConst, writeOnly := info.qualifiers.writeOnly,
                far := decide (op = .FarAddressOf) },
            { far := decide (op = .FarAddressOf) }⟩), [])) ∧
    (∀ (address : Option Address), knownAbsolutePosition address = none →
      reduceAddressOf platform op (.mk (.ResolvedIdentifier (.Var id address) pieces) info) =
        (some (.mk
          (.UnaryOperator op (.mk (.ResolvedIdentifier (.Var id address) pieces) info))
          ⟨.LinkTime,
            .Pointer info.type
              { isConst := info.qualifiers.isConst, writeOnly := info.qualifiers.writeOnly,
                far := decide (op = .FarAddressOf) },
            { far := decide (op = .FarAddressOf) }⟩), [])) := by
  rcases hop with rfl | rfl
  · constructor
    · intro relativePosition A
      have hp2 : 8 * platform.pointerSize < 32 := by simpa using hp
      simp [reduceAddressOf, Expression.variant, Expression.info, knownAbsolutePosition, Reduced.ok,
        Qualifiers.include, Qualifiers.intersectAccess, land_mask _ _ hp2]
    · intro address hnone
      simp [reduceAddressOf, Expression.variant, Expression.info, hnone, Reduced.ok,
        Qualifiers.include, Qualifiers.intersectAccess]
  · constructor
    · intro relativePosition A
      have hp2 : 8 * platform.farPointerSize < 32 := by simpa using hp
      simp [reduceAddressOf, Expression.variant, Expression.info, knownAbsolutePosition, Reduced.ok,
        Qualifiers.include, Qualifiers.intersectAccess, land_mask _ _ hp2]
    · intro address hnone
      simp [reduceAddressOf, Expression.variant, Expression.info, hnone, Reduced.ok,
        Qualifiers.include, Qualifiers.intersectAccess]

theorem reduceAddressOf_variable_witness :
    (UnaryOperatorKind.FarAddressOf = .AddressOf ∨ UnaryOperatorKind.FarAddressOf = .FarAddressOf) ∧
      8 * (if UnaryOperatorKind.FarAddressOf = .FarAddressOf then (3 : Nat) else 2) < 32 ∧
      reduceAddressOf ⟨2, 3⟩ .FarAddressOf
          (.mk (.ResolvedIdentifier (.Var 9 (some ⟨none, some 0x7E2000⟩)) ["counter"])
            ⟨.RunTime, .ResolvedIdentifier sampleBuiltins.u8, { isConst := true, lvalue := true }⟩) =
        (some (.mk
          (.IntegerLiteral (((0x7E2000 : Nat) : Int) %
            (2 : Int) ^ (8 * (if UnaryOperatorKind.FarAddressOf = .FarAddressOf then (3 : Nat) else 2))))
          ⟨.CompileTime,
            .Pointer (.ResolvedIdentifier sampleBuiltins.u8)
              { isConst := true, writeOnly := false,
                far := decide (UnaryOperatorKind.FarAddressOf = .FarAddressOf) },
            { far := decide (UnaryOperatorKind.FarAddressOf = .FarAddressOf) }⟩), []) :=
  ⟨Or.inr rfl, by decide,
    (reduceAddressOf_variable ⟨2, 3⟩ .FarAddressOf 9 ["counter"]
      ⟨.RunTime, .ResolvedIdentifier sampleBuiltins.u8, { isConst := true, lvalue := true }⟩
      (Or.inr rfl) (by decide)).1 none 0x7E2000⟩

/-- C17 (failing input): on a platform with 2-byte near pointers, for the
variable `p` of struct type `Point` at the absolute address `0x7E2000`, the
member access `p.y` (offset 2) reduces to the indirection of the address
literal `0x7E2002`, and the high byte of a `u16` variable at that address to
the indirection of `0x7E2001`: neither is reduced modulo `2 ^ 16`, while `&p`
on the same variable gives `0x2000`. -/
theorem simplifyIndirectionOffsetExpression_address_not_masked :
    resolveValueMemberExpression ⟨2, 3⟩ sampleBuiltins sampleCollaborators
        (.mk (.ResolvedIdentifier (.Var 9 (some ⟨none, some 0x7E2000⟩)) ["p"])
          ⟨.RunTime, .ResolvedIdentifier (.Struct 20 .Struct 4 ["x", "y"]), { lvalue := true }⟩) "y" =
      (some (.mk
        (.UnaryOperator .Indirection
          (.mk (.IntegerLiteral 0x7E2002)
            ⟨.CompileTime, .Pointer (.ResolvedIdentifier (.BuiltinIntegerType 3 2 0 65535)) {}, {}⟩))
        ⟨.RunTime, .ResolvedIdentifier (.BuiltinIntegerType 3 2 0 65535), { lvalue := true }⟩), []) ∧
      reduceByteAccess ⟨2, 3⟩ sampleOperations sampleBuiltins sampleCollaborators .HighByte
        (.mk (.ResolvedIdentifier (.Var 9 (some ⟨none, some 0x7E2000⟩)) ["w"])
          ⟨.RunTime, .ResolvedIdentifier (.BuiltinIntegerType 3 2 0 65535), { lvalue := true }⟩) =
      (some (.mk
        (.UnaryOperator .Indirection
          (.mk (.IntegerLiteral 0x7E2001)
            ⟨.CompileTime, .Pointer (.ResolvedIdentifier sampleBuiltins.u8) {}, {}⟩))
        ⟨.RunTime, .ResolvedIdentifier sampleBuiltins.u8, { lvalue := true }⟩), []) ∧
      (0x7E2002 : Int) ≠ (0x7E2000 + 2) % 2 ^ (8 * 2) ∧
      (0x7E2001 : Int) ≠ (0x7E2000 + 1) % 2 ^ (8 * 2) ∧
      reduceAddressOf ⟨2, 3⟩ .AddressOf
        (.mk (.ResolvedIdentifier (.Var 9 (some ⟨none, some 0x7E2000⟩)) ["p"])
          ⟨.RunTime, .ResolvedIdentifier (.Struct 20 .Struct 4 ["x", "y"]), { lvalue := true }⟩) =
      (some (.mk (.IntegerLiteral 0x2000)
        ⟨.CompileTime, .Pointer (.ResolvedIdentifier (.Struct 20 .Struct 4 ["x", "y"])) {}, {}⟩), []) := by
  refine ⟨rfl, rfl, by decide, by decide, ?_⟩
  have hmask : Int128.land ((0x7E2000 : Nat) : Int) (mask 2) = 0x2000 := by
    rw [land_mask _ 2 (by decide)]
    decide
  simp only [reduceAddressOf, Expression.variant, Expression.info, knownAbsolutePosition, Reduced.ok]
  simp only [show decide (UnaryOperatorKind.AddressOf = .FarAddressOf) = false from rfl]
  simp only [Bool.false_eq_true, if_false, hmask]
  rfl

/-! ## Context of binary operator nodes (C15) -/

theorem contextSplit_eq_max (leftContext rightContext : EvaluationContext) :
    (if leftContext = .RunTime ∨ rightContext = .RunTime then EvaluationContext.RunTime
      else if leftContext = .LinkTime ∨ rightContext = .LinkTime then .LinkTime
      else .CompileTime) = EvaluationContext.max leftContext rightContext := by
  cases leftContext <;> cases rightContext <;> decide

theorem simplifyBinaryArithmeticExpression_context (operations : LiteralOperations)
    (op : BinaryOperatorKind) (left right : Expression) (nodeOp : BinaryOperatorKind)
    (nodeLeft nodeRight : Expression) (info : ExpressionInfo)
    (h : (simplifyBinaryArithmeticExpression operations op left right).1 =
      some (.mk (.BinaryOperator nodeOp nodeLeft nodeRight) info)) :
    info.context = EvaluationContext.max left.info.context right.info.context := by
  rw [← contextSplit_eq_max]
  unfold simplifyBinaryArithmeticExpression at h
  split at h
  · simp only [] at h
    split at h
    next hrun =>
      simp only [Reduced.ok, Option.some.injEq, Expression.mk.injEq] at h
      rw [← h.2, if_pos hrun]
    next hnrun =>
      split at h
      next hlink =>
        simp only [Reduced.ok, Option.some.injEq, Expression.mk.injEq] at h
        rw [← h.2, if_neg hnrun, if_pos hlink]
      next hnlink =>
        split at h
        · split at h
          · split at h <;> simp [Reduced.ok, Reduced.error] at h
          · simp [Reduced.error] at h
          · simp [Reduced.error] at h
        · simp [Reduced.aborted] at h
  · simp [Reduced.error] at h

theorem simplifyBinaryRotateExpression_context (operations : LiteralOperations)
    (op : BinaryOperatorKind) (left right : Expression) (nodeOp : BinaryOperatorKind)
    (nodeLeft nodeRight : Expression) (info : ExpressionInfo)
    (h : (simplifyBinaryRotateExpression operations op left right).1 =
      some (.mk (.BinaryOperator nodeOp nodeLeft nodeRight) info)) :
    info.context = EvaluationContext.max left.info.context right.info.context := by
  rw [← contextSplit_eq_max]
  unfold simplifyBinaryRotateExpression at h
  split at h
  · split at h
    · simp only [] at h
      split at h
      next hrun =>
        simp only [Reduced.ok, Option.some.injEq, Expression.mk.injEq] at h
        rw [← h.2, if_pos hrun]
      next hnrun =>
        split at h
        next hlink =>
          simp only [Reduced.ok, Option.some.injEq, Expression.mk.injEq] at h
          rw [← h.2, if_neg hnrun, if_pos hlink]
        next hnlink =>
          split at h
          · split at h <;> simp [Reduced.ok, Reduced.aborted] at h
          · simp [Reduced.aborted] at h
    · simp [Reduced.error] at h
  · simp [Reduced.error] at h

theorem comparisonResult_context (builtins : ReducerBuiltins) (op : BinaryOperatorKind)
    (left right : Expression) (folded : Option Bool) (nodeOp : BinaryOperatorKind)
    (nodeLeft nodeRight : Expression) (info : ExpressionInfo)
    (h : (comparisonResult builtins op left right folded).1 =
      some (.mk (.BinaryOperator nodeOp nodeLeft nodeRight) info)) :
    info.context = EvaluationContext.max left.info.context right.info.context := by
  rw [← contextSplit_eq_max]
  unfold comparisonResult at h
  simp only [] at h
  split at h
  next hrun =>
    simp only [Reduced.ok, Option.some.injEq, Expression.mk.injEq] at h
    rw [← h.2, if_pos hrun]
  next hnrun =>
    split at h
    next hlink =>
      simp only [Reduced.ok, Option.some.injEq, Expression.mk.injEq] at h
      rw [← h.2, if_neg hnrun, if_pos hlink]
    next hnlink =>
      split at h <;> simp [Reduced.ok, Reduced.aborted, booleanLiteralExpression] at h

theorem simplifyBinaryComparisonExpression_context (operations : LiteralOperations)
    (builtins : ReducerBuiltins) (op : BinaryOperatorKind) (left right : Expression)
    (nodeOp : BinaryOperatorKind) (nodeLeft nodeRight : Expression) (info : ExpressionInfo)
    (h : (simplifyBinaryComparisonExpression operations builtins op left right).1 =
      some (.mk (.BinaryOperator nodeOp nodeLeft nodeRight) info)) :
    info.context = EvaluationContext.max left.info.context right.info.context := by
  unfold simplifyBinaryComparisonExpression at h
  split at h
  · exact comparisonResult_context _ _ _ _ _ _ _ _ _ h
  · split at h
    · exact comparisonResult_context _ _ _ _ _ _ _ _ _ h
    · simp [Reduced.error] at h

theorem reduceBitIndexing_context (operations : LiteralOperations) (builtins : ReducerBuiltins)
    (op : BinaryOperatorKind) (left right : Expression) (nodeOp : BinaryOperatorKind)
    (nodeLeft nodeRight : Expression) (info : ExpressionInfo)
    (h : (reduceBitIndexing operations builtins op left right).1 =
      some (.mk (.BinaryOperator nodeOp nodeLeft nodeRight) info)) :
    info.context = EvaluationContext.max left.info.context right.info.context := by
  rw [← contextSplit_eq_max]
  unfold reduceBitIndexing at h
  split at h
  · simp only [] at h
    split at h
    next hrun =>
      simp only [Reduced.ok, Option.some.injEq, Expression.mk.injEq] at h
      rw [← h.2, if_pos hrun]
    next hnrun =>
      split at h
      next hlink =>
        simp only [Reduced.ok, Option.some.injEq, Expression.mk.injEq] at h
        rw [← h.2, if_neg hnrun, if_pos hlink]
      next hnlink =>
        split at h <;> simp [Reduced.ok, Reduced.aborted] at h
  · simp [Reduced.error] at h

theorem simplifyBinaryLogicalExpression_context (builtins : ReducerBuiltins)
    (op : BinaryOperatorKind) (left right : Expression) (nodeOp : BinaryOperatorKind)
    (nodeLeft nodeRight : Expression) (info : ExpressionInfo)
    (h : (simplifyBinaryLogicalExpression builtins op left right).1 =
      some (.mk (.BinaryOperator nodeOp nodeLeft nodeRight) info)) :
    info.context =
        (if left.info.context = .RunTime ∨ right.info.context = .RunTime then
          EvaluationContext.RunTime else .LinkTime) ∨
      ((op = .LogicalAnd ∨ op = .LogicalOr) ∧
        (Expression.mk (.BinaryOperator nodeOp nodeLeft nodeRight) info = left ∨
          Expression.mk (.BinaryOperator nodeOp nodeLeft nodeRight) info = right)) := by
  have hnode :
      (Reduced.ok (.mk (.BinaryOperator op left right)
        ⟨if (decide (left.info.context = .RunTime) || decide (right.info.context = .RunTime)) = true
          then .RunTime else .LinkTime, .ResolvedIdentifier builtins.bool, {}⟩)).1 =
        some (.mk (.BinaryOperator nodeOp nodeLeft nodeRight) info) →
      info.context =
        (if left.info.context = .RunTime ∨ right.info.context = .RunTime then
          EvaluationContext.RunTime else .LinkTime) := by
    intro hn
    simp only [Reduced.ok, Option.some.injEq, Expression.mk.injEq] at hn
    rw [← hn.2]
    simp
  unfold simplifyBinaryLogicalExpression at h
  split at h
  · simp only [] at h
    split at h
    · split at h <;> simp [Reduced.ok, Reduced.aborted, booleanLiteralExpression] at h
    · split at h
      next hand =>
        split at h
        · simp [Reduced.ok, booleanLiteralExpression] at h
        · split at h
          · simp only [Option.some.injEq] at h
            exact Or.inr ⟨Or.inl hand, Or.inr h.symm⟩
          · split at h
            · simp only [Option.some.injEq] at h
              exact Or.inr ⟨Or.inl hand, Or.inl h.symm⟩
            · exact Or.inl (hnode h)
      next hnand =>
        split at h
        next hor =>
          split at h
          · simp [Reduced.ok, booleanLiteralExpression] at h
          · split at h
            · simp only [Option.some.injEq] at h
              exact Or.inr ⟨Or.inr hor, Or.inr h.symm⟩
            · split at h
              · simp only [Option.some.injEq] at h
                exact Or.inr ⟨Or.inr hor, Or.inl h.symm⟩
              · exact Or.inl (hnode h)
        next hnor => exact Or.inl (hnode h)
  · simp [Reduced.error] at h

theorem reduceConcatenation_not_node (platform : Platform) (builtins : ReducerBuiltins)
    (left right : Expression) (nodeOp : BinaryOperatorKind)
    (nodeLeft nodeRight : Expression) (info : ExpressionInfo) :
    (reduceConcatenation platform builtins left right).1 ≠
      some (.mk (.BinaryOperator nodeOp nodeLeft nodeRight) info) := by
  intro h
  unfold reduceConcatenation at h
  split at h
  · split at h
    · split at h <;>
        simp [Reduced.ok, Reduced.aborted, createStringLiteralExpression] at h
    · split at h <;>
        simp [Reduced.ok, Reduced.aborted, createStringLiteralExpression] at h
    · simp [Reduced.ok, createStringLiteralExpression] at h
    · split at h
      · split at h <;>
          simp [Reduced.ok, Reduced.aborted, createArrayLiteralExpression] at h
      · simp [Reduced.aborted] at h
    · simp [Reduced.error] at h
  · simp [Reduced.error] at h

theorem reduceRunTimeArithmetic_context (op : BinaryOperatorKind) (left right result : Expression)
    (h : (reduceRunTimeArithmetic op left right).1 = some result) :
    result.info.context = .RunTime := by
  unfold reduceRunTimeArithmetic at h
  split at h
  · simp only [Reduced.ok, Option.some.injEq] at h
    rw [← h]
    rfl
  · simp [Reduced.error] at h

theorem reduceAssignment_context (platform : Platform) (op : BinaryOperatorKind)
    (left right result : Expression)
    (h : (reduceAssignment platform op left right).1 = some result) :
    result.info.context = .RunTime := by
  unfold reduceAssignment at h
  split at h
  · simp [Reduced.error] at h
  · split at h
    · simp [Reduced.error] at h
    · split at h
      · split at h
        · simp only [Reduced.ok, Option.some.injEq] at h
          rw [← h]
          rfl
        · simp [Reduced.aborted] at h
      · simp [Reduced.error] at h

theorem indexLiteralItems_mem (items : List Expression) (i : Int) (message : String)
    (result : Expression) (h : (indexLiteralItems items i message).1 = some result) :
    result ∈ items := by
  unfold indexLiteralItems at h
  split at h
  · simp [Reduced.error] at h
  · split at h
    · simp [Reduced.error] at h
    · split at h
      next item hitem =>
        simp only [Reduced.ok, Option.some.injEq] at h
        rw [← h]
        exact List.getElem?_mem hitem
      next => simp [Reduced.aborted] at h

theorem getSequenceLiteralItem_node (builtins : Builtins) (left : Expression) (index : Nat)
    (nodeOp : BinaryOperatorKind) (nodeLeft nodeRight : Expression) (info : ExpressionInfo)
    (h : getSequenceLiteralItem builtins left index =
      some (.mk (.BinaryOperator nodeOp nodeLeft nodeRight) info)) :
    ∃ items, left.variant = .ArrayLiteral items ∧
      Expression.mk (.BinaryOperator nodeOp nodeLeft nodeRight) info ∈ items := by
  unfold getSequenceLiteralItem at h
  split at h
  next =>
    exact ⟨_, rfl, List.getElem?_mem h⟩
  next =>
    split at h <;> simp at h
  next =>
    split at h <;> simp at h
  next => simp at h

theorem reduceIndexing_context (platform : Platform) (builtins : ReducerBuiltins)
    (op : BinaryOperatorKind) (left right : Expression) (nodeOp : BinaryOperatorKind)
    (nodeLeft nodeRight : Expression) (info : ExpressionInfo)
    (h : (reduceIndexing platform builtins op left right).1 =
      some (.mk (.BinaryOperator nodeOp nodeLeft nodeRight) info)) :
    info.context = .RunTime ∨
      ∃ items, (left.variant = .ArrayLiteral items ∨ left.variant = .TupleLiteral items) ∧
        Expression.mk (.BinaryOperator nodeOp nodeLeft nodeRight) info ∈ items := by
  unfold reduceIndexing at h
  split at h
  · simp only [] at h
    split at h
    · split at h
      next result hfolded =>
        split at hfolded
        · unfold reduceArrayIndexing at hfolded
          split at hfolded
          next items hv =>
            simp only [Option.some.injEq] at hfolded
            rw [← hfolded] at h
            exact Or.inr ⟨items, Or.inl hv, indexLiteralItems_mem _ _ _ _ h⟩
          · simp only [Option.some.injEq] at hfolded
            rw [← hfolded] at h
            split at h
            · simp [Reduced.error] at h
            · split at h
              · simp [Reduced.error] at h
              · split at h <;> simp [Reduced.ok, Reduced.aborted] at h
          · split at hfolded
            · simp only [Option.some.injEq] at hfolded
              rw [← hfolded] at h
              simp [Reduced.ok, indexedAddressExpression] at h
            · simp at hfolded
          · split at hfolded
            · simp only [Option.some.injEq] at hfolded
              rw [← hfolded] at h
              simp [Reduced.ok, indexedAddressExpression] at h
            · simp at hfolded
          · simp at hfolded
        · simp at hfolded
      next =>
        simp only [Reduced.ok, Option.some.injEq, Expression.mk.injEq] at h
        exact Or.inl (by rw [← h.2])
    · split at h
      next items indexValue hv _ =>
        exact Or.inr ⟨items, Or.inr hv, indexLiteralItems_mem _ _ _ _ h⟩
      next => simp [Reduced.error] at h
    · simp only [Reduced.ok, Option.some.injEq, Expression.mk.injEq] at h
      exact Or.inl (by rw [← h.2])
    · split at h
      · split at h
        · split at h
          · split at h
            · simp [Reduced.error] at h
            · split at h
              · simp [Reduced.error] at h
              · simp only [] at h
                obtain ⟨items, hv, hmem⟩ := getSequenceLiteralItem_node _ _ _ _ _ _ _ h
                exact Or.inr ⟨items, Or.inl hv, hmem⟩
          · simp [Reduced.error] at h
        · simp [Reduced.error] at h
      · simp [Reduced.error] at h
  · simp [Reduced.error] at h

theorem reduceBinaryOperator_switch (platform : Platform) (operations : LiteralOperations)
    (builtins : ReducerBuiltins) (op : BinaryOperatorKind) (left right result : Expression)
    (leftMessages rightMessages : List String)
    (h : (reduceBinaryOperator platform operations builtins op (some left, leftMessages)
      (some right, rightMessages)).1 = some result) :
    (reduceBinaryOperatorSwitch platform operations builtins op left right).1 = some result := by
  unfold reduceBinaryOperator at h
  simp only [] at h
  split at h
  · simp at h
  · exact h

/-- C15 (as stated): indexing the pointer-typed compile-time literal
`0x2000 as *u8` by the compile-time literal `1`, and the with-carry addition
of the compile-time literals `1` and `2`, both reduce to a BinaryOperator node
whose context is RunTime, while the maximum of the operand contexts is
CompileTime. -/
theorem reduceBinaryOperator_context_exceeds_operands :
    reduceBinaryOperator ⟨2, 3⟩ sampleOperations sampleBuiltins .Indexing
        (some (.mk (.IntegerLiteral 0x2000)
          ⟨.CompileTime, .Pointer (.ResolvedIdentifier sampleBuiltins.u8) {}, {}⟩), [])
        (some (.mk (.IntegerLiteral 1) ⟨.CompileTime, .ResolvedIdentifier sampleBuiltins.iexpr, {}⟩), []) =
      (some (.mk
        (.BinaryOperator .Indexing
          (.mk (.IntegerLiteral 0x2000)
            ⟨.CompileTime, .Pointer (.ResolvedIdentifier sampleBuiltins.u8) {}, {}⟩)
          (.mk (.IntegerLiteral 1) ⟨.CompileTime, .ResolvedIdentifier sampleBuiltins.iexpr, {}⟩))
        ⟨.RunTime, .ResolvedIdentifier sampleBuiltins.u8, { lvalue := true }⟩), []) ∧
      reduceBinaryOperator ⟨2, 3⟩ sampleOperations sampleBuiltins .AdditionWithCarry
        (some (.mk (.IntegerLiteral 1) ⟨.CompileTime, .ResolvedIdentifier sampleBuiltins.iexpr, {}⟩), [])
        (some (.mk (.IntegerLiteral 2) ⟨.CompileTime, .ResolvedIdentifier sampleBuiltins.iexpr, {}⟩), []) =
      (some (.mk
        (.BinaryOperator .AdditionWithCarry
          (.mk (.IntegerLiteral 1) ⟨.CompileTime, .ResolvedIdentifier sampleBuiltins.iexpr, {}⟩)
          (.mk (.IntegerLiteral 2) ⟨.CompileTime, .ResolvedIdentifier sampleBuiltins.iexpr, {}⟩))
        ⟨.RunTime, .ResolvedIdentifier sampleBuiltins.iexpr, {}⟩), []) ∧
      EvaluationContext.max .CompileTime .CompileTime ≠ .RunTime :=
  ⟨rfl, rfl, by decide⟩

/-- C15 (amended): when the `BinaryOperator` case of `reduceExpression` returns
a BinaryOperator node, the context of that node is RunTime for assignment and
the with-carry operators; for indexing it is RunTime unless the node is an
item of the indexed array or tuple literal, returned as is; where the
operands go to the logical simplifier it is RunTime if an operand is RunTime
and LinkTime otherwise, unless the node is an operand of `&&` / `||` returned
as is; and for every other operator it is the maximum of the contexts of the
reduced operands under CompileTime < LinkTime < RunTime. -/
theorem reduceBinaryOperator_context (platform : Platform) (operations : LiteralOperations)
    (builtins : ReducerBuiltins) (op : BinaryOperatorKind) (left right : Expression)
    (leftMessages rightMessages : List String) (nodeOp : BinaryOperatorKind)
    (nodeLeft nodeRight : Expression) (info : ExpressionInfo)
    (h : (reduceBinaryOperator platform operations builtins op (some left, leftMessages)
      (some right, rightMessages)).1 = some (.mk (.BinaryOperator nodeOp nodeLeft nodeRight) info)) :
    (isRunTimeOperator op = true → info.context = .RunTime) ∧
      (op = .Indexing →
        info.context = .RunTime ∨
          ∃ items, (left.variant = .ArrayLiteral items ∨ left.variant = .TupleLiteral items) ∧
            Expression.mk (.BinaryOperator nodeOp nodeLeft nodeRight) info ∈ items) ∧
      (usesLogicalSimplifier op left right = true →
        info.context =
            (if left.info.context = .RunTime ∨ right.info.context = .RunTime then
              EvaluationContext.RunTime else .LinkTime) ∨
          ((op = .LogicalAnd ∨ op = .LogicalOr) ∧
            (Expression.mk (.BinaryOperator nodeOp nodeLeft nodeRight) info = left ∨
              Expression.mk (.BinaryOperator nodeOp nodeLeft nodeRight) info = right))) ∧
      (isRunTimeOperator op = false → op ≠ .Indexing → usesLogicalSimplifier op left right = false →
        info.context = EvaluationContext.max left.info.context right.info.context) := by
  have hs := reduceBinaryOperator_switch _ _ _ _ _ _ _ _ _ h
  refine ⟨?_, ?_, ?_, ?_⟩
  · intro hrun
    cases op <;> simp [isRunTimeOperator] at hrun <;> simp only [reduceBinaryOperatorSwitch] at hs <;>
      first
      | exact reduceAssignment_context _ _ _ _ _ hs
      | exact reduceRunTimeArithmetic_context _ _ _ _ hs
  · intro hop
    subst hop
    simp only [reduceBinaryOperatorSwitch] at hs
    exact reduceIndexing_context _ _ _ _ _ _ _ _ _ hs
  · intro hlog
    cases op <;> simp [usesLogicalSimplifier] at hlog <;>
      simp only [reduceBinaryOperatorSwitch] at hs <;>
      first
      | exact simplifyBinaryLogicalExpression_context _ _ _ _ _ _ _ _ hs
      | (simp only [hlog.1, hlog.2, Bool.and_self, if_true] at hs
         exact simplifyBinaryLogicalExpression_context _ _ _ _ _ _ _ _ hs)
  · intro h1 h2 h3
    cases op <;> simp [isRunTimeOperator] at h1 <;> simp [usesLogicalSimplifier] at h3 <;>
      simp only [reduceBinaryOperatorSwitch] at hs <;>
      first
      | exact absurd rfl h2
      | exact absurd hs (reduceConcatenation_not_node _ _ _ _ _ _ _ _)
      | exact simplifyBinaryRotateExpression_context _ _ _ _ _ _ _ _ hs
      | exact simplifyBinaryComparisonExpression_context _ _ _ _ _ _ _ _ _ hs
      | exact reduceBitIndexing_context _ _ _ _ _ _ _ _ _ hs
      | (simp [Reduced.aborted] at hs; done)
      | (have hb : (isBooleanType left.info.type && isBooleanType right.info.type) = false := by
           cases hbl : isBooleanType left.info.type
           · rfl
           · simpa [hbl] using h3 hbl
         simp only [hb, Bool.false_eq_true, if_false] at hs
         exact simplifyBinaryArithmeticExpression_context _ _ _ _ _ _ _ _ hs)

theorem reduceBinaryOperator_context_witness :
    (reduceBinaryOperator ⟨2, 3⟩ sampleOperations sampleBuiltins .Addition
        (some (.mk (.ResolvedIdentifier (.BuiltinRegister 30 sampleBuiltins.u8) ["a"])
          ⟨.RunTime, .ResolvedIdentifier sampleBuiltins.u8, { lvalue := true }⟩), [])
        (some (.mk (.IntegerLiteral 1) ⟨.CompileTime, .ResolvedIdentifier sampleBuiltins.iexpr, {}⟩),
          [])).1 =
      some (.mk
        (.BinaryOperator .Addition
          (.mk (.ResolvedIdentifier (.BuiltinRegister 30 sampleBuiltins.u8) ["a"])
            ⟨.RunTime, .ResolvedIdentifier sampleBuiltins.u8, { lvalue := true }⟩)
          (.mk (.IntegerLiteral 1) ⟨.CompileTime, .ResolvedIdentifier sampleBuiltins.iexpr, {}⟩))
        ⟨.RunTime, .ResolvedIdentifier sampleBuiltins.u8, {}⟩) ∧
      (⟨.RunTime, .ResolvedIdentifier sampleBuiltins.u8, {}⟩ : ExpressionInfo).context =
        EvaluationContext.max .RunTime .CompileTime :=
  ⟨rfl,
    (reduceBinaryOperator_context ⟨2, 3⟩ sampleOperations sampleBuiltins .Addition
      (.mk (.ResolvedIdentifier (.BuiltinRegister 30 sampleBuiltins.u8) ["a"])
        ⟨.RunTime, .ResolvedIdentifier sampleBuiltins.u8, { lvalue := true }⟩)
      (.mk (.IntegerLiteral 1) ⟨.CompileTime, .ResolvedIdentifier sampleBuiltins.iexpr, {}⟩)
      [] [] .Addition _ _ _ rfl).2.2.2 rfl (by decide) rfl⟩

/-! ## Struct and union literals (C20) -/

/-- C20 (failing input): for the union `Value` with the two members `low` and
`wide`, the literal `Value { low = 1 }` provides exactly one field, yet the
reducer reports the message of the union test; and for a union with a single
member the literal without any field is reduced without a message. The test
reads the number of members of the union, not the number of fields given. -/
theorem reduceStructLiteral_union_counts_members :
    (reduceStructLiteral ⟨2, 3⟩ sampleCollaborators (fun type => some type)
        (.ResolvedIdentifier (.Struct 21 .Union 2 ["low", "wide"]))
        [("low", .mk (.IntegerLiteral 1) ⟨.CompileTime, .ResolvedIdentifier sampleBuiltins.iexpr, {}⟩)]) =
      (some (.mk
        (.StructLiteral (.ResolvedIdentifier (.Struct 21 .Union 2 ["low", "wide"]))
          [("low", .mk (.IntegerLiteral 1) ⟨.CompileTime, .ResolvedIdentifier sampleBuiltins.u8, {}⟩)])
        ⟨.CompileTime, .ResolvedIdentifier (.Struct 21 .Union 2 ["low", "wide"]), {}⟩),
        ["literal must use exactly one field because it is a `union`, but fields were given"]) ∧
      (reduceStructLiteral ⟨2, 3⟩ sampleCollaborators (fun type => some type)
        (.ResolvedIdentifier (.Struct 22 .Union 1 ["only"])) []) =
      (some (.mk (.StructLiteral (.ResolvedIdentifier (.Struct 22 .Union 1 ["only"])) [])
        ⟨.CompileTime, .ResolvedIdentifier (.Struct 22 .Union 1 ["only"]), {}⟩), []) :=
  ⟨rfl, rfl⟩

/-! ## Range literals (C21) -/

/-- C21 (as stated): the range literal `0 .. 10 by 0`, whose start, end and step
reduce to the integer literals 0, 10 and 0, is reduced to a range literal and
no error is reported. -/
theorem reduceRangeLiteral_zero_step_accepted :
    reduceRangeLiteral sampleBuiltins
        (some (.mk (.IntegerLiteral 0) ⟨.CompileTime, .ResolvedIdentifier sampleBuiltins.iexpr, {}⟩), [])
        (some (.mk (.IntegerLiteral 10) ⟨.CompileTime, .ResolvedIdentifier sampleBuiltins.iexpr, {}⟩), [])
        (some (some (.mk (.IntegerLiteral 0)
          ⟨.CompileTime, .ResolvedIdentifier sampleBuiltins.iexpr, {}⟩), [])) =
      (some (.mk
        (.RangeLiteral
          (.mk (.IntegerLiteral 0) ⟨.CompileTime, .ResolvedIdentifier sampleBuiltins.iexpr, {}⟩)
          (.mk (.IntegerLiteral 10) ⟨.CompileTime, .ResolvedIdentifier sampleBuiltins.iexpr, {}⟩)
          (.mk (.IntegerLiteral 0) ⟨.CompileTime, .ResolvedIdentifier sampleBuiltins.iexpr, {}⟩))
        ⟨.CompileTime, .ResolvedIdentifier sampleBuiltins.range, {}⟩), []) :=
  rfl

/-- C21 (amended): when start, end and step reduce to integer literals, the
`RangeLiteral` case returns the range literal of the three reduced operands
with compile-time context and the `range` type, and reports nothing of its
own, whatever the value of the step; with a step of 0 the returned literal has
no length and no items. When start, end and step are reduced but one of them
is not an integer literal, the case returns null and reports one error. -/
theorem reduceRangeLiteral_integer_literals (builtins : ReducerBuiltins)
    (startMessages endMessages stepMessages : List String) :
    (∀ (a b s : Int) (infoA infoB infoS : ExpressionInfo),
      reduceRangeLiteral builtins (some (.mk (.IntegerLiteral a) infoA), startMessages)
          (some (.mk (.IntegerLiteral b) infoB), endMessages)
          (some (some (.mk (.IntegerLiteral s) infoS), stepMessages)) =
        (some (.mk
          (.RangeLiteral (.mk (.IntegerLiteral a) infoA) (.mk (.IntegerLiteral b) infoB)
            (.mk (.IntegerLiteral s) infoS))
          ⟨.CompileTime, .ResolvedIdentifier builtins.range, {}⟩),
          startMessages ++ endMessages ++ stepMessages) ∧
      (s = 0 →
        tryGetSequenceLiteralLength
            (.mk
              (.RangeLiteral (.mk (.IntegerLiteral a) infoA) (.mk (.IntegerLiteral b) infoB)
                (.mk (.IntegerLiteral s) infoS))
              ⟨.CompileTime, .ResolvedIdentifier builtins.range, {}⟩) = none ∧
          ∀ index,
            getSequenceLiteralItem builtins.toBuiltins
              (.mk
                (.RangeLiteral (.mk (.IntegerLiteral a) infoA) (.mk (.IntegerLiteral b) infoB)
                  (.mk (.IntegerLiteral s) infoS))
                ⟨.CompileTime, .ResolvedIdentifier builtins.range, {}⟩) index = none)) ∧
    (∀ (startExpression endExpression stepExpression : Expression),
      (isIntegerLiteral startExpression && isIntegerLiteral endExpression &&
        isIntegerLiteral stepExpression) = false →
      ∃ reported,
        reduceRangeLiteral builtins (some startExpression, startMessages)
            (some endExpression, endMessages) (some (some stepExpression, stepMessages)) =
          (none, startMessages ++ endMessages ++ stepMessages ++ [reported])) := by
  constructor
  · intro a b s infoA infoB infoS
    refine ⟨rfl, ?_⟩
    intro hs
    subst hs
    exact ⟨by simp [tryGetSequenceLiteralLength], fun index => by simp [getSequenceLiteralItem]⟩
  · intro startExpression endExpression stepExpression h
    cases h1 : isIntegerLiteral startExpression
    · exact ⟨"range start must be a compile-time integer literal", by simp [reduceRangeLiteral, h1]⟩
    · cases h2 : isIntegerLiteral endExpression
      · exact ⟨"range end must be a compile-time integer literal", by simp [reduceRangeLiteral, h1, h2]⟩
      · cases h3 : isIntegerLiteral stepExpression
        · exact ⟨"range step must be a compile-time integer literal",
            by simp [reduceRangeLiteral, h1, h2, h3]⟩
        · simp [h1, h2, h3] at h

theorem reduceRangeLiteral_integer_literals_witness :
    (isIntegerLiteral (.mk (.IntegerLiteral 0) ⟨.CompileTime, .ResolvedIdentifier sampleBuiltins.iexpr, {}⟩) &&
        isIntegerLiteral (.mk (.IntegerLiteral 10) ⟨.CompileTime, .ResolvedIdentifier sampleBuiltins.iexpr, {}⟩) &&
        isIntegerLiteral (.mk (.ResolvedIdentifier (.Var 9 none) ["n"])
          ⟨.RunTime, .ResolvedIdentifier sampleBuiltins.u8, { lvalue := true }⟩)) = false ∧
      ∃ reported,
        reduceRangeLiteral sampleBuiltins
            (some (.mk (.IntegerLiteral 0) ⟨.CompileTime, .ResolvedIdentifier sampleBuiltins.iexpr, {}⟩), [])
            (some (.mk (.IntegerLiteral 10) ⟨.CompileTime, .ResolvedIdentifier sampleBuiltins.iexpr, {}⟩), [])
            (some (some (.mk (.ResolvedIdentifier (.Var 9 none) ["n"])
              ⟨.RunTime, .ResolvedIdentifier sampleBuiltins.u8, { lvalue := true }⟩), [])) =
          (none, [] ++ [] ++ [] ++ [reported]) :=
  ⟨rfl, (reduceRangeLiteral_integer_literals sampleBuiltins [] [] []).2 _ _ _ rfl⟩

/-! ## Recursion limit of `let` expressions (C22) -/

theorem enterLetChain_entered (calls letExpressionStack : List LetExpressionStackItem) :
    (enterLetChain calls letExpressionStack).1 = true ↔
      calls = [] ∨ letExpressionStack.length + calls.length ≤ MaxLetRecursionDepth := by
  induction calls generalizing letExpressionStack with
  | nil => simp [enterLetChain]
  | cons call rest ih =>
    unfold enterLetChain
    simp only [enterLetExpression]
    by_cases hfull : letExpressionStack.length ≥ MaxLetRecursionDepth
    · simp only [hfull, if_true, Bool.false_eq_true, if_false]
      simp only [List.length_cons, false_iff, not_or]
      exact ⟨by simp, by omega⟩
    · simp only [hfull, if_false, if_true]
      rw [ih]
      simp only [List.length_append, List.length_cons, List.length_nil]
      constructor
      · rintro (h | h)
        · subst h
          right
          simp only [List.length_nil]
          omega
        · right; omega
      · rintro (h | h)
        · simp at h
        · right; omega

/-- C22: `enterLetExpression` returns true and pushes exactly one frame when the
stack holds fewer than `MaxLetRecursionDepth` (1024) frames; when the stack
holds 1024 frames or more it returns false, reports errors of which one is
fatal, and leaves the stack unchanged. Hence a chain of nested `let`
evaluations started on the empty stack is entered completely exactly when its
depth is at most 1024. -/
theorem enterLetExpression_recursion_limit (name : String) (location : Nat)
    (letExpressionStack : List LetExpressionStackItem) :
    (letExpressionStack.length < 1024 →
      (enterLetExpression name location letExpressionStack).entered = true ∧
        (enterLetExpression name location letExpressionStack).letExpressionStack =
          letExpressionStack ++ [⟨name, location⟩] ∧
        (enterLetExpression name location letExpressionStack).messages = []) ∧
    (letExpressionStack.length ≥ 1024 →
      (enterLetExpression name location letExpressionStack).entered = false ∧
        (enterLetExpression name location letExpressionStack).letExpressionStack = letExpressionStack ∧
        (enterLetExpression name location letExpressionStack).messages ≠ [] ∧
        (enterLetExpression name location letExpressionStack).fatal = true) ∧
    (∀ calls : List LetExpressionStackItem,
      (enterLetChain calls []).1 = true ↔ calls.length ≤ 1024) := by
  refine ⟨?_, ?_, ?_⟩
  · intro h
    have hn : ¬ letExpressionStack.length ≥ MaxLetRecursionDepth := by
      simp only [MaxLetRecursionDepth]; omega
    simp [enterLetExpression, hn]
  · intro h
    have hn : letExpressionStack.length ≥ MaxLetRecursionDepth := by
      simp only [MaxLetRecursionDepth]; omega
    simp [enterLetExpression, hn]
  · intro calls
    rw [enterLetChain_entered]
    simp only [List.length_nil, Nat.zero_add, MaxLetRecursionDepth]
    constructor
    · rintro (h | h)
      · subst h; simp
      · exact h
    · intro h; exact Or.inr h

theorem enterLetExpression_recursion_limit_witness :
    ([] : List LetExpressionStackItem).length < 1024 ∧
      (enterLetExpression "twice" 7 []).entered = true ∧
        (enterLetExpression "twice" 7 []).letExpressionStack = [] ++ [⟨"twice", 7⟩] ∧
        (enterLetExpression "twice" 7 []).messages = [] :=
  ⟨by decide, (enterLetExpression_recursion_limit "twice" 7 []).1 (by decide)⟩

/-! ## Explicit addresses (C27) -/

/-- C27: `resolveExplicitAddressExpression` on an address expression. When the
expression reduces to the integer literal `v` with `0 ≤ v ≤ 2 ^ (8 * f) - 1`,
`f` being the far pointer size in bytes, the address `v` is returned and
nothing is reported; for a negative literal, a literal above the maximum and a
reduced expression that is not an integer literal no value is returned and one
error is reported; when the reduction fails no value is returned. `f` is at
most 3 bytes, the range in which the 32-bit shift of the maximum is defined. -/
theorem resolveExplicitAddressExpression_range (platform : Platform)
    (reduceExpression : Expression → Reduced) (expression : Expression)
    (hf : 8 * platform.farPointerSize < 32) :
    (∀ (v : Int) (info : ExpressionInfo),
      (reduceExpression expression).1 = some (.mk (.IntegerLiteral v) info) →
      (0 ≤ v ∧ v ≤ (2 : Int) ^ (8 * platform.farPointerSize) - 1 →
        resolveExplicitAddressExpression platform reduceExpression (some expression) =
          (some v.toNat, (reduceExpression expression).2)) ∧
      (v < 0 ∨ v > (2 : Int) ^ (8 * platform.farPointerSize) - 1 →
        ∃ reported, resolveExplicitAddressExpression platform reduceExpression (some expression) =
          (none, (reduceExpression expression).2 ++ [reported]))) ∧
    (∀ reduced : Expression, (reduceExpression expression).1 = some reduced →
      isIntegerLiteral reduced = false →
      ∃ reported, resolveExplicitAddressExpression platform reduceExpression (some expression) =
        (none, (reduceExpression expression).2 ++ [reported])) ∧
    ((reduceExpression expression).1 = none →
      resolveExplicitAddressExpression platform reduceExpression (some expression) =
        (none, (reduceExpression expression).2)) := by
  have hmask := mask_eq platform.farPointerSize hf
  refine ⟨?_, ?_, ?_⟩
  · intro v info hv
    constructor
    · rintro ⟨h0, h1⟩
      have hn0 : ¬ v < 0 := by omega
      have hn1 : ¬ v > (2 : Int) ^ (8 * platform.farPointerSize) - 1 := by omega
      have hlt : v < (2 : Int) ^ 64 := by
        have h32 : (2 : Int) ^ (8 * platform.farPointerSize) ≤ (2 : Int) ^ 32 :=
          pow_le_pow_right₀ (by norm_num) (by omega)
        have h64 : (2 : Int) ^ 32 < (2 : Int) ^ 64 := by norm_num
        omega
      simp only [resolveExplicitAddressExpression, hv, Expression.variant, hn0, if_false, hmask, hn1,
        toUnsigned_of_lt 64 v h0 hlt]
    · intro h
      by_cases hneg : v < 0
      · exact ⟨"address must be a non-negative integer", by
          simp only [resolveExplicitAddressExpression, hv, Expression.variant, hneg, if_true]⟩
      · have hgt : v > (2 : Int) ^ (8 * platform.farPointerSize) - 1 := by
          rcases h with h | h
          · exact absurd h hneg
          · exact h
        exact ⟨"address is outside the valid address range supported by this platform", by
          simp only [resolveExplicitAddressExpression, hv, Expression.variant, hneg, if_false, hmask,
            hgt, if_true]⟩
  · intro reduced hr hlit
    obtain ⟨variant, info⟩ := reduced
    cases variant <;> simp [isIntegerLiteral, Expression.variant] at hlit <;>
      exact ⟨"address must be a compile-time integer literal", by
        simp only [resolveExplicitAddressExpression, hr, Expression.variant]⟩
  · intro hnone
    simp only [resolveExplicitAddressExpression, hnone]

theorem resolveExplicitAddressExpression_range_witness :
    8 * (3 : Nat) < 32 ∧
      (some (Expression.mk (.IntegerLiteral 0x8000)
        ⟨.CompileTime, .ResolvedIdentifier sampleBuiltins.iexpr, {}⟩), ([] : List String)).1 =
        some (.mk (.IntegerLiteral 0x8000) ⟨.CompileTime, .ResolvedIdentifier sampleBuiltins.iexpr, {}⟩) ∧
      ((0 : Int) ≤ 0x8000 ∧ (0x8000 : Int) ≤ (2 : Int) ^ (8 * 3) - 1) ∧
      resolveExplicitAddressExpression ⟨2, 3⟩ (fun expression => (some expression, []))
          (some (.mk (.IntegerLiteral 0x8000) ⟨.CompileTime, .ResolvedIdentifier sampleBuiltins.iexpr, {}⟩)) =
        (some (0x8000 : Int).toNat, []) :=
  ⟨by decide, rfl, by decide,
    ((resolveExplicitAddressExpression_range ⟨2, 3⟩ (fun expression => (some expression, []))
      (.mk (.IntegerLiteral 0x8000) ⟨.CompileTime, .ResolvedIdentifier sampleBuiltins.iexpr, {}⟩)
      (by decide)).1 0x8000 ⟨.CompileTime, .ResolvedIdentifier sampleBuiltins.iexpr, {}⟩ rfl).1
      (by decide)⟩

/-! ## Byte access operators (C28) -/

theorem toUnsigned_ofUnsigned (x : Nat) : Int128.toUnsigned 128 (Int128.ofUnsigned x) = x % 2 ^ 128 := by
  unfold Int128.ofUnsigned
  split
  · rw [toUnsigned_natCast, Nat.mod_mod]
  · unfold Int128.toUnsigned
    have hm : x % 2 ^ 128 < 2 ^ 128 := Nat.mod_lt x (Nat.two_pow_pos 128)
    generalize x % 2 ^ 128 = m at hm
    have hmI : (m : Int) < (2 : Int) ^ 128 := by exact_mod_cast hm
    rw [Int.emod_sub_cancel, Int.emod_eq_of_lt (Int.natCast_nonneg m) hmI, Int.toNat_ofNat]

theorem shifted_quotient (v A B C : Int) (hA : A ≠ 0) :
    (v % (A * (B * C)) / A) % B = (v / A) % B := by
  have h := Int.emod_add_ediv v (A * (B * C))
  have h2 : A * (B * C) * (v / (A * (B * C))) = A * (B * (C * (v / (A * (B * C))))) := by ring
  rw [h2] at h
  conv_rhs => rw [← h]
  rw [Int.add_mul_ediv_left _ _ hA, Int.add_mul_emod_self_left]

theorem shifted_byte (v : Int) (n : Nat) (hn : n + 8 ≤ 128) :
    ((v % (2 : Int) ^ 128) / (2 : Int) ^ n) % (2 : Int) ^ 8 = (v / (2 : Int) ^ n) % (2 : Int) ^ 8 := by
  have e : (2 : Int) ^ 128 = (2 : Int) ^ n * ((2 : Int) ^ 8 * (2 : Int) ^ (120 - n)) := by
    rw [← pow_add, ← pow_add]
    congr 1
    omega
  rw [e]
  exact shifted_quotient v _ _ _ (pow_ne_zero _ (by norm_num))

theorem land_logicalRightShift (v : Int) (n : Nat) (hn : n + 8 ≤ 128) :
    Int128.land (Int128.logicalRightShift v n) 0xFF = v / (2 : Int) ^ n % 256 := by
  have hU : Int128.toUnsigned 128 v < 2 ^ 128 := toUnsigned_lt 128 v
  have hdiv : Int128.toUnsigned 128 v / 2 ^ n < 2 ^ 128 :=
    lt_of_le_of_lt (Nat.div_le_self _ _) hU
  have hff : Int128.toUnsigned 128 (0xFF : Int) = 0xFF := by
    have := toUnsigned_natCast 128 0xFF
    simpa using this
  unfold Int128.land Int128.logicalRightShift
  rw [toUnsigned_ofUnsigned, hff, and_0xFF, Nat.shiftRight_eq_div_pow, Nat.mod_eq_of_lt hdiv]
  have hsmall : Int128.toUnsigned 128 v / 2 ^ n % 256 < 256 := Nat.mod_lt _ (by decide)
  unfold Int128.ofUnsigned
  have h128 : Int128.toUnsigned 128 v / 2 ^ n % 256 % 2 ^ 128 = Int128.toUnsigned 128 v / 2 ^ n % 256 :=
    Nat.mod_eq_of_lt (lt_trans hsmall (by decide))
  rw [h128, if_pos (lt_trans hsmall (by decide))]
  push_cast
  rw [toUnsigned_cast]
  have := shifted_byte v n hn
  norm_num at this ⊢
  exact this

theorem byteAccessOffset_le (op : UnaryOperatorKind) (k : Nat) (h : byteAccessOffset op = some k) :
    k ≤ 2 := by
  cases op <;> simp [byteAccessOffset] at h <;> omega

/-- C28 (as stated): the integer literal `0x2001` of the sized type `[u8; 4]`
(storage size 4), the form to which a member of array type of a variable at a
known address is reduced, is rejected by the low-byte operator although
`4 > 0`: the operator accepts integer, enum and pointer-like operand types
only. -/
theorem reduceByteAccess_array_typed_literal_rejected :
    calculateStorageSize ⟨2, 3⟩ (.Array (.ResolvedIdentifier sampleBuiltins.u8) (some 4)) = some 4 ∧
      reduceByteAccess ⟨2, 3⟩ sampleOperations sampleBuiltins sampleCollaborators .LowByte
        (.mk (.IntegerLiteral 0x2001)
          ⟨.CompileTime, .Array (.ResolvedIdentifier sampleBuiltins.u8) (some 4), { lvalue := true }⟩) =
      (none, ["operator is not defined for provided operand type"]) := by
  constructor
  · decide
  · rfl

/-- C28 (amended): for a byte operator with byte offset `k` (LowByte 0,
HighByte 1, BankByte 2) applied to a compile-time integer literal `v`: a
`writeonly` operand of BankByte is rejected with one error before the
operator is looked at; otherwise, when the operand type is `iexpr`, or an
integer, enum or pointer-like type of storage size `s > k`, the result is the
`u8` literal `floor(v / 256 ^ k) mod 256`; when the operand has such a type
with `s ≤ k`, and when it has any other type with a storage size, the
operator is rejected with one error. For `0 ≤ v < 2 ^ 24` the three bytes
recombine to `v`. The logical right shift of `Int128` is the shift of the
128-bit two's complement representation. -/
theorem reduceByteAccess_integer_literal (platform : Platform) (operations : LiteralOperations)
    (builtins : ReducerBuiltins) (collaborators : ReducerCollaborators) (op : UnaryOperatorKind)
    (k : Nat) (v : Int) (info : ExpressionInfo)
    (hop : byteAccessOffset op = some k)
    (hshift : ∀ value bits,
      operations.logicalRightShift value bits = Int128.logicalRightShift value bits) :
    (op = .BankByte → info.qualifiers.writeOnly = true →
      reduceByteAccess platform operations builtins collaborators op (.mk (.IntegerLiteral v) info) =
        (none, ["operand to operator cannot be `writeonly`"])) ∧
    ((op = .BankByte → info.qualifiers.writeOnly = false) →
      (∃ id, builtins.iexpr = .BuiltinIntegerExpressionType id) →
      info.type = .ResolvedIdentifier builtins.iexpr →
      reduceByteAccess platform operations builtins collaborators op (.mk (.IntegerLiteral v) info) =
        (some (.mk (.IntegerLiteral (v / 256 ^ k % 256))
          ⟨.CompileTime, .ResolvedIdentifier builtins.u8, {}⟩), [])) ∧
    (∀ s : Nat,
      (isIntegerType info.type || isEnumType info.type || isPointerLikeType info.type) = true →
      (∀ definition, tryGetResolvedIdentifierTypeDefinition info.type = some definition →
        definition.ptrEq builtins.iexpr = false) →
      calculateStorageSize platform info.type = some s →
      ((op = .BankByte → info.qualifiers.writeOnly = false) → k < s →
        reduceByteAccess platform operations builtins collaborators op (.mk (.IntegerLiteral v) info) =
          (some (.mk (.IntegerLiteral (v / 256 ^ k % 256))
            ⟨.CompileTime, .ResolvedIdentifier builtins.u8, {}⟩), [])) ∧
      (s ≤ k →
        ∃ reported,
          reduceByteAccess platform operations builtins collaborators op (.mk (.IntegerLiteral v) info) =
            (none, [reported]))) ∧
    (∀ s : Nat,
      (isIntegerType info.type || isEnumType info.type || isPointerLikeType info.type) = false →
      calculateStorageSize platform info.type = some s →
      ∃ reported,
        reduceByteAccess platform operations builtins collaborators op (.mk (.IntegerLiteral v) info) =
          (none, [reported])) ∧
    (0 ≤ v → v < 2 ^ 24 →
      v / 256 ^ 0 % 256 + 256 * (v / 256 ^ 1 % 256) + 65536 * (v / 256 ^ 2 % 256) = v) := by
  have hk := byteAccessOffset_le op k hop
  have hbyte : Int128.land (operations.logicalRightShift v (8 * k)) 0xFF = v / 256 ^ k % 256 := by
    rw [hshift, land_logicalRightShift v (8 * k) (by omega), pow_mul]
    norm_num
  have hrejected : info.qualifiers.writeOnly = true → op = .BankByte →
      unaryWriteOnlyOperandError op (.mk (.IntegerLiteral v) info) =
        some "operand to operator cannot be `writeonly`" := by
    intro hwo hbank
    subst hbank
    simp [unaryWriteOnlyOperandError, Expression.info, hwo]
  have haccepted : (op = .BankByte → info.qualifiers.writeOnly = false) →
      unaryWriteOnlyOperandError op (.mk (.IntegerLiteral v) info) = none := by
    intro hwo
    cases op <;> simp [byteAccessOffset] at hop <;>
      simp [unaryWriteOnlyOperandError, Expression.info]
    exact hwo rfl
  have hcases : unaryWriteOnlyOperandError op (.mk (.IntegerLiteral v) info) = none ∨
      reduceByteAccess platform operations builtins collaborators op (.mk (.IntegerLiteral v) info) =
        (none, ["operand to operator cannot be `writeonly`"]) := by
    by_cases hwo : op = .BankByte ∧ info.qualifiers.writeOnly = true
    · right
      simp only [reduceByteAccess, hrejected hwo.2 hwo.1, Reduced.error]
    · left
      exact haccepted (fun hbank => by
        cases hq : info.qualifiers.writeOnly
        · rfl
        · exact absurd ⟨hbank, hq⟩ hwo)
  refine ⟨?_, ?_, ?_, ?_, ?_⟩
  · intro hbank hwo
    simp only [reduceByteAccess, hrejected hwo hbank, Reduced.error]
  · rintro hwo ⟨id, hid⟩ htype
    have hget : tryGetResolvedIdentifierTypeDefinition info.type = some builtins.iexpr := by
      rw [htype, hid]; rfl
    have hint : isIntegerType info.type = true := by
      rw [htype, hid]; rfl
    have hptr : builtins.iexpr.ptrEq builtins.iexpr = true := by
      rw [hid]; simp [Definition.ptrEq]
    simp only [reduceByteAccess, haccepted hwo, hop, Expression.info, Expression.variant, hget, hptr,
      hint, Bool.not_true, Bool.false_eq_true, if_false, Bool.false_and, Bool.and_false, Bool.or_false,
      Bool.false_or, hbyte, Reduced.ok]
  · intro s hclass hnot hsize
    have hneeds : (match tryGetResolvedIdentifierTypeDefinition info.type with
        | some typeDefinition => !typeDefinition.ptrEq builtins.iexpr
        | none => true) = true := by
      cases hd : tryGetResolvedIdentifierTypeDefinition info.type with
      | none => rfl
      | some d => simp [hnot d hd]
    have hclass2 : (!isIntegerType info.type && !isEnumType info.type && !isPointerLikeType info.type)
        = false := by
      cases h1 : isIntegerType info.type <;> cases h2 : isEnumType info.type <;>
        cases h3 : isPointerLikeType info.type <;> simp [h1, h2, h3] at hclass ⊢
    constructor
    · intro hwo hlt
      have hge : decide (k ≥ s) = false := by simp; omega
      simp only [reduceByteAccess, haccepted hwo, hop, Expression.info, Expression.variant, hneeds,
        if_true, hsize, Option.isNone, Bool.and_false, Bool.false_eq_true, if_false, hclass2, hge,
        Bool.or_false, hbyte, Reduced.ok]
    · intro hle
      have hge : decide (k ≥ s) = true := by simp; omega
      rcases hcases with hnone | hwriteonly
      · exact ⟨"operator is not defined for provided operand type", by
          simp only [reduceByteAccess, hnone, hop, Expression.info, Expression.variant, hneeds,
            if_true, hsize, Option.isNone, Bool.and_false, Bool.false_eq_true, if_false, hclass2, hge,
            Bool.or_true, Reduced.error]⟩
      · exact ⟨_, hwriteonly⟩
  · intro s hclass hsize
    have hclass2 : (!isIntegerType info.type && !isEnumType info.type && !isPointerLikeType info.type)
        = true := by
      cases h1 : isIntegerType info.type <;> cases h2 : isEnumType info.type <;>
        cases h3 : isPointerLikeType info.type <;> simp [h1, h2, h3] at hclass ⊢
    rcases hcases with hnone | hwriteonly
    · refine ⟨"operator is not defined for provided operand type", ?_⟩
      cases hneeds : (match tryGetResolvedIdentifierTypeDefinition info.type with
          | some typeDefinition => !typeDefinition.ptrEq builtins.iexpr
          | none => true) <;>
        simp only [reduceByteAccess, hnone, hop, Expression.info, Expression.variant, hneeds, hsize,
          hclass2, Option.isNone, Bool.and_false, Bool.false_and, Bool.false_eq_true, if_false,
          if_true, Bool.true_or, Reduced.error]
    · exact ⟨_, hwriteonly⟩
  · intro h0 h1
    omega

theorem reduceByteAccess_integer_literal_witness :
    byteAccessOffset .BankByte = some 2 ∧
      (∀ value bits,
        ({ sampleOperations with logicalRightShift := Int128.logicalRightShift } :
          LiteralOperations).logicalRightShift value bits = Int128.logicalRightShift value bits) ∧
      reduceByteAccess ⟨2, 3⟩ { sampleOperations with logicalRightShift := Int128.logicalRightShift }
          sampleBuiltins sampleCollaborators .BankByte
          (.mk (.IntegerLiteral 0x123456)
            ⟨.CompileTime, .ResolvedIdentifier sampleBuiltins.iexpr, {}⟩) =
        (some (.mk (.IntegerLiteral ((0x123456 : Int) / 256 ^ 2 % 256))
          ⟨.CompileTime, .ResolvedIdentifier sampleBuiltins.u8, {}⟩), []) ∧
      reduceByteAccess ⟨2, 3⟩ { sampleOperations with logicalRightShift := Int128.logicalRightShift }
          sampleBuiltins sampleCollaborators .BankByte
          (.mk (.IntegerLiteral 0x123456)
            ⟨.CompileTime, .ResolvedIdentifier sampleBuiltins.iexpr, { writeOnly := true }⟩) =
        (none, ["operand to operator cannot be `writeonly`"]) :=
  ⟨rfl, fun _ _ => rfl,
    (reduceByteAccess_integer_literal ⟨2, 3⟩
      { sampleOperations with logicalRightShift := Int128.logicalRightShift }
      sampleBuiltins sampleCollaborators .BankByte 2 0x123456
      ⟨.CompileTime, .ResolvedIdentifier sampleBuiltins.iexpr, {}⟩ rfl (fun _ _ => rfl)).2.1
      (fun _ => rfl) ⟨0, rfl⟩ rfl,
    (reduceByteAccess_integer_literal ⟨2, 3⟩
      { sampleOperations with logicalRightShift := Int128.logicalRightShift }
      sampleBuiltins sampleCollaborators .BankByte 2 0x123456
      ⟨.CompileTime, .ResolvedIdentifier sampleBuiltins.iexpr, { writeOnly := true }⟩ rfl
      (fun _ _ => rfl)).1 rfl rfl⟩

/-! ## Concatenation of array literals (C29) -/

/-- C29 (failing input): for `[1, 2] ~ [300]` with the left items of type `u8`
and the right item of type `u16`, the element types are not equivalent and
the right item cannot be converted to `u8`; the type search nevertheless
returns the left type, because its last test reads the items of the left
operand again, and the concatenation case then meets the null converted item:
nothing is returned and no error is reported. -/
theorem reduceConcatenation_right_items_not_tested :
    findCompatibleConcatenationExpressionType ⟨2, 3⟩
        (.mk (.ArrayLiteral
          [.mk (.IntegerLiteral 1) ⟨.CompileTime, .ResolvedIdentifier (.BuiltinIntegerType 2 1 0 255), {}⟩,
            .mk (.IntegerLiteral 2) ⟨.CompileTime, .ResolvedIdentifier (.BuiltinIntegerType 2 1 0 255), {}⟩])
          ⟨.CompileTime, .Array (.ResolvedIdentifier (.BuiltinIntegerType 2 1 0 255)) (some 2), {}⟩)
        (.mk (.ArrayLiteral
          [.mk (.IntegerLiteral 300)
            ⟨.CompileTime, .ResolvedIdentifier (.BuiltinIntegerType 3 2 0 65535), {}⟩])
          ⟨.CompileTime, .Array (.ResolvedIdentifier (.BuiltinIntegerType 3 2 0 65535)) (some 1), {}⟩) =
      some (.Array (.ResolvedIdentifier (.BuiltinIntegerType 2 1 0 255)) (some 2)) ∧
    canNarrowExpression ⟨2, 3⟩
        (.mk (.IntegerLiteral 300) ⟨.CompileTime, .ResolvedIdentifier (.BuiltinIntegerType 3 2 0 65535), {}⟩)
        (.ResolvedIdentifier (.BuiltinIntegerType 2 1 0 255)) = false ∧
    createConvertedExpression ⟨2, 3⟩
        (.mk (.IntegerLiteral 300) ⟨.CompileTime, .ResolvedIdentifier (.BuiltinIntegerType 3 2 0 65535), {}⟩)
        (.ResolvedIdentifier (.BuiltinIntegerType 2 1 0 255)) = none ∧
    reduceConcatenation ⟨2, 3⟩ sampleBuiltins
        (.mk (.ArrayLiteral
          [.mk (.IntegerLiteral 1) ⟨.CompileTime, .ResolvedIdentifier (.BuiltinIntegerType 2 1 0 255), {}⟩,
            .mk (.IntegerLiteral 2) ⟨.CompileTime, .ResolvedIdentifier (.BuiltinIntegerType 2 1 0 255), {}⟩])
          ⟨.CompileTime, .Array (.ResolvedIdentifier (.BuiltinIntegerType 2 1 0 255)) (some 2), {}⟩)
        (.mk (.ArrayLiteral
          [.mk (.IntegerLiteral 300)
            ⟨.CompileTime, .ResolvedIdentifier (.BuiltinIntegerType 3 2 0 65535), {}⟩])
          ⟨.CompileTime, .Array (.ResolvedIdentifier (.BuiltinIntegerType 3 2 0 65535)) (some 1), {}⟩) =
      (none, []) := by
  refine ⟨rfl, ?_, rfl, rfl⟩
  decide

/-! ## Conditional compilation (C26) -/

theorem isFalseCompileIf_iff (attr : Attribute) :
    isFalseCompileIf attr = true ↔
      attr.name = "compile_if" ∧ ∃ info, attr.arguments = [.mk (.BooleanLiteral false) info] := by
  unfold isFalseCompileIf
  by_cases hname : attr.name = "compile_if"
  · simp only [hname, if_true, true_and]
    rcases harg : attr.arguments with _ | ⟨argument, rest⟩
    · simp
    · rcases rest with _ | ⟨second, rest2⟩
      · obtain ⟨variant, info⟩ := argument
        cases variant <;> simp [Expression.variant]
      · simp
  · simp [hname]

theorem checkConditionalCompilationAttributes_eq_false (attributeStack : List Attribute) :
    checkConditionalCompilationAttributes attributeStack = false ↔
      ∃ attr ∈ attributeStack, attr.name = "compile_if" ∧
        ∃ info, attr.arguments = [.mk (.BooleanLiteral false) info] := by
  induction attributeStack with
  | nil => simp [checkConditionalCompilationAttributes]
  | cons head rest ih =>
    unfold checkConditionalCompilationAttributes
    by_cases hhead : isFalseCompileIf head = true
    · simp only [hhead, if_true, true_iff]
      exact ⟨head, List.mem_cons_self _ _, (isFalseCompileIf_iff head).1 hhead⟩
    · simp only [hhead, if_false, Bool.false_eq_true]
      rw [ih]
      constructor
      · rintro ⟨attr, hmem, h⟩
        exact ⟨attr, List.mem_cons_of_mem _ hmem, h⟩
      · rintro ⟨attr, hmem, h⟩
        rcases List.mem_cons.1 hmem with heq | hmem2
        · subst heq
          exact absurd ((isFalseCompileIf_iff attr).2 h) hhead
        · exact ⟨attr, hmem2, h⟩

theorem popAttributeList_pushAttributeList (table : ModeAttributeTable) (attributeList : List Attribute)
    (state : AttributeState) :
    popAttributeList (pushAttributeList table attributeList state) = state := by
  obtain ⟨modeFlags, modeFlagsStack, attributeListStack, attributeStack⟩ := state
  simp [popAttributeList, pushAttributeList]

/-- C26: `checkConditionalCompilationAttributes` returns false exactly when some
attribute on the attribute stack is named `compile_if`, has exactly one
argument, and that argument is the boolean literal false. When it returns
false after the attribute list of a statement was pushed, the `Attribution`
cases of `reserveDefinitions`, `reserveStorage` and `emitStatementIr` do not
call the pass on the body, and `popAttributeList` restores the mode flags,
the mode flags stack, the attribute list stack and the attribute stack: the
state after the case is the state before it. -/
theorem visitAttribution_compile_if_false {σ : Type} (table : ModeAttributeTable)
    (attributeList : List Attribute) (state : PassState σ) :
    (∀ attributeStack : List Attribute,
      checkConditionalCompilationAttributes attributeStack = false ↔
        ∃ attr ∈ attributeStack, attr.name = "compile_if" ∧
          ∃ info, attr.arguments = [.mk (.BooleanLiteral false) info]) ∧
    (checkConditionalCompilationAttributes
        (pushAttributeList table attributeList state.attributes).attributeStack = false →
      ∀ visitBody : PassState σ → PassState σ,
        reserveDefinitionsAttribution table visitBody attributeList state = state ∧
          reserveStorageAttribution table visitBody attributeList state = state ∧
          emitStatementIrAttribution table visitBody attributeList state = state) := by
  refine ⟨checkConditionalCompilationAttributes_eq_false, ?_⟩
  intro hcheck visitBody
  have h : visitAttribution table visitBody attributeList state = state := by
    obtain ⟨attributes, rest⟩ := state
    simp only [visitAttribution, hcheck, Bool.false_eq_true, if_false,
      popAttributeList_pushAttributeList]
  exact ⟨h, h, h⟩

/-! ## Mode flags (C25) -/

theorem modeBit_eq (index : Nat) (h : index < 32) : modeBit index = 2 ^ index := by
  unfold modeBit
  exact Nat.mod_eq_of_lt (Nat.pow_lt_pow_right (by decide) h)

theorem testBit_allOnes (j : Nat) : (0xFFFFFFFF : Nat).testBit j = decide (j < 32) := by
  have := Nat.testBit_two_pow_sub_one 32 j
  simpa using this

theorem clearModeFlag_testBit (table : ModeAttributeTable) (modeAttribute : ModeAttribute)
    (modeFlags other j : Nat) (ho : other < 32) (hj : j < 32) :
    (clearModeFlag table modeAttribute modeFlags other).testBit j =
      (modeFlags.testBit j &&
        !(decide (j = other) &&
          decide ((table.getModeAttribute other).groupIndex = modeAttribute.groupIndex))) := by
  unfold clearModeFlag
  rw [modeBit_eq other ho]
  have hset : modeFlags &&& 2 ^ other ≠ 0 ↔ modeFlags.testBit other = true := by
    rw [Nat.and_two_pow]
    cases modeFlags.testBit other <;> simp
  by_cases hbit : modeFlags.testBit other = true
  · rw [if_pos (hset.2 hbit)]
    by_cases hgroup : (table.getModeAttribute other).groupIndex = modeAttribute.groupIndex
    · rw [if_pos hgroup]
      unfold modeBitComplement
      rw [modeBit_eq other ho, Nat.testBit_and, Nat.testBit_xor, testBit_allOnes, Nat.testBit_two_pow]
      by_cases hjo : j = other
      · subst hjo; simp [hj, hgroup]
      · have : ¬ other = j := fun h => hjo h.symm
        simp [hj, hjo, this]
    · rw [if_neg hgroup]
      simp [hgroup]
  · have hn : ¬ (modeFlags &&& 2 ^ other ≠ 0) := fun h => hbit (hset.1 h)
    rw [if_neg hn]
    by_cases hjo : j = other
    · subst hjo
      simp only [Bool.not_eq_true] at hbit
      simp [hbit]
    · simp [hjo]

theorem clearModeFlags_testBit (table : ModeAttributeTable) (modeAttribute : ModeAttribute)
    (modeFlags j : Nat) (hj : j < 32) (n : Nat) (hn : n ≤ 32) :
    ((List.range n).foldl (clearModeFlag table modeAttribute) modeFlags).testBit j =
      (modeFlags.testBit j &&
        !(decide (j < n) &&
          decide ((table.getModeAttribute j).groupIndex = modeAttribute.groupIndex))) := by
  induction n with
  | zero => simp
  | succ n ih =>
    rw [List.range_succ, List.foldl_append, List.foldl_cons, List.foldl_nil,
      clearModeFlag_testBit _ _ _ _ _ (by omega) hj, ih (by omega)]
    by_cases hjn : j = n
    · subst hjn
      simp
    · by_cases hlt : j < n
      · have : j < n + 1 := by omega
        simp [hjn, hlt, this]
      · have : ¬ j < n + 1 := by omega
        simp [hjn, hlt, this]

theorem applyModeAttribute_testBit (table : ModeAttributeTable) (modeFlags : Nat) (attr : Attribute)
    (j : Nat) (hcount : table.getModeAttributeCount ≤ 32)
    (hm : table.findModeAttributeByName attr.name < table.getModeAttributeCount)
    (hj : j < table.getModeAttributeCount) :
    (applyModeAttribute table modeFlags attr).testBit j =
      (decide (table.findModeAttributeByName attr.name = j) ||
        (modeFlags.testBit j &&
          !decide ((table.getModeAttribute j).groupIndex =
            (table.getModeAttribute (table.findModeAttributeByName attr.name)).groupIndex))) := by
  have hne : table.findModeAttributeByName attr.name ≠ SIZE_MAX := by
    have : table.getModeAttributeCount < SIZE_MAX := lt_of_le_of_lt hcount (by decide)
    omega
  unfold applyModeAttribute
  simp only [hne, ne_eq, not_false_eq_true, if_true]
  rw [Nat.testBit_or, modeBit_eq _ (by omega), Nat.testBit_two_pow,
    clearModeFlags_testBit _ _ _ _ (by omega) _ hcount]
  simp [hj, Bool.or_comm]

theorem applyModeAttribute_unchanged (table : ModeAttributeTable) (modeFlags : Nat) (attr : Attribute)
    (h : table.findModeAttributeByName attr.name = SIZE_MAX) :
    applyModeAttribute table modeFlags attr = modeFlags := by
  simp [applyModeAttribute, h]

theorem applyModeAttribute_exclusive (table : ModeAttributeTable) (modeFlags : Nat) (attr : Attribute)
    (hcount : table.getModeAttributeCount ≤ 32)
    (hfind : ∀ name, table.findModeAttributeByName name = SIZE_MAX ∨
      table.findModeAttributeByName name < table.getModeAttributeCount)
    (h : ModeFlagsExclusive table modeFlags) :
    ModeFlagsExclusive table (applyModeAttribute table modeFlags attr) := by
  rcases hfind attr.name with hnone | hm
  · rw [applyModeAttribute_unchanged _ _ _ hnone]
    exact h
  · intro i j hi hj hbi hbj hg
    rw [applyModeAttribute_testBit _ _ _ _ hcount hm hi] at hbi
    rw [applyModeAttribute_testBit _ _ _ _ hcount hm hj] at hbj
    simp only [Bool.or_eq_true, decide_eq_true_eq, Bool.and_eq_true, Bool.not_eq_true',
      decide_eq_false_iff_not] at hbi hbj
    rcases hbi with hbi | hbi <;> rcases hbj with hbj | hbj
    · rw [← hbi, ← hbj]
    · subst hbi
      exact absurd hg.symm hbj.2
    · subst hbj
      exact absurd hg hbi.2
    · exact h i j hi hj hbi.1 hbj.1 hg

theorem foldl_applyModeAttribute_exclusive (table : ModeAttributeTable) (attributeList : List Attribute)
    (modeFlags : Nat) (hcount : table.getModeAttributeCount ≤ 32)
    (hfind : ∀ name, table.findModeAttributeByName name = SIZE_MAX ∨
      table.findModeAttributeByName name < table.getModeAttributeCount)
    (h : ModeFlagsExclusive table modeFlags) :
    ModeFlagsExclusive table (attributeList.foldl (applyModeAttribute table) modeFlags) := by
  induction attributeList generalizing modeFlags with
  | nil => exact h
  | cons attr rest ih =>
    exact ih _ (applyModeAttribute_exclusive table modeFlags attr hcount hfind h)

theorem foldl_applyModeAttribute_other_group (table : ModeAttributeTable)
    (attributeList : List Attribute) (modeFlags groupIndex j : Nat)
    (hcount : table.getModeAttributeCount ≤ 32)
    (hfind : ∀ name, table.findModeAttributeByName name = SIZE_MAX ∨
      table.findModeAttributeByName name < table.getModeAttributeCount)
    (hj : j < table.getModeAttributeCount)
    (hg : (table.getModeAttribute j).groupIndex = groupIndex)
    (hnone : lastModeOfGroup table groupIndex attributeList = none) :
    (attributeList.foldl (applyModeAttribute table) modeFlags).testBit j = modeFlags.testBit j := by
  induction attributeList generalizing modeFlags with
  | nil => rfl
  | cons attr rest ih =>
    unfold lastModeOfGroup at hnone
    cases hrest : lastModeOfGroup table groupIndex rest with
    | some m => simp [hrest] at hnone
    | none =>
      simp only [hrest] at hnone
      rw [List.foldl_cons, ih _ hrest]
      rcases hfind attr.name with hmax | hm
      · rw [applyModeAttribute_unchanged _ _ _ hmax]
      · have hne : table.findModeAttributeByName attr.name ≠ SIZE_MAX := by
          have : table.getModeAttributeCount < SIZE_MAX := lt_of_le_of_lt hcount (by decide)
          omega
        have hother : ¬ (table.getModeAttribute (table.findModeAttributeByName attr.name)).groupIndex
            = groupIndex := by
          intro hsame
          simp [hne, hsame] at hnone
        rw [applyModeAttribute_testBit _ _ _ _ hcount hm hj]
        have h1 : ¬ table.findModeAttributeByName attr.name = j := by
          intro heq
          rw [heq] at hother
          exact hother hg
        have h2 : ¬ (table.getModeAttribute j).groupIndex =
            (table.getModeAttribute (table.findModeAttributeByName attr.name)).groupIndex := by
          intro heq
          rw [← heq] at hother
          exact hother hg
        simp [h1, h2]

theorem foldl_applyModeAttribute_last (table : ModeAttributeTable)
    (attributeList : List Attribute) (modeFlags groupIndex m : Nat)
    (hcount : table.getModeAttributeCount ≤ 32)
    (hfind : ∀ name, table.findModeAttributeByName name = SIZE_MAX ∨
      table.findModeAttributeByName name < table.getModeAttributeCount)
    (hlast : lastModeOfGroup table groupIndex attributeList = some m) :
    m < table.getModeAttributeCount ∧ (table.getModeAttribute m).groupIndex = groupIndex ∧
      (attributeList.foldl (applyModeAttribute table) modeFlags).testBit m = true := by
  induction attributeList generalizing modeFlags with
  | nil => simp [lastModeOfGroup] at hlast
  | cons attr rest ih =>
    unfold lastModeOfGroup at hlast
    cases hrest : lastModeOfGroup table groupIndex rest with
    | some m2 =>
      simp only [hrest, Option.some.injEq] at hlast
      subst hlast
      exact ih _ hrest
    | none =>
      simp only [hrest] at hlast
      split at hlast
      next hcond =>
        simp only [Option.some.injEq] at hlast
        subst hlast
        have hm : table.findModeAttributeByName attr.name < table.getModeAttributeCount := by
          rcases hfind attr.name with hmax | hm
          · exact absurd hmax hcond.1
          · exact hm
        refine ⟨hm, hcond.2, ?_⟩
        rw [List.foldl_cons,
          foldl_applyModeAttribute_other_group table rest _ groupIndex _ hcount hfind hm hcond.2 hrest,
          applyModeAttribute_testBit _ _ _ _ hcount hm hm]
        simp
      next => simp at hlast

/-- C25: if at most one mode flag is set in each mode group before
`pushAttributeList`, then after it at most one mode flag is set in each group,
and for each group named by a mode attribute of the list the flag that is set
is the flag of the last such attribute of the list. The table has at most 32
mode attributes (the flags are the bits of a 32-bit word) and
`findModeAttributeByName` returns `SIZE_MAX` or an index of the table. -/
theorem pushAttributeList_mode_groups (table : ModeAttributeTable) (attributeList : List Attribute)
    (state : AttributeState) (hcount : table.getModeAttributeCount ≤ 32)
    (hfind : ∀ name, table.findModeAttributeByName name = SIZE_MAX ∨
      table.findModeAttributeByName name < table.getModeAttributeCount)
    (hexclusive : ModeFlagsExclusive table state.modeFlags) :
    ModeFlagsExclusive table (pushAttributeList table attributeList state).modeFlags ∧
      ∀ groupIndex m, lastModeOfGroup table groupIndex attributeList = some m →
        (pushAttributeList table attributeList state).modeFlags.testBit m = true ∧
          ∀ j, j < table.getModeAttributeCount →
            (table.getModeAttribute j).groupIndex = groupIndex →
            (pushAttributeList table attributeList state).modeFlags.testBit j = true → j = m := by
  have hex := foldl_applyModeAttribute_exclusive table attributeList state.modeFlags hcount hfind
    hexclusive
  refine ⟨hex, ?_⟩
  intro groupIndex m hlast
  obtain ⟨hm, hg, hbit⟩ :=
    foldl_applyModeAttribute_last table attributeList state.modeFlags groupIndex m hcount hfind hlast
  refine ⟨hbit, ?_⟩
  intro j hj hgj hbj
  exact hex j m hj hm hbj hbit (by rw [hgj, hg])

theorem sampleModeAttributeTable_find (name : String) :
    sampleModeAttributeTable.findModeAttributeByName name = SIZE_MAX ∨
      sampleModeAttributeTable.findModeAttributeByName name <
        sampleModeAttributeTable.getModeAttributeCount := by
  simp only [sampleModeAttributeTable]
  split_ifs
  · right; decide
  · right; decide
  · right; decide
  · right; decide
  · left; rfl

theorem pushAttributeList_mode_groups_witness :
    sampleModeAttributeTable.getModeAttributeCount ≤ 32 ∧
      (∀ name, sampleModeAttributeTable.findModeAttributeByName name = SIZE_MAX ∨
        sampleModeAttributeTable.findModeAttributeByName name <
          sampleModeAttributeTable.getModeAttributeCount) ∧
      ModeFlagsExclusive sampleModeAttributeTable (AttributeState.mk 0 [] [] []).modeFlags ∧
      ModeFlagsExclusive sampleModeAttributeTable
        (pushAttributeList sampleModeAttributeTable
          [⟨"mem8", []⟩, ⟨"idx16", []⟩, ⟨"mem16", []⟩] (AttributeState.mk 0 [] [] [])).modeFlags :=
  ⟨by decide, sampleModeAttributeTable_find,
    fun i j _ _ hi => by simp at hi,
    (pushAttributeList_mode_groups sampleModeAttributeTable
      [⟨"mem8", []⟩, ⟨"idx16", []⟩, ⟨"mem16", []⟩] (AttributeState.mk 0 [] [] [])
      (by decide) sampleModeAttributeTable_find (fun i j _ _ hi => by simp at hi)).1⟩

theorem visitAttribution_compile_if_false_witness :
    checkConditionalCompilationAttributes
        (pushAttributeList sampleModeAttributeTable
          [⟨"compile_if", [.mk (.BooleanLiteral false)
            ⟨.CompileTime, .ResolvedIdentifier sampleBuiltins.bool, {}⟩]⟩]
          (PassState.mk (AttributeState.mk 0 [] [] []) (0 : Nat)).attributes).attributeStack = false ∧
      emitStatementIrAttribution sampleModeAttributeTable
          (fun state => { state with rest := state.rest + 1 })
          [⟨"compile_if", [.mk (.BooleanLiteral false)
            ⟨.CompileTime, .ResolvedIdentifier sampleBuiltins.bool, {}⟩]⟩]
          (PassState.mk (AttributeState.mk 0 [] [] []) (0 : Nat)) =
        PassState.mk (AttributeState.mk 0 [] [] []) (0 : Nat) :=
  ⟨by decide,
    ((visitAttribution_compile_if_false sampleModeAttributeTable
      [⟨"compile_if", [.mk (.BooleanLiteral false)
        ⟨.CompileTime, .ResolvedIdentifier sampleBuiltins.bool, {}⟩]⟩]
      (PassState.mk (AttributeState.mk 0 [] [] []) (0 : Nat))).2 (by decide)
      (fun state => { state with rest := state.rest + 1 })).2.2⟩

/-! ## Constant conditions of `if` statements (C24) -/

/-- C24 (as stated): outside of any `in` statement (no current bank), the `if`
statement whose condition reduces to the literal true emits nothing and
reports an error, although its then-body emits one IR node. -/
theorem emitIfStatementIr_without_bank_emits_nothing :
    (emitIfStatementIr labelEmittingEnvironment (fun expression => (some expression, [])) none
        ⟨.mk (.BooleanLiteral true) ⟨.CompileTime, .ResolvedIdentifier sampleBuiltins.bool, {}⟩,
          1, none, 0⟩ emptyEmitState).1.irNodes = [] ∧
      (emitIfStatementIr labelEmittingEnvironment (fun expression => (some expression, [])) none
        ⟨.mk (.BooleanLiteral true) ⟨.CompileTime, .ResolvedIdentifier sampleBuiltins.bool, {}⟩,
          1, none, 0⟩ emptyEmitState).2 =
        ["`if` statement must be inside an `in` statement"] ∧
      (labelEmittingEnvironment.emitStatementIr 1 emptyEmitState).2.irNodes =
        [.Label (.Func 1 "body" false none)] :=
  ⟨rfl, rfl, rfl⟩

/-- C24 (amended): for an `if` statement inside an `in` statement (the current
bank is set) whose condition reduces to a boolean literal, `emitStatementIr`
leaves exactly the state that emitting the then-body leaves when the literal
is true, and exactly the state that emitting the else-body leaves (the state
unchanged when there is no else) when it is false: no branch instruction and
no `$else` / `$endif` label is added, and the case reports nothing of its
own. Outside of an `in` statement (no current bank) the case leaves the state
as it is, whatever the condition and the bodies are, and reports one error. -/
theorem emitIfStatementIr_boolean_literal (env : BranchEnvironment EmitState)
    (reduceExpression : Expression → Reduced) (ifStatement : IfStatement) (st : EmitState) :
    (∀ (bank : Nat) (value : Bool) (info : ExpressionInfo),
      (reduceExpression ifStatement.condition).1 = some (.mk (.BooleanLiteral value) info) →
      emitIfStatementIr env reduceExpression (some bank) ifStatement st =
        (if value then (env.emitStatementIr ifStatement.body st).2
          else
            match ifStatement.alternative with
            | some alternative => (env.emitStatementIr alternative st).2
            | none => st,
          (reduceExpression ifStatement.condition).2)) ∧
    emitIfStatementIr env reduceExpression none ifStatement st =
      (st, ["`if` statement must be inside an `in` statement"]) := by
  refine ⟨?_, rfl⟩
  intro bank value info hcondition
  simp only [emitIfStatementIr, hcondition, Expression.variant]
  cases value
  · cases ifStatement.alternative <;> simp
  · simp

theorem emitIfStatementIr_boolean_literal_witness :
    ((fun expression : Expression => ((some expression, []) : Reduced))
        (IfStatement.mk
          (.mk (.BooleanLiteral true) ⟨.CompileTime, .ResolvedIdentifier sampleBuiltins.bool, {}⟩)
          1 (some 2) 0).condition).1 =
        some (.mk (.BooleanLiteral true) ⟨.CompileTime, .ResolvedIdentifier sampleBuiltins.bool, {}⟩) ∧
      (emitIfStatementIr labelEmittingEnvironment (fun expression => (some expression, [])) (some 0)
        ⟨.mk (.BooleanLiteral true) ⟨.CompileTime, .ResolvedIdentifier sampleBuiltins.bool, {}⟩,
          1, some 2, 0⟩ emptyEmitState).1.irNodes = [.Label (.Func 1 "body" false none)] :=
  ⟨rfl,
    (congrArg (fun result : EmitState × List String => result.1.irNodes)
      ((emitIfStatementIr_boolean_literal labelEmittingEnvironment
        (fun expression => (some expression, []))
        ⟨.mk (.BooleanLiteral true) ⟨.CompileTime, .ResolvedIdentifier sampleBuiltins.bool, {}⟩,
          1, some 2, 0⟩ emptyEmitState).1 0 true
        ⟨.CompileTime, .ResolvedIdentifier sampleBuiltins.bool, {}⟩ rfl)).trans rfl⟩

/-! ### C30: redundant jumps in the first pass of `generateCode` -/

@[simp] theorem GenerateState.setBank_irNodeIndexesToRemove (state : GenerateState) (index : Nat)
    (bank : Bank) : (state.setBank index bank).irNodeIndexesToRemove = state.irNodeIndexesToRemove := rfl

@[simp] theorem GenerateState.report_irNodeIndexesToRemove (state : GenerateState) (message : String) :
    (state.report message).irNodeIndexesToRemove = state.irNodeIndexesToRemove := rfl

@[simp] theorem GenerateState.report_banks (state : GenerateState) (message : String) :
    (state.report message).banks = state.banks := rfl

@[simp] theorem GenerateState.report_currentBank (state : GenerateState) (message : String) :
    (state.report message).currentBank = state.currentBank := rfl

@[simp] theorem GenerateState.report_bankStack (state : GenerateState) (message : String) :
    (state.report message).bankStack = state.bankStack := rfl

@[simp] theorem GenerateState.setBank_labelAddresses (state : GenerateState) (index : Nat)
    (bank : Bank) : (state.setBank index bank).labelAddresses = state.labelAddresses := rfl

@[simp] theorem GenerateState.report_labelAddresses (state : GenerateState) (message : String) :
    (state.report message).labelAddresses = state.labelAddresses := rfl

@[simp] theorem GenerateState.setBank_varAddresses (state : GenerateState) (index : Nat)
    (bank : Bank) : (state.setBank index bank).varAddresses = state.varAddresses := rfl

@[simp] theorem GenerateState.report_varAddresses (state : GenerateState) (message : String) :
    (state.report message).varAddresses = state.varAddresses := rfl

theorem generatePushRelocation_irNodeIndexesToRemove {bankIndex : Nat} {address : Option Nat}
    {state next : GenerateState} (h : generatePushRelocation bankIndex address state = some next) :
    next.irNodeIndexesToRemove = state.irNodeIndexesToRemove := by
  unfold generatePushRelocation at h
  split at h
  · exact absurd h (by simp)
  · split at h
    · simp only [Option.some.injEq] at h
      subst h
      split <;> rfl
    · simp only [Option.some.injEq] at h
      subst h
      rfl

theorem generatePopRelocation_irNodeIndexesToRemove {state next : GenerateState}
    (h : generatePopRelocation state = some next) :
    next.irNodeIndexesToRemove = state.irNodeIndexesToRemove := by
  unfold generatePopRelocation at h
  split at h
  · simp only [Option.some.injEq] at h
    subst h
    rfl
  · exact absurd h (by simp)

theorem reserveVarStorage_irNodeIndexesToRemove {id storageSize : Nat} {oldPosition : Option Nat}
    {state next : GenerateState} (h : reserveVarStorage id storageSize oldPosition state = some next) :
    next.irNodeIndexesToRemove = state.irNodeIndexesToRemove := by
  unfold reserveVarStorage at h
  split at h
  · simp only at h
    split at h
    · simp only [Option.some.injEq] at h
      subst h
      rfl
    · split at h <;>
      · simp only [Option.some.injEq] at h
        subst h
        rfl
  · exact absurd h (by simp)

/-- One round of the first pass appends the index of the node to the recorded
indexes exactly when the node is removed. -/
theorem generateFirstPassNode_irNodeIndexesToRemove (platform : Platform)
    (collaborators : GenerateCollaborators) (index : Nat) (node : IrNode) (following : List IrNode)
    (state next : GenerateState)
    (h : generateFirstPassNode platform collaborators index node following state = some next) :
    next.irNodeIndexesToRemove
      = state.irNodeIndexesToRemove
        ++ (if isNodeRemoved collaborators node following then [index] else []) := by
  cases node with
  | PushRelocation bankIndex address =>
    simp only [generateFirstPassNode] at h
    simp [isNodeRemoved, generatePushRelocation_irNodeIndexesToRemove h]
  | PopRelocation =>
    simp only [generateFirstPassNode] at h
    simp [isNodeRemoved, generatePopRelocation_irNodeIndexesToRemove h]
  | Label definition =>
    simp only [generateFirstPassNode] at h
    split at h
    · simp only [Option.some.injEq] at h
      subst h
      simp [isNodeRemoved]
    · exact absurd h (by simp)
  | Code instruction operandRoots =>
    simp only [generateFirstPassNode] at h
    by_cases hextract : collaborators.extract instruction operandRoots = true
    · rw [if_pos hextract] at h
      split at h
      · exact absurd h (by simp)
      · next hredundant =>
        simp only [Option.some.injEq] at h
        subst h
        simp [isNodeRemoved, hextract, hredundant]
      · next hredundant =>
        split at h
        · simp only [Option.some.injEq] at h
          subst h
          simp only [isNodeRemoved, hextract, hredundant]
          split <;> simp
        · exact absurd h (by simp)
    · rw [if_neg hextract] at h
      simp only [Option.some.injEq] at h
      subst h
      simp [isNodeRemoved, hextract]
  | Var definition =>
    simp only [generateFirstPassNode] at h
    split at h
    · split at h
      · split at h
        · split at h
          · have := reserveVarStorage_irNodeIndexesToRemove h
            rw [this]
            split <;> simp [isNodeRemoved]
          · exact absurd h (by simp)
        · simp only [Option.some.injEq] at h
          subst h
          simp [isNodeRemoved]
      · simp [isNodeRemoved, reserveVarStorage_irNodeIndexesToRemove h]
    · exact absurd h (by simp)

/-- The first pass records exactly the indexes of the removed nodes, in
increasing order. -/
theorem generateFirstPass_irNodeIndexesToRemove (platform : Platform)
    (collaborators : GenerateCollaborators) (irNodes : List IrNode) (index : Nat)
    (state sized : GenerateState)
    (h : generateFirstPass platform collaborators irNodes index state = some sized) :
    sized.irNodeIndexesToRemove
      = state.irNodeIndexesToRemove ++ removedIndexes collaborators irNodes index := by
  induction irNodes generalizing index state with
  | nil =>
    simp only [generateFirstPass, Option.some.injEq] at h
    subst h
    simp [removedIndexes]
  | cons node following ih =>
    simp only [generateFirstPass] at h
    split at h
    · next next hnode =>
      rw [ih _ _ h, generateFirstPassNode_irNodeIndexesToRemove _ _ _ _ _ _ _ hnode,
        removedIndexes, List.append_assoc]
    · exact absurd h (by simp)

theorem removeIrNodes_append (first second : List Nat) (irNodes : List IrNode) :
    removeIrNodes (first ++ second) irNodes = removeIrNodes first (removeIrNodes second irNodes) := by
  simp [removeIrNodes, List.foldl_append]

/-- Erasing the recorded indexes of a suffix, from the largest to the smallest,
leaves the nodes before it and the kept nodes of the suffix. -/
theorem removeIrNodes_removedIndexes (collaborators : GenerateCollaborators)
    (before irNodes : List IrNode) :
    removeIrNodes (removedIndexes collaborators irNodes before.length) (before ++ irNodes)
      = before ++ keptIrNodes collaborators irNodes := by
  induction irNodes generalizing before with
  | nil => simp [removeIrNodes, removedIndexes, keptIrNodes]
  | cons node following ih =>
    have hrest := ih (before ++ [node])
    simp only [List.length_append, List.length_singleton, List.append_assoc,
      List.singleton_append] at hrest
    rw [removedIndexes, removeIrNodes_append, hrest, keptIrNodes]
    by_cases hremoved : isNodeRemoved collaborators node following = true
    · simp only [hremoved, if_true]
      simp [removeIrNodes, List.eraseIdx_append_of_length_le]
    · simp only [hremoved]
      simp [removeIrNodes]

/-- The loop over the following nodes succeeds exactly when they start with
labels of other definitions followed by a label of the destination. -/
theorem followedByLabel_iff (definition : Definition) (following : List IrNode) :
    followedByLabel definition following = true
      ↔ ∃ (labels : List Definition) (label : Definition) (after : List IrNode),
          following = labels.map IrNode.Label ++ IrNode.Label label :: after
            ∧ definition.ptrEq label = true ∧ ∀ other ∈ labels, definition.ptrEq other = false := by
  induction following with
  | nil =>
    simp only [followedByLabel, Bool.false_eq_true, false_iff]
    rintro ⟨labels, label, after, h, -⟩
    cases labels <;> simp at h
  | cons node rest ih =>
    cases node with
    | Label nextDefinition =>
      simp only [followedByLabel]
      by_cases hsame : definition.ptrEq nextDefinition = true
      · simp only [hsame, if_true, true_iff]
        exact ⟨[], nextDefinition, rest, rfl, hsame, by simp⟩
      · simp only [hsame, if_false, Bool.false_eq_true]
        rw [ih]
        constructor
        · rintro ⟨labels, label, after, h, hlabel, hothers⟩
          refine ⟨nextDefinition :: labels, label, after, by simp [h], hlabel, ?_⟩
          intro other hother
          rcases List.mem_cons.mp hother with h1 | h1
          · subst h1
            simpa using hsame
          · exact hothers other h1
        · rintro ⟨labels, label, after, h, hlabel, hothers⟩
          cases labels with
          | nil =>
            simp only [List.map_nil, List.nil_append, List.cons.injEq, IrNode.Label.injEq] at h
            rw [h.1] at hsame
            exact absurd hlabel hsame
          | cons first others =>
            simp only [List.map_cons, List.cons_append, List.cons.injEq] at h
            exact ⟨others, label, after, h.2, hlabel,
              fun other hother => hothers other (List.mem_cons_of_mem _ hother)⟩
    | PushRelocation bank address =>
      simp only [followedByLabel, Bool.false_eq_true, false_iff]
      rintro ⟨labels, label, after, h, -⟩
      cases labels <;> simp at h
    | PopRelocation =>
      simp only [followedByLabel, Bool.false_eq_true, false_iff]
      rintro ⟨labels, label, after, h, -⟩
      cases labels <;> simp at h
    | Code instruction operandRoots =>
      simp only [followedByLabel, Bool.false_eq_true, false_iff]
      rintro ⟨labels, label, after, h, -⟩
      cases labels <;> simp at h
    | Var definition =>
      simp only [followedByLabel, Bool.false_eq_true, false_iff]
      rintro ⟨labels, label, after, h, -⟩
      cases labels <;> simp at h

theorem removedIndexes_ge (collaborators : GenerateCollaborators) (irNodes : List IrNode)
    (index recorded : Nat) (h : recorded ∈ removedIndexes collaborators irNodes index) :
    index ≤ recorded := by
  induction irNodes generalizing index with
  | nil => simp [removedIndexes] at h
  | cons node following ih =>
    rw [removedIndexes, List.mem_append] at h
    rcases h with h | h
    · split at h
      · simp only [List.mem_singleton] at h
        omega
      · simp at h
    · have := ih _ h
      omega

/-- The index of a node is recorded exactly when the node is removed. -/
theorem mem_removedIndexes (collaborators : GenerateCollaborators) (before : List IrNode)
    (node : IrNode) (following : List IrNode) (index : Nat) :
    index + before.length ∈ removedIndexes collaborators (before ++ node :: following) index
      ↔ isNodeRemoved collaborators node following = true := by
  induction before generalizing index with
  | nil =>
    simp only [List.length_nil, Nat.add_zero, List.nil_append, removedIndexes, List.mem_append]
    constructor
    · rintro (h | h)
      · by_contra hremoved
        simp [hremoved] at h
      · have := removedIndexes_ge _ _ _ _ h
        omega
    · intro h
      left
      simp [h]
  | cons first others ih =>
    simp only [List.cons_append, removedIndexes, List.mem_append, List.length_cons]
    rw [← ih (index + 1)]
    have e : index + 1 + others.length = index + (others.length + 1) := by omega
    rw [e]
    constructor
    · rintro (h | h)
      · split at h
        · simp only [List.mem_singleton] at h
          omega
        · simp at h
      · exact h
    · intro h
      exact Or.inr h

/-- The kept nodes are the nodes whose index is not recorded, in their order. -/
theorem keptIrNodes_eq_filter (collaborators : GenerateCollaborators) (irNodes : List IrNode)
    (index : Nat) :
    keptIrNodes collaborators irNodes
      = ((irNodes.enumFrom index).filter
          (fun entry => decide (entry.1 ∉ removedIndexes collaborators irNodes index))).map Prod.snd := by
  induction irNodes generalizing index with
  | nil => simp [keptIrNodes]
  | cons node following ih =>
    have htail : (following.enumFrom (index + 1)).filter
          (fun entry => decide (entry.1 ∉ removedIndexes collaborators (node :: following) index))
        = (following.enumFrom (index + 1)).filter
          (fun entry => decide (entry.1 ∉ removedIndexes collaborators following (index + 1))) := by
      apply List.filter_congr
      intro entry hentry
      have hle := List.le_fst_of_mem_enumFrom hentry
      simp only [removedIndexes, List.mem_append, decide_eq_decide]
      constructor
      · intro h1 h2
        exact h1 (Or.inr h2)
      · rintro h1 (h2 | h2)
        · split at h2
          · simp only [List.mem_singleton] at h2
            omega
          · simp at h2
        · exact h1 h2
    have hhead : index ∈ removedIndexes collaborators (node :: following) index
        ↔ isNodeRemoved collaborators node following = true := by
      simpa using mem_removedIndexes collaborators [] node following index
    rw [List.enumFrom_cons, List.filter_cons, keptIrNodes]
    by_cases hremoved : isNodeRemoved collaborators node following = true
    · have : index ∈ removedIndexes collaborators (node :: following) index := hhead.mpr hremoved
      simp only [hremoved, if_true, this, not_true_eq_false, decide_False, Bool.false_eq_true,
        if_false]
      rw [htail, ← ih]
    · have : index ∉ removedIndexes collaborators (node :: following) index :=
        fun h => hremoved (hhead.mp h)
      simp only [hremoved, if_false, this, not_false_eq_true, decide_True, if_true, List.map_cons]
      rw [htail, ← ih]
      simp

/-- C30: in the first pass of `generateCode`, a `goto` node whose capture list
is extracted, whose second operand pattern is an integer range and whose
second operand root refers directly to the label `destination` is recorded
for removal exactly when the nodes after it are labels up to and including a
label of `destination`; the round of a recorded node only records its index
(the banks are left as they are, nothing is reserved); and the nodes left
after the removals are the nodes whose index was not recorded, in their
original order. -/
theorem generateFirstPass_redundant_jump_removed (platform : Platform)
    (collaborators : GenerateCollaborators) (instruction : Instruction)
    (operandRoots : List InstructionOperandRoot) (destination : Definition) (pieces : List String)
    (info : ExpressionInfo) (operand : Option InstructionOperand) (before following : List IrNode)
    (state sized : GenerateState)
    (hgoto : instruction.type = .Branch .Goto)
    (hcount : collaborators.operandPatternCount instruction ≥ 2)
    (hrange : collaborators.operandPatternIsIntegerRange instruction 1 = true)
    (hroot : operandRoots[1]?
      = some ⟨some (.mk (.ResolvedIdentifier destination pieces) info), operand⟩)
    (hextract : collaborators.extract instruction operandRoots = true)
    (hempty : state.irNodeIndexesToRemove = [])
    (hfirst : generateFirstPass platform collaborators
      (before ++ IrNode.Code instruction operandRoots :: following) 0 state = some sized) :
    (before.length ∈ sized.irNodeIndexesToRemove
      ↔ ∃ (labels : List Definition) (label : Definition) (after : List IrNode),
          following = labels.map IrNode.Label ++ IrNode.Label label :: after
            ∧ destination.ptrEq label = true ∧ ∀ other ∈ labels, destination.ptrEq other = false)
    ∧ (before.length ∈ sized.irNodeIndexesToRemove →
        ∀ (index : Nat) (current : GenerateState),
          generateFirstPassNode platform collaborators index (IrNode.Code instruction operandRoots)
              following current
            = some { current with
                irNodeIndexesToRemove := current.irNodeIndexesToRemove ++ [index] })
    ∧ removeIrNodes sized.irNodeIndexesToRemove
          (before ++ IrNode.Code instruction operandRoots :: following)
        = (((before ++ IrNode.Code instruction operandRoots :: following).enumFrom 0).filter
            (fun entry => decide (entry.1 ∉ sized.irNodeIndexesToRemove))).map Prod.snd := by
  have hrecorded := generateFirstPass_irNodeIndexesToRemove _ _ _ _ _ _ hfirst
  rw [hempty, List.nil_append] at hrecorded
  have hmem := mem_removedIndexes collaborators before (IrNode.Code instruction operandRoots)
    following 0
  rw [Nat.zero_add] at hmem
  have hjump : isRedundantJump collaborators instruction operandRoots following
      = some (followedByLabel destination following) := by
    simp only [isRedundantJump, hgoto, hroot]
    rw [if_pos ⟨hcount, hrange⟩]
  have hremoved : isNodeRemoved collaborators (IrNode.Code instruction operandRoots) following
      = followedByLabel destination following := by
    simp [isNodeRemoved, hextract, hjump]
  refine ⟨?_, ?_, ?_⟩
  · rw [hrecorded, hmem, hremoved, followedByLabel_iff]
  · intro h index current
    rw [hrecorded, hmem, hremoved] at h
    simp only [generateFirstPassNode, hextract, if_true, hjump, h]
  · rw [hrecorded, ← keptIrNodes_eq_filter]
    simpa using removeIrNodes_removedIndexes collaborators []
      (before ++ IrNode.Code instruction operandRoots :: following)

/-- Witness of C30 on the nodes `goto b; a: b: goto a`: the first `goto` is
removed, the second is kept. -/
theorem generateFirstPass_redundant_jump_removed_witness :
    ∃ sized : GenerateState,
      generateFirstPass ⟨2, 3⟩ (sampleGenerateCollaborators (fun _ => none)) sampleJumpNodes 0
          sampleGenerateState = some sized
      ∧ sized.irNodeIndexesToRemove = [1]
      ∧ removeIrNodes sized.irNodeIndexesToRemove sampleJumpNodes
        = ((sampleJumpNodes.enumFrom 0).filter
            (fun entry => decide (entry.1 ∉ sized.irNodeIndexesToRemove))).map Prod.snd :=
  ⟨_, rfl, rfl,
    (generateFirstPass_redundant_jump_removed ⟨2, 3⟩ (sampleGenerateCollaborators (fun _ => none))
      sampleGoto [⟨none, some (.Integer 0)⟩, sampleReferenceRoot (.Func 2 "b" false none)]
      (.Func 2 "b" false none) [] ⟨.LinkTime, .TypeOf, {}⟩ (some (.Integer 0))
      [.PushRelocation 0 none]
      [.Label (.Func 1 "a" false none), .Label (.Func 2 "b" false none),
        .Code sampleGoto [⟨none, some (.Integer 0)⟩, sampleReferenceRoot (.Func 1 "a" false none)],
        .PopRelocation]
      sampleGenerateState _ rfl (by decide) rfl rfl rfl rfl rfl).2.2⟩

/-! ### C23: label addresses in the two passes of `generateCode` -/

@[simp] theorem GenerateState.ite_report_labelAddresses (c : Bool) (state : GenerateState)
    (message : String) :
    (if c = true then state else state.report message).labelAddresses = state.labelAddresses := by
  split <;> rfl

@[simp] theorem GenerateState.ite_report_varAddresses (c : Bool) (state : GenerateState)
    (message : String) :
    (if c = true then state else state.report message).varAddresses = state.varAddresses := by
  split <;> rfl

theorem allSome_isSome {α β : Type} (f : α → Option β) (items : List α)
    (h : ∀ item ∈ items, (f item).isSome = true) : (allSome (items.map f)).isSome = true := by
  induction items with
  | nil => rfl
  | cons item rest ih =>
    have hitem := h item (List.mem_cons_self _ _)
    have hrest := ih (fun other hother => h other (List.mem_cons_of_mem _ hother))
    obtain ⟨value, hvalue⟩ := Option.isSome_iff_exists.mp hitem
    obtain ⟨values, hvalues⟩ := Option.isSome_iff_exists.mp hrest
    simp [allSome, hvalue, hvalues]

/-- Whenever the blocks of `canNarrowExpression` after the array and designated
storage tests accept, the types are equivalent or the corresponding blocks of
`createConvertedExpression` return an expression. -/
theorem createConvertedExpressionTail_of_canNarrow (platform : Platform) (sourceExpression : Expression)
    (destinationType : TypeExpression)
    (h : canNarrowExpressionTail platform sourceExpression destinationType = true) :
    isTypeEquivalent platform sourceExpression.info.type destinationType = true
      ∨ (createConvertedExpressionTail platform sourceExpression destinationType).isSome = true := by
  unfold canNarrowExpressionTail at h
  unfold createConvertedExpressionTail
  simp only at h ⊢
  split at h
  · next hpointer =>
    right
    rw [if_pos hpointer]
    rfl
  · next hpointer =>
    rw [if_neg hpointer]
    split at h
    · next result hresult =>
      split at hresult
      · next destinationTypeDefinition sourceExpressionTypeDefinition hdestination hsource =>
        right
        split at hresult
        · next hsame =>
          rw [if_pos hsame]
          rfl
        · next hsame =>
          rw [if_neg hsame]
          split at hresult
          · next hinteger =>
            rw [if_pos hinteger]
            split at hresult
            · next id =>
              simp only [Option.some.injEq] at hresult
              subst hresult
              unfold canNarrowIntegerExpression at h
              split at h
              · next value typeId size min max hvariant =>
                simp only [Bool.and_eq_true, decide_eq_true_eq] at h
                rw [hvariant]
                simp only [ge_iff_le, h.1, h.2, and_self, if_true]
                rfl
              · exact absurd h (by simp)
            · exact absurd hresult (by simp)
          · exact absurd hresult (by simp)
      · exact absurd hresult (by simp)
    · left
      exact h

/-- Whenever `canNarrowExpression` accepts, `createConvertedExpression` returns
an expression. -/
theorem createConvertedExpression_isSome (platform : Platform) :
    ∀ (destinationType : TypeExpression) (sourceExpression : Expression),
      canNarrowExpression platform sourceExpression destinationType = true →
      (createConvertedExpression platform sourceExpression destinationType).isSome = true
  | .Array destinationElementType destinationSize, sourceExpression, h => by
    have htail : canNarrowExpressionTail platform sourceExpression
          (.Array destinationElementType destinationSize) = true →
        (if isTypeEquivalent platform sourceExpression.info.type
              (.Array destinationElementType destinationSize) then some sourceExpression
          else createConvertedExpressionTail platform sourceExpression
              (.Array destinationElementType destinationSize)).isSome = true := by
      intro hnarrow
      rcases createConvertedExpressionTail_of_canNarrow platform sourceExpression _ hnarrow with
        hequivalent | hconverted
      · rw [if_pos hequivalent]
        rfl
      · split
        · rfl
        · exact hconverted
    rw [canNarrowExpression] at h
    rw [createConvertedExpression]
    cases htype : sourceExpression.info.type with
    | Array sourceElementType sourceSize =>
      rw [htype] at h
      simp only at h ⊢
      split at h
      · exact absurd h (by simp)
      · split at h
        · next hequivalent =>
          rw [if_pos hequivalent]
          rfl
        · next hequivalent =>
          rw [if_neg hequivalent]
          cases hvariant : sourceExpression.variant with
          | ArrayLiteral items =>
            rw [hvariant] at h
            simp only at h ⊢
            have hitems := allSome_isSome
              (fun item => createConvertedExpression platform item destinationElementType) items
              (fun item hitem =>
                createConvertedExpression_isSome platform destinationElementType item
                  (List.all_eq_true.mp h item hitem))
            obtain ⟨convertedItems, hconverted⟩ := Option.isSome_iff_exists.mp hitems
            rw [hconverted]
            rfl
          | _ =>
            rw [hvariant] at h
            simp only at h ⊢
            have hrest := htail h
            rw [htype] at hrest
            exact hrest
    | _ =>
      rw [htype] at h
      simp only at h ⊢
      have hrest := htail h
      rw [htype] at hrest
      exact hrest
  | .DesignatedStorage destinationElementType, sourceExpression, h => by
    rw [canNarrowExpression] at h
    rw [createConvertedExpression]
    split
    · rfl
    · exact createConvertedExpression_isSome platform destinationElementType sourceExpression h
  | .Function far parameterTypes returnType, sourceExpression, h => by
    simp only [canNarrowExpression] at h
    simp only [createConvertedExpression]
    rcases createConvertedExpressionTail_of_canNarrow platform sourceExpression _ h with h1 | h1
    · rw [if_pos h1]; rfl
    · split
      · rfl
      · exact h1
  | .Identifier pieces, sourceExpression, h => by
    simp only [canNarrowExpression] at h
    simp only [createConvertedExpression]
    rcases createConvertedExpressionTail_of_canNarrow platform sourceExpression _ h with h1 | h1
    · rw [if_pos h1]; rfl
    · split
      · rfl
      · exact h1
  | .Pointer elementType qualifiers, sourceExpression, h => by
    simp only [canNarrowExpression] at h
    simp only [createConvertedExpression]
    rcases createConvertedExpressionTail_of_canNarrow platform sourceExpression _ h with h1 | h1
    · rw [if_pos h1]; rfl
    · split
      · rfl
      · exact h1
  | .ResolvedIdentifier definition, sourceExpression, h => by
    simp only [canNarrowExpression] at h
    simp only [createConvertedExpression]
    rcases createConvertedExpressionTail_of_canNarrow platform sourceExpression _ h with h1 | h1
    · rw [if_pos h1]; rfl
    · split
      · rfl
      · exact h1
  | .Tuple elementTypes, sourceExpression, h => by
    simp only [canNarrowExpression] at h
    simp only [createConvertedExpression]
    rcases createConvertedExpressionTail_of_canNarrow platform sourceExpression _ h with h1 | h1
    · rw [if_pos h1]; rfl
    · split
      · rfl
      · exact h1
  | .TypeOf, sourceExpression, h => by
    simp only [canNarrowExpression] at h
    simp only [createConvertedExpression]
    rcases createConvertedExpressionTail_of_canNarrow platform sourceExpression _ h with h1 | h1
    · rw [if_pos h1]; rfl
    · split
      · rfl
      · exact h1

theorem sameKnownSize_comm (a b : Option Nat) : sameKnownSize a b = sameKnownSize b a := by
  cases a <;> cases b <;> simp [sameKnownSize, eq_comm]

theorem bne_comm_of_lawful {α : Type} [BEq α] [LawfulBEq α] (a b : α) : (a != b) = (b != a) := by
  simp only [bne, Bool.beq_comm]

theorem arraySizesDiffer_comm (a b : Option Int128) : arraySizesDiffer a b = arraySizesDiffer b a := by
  cases a <;> cases b <;> simp only [arraySizesDiffer]
  exact bne_comm_of_lawful _ _

theorem Definition.ptrEq_comm (a b : Definition) : a.ptrEq b = b.ptrEq a := by
  simp only [Definition.ptrEq]
  rw [Bool.beq_comm, Bool.beq_comm (a := a.id)]

mutual
/-- The value of `isTypeEquivalent` does not depend on the order of its
arguments. -/
theorem isTypeEquivalent_comm (platform : Platform) :
    ∀ left right : TypeExpression,
      isTypeEquivalent platform left right = isTypeEquivalent platform right left
  | .Array leftElementType leftSize, right => by
    cases right with
    | Array rightElementType rightSize =>
      simp only [isTypeEquivalent]
      rw [arraySizesDiffer_comm, isTypeEquivalent_comm platform leftElementType rightElementType]
    | DesignatedStorage rightElementType =>
      simp only [isTypeEquivalent]
      rw [sameKnownSize_comm]
    | _ => simp only [isTypeEquivalent]
  | .DesignatedStorage leftElementType, right => by
    cases right with
    | DesignatedStorage rightElementType =>
      simp [isTypeEquivalent, calculateStorageSize, sameKnownSize]
    | _ =>
      simp only [isTypeEquivalent]
      rw [sameKnownSize_comm]
  | .Function leftFar leftParameterTypes leftReturnType, right => by
    cases right with
    | Function rightFar rightParameterTypes rightReturnType =>
      simp only [isTypeEquivalent]
      rw [isTypeEquivalent_comm platform leftReturnType rightReturnType,
        isTypeEquivalentList_comm platform leftParameterTypes rightParameterTypes,
        bne_comm_of_lawful leftParameterTypes.length]
    | DesignatedStorage rightElementType =>
      simp only [isTypeEquivalent]
      rw [sameKnownSize_comm]
    | _ => simp only [isTypeEquivalent]
  | .Identifier pieces, right => by
    cases right with
    | DesignatedStorage rightElementType =>
      simp [isTypeEquivalent, calculateStorageSize, sameKnownSize]
    | _ => simp only [isTypeEquivalent]
  | .Pointer leftElementType leftQualifiers, right => by
    cases right with
    | Pointer rightElementType rightQualifiers =>
      simp only [isTypeEquivalent]
      rw [isTypeEquivalent_comm platform leftElementType rightElementType,
        Bool.beq_comm (a := leftQualifiers)]
    | DesignatedStorage rightElementType =>
      simp only [isTypeEquivalent]
      rw [sameKnownSize_comm]
    | _ => simp only [isTypeEquivalent]
  | .ResolvedIdentifier leftDefinition, right => by
    cases right with
    | ResolvedIdentifier rightDefinition =>
      simp only [isTypeEquivalent]
      rw [Definition.ptrEq_comm]
    | DesignatedStorage rightElementType =>
      simp only [isTypeEquivalent]
      rw [sameKnownSize_comm]
    | _ => simp only [isTypeEquivalent]
  | .Tuple leftElementTypes, right => by
    cases right with
    | Tuple rightElementTypes =>
      simp only [isTypeEquivalent]
      rw [isTypeEquivalentList_comm platform leftElementTypes rightElementTypes,
        bne_comm_of_lawful leftElementTypes.length]
    | DesignatedStorage rightElementType =>
      simp only [isTypeEquivalent]
      rw [sameKnownSize_comm]
    | _ => simp only [isTypeEquivalent]
  | .TypeOf, right => by
    cases right with
    | DesignatedStorage rightElementType =>
      simp [isTypeEquivalent, calculateStorageSize, sameKnownSize]
    | _ => simp only [isTypeEquivalent]
/-- The index loop of `isTypeEquivalent` likewise. -/
theorem isTypeEquivalentList_comm (platform : Platform) :
    ∀ left right : List TypeExpression,
      isTypeEquivalentList platform left right = isTypeEquivalentList platform right left
  | [], right => by
    cases right <;> simp only [isTypeEquivalentList]
  | leftType :: leftRest, right => by
    cases right with
    | nil => simp only [isTypeEquivalentList]
    | cons rightType rightRest =>
      simp only [isTypeEquivalentList]
      rw [isTypeEquivalent_comm platform leftType rightType,
        isTypeEquivalentList_comm platform leftRest rightRest]
end

/-- C33: for every reduced expression `e` and reduced destination type `T`, if
`canNarrowExpression(e, T)` holds then `createConvertedExpression(e, T)`
returns an expression (not null), by recursion over the element types of
array literals and designated storage types; hence whenever
`findCompatibleAssignmentType(e, D)` returns a type, the conversion of `e` to
that type returns an expression. -/
theorem createConvertedExpression_of_canNarrowExpression (platform : Platform)
    (sourceExpression : Expression) (destinationType : TypeExpression)
    (h : canNarrowExpression platform sourceExpression destinationType = true) :
    (∃ converted,
        createConvertedExpression platform sourceExpression destinationType = some converted)
      ∧ ∀ resultType,
        findCompatibleAssignmentType platform sourceExpression destinationType = some resultType →
        ∃ converted,
          createConvertedExpression platform sourceExpression resultType = some converted := by
  have hconverted := Option.isSome_iff_exists.mp
    (createConvertedExpression_isSome platform destinationType sourceExpression h)
  refine ⟨hconverted, ?_⟩
  intro resultType hresult
  have hsame : resultType = destinationType := by
    unfold findCompatibleAssignmentType at hresult
    rw [if_pos h] at hresult
    split at hresult
    · split at hresult
      · exact absurd hresult (by simp)
      · exact (Option.some.inj hresult).symm
    · exact (Option.some.inj hresult).symm
  rw [hsame]
  exact hconverted

/-- Witness of C33: the array literal `[1, 300]` of `iexpr` items narrows to
`[u16; 2]` and is converted. -/
theorem createConvertedExpression_of_canNarrowExpression_witness :
    canNarrowExpression ⟨2, 3⟩
        (.mk (.ArrayLiteral
          [.mk (.IntegerLiteral 1) ⟨.CompileTime, .ResolvedIdentifier (.BuiltinIntegerExpressionType 0), {}⟩,
            .mk (.IntegerLiteral 300)
              ⟨.CompileTime, .ResolvedIdentifier (.BuiltinIntegerExpressionType 0), {}⟩])
          ⟨.CompileTime, .Array (.ResolvedIdentifier (.BuiltinIntegerExpressionType 0)) (some 2), {}⟩)
        (.Array (.ResolvedIdentifier (.BuiltinIntegerType 3 2 0 65535)) (some 2)) = true
    ∧ ∃ converted,
      createConvertedExpression ⟨2, 3⟩
        (.mk (.ArrayLiteral
          [.mk (.IntegerLiteral 1) ⟨.CompileTime, .ResolvedIdentifier (.BuiltinIntegerExpressionType 0), {}⟩,
            .mk (.IntegerLiteral 300)
              ⟨.CompileTime, .ResolvedIdentifier (.BuiltinIntegerExpressionType 0), {}⟩])
          ⟨.CompileTime, .Array (.ResolvedIdentifier (.BuiltinIntegerExpressionType 0)) (some 2), {}⟩)
        (.Array (.ResolvedIdentifier (.BuiltinIntegerType 3 2 0 65535)) (some 2)) = some converted :=
  ⟨by decide,
    (createConvertedExpression_of_canNarrowExpression ⟨2, 3⟩ _ _ (by decide)).1⟩

/-- C34: `isTypeEquivalent` is symmetric: for all reduced type expressions `A`
and `B`, `isTypeEquivalent(A, B) = isTypeEquivalent(B, A)`. Where the source
aborts on an unresolved `Identifier` node as left argument the embedding
gives false, which is also its value in the other order, so the equation
holds without the restriction to types that hold no such node. -/
theorem isTypeEquivalent_symmetric (platform : Platform) (A B : TypeExpression) :
    isTypeEquivalent platform A B = isTypeEquivalent platform B A :=
  isTypeEquivalent_comm platform A B

/-- C35: `canNarrowExpression` never removes an access restriction from a
pointer: for a source expression of pointer type it rejects every destination
pointer type that lacks `const` when the source pointer type has `const`, and
every destination pointer type that lacks `writeonly` when the source pointer
type has `writeonly`. -/
theorem canNarrowExpression_keeps_access_restrictions (platform : Platform)
    (sourceExpression : Expression) (sourceElementType destinationElementType : TypeExpression)
    (sourceQualifiers destinationQualifiers : Qualifiers)
    (hsource : sourceExpression.info.type = .Pointer sourceElementType sourceQualifiers)
    (hremoved : (sourceQualifiers.isConst = true ∧ destinationQualifiers.isConst = false)
      ∨ (sourceQualifiers.writeOnly = true ∧ destinationQualifiers.writeOnly = false)) :
    canNarrowExpression platform sourceExpression
      (.Pointer destinationElementType destinationQualifiers) = false := by
  have hdiffer : (sourceQualifiers == destinationQualifiers) = false := by
    rw [beq_eq_false_iff_ne]
    intro hsame
    subst hsame
    rcases hremoved with ⟨h1, h2⟩ | ⟨h1, h2⟩
    · rw [h1] at h2
      exact absurd h2 (by simp)
    · rw [h1] at h2
      exact absurd h2 (by simp)
  have hblock : pointerQualifiersNarrow sourceQualifiers destinationQualifiers = false := by
    rcases hremoved with ⟨h1, h2⟩ | ⟨h1, h2⟩
    · cases hw : sourceQualifiers.writeOnly <;> simp [pointerQualifiersNarrow, h1, h2, hw]
    · cases hc : sourceQualifiers.isConst <;> simp [pointerQualifiersNarrow, h1, h2, hc]
  simp only [canNarrowExpression, canNarrowExpressionTail, hsource, hblock, Bool.and_false,
    Bool.false_eq_true, if_false, tryGetResolvedIdentifierTypeDefinition, isTypeEquivalent, hdiffer]

/-- Witness of C35: a source of type `*const u8` is rejected for the
destination `*u8`. -/
theorem canNarrowExpression_keeps_access_restrictions_witness :
    canNarrowExpression ⟨2, 3⟩
      (.mk (.IntegerLiteral 0)
        ⟨.RunTime, .Pointer (.ResolvedIdentifier (.BuiltinIntegerType 2 1 0 255)) { isConst := true },
          {}⟩)
      (.Pointer (.ResolvedIdentifier (.BuiltinIntegerType 2 1 0 255)) {}) = false :=
  canNarrowExpression_keeps_access_restrictions ⟨2, 3⟩ _
    (.ResolvedIdentifier (.BuiltinIntegerType 2 1 0 255))
    (.ResolvedIdentifier (.BuiltinIntegerType 2 1 0 255)) { isConst := true } {} rfl
    (Or.inl ⟨rfl, rfl⟩)

/-! ### C31, C32, C36, C37, C38, C39: failing inputs -/

/-- When the explicit address is resolved, the scope entered for it is left
again. -/
theorem exitScope_enterScope (nextScope : Option Nat) (scopes : ScopeState) :
    exitScope (enterScope nextScope scopes) = scopes := by
  simp [exitScope, enterScope]

/-- C31 (failing input): for the nodes of `in bank { var @ -1; }` the address
of the variable is not resolved in the first pass; `generateCode` reports the
error and returns false, and it returns with the parent scope of the variable
as `currentScope` and the scope of entry pushed on `scopeStack`: the
`enterScope` of line 6409 has no `exitScope`, because the `break` of line
6416 comes before the `exitScope` of line 6419. -/
theorem generateCode_scope_not_restored :
    (∃ written,
      generateCode ⟨2, 3⟩ (sampleGenerateCollaborators sampleFailingVarDefinition)
          [.PushRelocation 0 none, .Var (.Var 6 none)] sampleGenerateState
        = some (false, written, [.PushRelocation 0 none, .Var (.Var 6 none)])
      ∧ written.messages = ["address must be a non-negative integer"])
    ∧ generateCodeScopes ⟨2, 3⟩ (sampleGenerateCollaborators sampleFailingVarDefinition)
        (fun _ => some 9) [.PushRelocation 0 none, .Var (.Var 6 none)] ⟨[], some 1⟩
      = ⟨[some 1], some 9⟩ :=
  ⟨⟨_, rfl, rfl⟩, rfl⟩

/-- C36 (failing input): the array literal of the one run-time item `a` (a
register of type `u8`) is marked compile-time, and the array literal of a
link-time item and a run-time item is marked link-time: the loop of
`createArrayLiteralExpression` looks for link-time items only, where the
maximum of the contexts is run-time in both cases. -/
theorem createArrayLiteralExpression_ignores_run_time_items :
    (createArrayLiteralExpression
        [.mk (.ResolvedIdentifier (.BuiltinRegister 7 (.BuiltinIntegerType 2 1 0 255)) [])
          ⟨.RunTime, .ResolvedIdentifier (.BuiltinIntegerType 2 1 0 255), {}⟩]
        (.ResolvedIdentifier (.BuiltinIntegerType 2 1 0 255))).info.context = .CompileTime
    ∧ (createArrayLiteralExpression
        [.mk (.ResolvedIdentifier (.Func 8 "f" false none) [])
            ⟨.LinkTime, .ResolvedIdentifier (.BuiltinIntegerType 2 1 0 255), {}⟩,
          .mk (.ResolvedIdentifier (.BuiltinRegister 7 (.BuiltinIntegerType 2 1 0 255)) [])
            ⟨.RunTime, .ResolvedIdentifier (.BuiltinIntegerType 2 1 0 255), {}⟩]
        (.ResolvedIdentifier (.BuiltinIntegerType 2 1 0 255))).info.context = .LinkTime
    ∧ EvaluationContext.max .CompileTime .RunTime = .RunTime
    ∧ EvaluationContext.max .LinkTime .RunTime = .RunTime := by
  decide

/-- The loop does not end once the operand of the outer cast is a simple cast:
every round assigns that operand again. -/
theorem stripSimpleCasts_operand (platform : Platform) (outer operand : Expression)
    (type : TypeExpression) (houter : outer.variant = .Cast operand type)
    (hoperand : isSimpleCast platform operand = true) (fuel : Nat) :
    stripSimpleCasts platform outer fuel operand = none := by
  induction fuel with
  | zero => rfl
  | succ fuel ih => simp only [stripSimpleCasts, hoperand, if_true, houter, ih]

/-- C37 (failing input): for `left = ((x as u8) as i8) as u8` with `x` a
register of type `i8`, a simple cast whose operand is a simple cast, the
first loop of `getTestAndBranch` has not ended after any number of rounds,
whatever the right operand: its body assigns the operand of `left`, not of
`innerLeft`. For the simple cast `x as u8` the loop ends at its second
test. -/
theorem getTestAndBranch_nested_simple_cast_loops :
    (∀ (fuel : Nat) (right : Expression),
      getTestAndBranchOperands ⟨2, 3⟩ fuel
        (sampleCast
          (sampleCast
            (sampleCast sampleSignedRegister (.ResolvedIdentifier (.BuiltinIntegerType 2 1 0 255)))
            (.ResolvedIdentifier (.BuiltinIntegerType 6 1 (-128) 127)))
          (.ResolvedIdentifier (.BuiltinIntegerType 2 1 0 255)))
        right = none)
    ∧ stripSimpleCasts ⟨2, 3⟩
        (sampleCast sampleSignedRegister (.ResolvedIdentifier (.BuiltinIntegerType 2 1 0 255))) 2
        (sampleCast sampleSignedRegister (.ResolvedIdentifier (.BuiltinIntegerType 2 1 0 255)))
      = some sampleSignedRegister := by
  refine ⟨?_, rfl⟩
  intro fuel right
  cases fuel with
  | zero => rfl
  | succ fuel =>
    have hloop := stripSimpleCasts_operand ⟨2, 3⟩
      (sampleCast
        (sampleCast
          (sampleCast sampleSignedRegister (.ResolvedIdentifier (.BuiltinIntegerType 2 1 0 255)))
          (.ResolvedIdentifier (.BuiltinIntegerType 6 1 (-128) 127)))
        (.ResolvedIdentifier (.BuiltinIntegerType 2 1 0 255)))
      (sampleCast
        (sampleCast sampleSignedRegister (.ResolvedIdentifier (.BuiltinIntegerType 2 1 0 255)))
        (.ResolvedIdentifier (.BuiltinIntegerType 6 1 (-128) 127)))
      (.ResolvedIdentifier (.BuiltinIntegerType 2 1 0 255)) rfl (by decide) fuel
    simp only [getTestAndBranchOperands]
    rw [stripSimpleCasts, if_pos (by decide)]
    simp only [sampleCast, Expression.variant] at hloop ⊢
    rw [hloop]

/-- C38 (failing input): for a `func` with the one parameter type `u8`, the call
without arguments reports the arity error and returns a call node, not null;
the call with the two arguments `1` and `2` reads the list of parameter types
at index 1, which it does not have. The same holds for the call of a
function-typed expression. The arity test has no `return`. -/
theorem reduceFuncCall_wrong_arity :
    reduceFuncCall ⟨2, 3⟩ false
        (.mk (.ResolvedIdentifier (.Func 8 "f" false none) [])
          ⟨.LinkTime, .Function false [.ResolvedIdentifier (.BuiltinIntegerType 2 1 0 255)] (.Tuple []),
            {}⟩)
        [.ResolvedIdentifier (.BuiltinIntegerType 2 1 0 255)] (.Tuple []) []
      = some (some (.mk
          (.Call false
            (.mk (.ResolvedIdentifier (.Func 8 "f" false none) [])
              ⟨.LinkTime,
                .Function false [.ResolvedIdentifier (.BuiltinIntegerType 2 1 0 255)] (.Tuple []), {}⟩)
            [])
          ⟨.RunTime, .Tuple [], {}⟩), [arityMessage])
    ∧ reduceFuncCall ⟨2, 3⟩ false
        (.mk (.ResolvedIdentifier (.Func 8 "f" false none) [])
          ⟨.LinkTime, .Function false [.ResolvedIdentifier (.BuiltinIntegerType 2 1 0 255)] (.Tuple []),
            {}⟩)
        [.ResolvedIdentifier (.BuiltinIntegerType 2 1 0 255)] (.Tuple [])
        [.mk (.IntegerLiteral 1) ⟨.CompileTime, .ResolvedIdentifier (.BuiltinIntegerExpressionType 0), {}⟩,
          .mk (.IntegerLiteral 2) ⟨.CompileTime, .ResolvedIdentifier (.BuiltinIntegerExpressionType 0), {}⟩]
      = none
    ∧ reduceFunctionExpressionCall ⟨2, 3⟩ false
        (.mk (.IntegerLiteral 0x8000)
          ⟨.CompileTime, .Function false [.ResolvedIdentifier (.BuiltinIntegerType 2 1 0 255)] (.Tuple []),
            {}⟩)
        []
      = some (some (.mk
          (.Call false
            (.mk (.IntegerLiteral 0x8000)
              ⟨.CompileTime,
                .Function false [.ResolvedIdentifier (.BuiltinIntegerType 2 1 0 255)] (.Tuple []), {}⟩)
            [])
          ⟨.RunTime, .Tuple [], {}⟩), [arityMessage]) := by
  exact ⟨rfl, rfl, rfl⟩

/-- C39 (failing input): for the tuple literal `(1, x)` whose second item the
reducer fails on (null, one error), the `TupleLiteral` case does not return
null: it reads the type of the null result, because the read of line 1538
comes before the test of line 1540. When every item is reduced, the case
returns the tuple literal with the item types in order. -/
theorem reduceTupleLiteral_reads_failed_item :
    reduceTupleLiteral
        (fun item =>
          match item.variant with
          | .Identifier _ => (none, ["could not resolve identifier"])
          | _ => (some item, []))
        [.mk (.IntegerLiteral 1) ⟨.CompileTime, .ResolvedIdentifier (.BuiltinIntegerExpressionType 0), {}⟩,
          .mk (.Identifier ["x"]) ⟨.CompileTime, .TypeOf, {}⟩]
      = none
    ∧ reduceTupleLiteral (fun item => (some item, []))
        [.mk (.IntegerLiteral 1) ⟨.CompileTime, .ResolvedIdentifier (.BuiltinIntegerExpressionType 0), {}⟩,
          .mk (.BooleanLiteral true) ⟨.CompileTime, .ResolvedIdentifier (.BuiltinBoolType 1), {}⟩]
      = some (some (.mk
          (.TupleLiteral
            [.mk (.IntegerLiteral 1)
                ⟨.CompileTime, .ResolvedIdentifier (.BuiltinIntegerExpressionType 0), {}⟩,
              .mk (.BooleanLiteral true) ⟨.CompileTime, .ResolvedIdentifier (.BuiltinBoolType 1), {}⟩])
          ⟨.CompileTime,
            .Tuple [.ResolvedIdentifier (.BuiltinIntegerExpressionType 0),
              .ResolvedIdentifier (.BuiltinBoolType 1)], {}⟩), []) :=
  ⟨rfl, rfl⟩

/-- C32 (failing input): the compile-time rotate `0x81 <<<< 1` with the left
operand of type `u8` is reduced to the integer literal 259 of type `u8`
(`0x81 << 1 | 0x81 >> 7` with no mask), above the maximum 255 of the type.
The cast `-1 as i8` and the bitwise negation `~0` of an `i8` literal are
reduced to the literal 255 of type `i8` (the value is masked to 8 bits and
not read as signed), above the maximum 127 of the type. The shifts of the
sample operations are those of `Int128` on values that stay below 128 bits. -/
theorem reduceExpression_literal_outside_sized_type :
    simplifyBinaryRotateExpression sampleOperations .LeftRotate
        (.mk (.IntegerLiteral 0x81) ⟨.CompileTime, .ResolvedIdentifier (.BuiltinIntegerType 2 1 0 255), {}⟩)
        (.mk (.IntegerLiteral 1) ⟨.CompileTime, .ResolvedIdentifier (.BuiltinIntegerExpressionType 0), {}⟩)
      = Reduced.ok (.mk (.IntegerLiteral 259)
          ⟨.CompileTime, .ResolvedIdentifier (.BuiltinIntegerType 2 1 0 255), {}⟩)
    ∧ outsideOwnType (.mk (.IntegerLiteral 259)
          ⟨.CompileTime, .ResolvedIdentifier (.BuiltinIntegerType 2 1 0 255), {}⟩) = true
    ∧ castIntegerLiteral (.ResolvedIdentifier (.BuiltinIntegerExpressionType 0))
        (.ResolvedIdentifier (.BuiltinIntegerType 6 1 (-128) 127)) (-1)
      = some (.mk (.IntegerLiteral 255)
          ⟨.CompileTime, .ResolvedIdentifier (.BuiltinIntegerType 6 1 (-128) 127), {}⟩)
    ∧ bitwiseNegationLiteral (.ResolvedIdentifier (.BuiltinIntegerType 6 1 (-128) 127)) 0
      = some (.mk (.IntegerLiteral 255)
          ⟨.CompileTime, .ResolvedIdentifier (.BuiltinIntegerType 6 1 (-128) 127), {}⟩)
    ∧ outsideOwnType (.mk (.IntegerLiteral 255)
          ⟨.CompileTime, .ResolvedIdentifier (.BuiltinIntegerType 6 1 (-128) 127), {}⟩) = true := by
  refine ⟨?_, by decide, ?_, ?_, by decide⟩
  · rfl
  · simp only [castIntegerLiteral, isIntegerType, tryGetResolvedIdentifierTypeDefinition,
      isTypeDefinition, if_true, Bool.true_or, land_mask _ 1 (by decide)]
    rfl
  · simp only [bitwiseNegationLiteral, tryGetResolvedIdentifierTypeDefinition, isTypeDefinition,
      if_true, land_mask _ 1 (by decide), Int128.lnot]
    rfl

end Wiz
